import Mathlib

/-!
# L2CAP link management (`system/stack/l2cap/l2c_link.cc`)

A shallow embedding of the link-management core of the L2CAP layer: the link
control block (LCB) table, the quota assignment of
`l2c_link_adjust_allocation`, the transmit scheduler
`l2c_link_check_send_pkts`, the credit accountant `l2c_packets_completed`
and the HCI connection / disconnection handlers.

Conventions of the embedding.

* The global `l2cb` is an explicit state of type `tL2C_CB`; every function
  takes the state and returns the new one.
* `uint16_t` fields are natural numbers; an increment, decrement or addition
  that can leave the 16-bit range is written with an explicit `% 65536`.
* A pointer to an LCB is its index in `lcb_pool` (`none` for `NULL`); a pointer
  to a CCB is the `slot` the CCB occupies in the channel pool.
* The pool has `MAX_L2CAP_LINKS` slots; that constant is declared outside this
  file, so the length of `lcb_pool` stands for it.  It is a small compile-time
  constant, hence the 16-bit link counters of the allocation never wrap.
* Calls that leave the core (HCI data sinks, channel state machine, callbacks
  of the layers above, ACL bookkeeping) are recorded: packets handed to the
  controller are appended to `hci_out`, every other outbound call to `calls`.
* A timer is a field of its owner: `none` when idle, `some t` when armed with
  the timeout `t`.
-/

namespace L2cLink

/-! ## Data model -/

/-- Transport of an ACL link.  An LCB is allocated for one of the two. -/
inductive tBT_TRANSPORT where
  | BT_TRANSPORT_BR_EDR
  | BT_TRANSPORT_LE
  deriving DecidableEq, Repr

/-- Link states (`tL2C_LINK_STATE`). -/
inductive tL2C_LINK_STATE where
  | LST_DISCONNECTED
  | LST_CONNECT_HOLDING
  | LST_CONNECTING_WAIT_SWITCH
  | LST_CONNECTING
  | LST_CONNECTED
  | LST_DISCONNECTING
  deriving DecidableEq, Repr

/-- ACL priority of a link (`L2CAP_PRIORITY_NORMAL`, `L2CAP_PRIORITY_HIGH`). -/
inductive tL2CAP_PRIORITY where
  | L2CAP_PRIORITY_NORMAL
  | L2CAP_PRIORITY_HIGH
  deriving DecidableEq, Repr

/-- Channel states the link layer looks at; the remaining states of the channel
state machine are collected in `CST_OTHER`. -/
inductive tL2C_CHNL_STATE where
  | CST_CLOSED
  | CST_ORIG_W4_SEC_COMP
  | CST_TERM_W4_SEC_COMP
  | CST_OPEN
  | CST_OTHER
  deriving DecidableEq, Repr

/-- Flow control and retransmission mode of a channel (`peer_cfg.fcr.mode`). -/
inductive tL2CAP_FCR_MODE where
  | L2CAP_FCR_BASIC_MODE
  | L2CAP_FCR_ERTM_MODE
  | L2CAP_FCR_STREAM_MODE
  deriving DecidableEq, Repr

/-- Timeouts a timer is armed with, kept symbolic. -/
inductive tL2C_TOUT where
  | L2CAP_LINK_STARTUP_TOUT
  | L2CAP_LINK_DISCONNECT_TIMEOUT_MS
  | L2CAP_LINK_FLOW_CONTROL_TIMEOUT_MS
  | L2CAP_LINK_CONNECT_EXT_TIMEOUT_MS
  | L2CAP_DELAY_CHECK_SM4_TIMEOUT_MS
  | L2CAP_WAIT_INFO_RSP_TIMEOUT_MS
  | BT_1SEC_TIMEOUT_MS
  | L2CAP_BONDING_TIMEOUT
  deriving DecidableEq, Repr

/-- Events sent to the channel state machine by the link layer. -/
inductive tL2C_EVT where
  | L2CEVT_LP_CONNECT_CFM
  | L2CEVT_LP_CONNECT_CFM_NEG
  | L2CEVT_LP_DISCONNECT_IND
  | L2CEVT_SEC_COMP
  | L2CEVT_SEC_COMP_NEG
  | L2CEVT_L2CAP_INFO_RSP
  deriving DecidableEq, Repr

/-- HCI status and reason codes the link layer tells apart (`tHCI_STATUS`,
`tHCI_REASON`); every other code is `HCI_ERR_OTHER`. -/
inductive tHCI_STATUS where
  | HCI_SUCCESS
  | HCI_ERR_CONNECTION_TOUT
  | HCI_ERR_MAX_NUM_OF_CONNECTIONS
  | HCI_ERR_CONNECTION_EXISTS
  | HCI_ERR_PEER_USER
  | HCI_ERR_UNDEFINED
  | HCI_ERR_OTHER (code : Nat)
  deriving DecidableEq, Repr

/-- A data buffer (`BT_HDR`): the header fields the scheduler writes and the
payload bytes that follow the header. -/
structure BT_HDR where
  event : Nat
  offset : Nat
  layer_specific : Nat
  data : List Nat
  deriving DecidableEq, Repr

/-- A channel control block, reduced to the fields the link layer reads or
writes.  `slot` is the position of the CCB in the channel pool and plays the
role of its address. -/
structure tL2C_CCB where
  slot : Nat
  local_cid : Nat
  chnl_state : tL2C_CHNL_STATE
  ccb_priority : Nat
  fcr_mode : tL2CAP_FCR_MODE
  wait_ack : Bool
  remote_busy : Bool
  retrans_q : List BT_HDR
  xmit_hold_q : List BT_HDR
  credits : Nat
  has_tx_complete_cb : Bool
  l2c_ccb_timer : Option tL2C_TOUT
  deriving DecidableEq, Repr

/-- Per priority group round-robin record (`tL2C_RR_SERV`). -/
structure tL2C_RR_SERV where
  p_first_ccb : Option Nat
  p_serve_ccb : Option Nat
  num_ccb : Nat
  quota : Nat
  deriving DecidableEq, Repr

/-- A link control block. -/
structure tL2C_LCB where
  in_use : Bool
  link_state : tL2C_LINK_STATE
  remote_bd_addr : Nat
  transport : tBT_TRANSPORT
  handle : Nat
  acl_priority : tL2CAP_PRIORITY
  is_bonding : Bool
  disconnect_reason : tHCI_STATUS
  link_xmit_quota : Nat
  sent_not_acked : Nat
  link_xmit_data_q : List BT_HDR
  ccb_queue : List tL2C_CCB
  p_fixed_ccbs : List (Option tL2C_CCB)
  p_pending_ccb : Option Nat
  rr_pri : Nat
  rr_serv : List tL2C_RR_SERV
  w4_info_rsp : Bool
  l2c_lcb_timer : Option tL2C_TOUT
  info_resp_timer : Option tL2C_TOUT
  deriving DecidableEq, Repr

/-- One packet handed to an HCI ACL data sink: `acl_send_data_packet_br_edr`
when `transport` is BR/EDR, `acl_send_data_packet_ble` when it is LE.  `lcb`
is the pool index of the sending link. -/
structure tHCI_PKT where
  transport : tBT_TRANSPORT
  lcb : Nat
  buf : BT_HDR
  deriving DecidableEq, Repr

/-- Outbound calls other than data packets.  `csm_execute` is a call of
`l2c_csm_execute` for the CCB at an address; `csm_execute_ci` is such a call
recorded together with the connection info (`tL2C_CONN_INFO`) it passes. -/
inductive tCALL where
  | csm_execute (ccb : Nat) (evt : tL2C_EVT)
  | create_conn_br_edr (lcb : Nat)
  | create_conn_le (lcb : Nat)
  | btm_acl_removed (handle : Nat)
  | btm_sco_acl_removed (bda : Nat)
  | btm_ble_decrement_link_topology_mask (lcb : Nat)
  | fixed_conn_cb (chnl : Nat) (bda : Nat) (connected : Bool) (reason : tHCI_STATUS)
  | iot_add_one_disc_count (bda : Nat)
  | iot_add_one_conntimeout_count (bda : Nat)
  | l2cu_tx_complete (cb : Option Nat) (local_cid : Nat) (num_sdu : Nat)
  | pL2CA_TxComplete_Cb (local_cid : Nat) (num_sdu : Nat)
  | btm_sec_disconnect (handle : Nat)
  | acl_disconnect_from_handle (handle : Nat)
  | csm_execute_ci (ccb : Nat) (evt : tL2C_EVT) (status : tHCI_STATUS) (bd_addr : Nat)
  deriving DecidableEq, Repr

/-- The global control block `l2cb`. -/
structure tL2C_CB where
  lcb_pool : List tL2C_LCB
  num_used_lcbs : Nat
  num_lm_acl_bufs : Nat
  num_lm_ble_bufs : Nat
  controller_xmit_window : Nat
  controller_le_xmit_window : Nat
  round_robin_quota : Nat
  round_robin_unacked : Nat
  ble_round_robin_quota : Nat
  ble_round_robin_unacked : Nat
  check_round_robin : Bool
  ble_check_round_robin : Bool
  is_cong_cback_context : Bool
  hci_out : List tHCI_PKT
  calls : List tCALL
  deriving DecidableEq, Repr

/-- `HCI_INVALID_HANDLE`, the sentinel an LCB carries while it has no
controller handle. -/
def HCI_INVALID_HANDLE : Nat := 0xFFFF

/-- Modelled from the spec: `L2CAP_HIGH_PRI_MIN_XMIT_QUOTA_A` is declared
outside this file; the quota redistribution scenario of the spec fixes the
initial high priority quota at 5. -/
def L2CAP_HIGH_PRI_MIN_XMIT_QUOTA_A : Nat := 5

/-! ## Quota assignment: `l2c_link_adjust_allocation` -/

/-- The test `p_lcb->in_use && (is_share_buffer || p_lcb->transport !=
BT_TRANSPORT_LE)` of both pool loops. -/
def adjust_eligible (is_share_buffer : Bool) (lcb : tL2C_LCB) : Bool :=
  lcb.in_use && (is_share_buffer || lcb.transport != tBT_TRANSPORT.BT_TRANSPORT_LE)

/-- First pool loop, `num_hipri_links`. -/
def count_hipri_links (is_share_buffer : Bool) : List tL2C_LCB → Nat
  | [] => 0
  | lcb :: rest =>
    if adjust_eligible is_share_buffer lcb then
      if lcb.acl_priority = tL2CAP_PRIORITY.L2CAP_PRIORITY_HIGH then
        count_hipri_links is_share_buffer rest + 1
      else count_hipri_links is_share_buffer rest
    else count_hipri_links is_share_buffer rest

/-- First pool loop, `num_lowpri_links`. -/
def count_lowpri_links (is_share_buffer : Bool) : List tL2C_LCB → Nat
  | [] => 0
  | lcb :: rest =>
    if adjust_eligible is_share_buffer lcb then
      if lcb.acl_priority = tL2CAP_PRIORITY.L2CAP_PRIORITY_HIGH then
        count_lowpri_links is_share_buffer rest
      else count_lowpri_links is_share_buffer rest + 1
    else count_lowpri_links is_share_buffer rest

/-- The loop `while ((num_hipri_links * high_pri_link_quota + low_quota) >
controller_xmit_quota) high_pri_link_quota--;`.  The test is evaluated in
`int`, the decrement is a 16-bit one.  One unit of fuel is spent per test of
the condition; `none` means the fuel ran out before the loop was left. -/
def lower_high_pri_quota (num_hipri_links low_quota controller_xmit_quota : Nat) :
    Nat → Nat → Option Nat
  | 0, _ => none
  | fuel + 1, high_pri_link_quota =>
    if num_hipri_links * high_pri_link_quota + low_quota > controller_xmit_quota then
      lower_high_pri_quota num_hipri_links low_quota controller_xmit_quota fuel
        ((high_pri_link_quota + 65535) % 65536)
    else some high_pri_link_quota

/-- Body of the second pool loop for one eligible LCB whose quota has been
written: the flow-control timer is armed when the link is connected, has
queued data and is below its quota. -/
def adjust_arm_timer (lcb : tL2C_LCB) : tL2C_LCB :=
  if lcb.link_state = tL2C_LINK_STATE.LST_CONNECTED ∧ lcb.link_xmit_data_q ≠ [] ∧
      lcb.sent_not_acked < lcb.link_xmit_quota then
    { lcb with l2c_lcb_timer := some tL2C_TOUT.L2CAP_LINK_FLOW_CONTROL_TIMEOUT_MS }
  else lcb

/-- Second pool loop ("Now, assign the quotas to each link").  The arguments
after the pool are the running `qq_remainder` and `l2cb.round_robin_unacked`;
the result is the new pool and the final `round_robin_unacked`. -/
def assign_quotas (is_share_buffer : Bool) (high_pri_link_quota qq : Nat) :
    List tL2C_LCB → Nat → Nat → List tL2C_LCB × Nat
  | [], _, rr_unacked => ([], rr_unacked)
  | lcb :: rest, qq_remainder, rr_unacked =>
    if adjust_eligible is_share_buffer lcb then
      if lcb.acl_priority = tL2CAP_PRIORITY.L2CAP_PRIORITY_HIGH then
        let r := assign_quotas is_share_buffer high_pri_link_quota qq rest qq_remainder rr_unacked
        (adjust_arm_timer { lcb with link_xmit_quota := high_pri_link_quota } :: r.1, r.2)
      else
        let rr_unacked1 :=
          if lcb.link_xmit_quota > 0 ∧ qq = 0 then (rr_unacked + lcb.sent_not_acked) % 65536
          else rr_unacked
        let quota := if qq_remainder > 0 then (qq + 1) % 65536 else qq
        let qq_remainder1 := if qq_remainder > 0 then qq_remainder - 1 else qq_remainder
        let r := assign_quotas is_share_buffer high_pri_link_quota qq rest qq_remainder1 rr_unacked1
        (adjust_arm_timer { lcb with link_xmit_quota := quota } :: r.1, r.2)
    else
      let r := assign_quotas is_share_buffer high_pri_link_quota qq rest qq_remainder rr_unacked
      (lcb :: r.1, r.2)

/-- The value `low_quota` takes at "Work out the xmit quota and buffer quota
high and low priorities". -/
def adjust_low_quota (hi_quota controller_xmit_quota : Nat) : Nat :=
  if hi_quota < controller_xmit_quota then controller_xmit_quota - hi_quota else 1

/-- The local `is_share_buffer` of `l2c_link_adjust_allocation`; `shared` is
the constant `L2C_DEF_NUM_BLE_BUF_SHARED`, declared outside this file. -/
def adjust_is_share_buffer (shared : Nat) (s : tL2C_CB) : Bool :=
  s.num_lm_ble_bufs = shared

/-- The function `l2c_link_adjust_allocation`.  `shared` is the constant
`L2C_DEF_NUM_BLE_BUF_SHARED`.  `fuel` bounds the number of tests of the quota
loop; the result is `none` when the loop is not left within the fuel. -/
def l2c_link_adjust_allocation (shared fuel : Nat) (s : tL2C_CB) : Option tL2C_CB :=
  let controller_xmit_quota := s.num_lm_acl_bufs
  let is_share_buffer : Bool := adjust_is_share_buffer shared s
  if s.num_used_lcbs = 0 then
    some { s with controller_xmit_window := s.num_lm_acl_bufs,
                  round_robin_quota := 0, round_robin_unacked := 0 }
  else
    let num_hipri_links := count_hipri_links is_share_buffer s.lcb_pool
    let num_lowpri_links := count_lowpri_links is_share_buffer s.lcb_pool
    let low_quota0 := if num_lowpri_links ≠ 0 then 1 else 0
    match lower_high_pri_quota num_hipri_links low_quota0 controller_xmit_quota fuel
        L2CAP_HIGH_PRI_MIN_XMIT_QUOTA_A with
    | none => none
    | some high_pri_link_quota =>
      let hi_quota := (num_hipri_links * high_pri_link_quota) % 65536
      let low_quota := adjust_low_quota hi_quota controller_xmit_quota
      if num_lowpri_links > low_quota then
        let r := assign_quotas is_share_buffer high_pri_link_quota 1 s.lcb_pool 1
          s.round_robin_unacked
        some { s with round_robin_quota := low_quota, round_robin_unacked := r.2,
                      lcb_pool := r.1 }
      else if num_lowpri_links > 0 then
        let r := assign_quotas is_share_buffer high_pri_link_quota
          (low_quota / num_lowpri_links) s.lcb_pool (low_quota % num_lowpri_links) 0
        some { s with round_robin_quota := 0, round_robin_unacked := r.2, lcb_pool := r.1 }
      else
        let r := assign_quotas is_share_buffer high_pri_link_quota 1 s.lcb_pool 1 0
        some { s with round_robin_quota := 0, round_robin_unacked := r.2, lcb_pool := r.1 }

/-- The function `l2c_link_init`. -/
def l2c_link_init (s : tL2C_CB) (acl_buffer_count_classic : Nat) : tL2C_CB :=
  { s with num_lm_acl_bufs := acl_buffer_count_classic,
           controller_xmit_window := acl_buffer_count_classic }

/-! ## Collaborators outside this file -/

/-- Results of the security manager the link layer tells apart
(`tBTM_STATUS`); every other result is `BTM_OTHER`. -/
inductive tBTM_STATUS where
  | BTM_SUCCESS
  | BTM_CMD_STARTED
  | BTM_BUSY
  | BTM_CMD_STORED
  | BTM_DELAY_CHECK
  | BTM_SUCCESS_NO_SECURITY
  | BTM_OTHER (code : Nat)
  deriving DecidableEq, Repr

/-- Power modes reported by `BTM_ReadPowerMode`. -/
inductive tBTM_PM_MODE where
  | BTM_PM_STS_ACTIVE
  | BTM_PM_STS_HOLD
  | BTM_PM_STS_SNIFF
  | BTM_PM_STS_PARK
  | BTM_PM_STS_SSR
  | BTM_PM_STS_PENDING
  deriving DecidableEq, Repr

/-- Constants, macros and functions this file uses and does not define.  They
are parameters of the embedding.

* `BTM_ReadPowerMode bda` is `none` when the call returns `false`, else the
  mode it stores.
* The two segmenters return the buffer (or `NULL`) and the channel as they
  leave it.
* `l2c_csm_execute evt ccb` is the channel state machine: `none` when the CCB
  removed itself from its link, else the CCB afterwards.
* `btm_sec_disconnect handle` is the result of the security manager's
  disconnect request for the handle. -/
structure tEXT where
  L2C_DEF_NUM_BLE_BUF_SHARED : Nat
  L2CAP_NUM_CHNL_PRIORITY : Nat
  L2CAP_FIRST_FIXED_CHNL : Nat
  L2CAP_GET_PRIORITY_QUOTA : Nat → Nat
  BTM_ReadPowerMode : Nat → Option tBTM_PM_MODE
  l2c_fcr_is_flow_controlled : tL2C_CCB → Bool
  l2c_fcr_get_next_xmit_sdu_seg : tL2C_CCB → Option BT_HDR × tL2C_CCB
  l2c_lcc_get_next_xmit_sdu_seg : tL2C_CCB → Option BT_HDR × tL2C_CCB
  l2cu_set_acl_hci_header : BT_HDR → tL2C_CCB → BT_HDR
  l2c_csm_execute : tL2C_EVT → tL2C_CCB → Option tL2C_CCB
  l2cu_start_post_bond_timer : Nat → Bool
  l2cu_create_conn_le : tL2C_LCB → Bool
  btm_sec_disconnect : Nat → tBTM_STATUS

/-! ## Channel selection: `l2cu_get_next_channel_in_rr` -/

/-- Dereference of a CCB pointer within the channel queue of a link: the
position and the CCB with that address. -/
def find_ccb (q : List tL2C_CCB) (p : Nat) : Option (Nat × tL2C_CCB) :=
  match q.findIdx? (fun c => c.slot == p) with
  | none => none
  | some i =>
    match q[i]? with
    | none => none
    | some c => some (i, c)

/-- Write a CCB back at its address. -/
def store_ccb (q : List tL2C_CCB) (p : Nat) (ccb : tL2C_CCB) : List tL2C_CCB :=
  q.map (fun c => if c.slot = p then ccb else c)

/-- The checks between "store the next serving channel" and "found a channel
to serve": `true` when no `continue` is taken. -/
def rr_channel_ready (x : tEXT) (transport : tBT_TRANSPORT) (p_ccb : tL2C_CCB) : Bool :=
  if p_ccb.chnl_state ≠ tL2C_CHNL_STATE.CST_OPEN then false
  else if transport = tBT_TRANSPORT.BT_TRANSPORT_LE then
    !p_ccb.xmit_hold_q.isEmpty
  else if p_ccb.fcr_mode ≠ tL2CAP_FCR_MODE.L2CAP_FCR_BASIC_MODE then
    if p_ccb.wait_ack || p_ccb.remote_busy then false
    else if p_ccb.retrans_q.isEmpty then
      if p_ccb.xmit_hold_q.isEmpty then false
      else if p_ccb.fcr_mode = tL2CAP_FCR_MODE.L2CAP_FCR_ERTM_MODE ∧
          x.l2c_fcr_is_flow_controlled p_ccb then false
      else true
    else true
  else !p_ccb.xmit_hold_q.isEmpty

/-- Result of the inner loop of `l2cu_get_next_channel_in_rr`: the link, the
channel found (its address) and whether the function returned `NULL` from
inside the loop because the group cursor was `NULL`. -/
structure tRR_SCAN where
  lcb : tL2C_LCB
  p_serve_ccb : Option Nat
  returned : Bool

/-- Inner loop of `l2cu_get_next_channel_in_rr` over the group `rr_pri`; the
first argument is the number of iterations left (`num_ccb - j`).  A cursor that
addresses no CCB of the queue is treated like a `NULL` cursor. -/
def rr_scan_group (x : tEXT) : Nat → tL2C_LCB → tRR_SCAN
  | 0, p_lcb => { lcb := p_lcb, p_serve_ccb := none, returned := false }
  | n + 1, p_lcb =>
    let serv := p_lcb.rr_serv.getD p_lcb.rr_pri ⟨none, none, 0, 0⟩
    match serv.p_serve_ccb.bind (find_ccb p_lcb.ccb_queue) with
    | none => { lcb := p_lcb, p_serve_ccb := none, returned := true }
    | some (i, p_ccb) =>
      let next : Option Nat :=
        match p_lcb.ccb_queue[i + 1]? with
        | none => serv.p_first_ccb
        | some nx => if nx.ccb_priority ≠ p_ccb.ccb_priority then serv.p_first_ccb
                     else some nx.slot
      let lcb1 : tL2C_LCB :=
        { p_lcb with rr_serv := p_lcb.rr_serv.set p_lcb.rr_pri { serv with p_serve_ccb := next } }
      if rr_channel_ready x p_lcb.transport p_ccb then
        let serv2 : tL2C_RR_SERV :=
          { serv with p_serve_ccb := next, quota := (serv.quota + 65535) % 65536 }
        let lcb2 : tL2C_LCB := { lcb1 with rr_serv := lcb1.rr_serv.set lcb1.rr_pri serv2 }
        { lcb := lcb2, p_serve_ccb := some p_ccb.slot, returned := false }
      else rr_scan_group x n lcb1

/-- Outer loop of `l2cu_get_next_channel_in_rr`; the first argument is the
number of priority groups left to scan. -/
def rr_scan (x : tEXT) : Nat → tL2C_LCB → tL2C_LCB × Option Nat
  | 0, p_lcb => (p_lcb, none)
  | n + 1, p_lcb =>
    let r := rr_scan_group x (p_lcb.rr_serv.getD p_lcb.rr_pri ⟨none, none, 0, 0⟩).num_ccb p_lcb
    if r.returned then (r.lcb, none)
    else
      let lcb1 := r.lcb
      let lcb2 : tL2C_LCB :=
        if (lcb1.rr_serv.getD lcb1.rr_pri ⟨none, none, 0, 0⟩).quota = 0 ∨ r.p_serve_ccb = none then
          let pri := (lcb1.rr_pri + 1) % x.L2CAP_NUM_CHNL_PRIORITY
          let serv := lcb1.rr_serv.getD pri ⟨none, none, 0, 0⟩
          { lcb1 with rr_pri := pri,
                      rr_serv := lcb1.rr_serv.set pri
                        { serv with quota := x.L2CAP_GET_PRIORITY_QUOTA pri } }
        else lcb1
      match r.p_serve_ccb with
      | some p => (lcb2, some p)
      | none => rr_scan x n lcb2

/-- The function `l2cu_get_next_channel_in_rr`: the link afterwards and the
channel to serve. -/
def l2cu_get_next_channel_in_rr (x : tEXT) (p_lcb : tL2C_LCB) : tL2C_LCB × Option Nat :=
  rr_scan x x.L2CAP_NUM_CHNL_PRIORITY p_lcb

/-! ## Buffer selection: `l2cu_get_next_buffer_to_send` -/

/-- The record `tL2C_TX_COMPLETE_CB_INFO`; `cb` is the fixed channel whose
registered `pL2CA_FixedTxComplete_Cb` was stored, `none` for `NULL`. -/
structure tL2C_TX_COMPLETE_CB_INFO where
  cb : Option Nat
  local_cid : Nat
  num_sdu : Nat
  deriving DecidableEq, Repr

/-- Result of the loop over the fixed channels: the fixed channels afterwards,
whether the function returned from inside the loop, and what it returned. -/
structure tFIXED_SCAN where
  p_fixed_ccbs : List (Option tL2C_CCB)
  returned : Bool
  p_buf : Option BT_HDR
  cbi : tL2C_TX_COMPLETE_CB_INFO

/-- The loop "Highest priority are fixed channels" of
`l2cu_get_next_buffer_to_send`; the first argument is the index `xx` of the
head of the list.  `l2cu_check_channel_congestion` only calls back into the
layers above and has no effect on the state modelled here. -/
def scan_fixed_channels (x : tEXT) : Nat → List (Option tL2C_CCB) → tFIXED_SCAN
  | _, [] => { p_fixed_ccbs := [], returned := false, p_buf := none, cbi := ⟨none, 0, 0⟩ }
  | xx, none :: rest =>
    let r := scan_fixed_channels x (xx + 1) rest
    { r with p_fixed_ccbs := none :: r.p_fixed_ccbs }
  | xx, some p_ccb :: rest =>
    if p_ccb.fcr_mode ≠ tL2CAP_FCR_MODE.L2CAP_FCR_BASIC_MODE then
      if p_ccb.wait_ack || p_ccb.remote_busy then
        let r := scan_fixed_channels x (xx + 1) rest
        { r with p_fixed_ccbs := some p_ccb :: r.p_fixed_ccbs }
      else if p_ccb.retrans_q.isEmpty &&
          (p_ccb.xmit_hold_q.isEmpty ||
            (p_ccb.fcr_mode == tL2CAP_FCR_MODE.L2CAP_FCR_ERTM_MODE &&
              x.l2c_fcr_is_flow_controlled p_ccb)) then
        let r := scan_fixed_channels x (xx + 1) rest
        { r with p_fixed_ccbs := some p_ccb :: r.p_fixed_ccbs }
      else
        let seg := x.l2c_fcr_get_next_xmit_sdu_seg p_ccb
        match seg.1 with
        | some p_buf =>
          { p_fixed_ccbs := some seg.2 :: rest, returned := true,
            p_buf := some (x.l2cu_set_acl_hci_header p_buf seg.2), cbi := ⟨none, 0, 0⟩ }
        | none =>
          let r := scan_fixed_channels x (xx + 1) rest
          { r with p_fixed_ccbs := some seg.2 :: r.p_fixed_ccbs }
    else
      match p_ccb.xmit_hold_q with
      | p_buf :: q =>
        let ccb1 : tL2C_CCB := { p_ccb with xmit_hold_q := q }
        { p_fixed_ccbs := some ccb1 :: rest, returned := true,
          p_buf := some (x.l2cu_set_acl_hci_header p_buf ccb1),
          cbi := ⟨some xx, p_ccb.local_cid, 1⟩ }
      | [] =>
        let r := scan_fixed_channels x (xx + 1) rest
        { r with p_fixed_ccbs := some p_ccb :: r.p_fixed_ccbs }

/-- Result of `l2cu_get_next_buffer_to_send`: the link afterwards, the buffer
returned, the callback record filled in, and the callbacks invoked on the
way. -/
structure tNEXT_BUF where
  lcb : tL2C_LCB
  p_buf : Option BT_HDR
  cbi : tL2C_TX_COMPLETE_CB_INFO
  calls : List tCALL

/-- The part of `l2cu_get_next_buffer_to_send` after the channel `p_ccb` (at
address `p`) has been selected by the round robin. -/
def next_buffer_of_channel (x : tEXT) (p_lcb : tL2C_LCB) (p_ccb : tL2C_CCB) : tNEXT_BUF :=
  let finish (ccb1 : tL2C_CCB) (p_buf : BT_HDR) : tNEXT_BUF :=
    { lcb := { p_lcb with ccb_queue := store_ccb p_lcb.ccb_queue p_ccb.slot ccb1 },
      p_buf := some (x.l2cu_set_acl_hci_header p_buf ccb1),
      cbi := ⟨none, 0, 0⟩,
      calls :=
        if ccb1.has_tx_complete_cb ∧ ccb1.fcr_mode ≠ tL2CAP_FCR_MODE.L2CAP_FCR_ERTM_MODE then
          [tCALL.pL2CA_TxComplete_Cb ccb1.local_cid 1]
        else [] }
  let stop (ccb1 : tL2C_CCB) : tNEXT_BUF :=
    { lcb := { p_lcb with ccb_queue := store_ccb p_lcb.ccb_queue p_ccb.slot ccb1 },
      p_buf := none, cbi := ⟨none, 0, 0⟩, calls := [] }
  if p_lcb.transport = tBT_TRANSPORT.BT_TRANSPORT_LE then
    if p_ccb.credits = 0 then stop p_ccb
    else
      let seg := x.l2c_lcc_get_next_xmit_sdu_seg p_ccb
      let ccb1 : tL2C_CCB := { seg.2 with credits := (seg.2.credits + 65535) % 65536 }
      match seg.1 with
      | some p_buf => finish ccb1 p_buf
      | none => stop ccb1
  else if p_ccb.fcr_mode ≠ tL2CAP_FCR_MODE.L2CAP_FCR_BASIC_MODE then
    let seg := x.l2c_fcr_get_next_xmit_sdu_seg p_ccb
    match seg.1 with
    | some p_buf => finish seg.2 p_buf
    | none => stop seg.2
  else
    match p_ccb.xmit_hold_q with
    | p_buf :: q => finish { p_ccb with xmit_hold_q := q } p_buf
    | [] => stop p_ccb

/-- The function `l2cu_get_next_buffer_to_send`. -/
def l2cu_get_next_buffer_to_send (x : tEXT) (p_lcb : tL2C_LCB) : tNEXT_BUF :=
  let f := scan_fixed_channels x 0 p_lcb.p_fixed_ccbs
  let lcb1 : tL2C_LCB := { p_lcb with p_fixed_ccbs := f.p_fixed_ccbs }
  if f.returned then { lcb := lcb1, p_buf := f.p_buf, cbi := f.cbi, calls := [] }
  else
    let r := l2cu_get_next_channel_in_rr x lcb1
    match r.2.bind (fun p => find_ccb r.1.ccb_queue p) with
    | none => { lcb := r.1, p_buf := none, cbi := ⟨none, 0, 0⟩, calls := [] }
    | some (_, p_ccb) => next_buffer_of_channel x r.1 p_ccb

/-! ## Transmit scheduler -/

/-- The function `l2c_link_check_power_mode`. -/
def l2c_link_check_power_mode (x : tEXT) (p_lcb : tL2C_LCB) : Bool :=
  if p_lcb.transport = tBT_TRANSPORT.BT_TRANSPORT_LE then false
  else
    let need_to_active : Bool :=
      if p_lcb.link_xmit_data_q.isEmpty then
        p_lcb.ccb_queue.any (fun p_ccb => !p_ccb.xmit_hold_q.isEmpty)
      else true
    need_to_active &&
      (x.BTM_ReadPowerMode p_lcb.remote_bd_addr == some tBTM_PM_MODE.BTM_PM_STS_PENDING)

/-- Store an LCB at slot `k` of the pool. -/
def set_lcb (s : tL2C_CB) (k : Nat) (lcb : tL2C_LCB) : tL2C_CB :=
  { s with lcb_pool := s.lcb_pool.set k lcb }

/-- The function `l2c_link_send_to_lower_br_edr` on the LCB at slot `k`. -/
def l2c_link_send_to_lower_br_edr (s : tL2C_CB) (k : Nat) (p_buf : BT_HDR) : tL2C_CB :=
  match s.lcb_pool[k]? with
  | none => s
  | some p_lcb =>
    { s with
      round_robin_unacked :=
        if p_lcb.link_xmit_quota = 0 then (s.round_robin_unacked + 1) % 65536
        else s.round_robin_unacked,
      lcb_pool := s.lcb_pool.set k
        { p_lcb with sent_not_acked := (p_lcb.sent_not_acked + 1) % 65536 },
      controller_xmit_window := (s.controller_xmit_window + 65535) % 65536,
      hci_out := s.hci_out ++
        [⟨tBT_TRANSPORT.BT_TRANSPORT_BR_EDR, k, { p_buf with layer_specific := 0 }⟩] }

/-- The function `l2c_link_send_to_lower_ble` on the LCB at slot `k`. -/
def l2c_link_send_to_lower_ble (s : tL2C_CB) (k : Nat) (p_buf : BT_HDR) : tL2C_CB :=
  match s.lcb_pool[k]? with
  | none => s
  | some p_lcb =>
    { s with
      ble_round_robin_unacked :=
        if p_lcb.link_xmit_quota = 0 then (s.ble_round_robin_unacked + 1) % 65536
        else s.ble_round_robin_unacked,
      lcb_pool := s.lcb_pool.set k
        { p_lcb with sent_not_acked := (p_lcb.sent_not_acked + 1) % 65536 },
      controller_le_xmit_window := (s.controller_le_xmit_window + 65535) % 65536,
      hci_out := s.hci_out ++
        [⟨tBT_TRANSPORT.BT_TRANSPORT_LE, k, { p_buf with layer_specific := 0 }⟩] }

/-- The function `l2c_link_send_to_lower` on the LCB at slot `k`. -/
def l2c_link_send_to_lower (s : tL2C_CB) (k : Nat) (p_buf : BT_HDR)
    (p_cbi : Option tL2C_TX_COMPLETE_CB_INFO) : tL2C_CB :=
  match s.lcb_pool[k]? with
  | none => s
  | some p_lcb =>
    let s1 :=
      if p_lcb.transport = tBT_TRANSPORT.BT_TRANSPORT_BR_EDR then
        l2c_link_send_to_lower_br_edr s k p_buf
      else l2c_link_send_to_lower_ble s k p_buf
    match p_cbi with
    | none => s1
    | some cbi =>
      { s1 with calls := s1.calls ++ [tCALL.l2cu_tx_complete cbi.cb cbi.local_cid cbi.num_sdu] }

/-- The first test of the round-robin sweep, "If controller window is full,
nothing to do". -/
def rr_window_full (s : tL2C_CB) (p_lcb : tL2C_LCB) : Bool :=
  ((s.controller_xmit_window == 0 || decide (s.round_robin_unacked ≥ s.round_robin_quota)) &&
      p_lcb.transport == tBT_TRANSPORT.BT_TRANSPORT_BR_EDR) ||
    (p_lcb.transport == tBT_TRANSPORT.BT_TRANSPORT_LE &&
      (decide (s.ble_round_robin_unacked ≥ s.ble_round_robin_quota) ||
        s.controller_le_xmit_window == 0))

/-- The second test of the round-robin sweep: the LCB is not a round-robin
participant, or its power mode is pending. -/
def rr_not_served (x : tEXT) (p_lcb : tL2C_LCB) : Bool :=
  !p_lcb.in_use || p_lcb.link_state != tL2C_LINK_STATE.LST_CONNECTED ||
    p_lcb.link_xmit_quota != 0 || l2c_link_check_power_mode x p_lcb

/-- The loop `for (int xx = 0; xx < MAX_L2CAP_LINKS; xx++, p_lcb++)` of the
round-robin path.  The first argument is the number of iterations left, the
last one the pool index `p_lcb` points at on entry of the iteration (it is the
pool length when the pointer is one past the pool).  The result is the state
and the pointer on leaving the loop. -/
def rr_sweep (x : tEXT) (single_write : Bool) : Nat → tL2C_CB → Nat → tL2C_CB × Nat
  | 0, s, k => (s, k)
  | n + 1, s, k0 =>
    let k := if k0 = s.lcb_pool.length then 0 else k0
    match s.lcb_pool[k]? with
    | none => (s, k)
    | some p_lcb =>
      if rr_window_full s p_lcb then rr_sweep x single_write n s (k + 1)
      else if rr_not_served x p_lcb then rr_sweep x single_write n s (k + 1)
      else
        match p_lcb.link_xmit_data_q with
        | p_buf :: rest =>
          rr_sweep x single_write n
            (l2c_link_send_to_lower (set_lcb s k { p_lcb with link_xmit_data_q := rest })
              k p_buf none) (k + 1)
        | [] =>
          if single_write then (s, k)
          else
            let r := l2cu_get_next_buffer_to_send x p_lcb
            let s1 := { set_lcb s k r.lcb with calls := s.calls ++ r.calls }
            match r.p_buf with
            | some p_buf =>
              rr_sweep x single_write n (l2c_link_send_to_lower s1 k p_buf (some r.cbi)) (k + 1)
            | none => rr_sweep x single_write n s1 (k + 1)

/-- The condition of both `while` loops of the direct path. -/
def direct_window_open (s : tL2C_CB) (p_lcb : tL2C_LCB) : Bool :=
  ((s.controller_xmit_window != 0 &&
        p_lcb.transport == tBT_TRANSPORT.BT_TRANSPORT_BR_EDR) ||
      (s.controller_le_xmit_window != 0 &&
        p_lcb.transport == tBT_TRANSPORT.BT_TRANSPORT_LE)) &&
    decide (p_lcb.sent_not_acked < p_lcb.link_xmit_quota)

/-- First `while` loop of the direct path, "See if we can send anything from
the link queue".  The first argument bounds the number of iterations; every
iteration removes one buffer from the link queue, so the length of the queue
is enough. -/
def direct_send_link_q : Nat → tL2C_CB → Nat → tL2C_CB
  | 0, s, _ => s
  | n + 1, s, k =>
    match s.lcb_pool[k]? with
    | none => s
    | some p_lcb =>
      if direct_window_open s p_lcb then
        match p_lcb.link_xmit_data_q with
        | [] => s
        | p_buf :: rest =>
          direct_send_link_q n
            (l2c_link_send_to_lower (set_lcb s k { p_lcb with link_xmit_data_q := rest })
              k p_buf none) k
      else s

/-- Second `while` loop of the direct path, "See if we can send anything for
any channel".  The first argument bounds the number of iterations; every
iteration raises `sent_not_acked`, which the loop condition keeps below
`link_xmit_quota`, so their difference is enough. -/
def direct_send_channels (x : tEXT) : Nat → tL2C_CB → Nat → tL2C_CB
  | 0, s, _ => s
  | n + 1, s, k =>
    match s.lcb_pool[k]? with
    | none => s
    | some p_lcb =>
      if direct_window_open s p_lcb then
        let r := l2cu_get_next_buffer_to_send x p_lcb
        let s1 := { set_lcb s k r.lcb with calls := s.calls ++ r.calls }
        match r.p_buf with
        | none => s1
        | some p_buf =>
          direct_send_channels x n (l2c_link_send_to_lower s1 k p_buf (some r.cbi)) k
      else s

/-- The head of `l2c_link_check_send_pkts`: a buffer passed in is tagged and
appended to the link queue, and the round-robin flag of the transport is set
when the link has no quota of its own.  A buffer is only ever passed together
with its LCB. -/
def check_send_enqueue (s : tL2C_CB) (p_lcb : Option Nat) (local_cid : Nat)
    (p_buf : Option BT_HDR) : tL2C_CB :=
  match p_buf, p_lcb with
  | some buf, some k =>
    match s.lcb_pool[k]? with
    | none => s
    | some lcb =>
      let s1 := set_lcb s k
        { lcb with link_xmit_data_q :=
            lcb.link_xmit_data_q ++ [{ buf with event := local_cid, layer_specific := 0 }] }
      if lcb.link_xmit_quota = 0 then
        if lcb.transport = tBT_TRANSPORT.BT_TRANSPORT_LE then
          { s1 with ble_check_round_robin := true }
        else { s1 with check_round_robin := true }
      else s1
  | _, _ => s

/-- The two statements after the round-robin sweep, which clear the
round-robin flags; `k` is where `p_lcb` points after the loop.  When the
pointer is one past the pool the transport read there belongs to no LCB and is
taken to match neither comparison. -/
def rr_clear_flags (s : tL2C_CB) (k : Nat) : tL2C_CB :=
  let transport := (s.lcb_pool[k]?).map (fun lcb => lcb.transport)
  let s1 :=
    if s.controller_xmit_window > 0 ∧ s.round_robin_unacked < s.round_robin_quota ∧
        transport = some tBT_TRANSPORT.BT_TRANSPORT_BR_EDR then
      { s with check_round_robin := false }
    else s
  if s1.controller_le_xmit_window > 0 ∧
      s1.ble_round_robin_unacked < s1.ble_round_robin_quota ∧
      transport = some tBT_TRANSPORT.BT_TRANSPORT_LE then
    { s1 with ble_check_round_robin := false }
  else s1

/-- The direct path of `l2c_link_check_send_pkts` for the LCB at slot `k`. -/
def check_send_direct (x : tEXT) (single_write : Bool) (s : tL2C_CB) (k : Nat) : tL2C_CB :=
  match s.lcb_pool[k]? with
  | none => s
  | some p_lcb =>
    if p_lcb.link_state ≠ tL2C_LINK_STATE.LST_CONNECTED ∨ l2c_link_check_power_mode x p_lcb then s
    else
      let s1 := direct_send_link_q p_lcb.link_xmit_data_q.length s k
      let s2 :=
        if single_write then s1
        else
          match s1.lcb_pool[k]? with
          | none => s1
          | some lcb1 =>
            direct_send_channels x (lcb1.link_xmit_quota - lcb1.sent_not_acked) s1 k
      match s2.lcb_pool[k]? with
      | none => s2
      | some lcb2 =>
        if lcb2.link_xmit_data_q ≠ [] ∧ lcb2.sent_not_acked < lcb2.link_xmit_quota then
          set_lcb s2 k
            { lcb2 with l2c_lcb_timer := some tL2C_TOUT.L2CAP_LINK_FLOW_CONTROL_TIMEOUT_MS }
        else s2

/-- The function `l2c_link_check_send_pkts`.  `p_lcb` is the pool index of the
LCB, `none` for `NULL`; `p_buf` is `none` for a pure poke. -/
def l2c_link_check_send_pkts (x : tEXT) (s : tL2C_CB) (p_lcb : Option Nat) (local_cid : Nat)
    (p_buf : Option BT_HDR) : tL2C_CB :=
  let single_write : Bool := p_buf.isSome && local_cid != 0
  let s1 := check_send_enqueue s p_lcb local_cid p_buf
  if s1.is_cong_cback_context then s1
  else
    match p_lcb with
    | none =>
      let r := rr_sweep x single_write s1.lcb_pool.length s1 0
      rr_clear_flags r.1 r.2
    | some k =>
      match s1.lcb_pool[k]? with
      | none => s1
      | some lcb =>
        if lcb.link_xmit_quota = 0 then
          let r := rr_sweep x single_write s1.lcb_pool.length s1
            (if single_write then k else k + 1)
          rr_clear_flags r.1 r.2
        else check_send_direct x single_write s1 k

/-! ## Credits: `l2c_packets_completed` -/

/-- Modelled from the spec: `l2cu_find_lcb_by_handle` is not part of this
file; `find_by_handle(h)` is the pool slot of the LCB in use that carries the
handle. -/
def l2cu_find_lcb_by_handle (s : tL2C_CB) (handle : Nat) : Option Nat :=
  s.lcb_pool.findIdx? (fun lcb => lcb.in_use && lcb.handle == handle)

/-- Modelled from the spec: `update_outstanding_packets` is not part of this
file; it reduces `sent_not_acked` by the number of packets acknowledged (a
count, so not below zero). -/
def update_outstanding_packets (lcb : tL2C_LCB) (packets_acked : Nat) : tL2C_LCB :=
  { lcb with sent_not_acked := lcb.sent_not_acked - packets_acked }

/-- Modelled from the spec: `is_round_robin_scheduling` is not part of this
file; a link with `link_xmit_quota = 0` is a round-robin pool member. -/
def is_round_robin_scheduling (lcb : tL2C_LCB) : Bool :=
  lcb.link_xmit_quota == 0

/-- The counters of `l2c_packets_completed` before the scheduler is poked:
`sent_not_acked` of the LCB at slot `k` (which holds `lcb0`), the window of its
transport and, for a round-robin member, the round-robin counter of the
transport.  The helpers `update_outstanding_classic_packets` and
`update_outstanding_le_packets` reduce the round-robin counter of the transport
by `num_sent` (not below zero). -/
def credit_packets (s : tL2C_CB) (k : Nat) (lcb0 : tL2C_LCB) (num_sent : Nat) : tL2C_CB :=
  let p_lcb := update_outstanding_packets lcb0 num_sent
  let s1 := set_lcb s k p_lcb
  match p_lcb.transport with
  | tBT_TRANSPORT.BT_TRANSPORT_BR_EDR =>
    { s1 with
      controller_xmit_window := (s1.controller_xmit_window + num_sent) % 65536,
      round_robin_unacked :=
        if is_round_robin_scheduling p_lcb then s1.round_robin_unacked - num_sent
        else s1.round_robin_unacked }
  | tBT_TRANSPORT.BT_TRANSPORT_LE =>
    { s1 with
      controller_le_xmit_window := (s1.controller_le_xmit_window + num_sent) % 65536,
      ble_round_robin_unacked :=
        if is_round_robin_scheduling p_lcb then s1.ble_round_robin_unacked - num_sent
        else s1.ble_round_robin_unacked }

/-- The function `l2c_packets_completed`.  The helpers
`is_classic_round_robin_quota_available` and
`is_ble_round_robin_quota_available` compare the round-robin counter of the
transport with its round-robin quota. -/
def l2c_packets_completed (x : tEXT) (s : tL2C_CB) (handle num_sent : Nat) : tL2C_CB :=
  match l2cu_find_lcb_by_handle s handle with
  | none => s
  | some k =>
    match s.lcb_pool[k]? with
    | none => s
    | some lcb0 =>
      let s3 := l2c_link_check_send_pkts x (credit_packets s k lcb0 num_sent) (some k) 0 none
      if lcb0.acl_priority = tL2CAP_PRIORITY.L2CAP_PRIORITY_HIGH then
        match lcb0.transport with
        | tBT_TRANSPORT.BT_TRANSPORT_LE =>
          if s3.ble_check_round_robin ∧ s3.ble_round_robin_unacked < s3.ble_round_robin_quota then
            l2c_link_check_send_pkts x s3 none 0 none
          else s3
        | tBT_TRANSPORT.BT_TRANSPORT_BR_EDR =>
          if s3.check_round_robin ∧ s3.round_robin_unacked < s3.round_robin_quota then
            l2c_link_check_send_pkts x s3 none 0 none
          else s3
      else s3

/-! ## Segment feedback: `l2c_link_segments_xmitted` -/

/-- The handle of a transmitted segment: `STREAM_TO_UINT16` reads the 16-bit
little-endian word at `offset` of the payload, `HCID_GET_HANDLE` keeps its low
12 bits. -/
def segment_handle (p_msg : BT_HDR) : Nat :=
  (p_msg.data.getD p_msg.offset 0 % 256 + 256 * (p_msg.data.getD (p_msg.offset + 1) 0 % 256))
    % 4096

/-- The function `l2c_link_segments_xmitted`.  A segment for an unknown or
unconnected handle is freed and the state is left as it is. -/
def l2c_link_segments_xmitted (x : tEXT) (s : tL2C_CB) (p_msg : BT_HDR) : tL2C_CB :=
  match l2cu_find_lcb_by_handle s (segment_handle p_msg) with
  | none => s
  | some k =>
    match s.lcb_pool[k]? with
    | none => s
    | some p_lcb =>
      if p_lcb.link_state ≠ tL2C_LINK_STATE.LST_CONNECTED then s
      else
        l2c_link_check_send_pkts x
          (set_lcb s k { p_lcb with link_xmit_data_q := p_msg :: p_lcb.link_xmit_data_q })
          (some k) 0 none

/-! ## Link state machine: connection and disconnection complete -/

/-- Modelled from the spec: `l2cu_find_lcb_by_bd_addr` is not part of this
file; `find_by_peer(addr, transport)` is the pool slot of the LCB in use for
that peer and transport. -/
def l2cu_find_lcb_by_bd_addr (s : tL2C_CB) (bda : Nat) (transport : tBT_TRANSPORT) :
    Option Nat :=
  s.lcb_pool.findIdx? (fun lcb =>
    lcb.in_use && lcb.remote_bd_addr == bda && lcb.transport == transport)

/-- Modelled from the spec: `l2cu_find_lcb_by_state` is not part of this file;
`find_by_state(s)` is the pool slot of an LCB in use in that state. -/
def l2cu_find_lcb_by_state (s : tL2C_CB) (state : tL2C_LINK_STATE) : Option Nat :=
  s.lcb_pool.findIdx? (fun lcb => lcb.in_use && lcb.link_state == state)

/-- Modelled from the spec: `l2cu_lcb_disconnecting` is not part of this file;
the hold branch is taken when some LCB is disconnecting. -/
def l2cu_lcb_disconnecting (s : tL2C_CB) : Bool :=
  s.lcb_pool.any (fun lcb =>
    lcb.in_use && lcb.link_state == tL2C_LINK_STATE.LST_DISCONNECTING)

/-- Modelled from the spec: `l2cu_allocate_lcb` is not part of this file.
Allocation draws from the fixed-size pool and fails on exhaustion (the state is
then unchanged and no slot is returned); the slot taken starts with no handle,
no packet in flight and no quota, and `l2c_link_adjust_allocation` is invoked
on every allocation.  The result is `none` when that call does not return. -/
def l2cu_allocate_lcb (shared fuel : Nat) (s : tL2C_CB) (bda : Nat) (is_bonding : Bool)
    (transport : tBT_TRANSPORT) : Option (tL2C_CB × Option Nat) :=
  match s.lcb_pool.findIdx? (fun lcb => !lcb.in_use) with
  | none => some (s, none)
  | some k =>
    let lcb : tL2C_LCB :=
      { in_use := true, link_state := tL2C_LINK_STATE.LST_DISCONNECTED, remote_bd_addr := bda,
        transport := transport, handle := HCI_INVALID_HANDLE,
        acl_priority := tL2CAP_PRIORITY.L2CAP_PRIORITY_NORMAL, is_bonding := is_bonding,
        disconnect_reason := tHCI_STATUS.HCI_SUCCESS, link_xmit_quota := 0, sent_not_acked := 0,
        link_xmit_data_q := [], ccb_queue := [], p_fixed_ccbs := [], p_pending_ccb := none,
        rr_pri := 0, rr_serv := [], w4_info_rsp := false, l2c_lcb_timer := none,
        info_resp_timer := none }
    match l2c_link_adjust_allocation shared fuel
        { set_lcb s k lcb with num_used_lcbs := s.num_used_lcbs + 1 } with
    | none => none
    | some s1 => some (s1, some k)

/-- The calls `pL2CA_FixedConn_Cb(xx + L2CAP_FIRST_FIXED_CHNL, bda, false,
reason, transport)` for the fixed channels of a list that are bound and are not
the CCB at address `keep`; `xx` is the index of the head of the list. -/
def fixed_disc_calls (x : tEXT) (bda : Nat) (reason : tHCI_STATUS) (keep : Option Nat) :
    Nat → List (Option tL2C_CCB) → List tCALL
  | _, [] => []
  | xx, none :: rest => fixed_disc_calls x bda reason keep (xx + 1) rest
  | xx, some ccb :: rest =>
    if some ccb.slot = keep then fixed_disc_calls x bda reason keep (xx + 1) rest
    else tCALL.fixed_conn_cb (xx + x.L2CAP_FIRST_FIXED_CHNL) bda false reason ::
      fixed_disc_calls x bda reason keep (xx + 1) rest

/-- The fixed channel slots after every bound channel other than the CCB at
address `keep` was released and its slot cleared. -/
def fixed_release (keep : Option Nat) : List (Option tL2C_CCB) → List (Option tL2C_CCB)
  | [] => []
  | none :: rest => none :: fixed_release keep rest
  | some ccb :: rest =>
    if some ccb.slot = keep then some ccb :: fixed_release keep rest
    else none :: fixed_release keep rest

/-- Modelled from the spec: `l2cu_release_lcb` is not part of this file.
Release tears down the pending timers, drains the link queue, detaches the
fixed CCBs (notifying their callbacks with `false` and the current disconnect
reason), invalidates the handle and marks the slot free;
`l2c_link_adjust_allocation` is invoked on every release.  The result is `none`
when that call does not return. -/
def l2cu_release_lcb (x : tEXT) (fuel : Nat) (s : tL2C_CB) (k : Nat) : Option tL2C_CB :=
  match s.lcb_pool[k]? with
  | none => some s
  | some lcb =>
    let lcb1 : tL2C_LCB :=
      { lcb with in_use := false, l2c_lcb_timer := none, info_resp_timer := none,
                 link_xmit_data_q := [], p_fixed_ccbs := lcb.p_fixed_ccbs.map (fun _ => none),
                 handle := HCI_INVALID_HANDLE }
    l2c_link_adjust_allocation x.L2C_DEF_NUM_BLE_BUF_SHARED fuel
      { set_lcb s k lcb1 with
        num_used_lcbs := s.num_used_lcbs - 1,
        calls := s.calls ++
          fixed_disc_calls x lcb.remote_bd_addr lcb.disconnect_reason none 0 lcb.p_fixed_ccbs }

/-- Modelled from the spec: `l2cu_create_conn_br_edr` is not part of this file;
it starts a fresh outgoing BR/EDR connect on the LCB, which is then
connecting. -/
def l2cu_create_conn_br_edr (s : tL2C_CB) (k : Nat) : tL2C_CB :=
  match s.lcb_pool[k]? with
  | none => s
  | some lcb =>
    { set_lcb s k { lcb with link_state := tL2C_LINK_STATE.LST_CONNECTING } with
      calls := s.calls ++ [tCALL.create_conn_br_edr k] }

/-- A loop that sends `evt` through the state machine of every CCB of a channel
queue other than the CCB at address `skip`: the queue afterwards (a CCB for
which `l2c_csm_execute` answers `none` removed itself) and the calls made, in
queue order. -/
def csm_fanout (x : tEXT) (evt : tL2C_EVT) (skip : Option Nat) :
    List tL2C_CCB → List tL2C_CCB × List tCALL
  | [] => ([], [])
  | p_ccb :: rest =>
    let r := csm_fanout x evt skip rest
    if some p_ccb.slot = skip then (p_ccb :: r.1, r.2)
    else
      match x.l2c_csm_execute evt p_ccb with
      | none => (r.1, tCALL.csm_execute p_ccb.slot evt :: r.2)
      | some ccb1 => (ccb1 :: r.1, tCALL.csm_execute p_ccb.slot evt :: r.2)

/-- The function `l2c_link_iot_store_disc_reason`, as the calls it makes on the
device configuration. -/
def l2c_link_iot_store_disc_reason (bda : Nat) (reason : tHCI_STATUS) : List tCALL :=
  if reason = tHCI_STATUS.HCI_ERR_UNDEFINED then []
  else if reason = tHCI_STATUS.HCI_ERR_CONNECTION_TOUT then
    [tCALL.iot_add_one_disc_count bda, tCALL.iot_add_one_conntimeout_count bda]
  else [tCALL.iot_add_one_disc_count bda]

/-- The last statement of `l2c_link_hci_disc_comp`: "Now that we have a free
acl connection, see if any lcbs are pending". -/
def disc_comp_promote (s : tL2C_CB) (lcb_is_free : Bool) : tL2C_CB :=
  if lcb_is_free then
    match l2cu_find_lcb_by_state s tL2C_LINK_STATE.LST_CONNECT_HOLDING with
    | some h => l2cu_create_conn_br_edr s h
    | none => s
  else s

/-- The function `l2c_link_hci_disc_comp`: the state afterwards and the value
returned.  `none` when a call of `l2c_link_adjust_allocation` made on the way
does not return within the fuel. -/
def l2c_link_hci_disc_comp (x : tEXT) (fuel : Nat) (s : tL2C_CB) (handle : Nat)
    (reason : tHCI_STATUS) : Option (tL2C_CB × Bool) :=
  match l2cu_find_lcb_by_handle s handle with
  | none => some (disc_comp_promote s true, false)
  | some k =>
    match s.lcb_pool[k]? with
    | none => some (disc_comp_promote s true, false)
    | some lcb =>
      let fan := csm_fanout x tL2C_EVT.L2CEVT_LP_DISCONNECT_IND lcb.p_pending_ccb lcb.ccb_queue
      let lcb1 : tL2C_LCB :=
        { lcb with disconnect_reason := reason,
                   link_state := tL2C_LINK_STATE.LST_DISCONNECTING, ccb_queue := fan.1 }
      let calls1 := s.calls ++ l2c_link_iot_store_disc_reason lcb.remote_bd_addr reason ++
        (if lcb.transport = tBT_TRANSPORT.BT_TRANSPORT_LE then
          [tCALL.btm_ble_decrement_link_topology_mask k] else []) ++
        fan.2 ++
        (if lcb.transport = tBT_TRANSPORT.BT_TRANSPORT_BR_EDR then
          [tCALL.btm_sco_acl_removed lcb.remote_bd_addr] else [])
      if lcb1.ccb_queue ≠ [] ∨ lcb1.p_pending_ccb ≠ none then
        if lcb.transport = tBT_TRANSPORT.BT_TRANSPORT_LE then
          let lcb2 : tL2C_LCB := { lcb1 with link_xmit_data_q := [] }
          let calls2 := calls1 ++ [tCALL.btm_acl_removed handle, tCALL.create_conn_le k]
          if x.l2cu_create_conn_le lcb2 then
            some (disc_comp_promote
              { set_lcb s k { lcb2 with p_pending_ccb := none } with calls := calls2 } false,
              true)
          else
            (l2cu_release_lcb x fuel
              { set_lcb s k { lcb2 with p_pending_ccb := none } with calls := calls2 } k).map
              (fun s1 => (disc_comp_promote s1 true, true))
        else
          let lcb2 : tL2C_LCB :=
            { lcb1 with link_xmit_data_q := [],
                        p_fixed_ccbs := fixed_release lcb1.p_pending_ccb lcb1.p_fixed_ccbs,
                        handle := HCI_INVALID_HANDLE }
          let calls2 := calls1 ++
            fixed_disc_calls x lcb.remote_bd_addr reason lcb1.p_pending_ccb 0 lcb1.p_fixed_ccbs ++
            [tCALL.btm_acl_removed lcb.handle]
          let s2 := l2cu_create_conn_br_edr { set_lcb s k lcb2 with calls := calls2 } k
          match s2.lcb_pool[k]? with
          | none => some (s2, true)
          | some lcb3 =>
            some (disc_comp_promote (set_lcb s2 k { lcb3 with p_pending_ccb := none }) false,
              true)
      else
        (l2cu_release_lcb x fuel
          { set_lcb s k { lcb1 with p_pending_ccb := none } with calls := calls1 } k).map
          (fun s1 => (disc_comp_promote s1 true, true))

/-- The part of `l2c_link_hci_conn_comp` after the LCB of the peer, at slot
`k`, has been found or allocated. -/
def conn_comp_on_lcb (x : tEXT) (fuel : Nat) (s : tL2C_CB) (k : Nat) (status : tHCI_STATUS)
    (handle : Nat) : Option tL2C_CB :=
  match s.lcb_pool[k]? with
  | none => some s
  | some p_lcb =>
    if p_lcb.link_state = tL2C_LINK_STATE.LST_CONNECTED ∧
        status = tHCI_STATUS.HCI_ERR_CONNECTION_EXISTS then some s
    else if p_lcb.link_state ≠ tL2C_LINK_STATE.LST_CONNECTING then
      if status ≠ tHCI_STATUS.HCI_SUCCESS then
        (l2c_link_hci_disc_comp x fuel s p_lcb.handle status).map (fun r => r.1)
      else some s
    else
      let lcb1 : tL2C_LCB := { p_lcb with handle := handle }
      if status = tHCI_STATUS.HCI_SUCCESS then
        let lcb2 : tL2C_LCB := { lcb1 with link_state := tL2C_LINK_STATE.LST_CONNECTED }
        if lcb2.is_bonding ∧ x.l2cu_start_post_bond_timer handle then
          some (set_lcb s k { lcb2 with l2c_lcb_timer := some tL2C_TOUT.L2CAP_BONDING_TIMEOUT })
        else
          let fan := csm_fanout x tL2C_EVT.L2CEVT_LP_CONNECT_CFM none lcb2.ccb_queue
          let lcb3 : tL2C_LCB := { lcb2 with l2c_lcb_timer := none, ccb_queue := fan.1 }
          let lcb4 : tL2C_LCB :=
            if lcb3.ccb_queue = [] then
              { lcb3 with l2c_lcb_timer := some tL2C_TOUT.L2CAP_LINK_STARTUP_TOUT }
            else lcb3
          some { set_lcb s k lcb4 with calls := s.calls ++ fan.2 }
      else if status = tHCI_STATUS.HCI_ERR_MAX_NUM_OF_CONNECTIONS ∧
          l2cu_lcb_disconnecting (set_lcb s k lcb1) then
        some (set_lcb s k
          { lcb1 with link_state := tL2C_LINK_STATE.LST_CONNECT_HOLDING,
                      handle := HCI_INVALID_HANDLE })
      else
        let fan := csm_fanout x tL2C_EVT.L2CEVT_LP_CONNECT_CFM_NEG none lcb1.ccb_queue
        let lcb2 : tL2C_LCB :=
          { lcb1 with link_state := tL2C_LINK_STATE.LST_DISCONNECTING, ccb_queue := fan.1,
                      disconnect_reason := status }
        let s2 : tL2C_CB := { set_lcb s k lcb2 with calls := s.calls ++ fan.2 }
        if lcb2.ccb_queue = [] then l2cu_release_lcb x fuel s2 k
        else if status = tHCI_STATUS.HCI_ERR_CONNECTION_EXISTS then
          some (set_lcb s2 k { lcb2 with link_state := tL2C_LINK_STATE.LST_CONNECTING })
        else some (l2cu_create_conn_br_edr s2 k)

/-- The function `l2c_link_hci_conn_comp`.  `none` when a call of
`l2c_link_adjust_allocation` made on the way does not return within the
fuel. -/
def l2c_link_hci_conn_comp (x : tEXT) (fuel : Nat) (s : tL2C_CB) (status : tHCI_STATUS)
    (handle : Nat) (p_bda : Nat) : Option tL2C_CB :=
  match l2cu_find_lcb_by_bd_addr s p_bda tBT_TRANSPORT.BT_TRANSPORT_BR_EDR with
  | some k => conn_comp_on_lcb x fuel s k status handle
  | none =>
    match l2cu_allocate_lcb x.L2C_DEF_NUM_BLE_BUF_SHARED fuel s p_bda false
        tBT_TRANSPORT.BT_TRANSPORT_BR_EDR with
    | none => none
    | some (s1, none) => some s1
    | some (s1, some k) =>
      match s1.lcb_pool[k]? with
      | none => some s1
      | some lcb =>
        conn_comp_on_lcb x fuel
          (set_lcb s1 k { lcb with link_state := tL2C_LINK_STATE.LST_CONNECTING }) k status handle

/-! ## Link state machine: the link timer -/

/-- Modelled from the spec: `l2cu_process_fixed_disc_cback` is not part of this
file; it runs the fixed-channel disconnect callbacks of the LCB at slot `k`,
with `connected = false` and the current disconnect reason. -/
def l2cu_process_fixed_disc_cback (x : tEXT) (s : tL2C_CB) (k : Nat) : tL2C_CB :=
  match s.lcb_pool[k]? with
  | none => s
  | some lcb =>
    { s with calls := s.calls ++
        fixed_disc_calls x lcb.remote_bd_addr lcb.disconnect_reason none 0 lcb.p_fixed_ccbs }

/-- The branch of `l2c_link_timeout` for a connected link with no channel: the
security manager is asked to disconnect and its result `rc` decides.  The LCB
is at slot `k`. -/
def link_timeout_idle (x : tEXT) (s : tL2C_CB) (k : Nat) (p_lcb : tL2C_LCB) : tL2C_CB :=
  let rc := x.btm_sec_disconnect p_lcb.handle
  let s1 : tL2C_CB := { s with calls := s.calls ++ [tCALL.btm_sec_disconnect p_lcb.handle] }
  if rc = tBTM_STATUS.BTM_CMD_STORED then s1
  else if rc = tBTM_STATUS.BTM_CMD_STARTED then
    set_lcb s1 k
      { p_lcb with link_state := tL2C_LINK_STATE.LST_DISCONNECTING,
                   l2c_lcb_timer := some tL2C_TOUT.L2CAP_LINK_DISCONNECT_TIMEOUT_MS }
  else if rc = tBTM_STATUS.BTM_SUCCESS then
    set_lcb (l2cu_process_fixed_disc_cback x s1 k) k
      { p_lcb with link_state := tL2C_LINK_STATE.LST_DISCONNECTING }
  else if rc = tBTM_STATUS.BTM_BUSY then s1
  else if p_lcb.is_bonding then
    set_lcb
      (l2cu_process_fixed_disc_cback x
        { s1 with calls := s1.calls ++ [tCALL.acl_disconnect_from_handle p_lcb.handle] } k) k
      { p_lcb with link_state := tL2C_LINK_STATE.LST_DISCONNECTING,
                   l2c_lcb_timer := some tL2C_TOUT.L2CAP_LINK_DISCONNECT_TIMEOUT_MS }
  else
    set_lcb s1 k { p_lcb with l2c_lcb_timer := some tL2C_TOUT.BT_1SEC_TIMEOUT_MS }

/-- The function `l2c_link_timeout` for the LCB at slot `k`.  `none` when a
call of `l2c_link_adjust_allocation` made on the way does not return within the
fuel. -/
def l2c_link_timeout (x : tEXT) (fuel : Nat) (s : tL2C_CB) (k : Nat) : Option tL2C_CB :=
  match s.lcb_pool[k]? with
  | none => some s
  | some p_lcb =>
    let dropped : Option tL2C_CB :=
      if p_lcb.link_state = tL2C_LINK_STATE.LST_CONNECTING_WAIT_SWITCH ∨
          p_lcb.link_state = tL2C_LINK_STATE.LST_CONNECTING ∨
          p_lcb.link_state = tL2C_LINK_STATE.LST_CONNECT_HOLDING ∨
          p_lcb.link_state = tL2C_LINK_STATE.LST_DISCONNECTING then
        let fan := csm_fanout x tL2C_EVT.L2CEVT_LP_DISCONNECT_IND none p_lcb.ccb_queue
        l2cu_release_lcb x fuel
          { set_lcb s k { p_lcb with p_pending_ccb := none, ccb_queue := fan.1 } with
            calls := s.calls ++ fan.2 } k
      else some s
    match dropped with
    | none => none
    | some s1 =>
      match s1.lcb_pool[k]? with
      | none => some s1
      | some lcb1 =>
        if lcb1.link_state = tL2C_LINK_STATE.LST_CONNECTED then
          if lcb1.ccb_queue = [] then some (link_timeout_idle x s1 k lcb1)
          else some (l2c_link_check_send_pkts x s1 (some k) 0 none)
        else some s1

/-! ## Security completion and the info response timer -/

/-- The loop of `l2c_link_sec_comp` over the channel queue: the CCB whose
address is `p_ref_data` gets `L2CEVT_SEC_COMP` on `BTM_SUCCESS`, has its timer
armed on `BTM_DELAY_CHECK` (and the function returns), and gets
`L2CEVT_SEC_COMP_NEG` on every other status.  The result is the queue
afterwards (a CCB for which `l2c_csm_execute` answers `none` removed itself)
and the calls made. -/
def sec_comp_scan (x : tEXT) (status : tBTM_STATUS) (p_ref_data : Nat) :
    List tL2C_CCB → List tL2C_CCB × List tCALL
  | [] => ([], [])
  | p_ccb :: p_next_ccb =>
    if p_ccb.slot = p_ref_data then
      if status = tBTM_STATUS.BTM_SUCCESS then
        let r := sec_comp_scan x status p_ref_data p_next_ccb
        match x.l2c_csm_execute tL2C_EVT.L2CEVT_SEC_COMP p_ccb with
        | none => (r.1, tCALL.csm_execute p_ccb.slot tL2C_EVT.L2CEVT_SEC_COMP :: r.2)
        | some ccb1 =>
          (ccb1 :: r.1, tCALL.csm_execute p_ccb.slot tL2C_EVT.L2CEVT_SEC_COMP :: r.2)
      else if status = tBTM_STATUS.BTM_DELAY_CHECK then
        ({ p_ccb with l2c_ccb_timer := some tL2C_TOUT.L2CAP_DELAY_CHECK_SM4_TIMEOUT_MS } ::
          p_next_ccb, [])
      else
        let r := sec_comp_scan x status p_ref_data p_next_ccb
        match x.l2c_csm_execute tL2C_EVT.L2CEVT_SEC_COMP_NEG p_ccb with
        | none => (r.1, tCALL.csm_execute p_ccb.slot tL2C_EVT.L2CEVT_SEC_COMP_NEG :: r.2)
        | some ccb1 =>
          (ccb1 :: r.1, tCALL.csm_execute p_ccb.slot tL2C_EVT.L2CEVT_SEC_COMP_NEG :: r.2)
    else
      let r := sec_comp_scan x status p_ref_data p_next_ccb
      (p_ccb :: r.1, r.2)

/-- The function `l2c_link_sec_comp`; `p_ref_data` is the address the security
manager hands back. -/
def l2c_link_sec_comp (x : tEXT) (s : tL2C_CB) (p_bda : Nat) (transport : tBT_TRANSPORT)
    (p_ref_data : Nat) (status : tBTM_STATUS) : tL2C_CB :=
  let status1 : tBTM_STATUS :=
    if status = tBTM_STATUS.BTM_SUCCESS_NO_SECURITY then tBTM_STATUS.BTM_SUCCESS else status
  match l2cu_find_lcb_by_bd_addr s p_bda transport with
  | none => s
  | some k =>
    match s.lcb_pool[k]? with
    | none => s
    | some p_lcb =>
      let r := sec_comp_scan x status1 p_ref_data p_lcb.ccb_queue
      { set_lcb s k { p_lcb with ccb_queue := r.1 } with calls := s.calls ++ r.2 }

/-- What the second pool loop of `l2c_link_adjust_allocation` leaves at a slot
holding `lcb`, when `rank` low priority links precede it in the pool and
`qq_remainder` was `rem` on entry of the loop. -/
def assigned_lcb (sh : Bool) (qh qq rank rem : Nat) (lcb : tL2C_LCB) : tL2C_LCB :=
  if adjust_eligible sh lcb then
    if lcb.acl_priority = tL2CAP_PRIORITY.L2CAP_PRIORITY_HIGH then
      adjust_arm_timer { lcb with link_xmit_quota := qh }
    else
      adjust_arm_timer { lcb with link_xmit_quota := if rank < rem then (qq + 1) % 65536 else qq }
  else lcb

/-- The LCB `lcb` with the channel fields (channel queue, fixed channels and
round-robin cursors) of `c`. -/
def with_channels (lcb c : tL2C_LCB) : tL2C_LCB :=
  { lcb with ccb_queue := c.ccb_queue, p_fixed_ccbs := c.p_fixed_ccbs, rr_pri := c.rr_pri,
             rr_serv := c.rr_serv }

/-- The controller window of the transport of `lcb` is not zero. -/
def window_open (s : tL2C_CB) (lcb : tL2C_LCB) : Prop :=
  (lcb.transport = tBT_TRANSPORT.BT_TRANSPORT_BR_EDR → s.controller_xmit_window ≠ 0) ∧
  (lcb.transport = tBT_TRANSPORT.BT_TRANSPORT_LE → s.controller_le_xmit_window ≠ 0)

/-- The link may send: it is a round-robin member, or it is below its quota. -/
def quota_open (lcb : tL2C_LCB) : Prop :=
  lcb.link_xmit_quota = 0 ∨ lcb.sent_not_acked < lcb.link_xmit_quota

/-- The elementary steps the scheduler `l2c_link_check_send_pkts` is made of,
as closure conditions on a predicate `P` over states: sending the head of a
link queue, asking the channels of a link for a buffer, sending a buffer
obtained from a channel, arming the flow-control timer and writing the
round-robin flags.  Every send happens with the window of the transport open
and the link a round-robin member or below its quota. -/
structure SchedSteps (x : tEXT) (P : tL2C_CB → Prop) : Prop where
  send_q : ∀ (s : tL2C_CB) (k : Nat) (lcb : tL2C_LCB) (b : BT_HDR) (rest : List BT_HDR),
    P s → s.lcb_pool[k]? = some lcb → window_open s lcb → quota_open lcb →
    lcb.link_xmit_data_q = b :: rest →
    P (l2c_link_send_to_lower (set_lcb s k { lcb with link_xmit_data_q := rest }) k b none)
  fetch : ∀ (s : tL2C_CB) (k : Nat) (lcb : tL2C_LCB),
    P s → s.lcb_pool[k]? = some lcb → lcb.link_xmit_data_q = [] →
    P { set_lcb s k (l2cu_get_next_buffer_to_send x lcb).lcb with
        calls := s.calls ++ (l2cu_get_next_buffer_to_send x lcb).calls }
  send_c : ∀ (s : tL2C_CB) (k : Nat) (lcb : tL2C_LCB) (b : BT_HDR)
      (cbi : tL2C_TX_COMPLETE_CB_INFO),
    P s → s.lcb_pool[k]? = some lcb → window_open s lcb → quota_open lcb →
    lcb.link_xmit_data_q = [] →
    P (l2c_link_send_to_lower s k b (some cbi))
  timer : ∀ (s : tL2C_CB) (k : Nat) (lcb : tL2C_LCB),
    P s → s.lcb_pool[k]? = some lcb →
    P (set_lcb s k
        { lcb with l2c_lcb_timer := some tL2C_TOUT.L2CAP_LINK_FLOW_CONTROL_TIMEOUT_MS })
  flags : ∀ (s : tL2C_CB) (b1 b2 : Bool),
    P s → P { s with check_round_robin := b1, ble_check_round_robin := b2 }

/-- Number of packets of a list handed to the data sink of transport `t`. -/
def count_sent (t : tBT_TRANSPORT) (l : List tHCI_PKT) : Nat :=
  (l.filter (fun p => p.transport = t)).length

/-- Every LCB with a quota of its own has at most that many packets in
flight. -/
def quota_respected (s : tL2C_CB) : Prop :=
  ∀ lcb ∈ s.lcb_pool, 0 < lcb.link_xmit_quota → lcb.sent_not_acked ≤ lcb.link_xmit_quota

instance (s : tL2C_CB) : Decidable (quota_respected s) := by
  unfold quota_respected
  infer_instance

/-- The buffers handed to HCI for the link at slot `j`, in the order of the
calls. -/
def link_out (j : Nat) (s : tL2C_CB) : List BT_HDR :=
  (s.hci_out.filter (fun p => p.lcb = j)).map (fun p => p.buf)

/-- The link queue of the LCB at slot `j`. -/
def link_queue (j : Nat) (s : tL2C_CB) : List BT_HDR :=
  match s.lcb_pool[j]? with
  | none => []
  | some lcb => lcb.link_xmit_data_q

/-- A buffer as `l2c_link_send_to_lower` hands it to HCI. -/
def as_sent (b : BT_HDR) : BT_HDR :=
  { b with layer_specific := 0 }

/-- A buffer as `l2c_link_check_send_pkts` queues it. -/
def as_queued (local_cid : Nat) (b : BT_HDR) : BT_HDR :=
  { b with event := local_cid, layer_specific := 0 }

/-- Sum of `sent_not_acked` over the LCBs of a pool that are in use, on
transport `t`, and have a quota of their own (`own = true`) or are round-robin
members (`own = false`). -/
def sum_in_flight (t : tBT_TRANSPORT) (own : Bool) (pool : List tL2C_LCB) : Nat :=
  ((pool.filter (fun lcb =>
      lcb.in_use && lcb.transport == t && (decide (lcb.link_xmit_quota > 0) == own))).map
    (fun lcb => lcb.sent_not_acked)).sum

/-- The classic window equation: `controller_xmit_window`, the packets in
flight on BR/EDR links with a quota of their own and `round_robin_unacked` add
up to `num_lm_acl_bufs`. -/
def window_invariant (s : tL2C_CB) : Prop :=
  s.controller_xmit_window + sum_in_flight tBT_TRANSPORT.BT_TRANSPORT_BR_EDR true s.lcb_pool +
    s.round_robin_unacked = s.num_lm_acl_bufs

instance (s : tL2C_CB) : Decidable (window_invariant s) := by
  unfold window_invariant
  infer_instance

/-- The round-robin counters equal the packets in flight on the round-robin
members of their transport. -/
def round_robin_invariant (s : tL2C_CB) : Prop :=
  s.round_robin_unacked = sum_in_flight tBT_TRANSPORT.BT_TRANSPORT_BR_EDR false s.lcb_pool ∧
  s.ble_round_robin_unacked = sum_in_flight tBT_TRANSPORT.BT_TRANSPORT_LE false s.lcb_pool

instance (s : tL2C_CB) : Decidable (round_robin_invariant s) := by
  unfold round_robin_invariant
  infer_instance

/-- An LCB in use that carries a controller handle is connected or
disconnecting. -/
def handle_state_invariant (s : tL2C_CB) : Prop :=
  ∀ lcb ∈ s.lcb_pool, lcb.in_use = true → lcb.handle ≠ HCI_INVALID_HANDLE →
    lcb.link_state = tL2C_LINK_STATE.LST_CONNECTED ∨
      lcb.link_state = tL2C_LINK_STATE.LST_DISCONNECTING

instance (s : tL2C_CB) : Decidable (handle_state_invariant s) := by
  unfold handle_state_invariant
  infer_instance

/-- The LCB `b` is the LCB `a` but for the quota and the link timer, the two
fields `l2c_link_adjust_allocation` writes. -/
def quota_only (a b : tL2C_LCB) : Prop :=
  b = { a with link_xmit_quota := b.link_xmit_quota, l2c_lcb_timer := b.l2c_lcb_timer }

/-- Whether a call is a call of the channel state machine. -/
def is_csm_call : tCALL → Bool
  | tCALL.csm_execute _ _ => true
  | tCALL.csm_execute_ci _ _ _ _ => true
  | _ => false

/-- Whether a call starts a BR/EDR connect. -/
def is_create_conn_br_edr : tCALL → Bool
  | tCALL.create_conn_br_edr _ => true
  | _ => false

/-- The calls that deliver `evt` once, in queue order, to every CCB of a
channel queue other than the CCB at address `skip`. -/
def csm_events (evt : tL2C_EVT) (skip : Option Nat) (q : List tL2C_CCB) : List tCALL :=
  (q.filter (fun c => decide (some c.slot ≠ skip))).map (fun c => tCALL.csm_execute c.slot evt)

/-- The LCB of a disconnect complete after the fan-out of
`l2c_link_hci_disc_comp`: the reason is recorded, the state is disconnecting
and the channel queue is what the channel state machines left of it. -/
def disc_comp_lcb (x : tEXT) (p_lcb : tL2C_LCB) (reason : tHCI_STATUS) : tL2C_LCB :=
  { p_lcb with
    disconnect_reason := reason, link_state := tL2C_LINK_STATE.LST_DISCONNECTING,
    ccb_queue :=
      (csm_fanout x tL2C_EVT.L2CEVT_LP_DISCONNECT_IND p_lcb.p_pending_ccb p_lcb.ccb_queue).1 }

/-- The calls `l2c_link_hci_disc_comp` makes for the LCB at slot `k` up to its
test for a pending reconnect: the disconnect counters, the LE topology mask,
`L2CEVT_LP_DISCONNECT_IND` once for every CCB of the queue other than the
pending one, and the SCO notification. -/
def disc_comp_calls (k : Nat) (p_lcb : tL2C_LCB) (reason : tHCI_STATUS) : List tCALL :=
  l2c_link_iot_store_disc_reason p_lcb.remote_bd_addr reason ++
    (if p_lcb.transport = tBT_TRANSPORT.BT_TRANSPORT_LE then
      [tCALL.btm_ble_decrement_link_topology_mask k] else []) ++
    csm_events tL2C_EVT.L2CEVT_LP_DISCONNECT_IND p_lcb.p_pending_ccb p_lcb.ccb_queue ++
    (if p_lcb.transport = tBT_TRANSPORT.BT_TRANSPORT_BR_EDR then
      [tCALL.btm_sco_acl_removed p_lcb.remote_bd_addr] else [])

/-- Slot `j` is one of the `n` slots a round-robin sweep visits when it enters its
loop with the pointer at `k0` in a pool of `len` slots (`k0 = len` is the pointer
one past the pool, which the loop wraps to slot 0). -/
def sweep_visits (k0 n len j : Nat) : Prop :=
  j < len ∧ ((k0 ≤ j ∧ j < k0 + n) ∨ j + len < k0 + n)

/-- The LCB is served by the round-robin sweep: in use, connected, without a
quota of its own and not in a pending power mode transition. -/
def rr_participant (x : tEXT) (lcb : tL2C_LCB) : Prop :=
  lcb.in_use = true ∧ lcb.link_state = tL2C_LINK_STATE.LST_CONNECTED ∧
    lcb.link_xmit_quota = 0 ∧ l2c_link_check_power_mode x lcb = false

/-- What a round-robin sweep of `n` iterations entered at pointer `k0` did
between the states `s` and `r`, given the packets `added` it handed to HCI
(`sw` is `single_write`): every packet was sent on a slot the sweep visits
whose LCB is a round-robin participant, and is the head of the link queue of
that LCB or, when that queue is empty and `single_write` is off, a buffer of one
of its channels; no slot sent twice; each packet took one buffer of the window
of its transport and one unit of the round-robin counter of its transport, and
the counter stayed within the quota; with `single_write` on no other call was
made. -/
structure SweepSent (x : tEXT) (sw : Bool) (s r : tL2C_CB) (k0 n : Nat)
    (added : List tHCI_PKT) : Prop where
  out : r.hci_out = s.hci_out ++ added
  served : ∀ p : tHCI_PKT, p ∈ added →
    sweep_visits k0 n s.lcb_pool.length p.lcb ∧
      ∃ lcb : tL2C_LCB, s.lcb_pool[p.lcb]? = some lcb ∧ rr_participant x lcb ∧
        p.transport = lcb.transport ∧
        ((∃ (hd : BT_HDR) (rest : List BT_HDR), lcb.link_xmit_data_q = hd :: rest ∧
            p.buf = { hd with layer_specific := 0 }) ∨
          (lcb.link_xmit_data_q = [] ∧ sw = false))
  once : (added.map (fun p => p.lcb)).Nodup
  window : r.controller_xmit_window + count_sent tBT_TRANSPORT.BT_TRANSPORT_BR_EDR added =
    s.controller_xmit_window
  le_window : r.controller_le_xmit_window + count_sent tBT_TRANSPORT.BT_TRANSPORT_LE added =
    s.controller_le_xmit_window
  unacked : r.round_robin_unacked =
    s.round_robin_unacked + count_sent tBT_TRANSPORT.BT_TRANSPORT_BR_EDR added
  le_unacked : r.ble_round_robin_unacked =
    s.ble_round_robin_unacked + count_sent tBT_TRANSPORT.BT_TRANSPORT_LE added
  bound : count_sent tBT_TRANSPORT.BT_TRANSPORT_BR_EDR added = 0 ∨
    s.round_robin_unacked + count_sent tBT_TRANSPORT.BT_TRANSPORT_BR_EDR added ≤
      s.round_robin_quota
  le_bound : count_sent tBT_TRANSPORT.BT_TRANSPORT_LE added = 0 ∨
    s.ble_round_robin_unacked + count_sent tBT_TRANSPORT.BT_TRANSPORT_LE added ≤
      s.ble_round_robin_quota
  quota : r.round_robin_quota = s.round_robin_quota
  le_quota : r.ble_round_robin_quota = s.ble_round_robin_quota
  flag : r.is_cong_cback_context = s.is_cong_cback_context
  len : r.lcb_pool.length = s.lcb_pool.length
  quiet : sw = true → r.calls = s.calls

/-- The single-write sweep stops at pointer `k0` in state `s`: the LCB the pointer
addresses (after the wrap-around check) passes both tests of the sweep, so it is
served, and its link queue is empty; this is the branch "If only doing one
write, break out". -/
def rr_stop_here (x : tEXT) (s : tL2C_CB) (k0 : Nat) : Bool :=
  match s.lcb_pool[if k0 = s.lcb_pool.length then 0 else k0]? with
  | none => false
  | some p_lcb =>
    !rr_window_full s p_lcb && !rr_not_served x p_lcb && p_lcb.link_xmit_data_q.isEmpty

/-- The two links agree on everything the channel selection reads: transport,
channels, fixed channels and round-robin records. -/
def same_channels (a b : tL2C_LCB) : Prop :=
  a.transport = b.transport ∧ a.ccb_queue = b.ccb_queue ∧ a.p_fixed_ccbs = b.p_fixed_ccbs ∧
    a.rr_pri = b.rr_pri ∧ a.rr_serv = b.rr_serv

/-- The controller window of a transport. -/
def transport_window (s : tL2C_CB) (t : tBT_TRANSPORT) : Nat :=
  if t = tBT_TRANSPORT.BT_TRANSPORT_BR_EDR then s.controller_xmit_window
  else s.controller_le_xmit_window

/-- The number of buffers the direct path can take from the link queue: the
least of the controller window of the transport, the room left under the quota
of the link, and the length of the link queue. -/
def direct_count (s : tL2C_CB) (lcb : tL2C_LCB) : Nat :=
  min (min (transport_window s lcb.transport) (lcb.link_xmit_quota - lcb.sent_not_acked))
    lcb.link_xmit_data_q.length

/-- The sum of `link_xmit_quota` over the LCBs of the pool that take part in the
quota assignment. -/
def sum_eligible_quota (is_share_buffer : Bool) (pool : List tL2C_LCB) : Nat :=
  ((pool.filter (adjust_eligible is_share_buffer)).map (fun lcb => lcb.link_xmit_quota)).sum

/-- The record of priority group `g` of a link (`rr_serv[g]`). -/
def rr_group_serv (l : tL2C_LCB) (g : Nat) : tL2C_RR_SERV :=
  l.rr_serv.getD g ⟨none, none, 0, 0⟩

/-- The statements "serve next priority group" and "initialize its quota" of
`l2cu_get_next_channel_in_rr`. -/
def rr_next_group (x : tEXT) (l : tL2C_LCB) : tL2C_LCB :=
  { l with
    rr_pri := (l.rr_pri + 1) % x.L2CAP_NUM_CHNL_PRIORITY,
    rr_serv := l.rr_serv.set ((l.rr_pri + 1) % x.L2CAP_NUM_CHNL_PRIORITY)
      { rr_group_serv l ((l.rr_pri + 1) % x.L2CAP_NUM_CHNL_PRIORITY) with
        quota := x.L2CAP_GET_PRIORITY_QUOTA ((l.rr_pri + 1) % x.L2CAP_NUM_CHNL_PRIORITY) } }

/-- The link after the first `j` priority groups, from `rr_pri` on, were each
scanned to the end without a channel to serve and passed over; `none` when one
of them has a channel to serve or the scan returns from inside a group. -/
def rr_passed_over (x : tEXT) : Nat → tL2C_LCB → Option tL2C_LCB
  | 0, l => some l
  | j + 1, l =>
    if (rr_scan_group x (rr_group_serv l l.rr_pri).num_ccb l).returned ||
        (rr_scan_group x (rr_group_serv l l.rr_pri).num_ccb l).p_serve_ccb.isSome then none
    else rr_passed_over x j
      (rr_next_group x (rr_scan_group x (rr_group_serv l l.rr_pri).num_ccb l).lcb)

/-- The quota bookkeeping of a selection: a channel was selected on the link `l0`
from the group `l0.rr_pri`, whose quota was `k`, and `res` is the link
afterwards.  With `1 < k` the group stays the one served and its quota is
`k - 1`; with `k = 1` the next group is the one served and has the quota of the
static table. -/
def rr_quota_booked (x : tEXT) (l0 res : tL2C_LCB) : Prop :=
  (1 < (rr_group_serv l0 l0.rr_pri).quota → (rr_group_serv l0 l0.rr_pri).quota < 65536 →
    res.rr_pri = l0.rr_pri ∧
    (rr_group_serv res l0.rr_pri).quota = (rr_group_serv l0 l0.rr_pri).quota - 1) ∧
  ((rr_group_serv l0 l0.rr_pri).quota = 1 →
    res.rr_pri = (l0.rr_pri + 1) % x.L2CAP_NUM_CHNL_PRIORITY ∧
    (rr_group_serv res ((l0.rr_pri + 1) % x.L2CAP_NUM_CHNL_PRIORITY)).quota =
      x.L2CAP_GET_PRIORITY_QUOTA ((l0.rr_pri + 1) % x.L2CAP_NUM_CHNL_PRIORITY))

/-- The members of priority group `g`, in queue order. -/
def rr_group (q : List tL2C_CCB) (g : Nat) : List tL2C_CCB :=
  q.filter (fun c => c.ccb_priority == g)

/-- The members of a group in circular order, starting from the member the
cursor `p` addresses. -/
def rr_circular (grp : List tL2C_CCB) (p : Option Nat) : List tL2C_CCB :=
  grp.drop (grp.findIdx (fun c => some c.slot == p)) ++
    grp.take (grp.findIdx (fun c => some c.slot == p))

/-- The first member of group `g` that passes the checks of
`l2cu_get_next_channel_in_rr`, in circular order from the cursor of the
group. -/
def rr_first_ready (x : tEXT) (l : tL2C_LCB) (g : Nat) : Option Nat :=
  ((rr_circular (rr_group l.ccb_queue g) (rr_group_serv l g).p_serve_ccb).find?
    (rr_channel_ready x l.transport)).map (fun c => c.slot)

/-- The choice among `n` groups in cyclic order from group `g`: the first
member passing the checks of the first group that has one. -/
def rr_select (x : tEXT) (l : tL2C_LCB) : Nat → Nat → Option Nat
  | 0, _ => none
  | n + 1, g =>
    match rr_first_ready x l g with
    | some p => some p
    | none => rr_select x l n ((g + 1) % x.L2CAP_NUM_CHNL_PRIORITY)

/-- Priority group `g` of the link is well formed: its members are contiguous in
the channel queue, `num_ccb` is their number, `p_first_ccb` is the first of them
and `p_serve_ccb` is one of them. -/
def rr_group_ok (l : tL2C_LCB) (g : Nat) : Prop :=
  ∃ pre grp post : List tL2C_CCB, l.ccb_queue = pre ++ grp ++ post ∧
    (∀ c, c ∈ grp → c.ccb_priority = g) ∧ (∀ c, c ∈ pre → c.ccb_priority ≠ g) ∧
    (∀ c, c ∈ post → c.ccb_priority ≠ g) ∧
    (rr_group_serv l g).num_ccb = grp.length ∧
    (rr_group_serv l g).p_first_ccb = grp.head?.map (fun c => c.slot) ∧
    (grp ≠ [] → ∃ c, c ∈ grp ∧ (rr_group_serv l g).p_serve_ccb = some c.slot)

/-- The priority groups of the link are well formed: the channels have distinct
addresses and a priority below `L2CAP_NUM_CHNL_PRIORITY`, `rr_serv` has a record
for each priority, `rr_pri` is one of them, and every group is well formed. -/
structure rr_well_formed (x : tEXT) (l : tL2C_LCB) : Prop where
  slots : (l.ccb_queue.map (fun c => c.slot)).Nodup
  prio : ∀ c, c ∈ l.ccb_queue → c.ccb_priority < x.L2CAP_NUM_CHNL_PRIORITY
  len : x.L2CAP_NUM_CHNL_PRIORITY ≤ l.rr_serv.length
  pri : l.rr_pri < x.L2CAP_NUM_CHNL_PRIORITY
  groups : ∀ g, g < x.L2CAP_NUM_CHNL_PRIORITY → rr_group_ok l g

/-! ## States used in the examples -/

/-- A free pool slot: zero-initialised, with no controller handle. -/
def lcb_free : tL2C_LCB :=
  { in_use := false, link_state := tL2C_LINK_STATE.LST_DISCONNECTED, remote_bd_addr := 0,
    transport := tBT_TRANSPORT.BT_TRANSPORT_BR_EDR, handle := HCI_INVALID_HANDLE,
    acl_priority := tL2CAP_PRIORITY.L2CAP_PRIORITY_NORMAL, is_bonding := false,
    disconnect_reason := tHCI_STATUS.HCI_SUCCESS, link_xmit_quota := 0, sent_not_acked := 0, link_xmit_data_q := [],
    ccb_queue := [], p_fixed_ccbs := [], p_pending_ccb := none, rr_pri := 0, rr_serv := [],
    w4_info_rsp := false, l2c_lcb_timer := none, info_resp_timer := none }

/-- A connected BR/EDR link to peer `bda` with handle `handle`, the given
priority, quota, number of packets in flight and link queue, and no channel. -/
def lcb_link (bda handle : Nat) (pri : tL2CAP_PRIORITY) (quota sna : Nat) (q : List BT_HDR) :
    tL2C_LCB :=
  { lcb_free with in_use := true, link_state := tL2C_LINK_STATE.LST_CONNECTED,
                  remote_bd_addr := bda, handle := handle, acl_priority := pri,
                  link_xmit_quota := quota, sent_not_acked := sna, link_xmit_data_q := q }

/-- A control block with `B` classic controller buffers of which `window` are
free, a separate pool of 4 LE buffers, and the given link pool, all of whose
slots are in use. -/
def l2cb_with (B window : Nat) (pool : List tL2C_LCB) : tL2C_CB :=
  { lcb_pool := pool, num_used_lcbs := pool.length, num_lm_acl_bufs := B, num_lm_ble_bufs := 4,
    controller_xmit_window := window, controller_le_xmit_window := 4, round_robin_quota := 0,
    round_robin_unacked := 0, ble_round_robin_quota := 0, ble_round_robin_unacked := 0,
    check_round_robin := false, ble_check_round_robin := false, is_cong_cback_context := false,
    hci_out := [], calls := [] }

/-- A data buffer with the given payload. -/
def buf_of (data : List Nat) : BT_HDR :=
  { event := 0, offset := 0, layer_specific := 0, data := data }

/-- Quota redistribution scenario: ten controller buffers, one high priority
link followed by three low priority links. -/
def l2cb_redistribution_3 : tL2C_CB :=
  l2cb_with 10 10
    [lcb_link 1 1 .L2CAP_PRIORITY_HIGH 0 0 [], lcb_link 2 2 .L2CAP_PRIORITY_NORMAL 0 0 [],
     lcb_link 3 3 .L2CAP_PRIORITY_NORMAL 0 0 [], lcb_link 4 4 .L2CAP_PRIORITY_NORMAL 0 0 []]

/-- Quota redistribution scenario after a fourth low priority link was added;
the links of the first scenario carry the quotas 5, 2, 2, 1 it gave them. -/
def l2cb_redistribution_4 : tL2C_CB :=
  l2cb_with 10 10
    [lcb_link 1 1 .L2CAP_PRIORITY_HIGH 5 0 [], lcb_link 2 2 .L2CAP_PRIORITY_NORMAL 2 0 [],
     lcb_link 3 3 .L2CAP_PRIORITY_NORMAL 2 0 [], lcb_link 4 4 .L2CAP_PRIORITY_NORMAL 1 0 [],
     lcb_link 5 5 .L2CAP_PRIORITY_NORMAL 0 0 []]

/-- Round-robin engagement scenario: two controller buffers and five low
priority links. -/
def l2cb_round_robin_5 : tL2C_CB :=
  l2cb_with 2 2
    [lcb_link 1 1 .L2CAP_PRIORITY_NORMAL 0 0 [], lcb_link 2 2 .L2CAP_PRIORITY_NORMAL 0 0 [],
     lcb_link 3 3 .L2CAP_PRIORITY_NORMAL 0 0 [], lcb_link 4 4 .L2CAP_PRIORITY_NORMAL 0 0 [],
     lcb_link 5 5 .L2CAP_PRIORITY_NORMAL 0 0 []]

/-- A single low priority link on a controller that reports no buffer. -/
def l2cb_no_buffer : tL2C_CB :=
  l2cb_with 0 0 [lcb_link 1 1 .L2CAP_PRIORITY_NORMAL 0 0 []]

/-- The first redistribution scenario after `l2c_link_adjust_allocation`. -/
def l2cb_redistribution_3_after : tL2C_CB :=
  l2cb_with 10 10
    [lcb_link 1 1 .L2CAP_PRIORITY_HIGH 5 0 [], lcb_link 2 2 .L2CAP_PRIORITY_NORMAL 2 0 [],
     lcb_link 3 3 .L2CAP_PRIORITY_NORMAL 2 0 [], lcb_link 4 4 .L2CAP_PRIORITY_NORMAL 1 0 []]

/-- Collaborators that never hold a link back: constants of a build with three
channel priorities, the power mode read is always active, no channel is flow
controlled and the segmenters have nothing to hand out. -/
def ext_idle : tEXT :=
  { L2C_DEF_NUM_BLE_BUF_SHARED := 0, L2CAP_NUM_CHNL_PRIORITY := 3,
    L2CAP_FIRST_FIXED_CHNL := 3,
    L2CAP_GET_PRIORITY_QUOTA := fun pri => (3 - pri) * 5,
    BTM_ReadPowerMode := fun _ => some tBTM_PM_MODE.BTM_PM_STS_ACTIVE,
    l2c_fcr_is_flow_controlled := fun _ => false,
    l2c_fcr_get_next_xmit_sdu_seg := fun ccb => (none, ccb),
    l2c_lcc_get_next_xmit_sdu_seg := fun ccb => (none, ccb),
    l2cu_set_acl_hci_header := fun buf _ => buf,
    l2c_csm_execute := fun _ ccb => some ccb,
    l2cu_start_post_bond_timer := fun _ => false,
    l2cu_create_conn_le := fun _ => true,
    btm_sec_disconnect := fun _ => tBTM_STATUS.BTM_CMD_STARTED }

/-- A link with a quota of two, two queued buffers and two free controller
buffers. -/
def l2cb_direct_2 : tL2C_CB :=
  l2cb_with 2 2 [lcb_link 1 1 .L2CAP_PRIORITY_NORMAL 2 0 [buf_of [1], buf_of [2]]]

/-- Two links on two controller buffers: the first link had both buffers as
its quota and has two packets in flight, the second was just allocated. -/
def l2cb_quota_lowered : tL2C_CB :=
  l2cb_with 2 0
    [lcb_link 1 1 .L2CAP_PRIORITY_NORMAL 2 2 [], lcb_link 2 2 .L2CAP_PRIORITY_NORMAL 0 0 []]

/-- A controller with one classic buffer and a pool of two slots: slot 0 holds
a connected high priority link with the quota 1 that `l2c_link_adjust_allocation`
gives it, slot 1 is free. -/
def l2cb_one_buffer : tL2C_CB :=
  { l2cb_with 1 1 [lcb_link 1 1 .L2CAP_PRIORITY_HIGH 1 0 [], lcb_free] with num_used_lcbs := 1 }

/-- A controller with two classic buffers and a pool of three slots: slots 0
and 1 hold connected high priority links with the quota 1 that
`l2c_link_adjust_allocation` gives them, slot 2 is free. -/
def l2cb_two_buffers : tL2C_CB :=
  { l2cb_with 2 2
      [lcb_link 1 1 .L2CAP_PRIORITY_HIGH 1 0 [], lcb_link 2 2 .L2CAP_PRIORITY_HIGH 1 0 [],
       lcb_free] with num_used_lcbs := 2 }

/-- A channel in basic mode that waits for its link and has nothing to send. -/
def ccb_idle (slot cid : Nat) : tL2C_CCB :=
  { slot := slot, local_cid := cid, chnl_state := tL2C_CHNL_STATE.CST_CLOSED, ccb_priority := 0,
    fcr_mode := tL2CAP_FCR_MODE.L2CAP_FCR_BASIC_MODE, wait_ack := false, remote_busy := false,
    retrans_q := [], xmit_hold_q := [], credits := 0, has_tx_complete_cb := false,
    l2c_ccb_timer := none }

/-- An outgoing connect in progress: the LCB of peer 7 is connecting with one
channel waiting on it, has no controller handle, and has the quota of the four
controller buffers. -/
def l2cb_collision : tL2C_CB :=
  l2cb_with 4 4
    [{ lcb_link 7 HCI_INVALID_HANDLE .L2CAP_PRIORITY_NORMAL 4 0 [] with
        link_state := tL2C_LINK_STATE.LST_CONNECTING, ccb_queue := [ccb_idle 0 64],
        l2c_lcb_timer := some tL2C_TOUT.L2CAP_LINK_CONNECT_EXT_TIMEOUT_MS }]

/-- A connected link with handle 1, two free controller buffers, a quota of
two and one buffer `X` queued. -/
def l2cb_segment : tL2C_CB :=
  l2cb_with 2 2 [lcb_link 1 1 .L2CAP_PRIORITY_NORMAL 2 0 [buf_of [9]]]

/-- The residual segment of a fragmented packet on handle 1, as HCI returns
it: the first 16-bit word carries the handle and the packet boundary flags. -/
def buf_segment : BT_HDR :=
  { event := 0, offset := 0, layer_specific := 3, data := [1, 32, 4, 0, 5, 6, 7, 8] }

/-- The state `l2cb_one_buffer` after the link of slot 0 sent one packet and a
second BR/EDR link, to peer 2, took slot 1 of the pool; the quotas are not yet
adjusted. -/
def l2cb_one_buffer_added : tL2C_CB :=
  { set_lcb (l2c_link_check_send_pkts ext_idle l2cb_one_buffer (some 0) 64 (some (buf_of [1])))
      1 { lcb_free with in_use := true, remote_bd_addr := 2 } with num_used_lcbs := 2 }

/-- The state `l2cb_two_buffers` after the link of slot 0 sent one packet and a
third BR/EDR link, to peer 3, took slot 2 of the pool; the quotas are not yet
adjusted. -/
def l2cb_two_buffers_added : tL2C_CB :=
  { set_lcb (l2c_link_check_send_pkts ext_idle l2cb_two_buffers (some 0) 64 (some (buf_of [1])))
      2 { lcb_free with in_use := true, remote_bd_addr := 3 } with num_used_lcbs := 3 }

/-- One connected link and one free slot, on four controller buffers. -/
def l2cb_incoming : tL2C_CB :=
  { l2cb_with 4 4 [lcb_link 1 1 .L2CAP_PRIORITY_NORMAL 4 0 [], lcb_free] with num_used_lcbs := 1 }

/-- Two links without a controller handle: the LCB of peer 1 is connecting with
one channel waiting on it, the LCB of peer 2 is held back. -/
def l2cb_two_pending : tL2C_CB :=
  l2cb_with 4 4
    [{ lcb_link 1 HCI_INVALID_HANDLE .L2CAP_PRIORITY_NORMAL 2 0 [] with
        link_state := tL2C_LINK_STATE.LST_CONNECTING, ccb_queue := [ccb_idle 0 64] },
     { lcb_link 2 HCI_INVALID_HANDLE .L2CAP_PRIORITY_NORMAL 2 0 [] with
        link_state := tL2C_LINK_STATE.LST_CONNECT_HOLDING, ccb_queue := [ccb_idle 1 65] }]

/-- A connected link with handle 1 and the held back LCB of peer 2. -/
def l2cb_held : tL2C_CB :=
  l2cb_with 4 4
    [lcb_link 1 1 .L2CAP_PRIORITY_NORMAL 2 0 [],
     { lcb_link 2 HCI_INVALID_HANDLE .L2CAP_PRIORITY_NORMAL 2 0 [] with
        link_state := tL2C_LINK_STATE.LST_CONNECT_HOLDING, ccb_queue := [ccb_idle 1 65] }]

/-- A connected LE link with handle 64, one channel, one bound fixed channel
and one queued buffer. -/
def l2cb_le_link : tL2C_CB :=
  l2cb_with 4 4
    [{ lcb_link 5 64 .L2CAP_PRIORITY_NORMAL 0 0 [buf_of [1]] with
        transport := tBT_TRANSPORT.BT_TRANSPORT_LE, ccb_queue := [ccb_idle 0 64],
        p_fixed_ccbs := [some (ccb_idle 9 4)] }]

/-- The link of `l2cb_le_link` on the BR/EDR transport. -/
def l2cb_br_edr_link : tL2C_CB :=
  l2cb_with 4 4
    [{ lcb_link 5 64 .L2CAP_PRIORITY_NORMAL 4 0 [buf_of [1]] with
        ccb_queue := [ccb_idle 0 64], p_fixed_ccbs := [some (ccb_idle 9 4)] }]

/-- A connected link with handle 1 and no channel. -/
def l2cb_idle_link : tL2C_CB :=
  l2cb_with 4 4 [lcb_link 1 1 .L2CAP_PRIORITY_NORMAL 4 0 []]

/-- A controller window at the top of its 16-bit range: one link with handle 1
and nothing in flight. -/
def l2cb_window_top : tL2C_CB :=
  l2cb_with 65535 65535 [lcb_link 1 1 .L2CAP_PRIORITY_NORMAL 4 0 []]

/-- A link with handle 1, a quota of 4, three packets in flight and one free
controller buffer. -/
def l2cb_in_flight : tL2C_CB :=
  l2cb_with 4 1 [lcb_link 1 1 .L2CAP_PRIORITY_NORMAL 4 3 []]

/-- Round-robin service on two controller buffers: two connected links without
a quota of their own share a round-robin quota of two; the second has one
buffer queued. -/
def l2cb_rr_two : tL2C_CB :=
  { l2cb_with 2 2
      [lcb_link 1 1 .L2CAP_PRIORITY_NORMAL 0 0 [],
       lcb_link 2 2 .L2CAP_PRIORITY_NORMAL 0 0 [buf_of [2]]] with
    round_robin_quota := 2 }

/-- A round-robin BR/EDR link at slot 0 followed by an LE link at slot 1, with
the classic round-robin flag set, two free classic buffers and a classic
round-robin quota of two. -/
def l2cb_rr_mixed : tL2C_CB :=
  { l2cb_with 2 2
      [lcb_link 1 1 .L2CAP_PRIORITY_NORMAL 0 0 [],
       { lcb_link 2 2 .L2CAP_PRIORITY_NORMAL 0 0 [] with
          transport := tBT_TRANSPORT.BT_TRANSPORT_LE }] with
    round_robin_quota := 2, check_round_robin := true }

/-- An open channel of priority group `pri` in basic mode, with one buffer of
outbound data and no LE credits. -/
def ccb_ready (slot pri : Nat) : tL2C_CCB :=
  { ccb_idle slot (64 + slot) with
    chnl_state := tL2C_CHNL_STATE.CST_OPEN, ccb_priority := pri, xmit_hold_q := [buf_of [slot]] }

/-- An LE link with a quota of two whose only channel has data queued and no
credits left. -/
def lcb_le_no_credit : tL2C_LCB :=
  { lcb_link 1 1 .L2CAP_PRIORITY_NORMAL 2 0 [] with
    transport := tBT_TRANSPORT.BT_TRANSPORT_LE, ccb_queue := [ccb_ready 0 0], rr_pri := 0,
    rr_serv := [⟨some 0, some 0, 1, 5⟩, ⟨none, none, 0, 0⟩, ⟨none, none, 0, 0⟩] }

/-- A classic link with one channel with data in each of the priority groups 0
and 1; group 0 is being served and has one unit of its quota left. -/
def lcb_two_groups : tL2C_LCB :=
  { lcb_link 1 1 .L2CAP_PRIORITY_NORMAL 2 0 [] with
    ccb_queue := [ccb_ready 0 0, ccb_ready 1 1], rr_pri := 0,
    rr_serv := [⟨some 0, some 0, 1, 1⟩, ⟨some 1, some 1, 1, 10⟩, ⟨none, none, 0, 0⟩] }

/-- A connected link with a quota of two, nothing in flight and three buffers
queued. -/
def lcb_three_queued : tL2C_LCB :=
  lcb_link 1 1 .L2CAP_PRIORITY_NORMAL 2 0 [buf_of [1], buf_of [2], buf_of [3]]

/-- The link with three buffers queued on a controller with one free buffer out
of two. -/
def l2cb_direct_short : tL2C_CB :=
  l2cb_with 2 1 [lcb_three_queued]

/-- Round-robin service on three controller buffers: three connected links
without a quota of their own share a round-robin quota of three; the second has
nothing queued and the third has one buffer queued. -/
def l2cb_rr_three : tL2C_CB :=
  { l2cb_with 3 3
      [lcb_link 1 1 .L2CAP_PRIORITY_NORMAL 0 0 [],
       lcb_link 2 2 .L2CAP_PRIORITY_NORMAL 0 0 [],
       lcb_link 3 3 .L2CAP_PRIORITY_NORMAL 0 0 [buf_of [3]]] with
    round_robin_quota := 3 }

/-! ## Lemmas on the quota assignment -/

theorem lower_high_pri_quota_spec (H low B : Nat) (hlow : low ≤ B) :
    ∀ (q0 fuel : Nat), q0 < fuel → q0 < 65536 →
      ∃ q, lower_high_pri_quota H low B fuel q0 = some q ∧ q ≤ q0 ∧ H * q + low ≤ B ∧
        ∀ q', q' ≤ q0 → H * q' + low ≤ B → q' ≤ q := by
  intro q0
  induction q0 with
  | zero =>
    intro fuel hf _
    obtain ⟨f, rfl⟩ : ∃ f, fuel = f + 1 := ⟨fuel - 1, by omega⟩
    refine ⟨0, ?_, le_refl _, by simpa using hlow, fun q' h _ => h⟩
    simp [lower_high_pri_quota]
    omega
  | succ q ih =>
    intro fuel hf hq
    obtain ⟨f, rfl⟩ : ∃ f, fuel = f + 1 := ⟨fuel - 1, by omega⟩
    by_cases hc : H * (q + 1) + low > B
    · have hq' : (q + 1 + 65535) % 65536 = q := by omega
      obtain ⟨r, hr, hle, hprop, hmax⟩ := ih f (by omega) (by omega)
      refine ⟨r, ?_, by omega, hprop, ?_⟩
      · simp only [lower_high_pri_quota, hc, if_true, hq', hr]
      · intro q' h1 h2
        by_cases he : q' = q + 1
        · subst he; omega
        · exact hmax q' (by omega) h2
    · refine ⟨q + 1, ?_, le_refl _, by omega, fun q' h _ => h⟩
      simp only [lower_high_pri_quota, hc, if_false]

theorem lower_high_pri_quota_no_buffer (H : Nat) :
    ∀ (fuel q0 : Nat), lower_high_pri_quota H 1 0 fuel q0 = none := by
  intro fuel
  induction fuel with
  | zero => intro q0; rfl
  | succ f ih =>
    intro q0
    have hc : H * q0 + 1 > 0 := by omega
    simp only [lower_high_pri_quota, hc, if_true, ih]

@[simp] theorem adjust_arm_timer_quota (l : tL2C_LCB) :
    (adjust_arm_timer l).link_xmit_quota = l.link_xmit_quota := by
  unfold adjust_arm_timer; split <;> rfl

@[simp] theorem adjust_arm_timer_sna (l : tL2C_LCB) :
    (adjust_arm_timer l).sent_not_acked = l.sent_not_acked := by
  unfold adjust_arm_timer; split <;> rfl

@[simp] theorem adjust_arm_timer_priority (l : tL2C_LCB) :
    (adjust_arm_timer l).acl_priority = l.acl_priority := by
  unfold adjust_arm_timer; split <;> rfl

@[simp] theorem adjust_arm_timer_eligible (sh : Bool) (l : tL2C_LCB) :
    adjust_eligible sh (adjust_arm_timer l) = adjust_eligible sh l := by
  unfold adjust_arm_timer adjust_eligible; split <;> rfl

theorem adjust_arm_timer_idem (l : tL2C_LCB) (q : Nat) :
    adjust_arm_timer { adjust_arm_timer { l with link_xmit_quota := q } with
      link_xmit_quota := q } = adjust_arm_timer { l with link_xmit_quota := q } := by
  unfold adjust_arm_timer
  split <;> simp_all

theorem assign_quotas_length (sh : Bool) (qh qq : Nat) :
    ∀ (pool : List tL2C_LCB) (rem rru : Nat),
      (assign_quotas sh qh qq pool rem rru).1.length = pool.length := by
  intro pool
  induction pool with
  | nil => intro rem rru; rfl
  | cons l rest ih =>
    intro rem rru
    simp only [assign_quotas]
    split
    · split <;> simp [ih]
    · simp [ih]

theorem assigned_lcb_shift (sh : Bool) (qh qq c rem : Nat) :
    assigned_lcb sh qh qq c (if 0 < rem then rem - 1 else rem) =
      assigned_lcb sh qh qq (c + 1) rem := by
  funext l
  have h : (c < (if 0 < rem then rem - 1 else rem)) ↔ (c + 1 < rem) := by
    split <;> omega
  simp only [assigned_lcb, h]

theorem assign_quotas_get (sh : Bool) (qh qq : Nat) :
    ∀ (pool : List tL2C_LCB) (rem rru k : Nat),
      (assign_quotas sh qh qq pool rem rru).1[k]? =
        (pool[k]?).map (assigned_lcb sh qh qq (count_lowpri_links sh (pool.take k)) rem) := by
  intro pool
  induction pool with
  | nil => intro rem rru k; simp [assign_quotas]
  | cons l rest ih =>
    intro rem rru k
    cases k with
    | zero =>
      simp only [assign_quotas]
      split
      · split <;> simp_all [assigned_lcb, count_lowpri_links]
      · simp_all [assigned_lcb, count_lowpri_links]
    | succ k =>
      simp only [assign_quotas]
      split
      · split
        · simp_all [assigned_lcb, count_lowpri_links]
        · simp_all [count_lowpri_links, assigned_lcb_shift]
      · simp_all [assigned_lcb, count_lowpri_links]

@[simp] theorem adjust_eligible_mk (sh : Bool) (a1 : Bool) (a2 : tL2C_LINK_STATE) (a3 : Nat)
    (a4 : tBT_TRANSPORT) (a5 : Nat) (a6 : tL2CAP_PRIORITY) (a7 : Bool) (a8 : tHCI_STATUS)
    (a9 a10 : Nat)
    (a11 : List BT_HDR) (a12 : List tL2C_CCB) (a13 : List (Option tL2C_CCB)) (a14 : Option Nat)
    (a15 : Nat) (a16 : List tL2C_RR_SERV) (a17 : Bool) (a18 a19 : Option tL2C_TOUT) :
    adjust_eligible sh ⟨a1, a2, a3, a4, a5, a6, a7, a8, a9, a10, a11, a12, a13, a14, a15, a16,
      a17, a18, a19⟩ = (a1 && (sh || a4 != tBT_TRANSPORT.BT_TRANSPORT_LE)) := rfl

theorem adjust_eligible_def (sh : Bool) (l : tL2C_LCB) :
    adjust_eligible sh l = (l.in_use && (sh || l.transport != tBT_TRANSPORT.BT_TRANSPORT_LE)) :=
  rfl

theorem assign_quotas_unacked (sh : Bool) (qh qq : Nat) (hqq : qq ≠ 0) :
    ∀ (pool : List tL2C_LCB) (rem rru : Nat),
      (assign_quotas sh qh qq pool rem rru).2 = rru := by
  intro pool
  induction pool with
  | nil => intro rem rru; rfl
  | cons l rest ih =>
    intro rem rru
    simp only [assign_quotas]
    split
    · split <;> simp [ih, hqq]
    · simp [ih]

theorem assign_quotas_count_hipri (sh : Bool) (qh qq : Nat) :
    ∀ (pool : List tL2C_LCB) (rem rru : Nat),
      count_hipri_links sh (assign_quotas sh qh qq pool rem rru).1 =
        count_hipri_links sh pool := by
  intro pool
  induction pool with
  | nil => intro rem rru; rfl
  | cons l rest ih =>
    intro rem rru
    by_cases he : adjust_eligible sh l = true
    · by_cases hp : l.acl_priority = tL2CAP_PRIORITY.L2CAP_PRIORITY_HIGH
      · simp [assign_quotas, count_hipri_links, he, hp, ih, ← adjust_eligible_def]
      · simp [assign_quotas, count_hipri_links, he, hp, ih, ← adjust_eligible_def]
    · simp [assign_quotas, count_hipri_links, he, ih]

theorem assign_quotas_count_lowpri (sh : Bool) (qh qq : Nat) :
    ∀ (pool : List tL2C_LCB) (rem rru : Nat),
      count_lowpri_links sh (assign_quotas sh qh qq pool rem rru).1 =
        count_lowpri_links sh pool := by
  intro pool
  induction pool with
  | nil => intro rem rru; rfl
  | cons l rest ih =>
    intro rem rru
    by_cases he : adjust_eligible sh l = true
    · by_cases hp : l.acl_priority = tL2CAP_PRIORITY.L2CAP_PRIORITY_HIGH
      · simp [assign_quotas, count_lowpri_links, he, hp, ih, ← adjust_eligible_def]
      · simp [assign_quotas, count_lowpri_links, he, hp, ih, ← adjust_eligible_def]
    · simp [assign_quotas, count_lowpri_links, he, ih]

theorem assign_quotas_idem (sh : Bool) (qh qq : Nat) (hqq : qq ≠ 0) :
    ∀ (pool : List tL2C_LCB) (rem rru rru' : Nat),
      assign_quotas sh qh qq (assign_quotas sh qh qq pool rem rru).1 rem rru' =
        ((assign_quotas sh qh qq pool rem rru).1, rru') := by
  intro pool
  induction pool with
  | nil => intro rem rru rru'; rfl
  | cons l rest ih =>
    intro rem rru rru'
    by_cases he : adjust_eligible sh l = true
    · by_cases hp : l.acl_priority = tL2CAP_PRIORITY.L2CAP_PRIORITY_HIGH
      · have h1 : adjust_eligible sh (adjust_arm_timer { l with link_xmit_quota := qh }) = true := by
          rw [adjust_arm_timer_eligible]; exact he
        have h2 : (adjust_arm_timer { l with link_xmit_quota := qh }).acl_priority =
            tL2CAP_PRIORITY.L2CAP_PRIORITY_HIGH := by simpa using hp
        rw [assign_quotas, if_pos he, if_pos hp]
        simp only []
        rw [assign_quotas, if_pos h1, if_pos h2]
        simp only [ih, adjust_arm_timer_idem]
      · generalize hq : (if rem > 0 then (qq + 1) % 65536 else qq) = q
        have h1 : adjust_eligible sh (adjust_arm_timer { l with link_xmit_quota := q }) = true := by
          rw [adjust_arm_timer_eligible]; exact he
        have h2 : ¬ (adjust_arm_timer { l with link_xmit_quota := q }).acl_priority =
            tL2CAP_PRIORITY.L2CAP_PRIORITY_HIGH := by simpa using hp
        rw [assign_quotas, if_pos he, if_neg hp]
        simp only [hq]
        rw [assign_quotas, if_pos h1, if_neg h2]
        simp only [ih, hq, adjust_arm_timer_idem, hqq, and_false, if_false]
    · rw [assign_quotas, if_neg he]
      simp only []
      rw [assign_quotas, if_neg he]
      simp only [ih]

@[simp] theorem adjust_is_share_buffer_mk (shared : Nat) (a1 : List tL2C_LCB) (a2 a3 a4 a5 a6 a7 a8 a9 a10 : Nat)
    (a11 a12 a13 : Bool) (a14 : List tHCI_PKT) (a15 : List tCALL) :
    adjust_is_share_buffer shared ⟨a1, a2, a3, a4, a5, a6, a7, a8, a9, a10, a11, a12, a13, a14, a15⟩ =
      decide (a4 = shared) := rfl

theorem adjust_is_share_buffer_def (shared : Nat) (s : tL2C_CB) :
    adjust_is_share_buffer shared s = decide (s.num_lm_ble_bufs = shared) := rfl

theorem lower_high_pri_quota_some (H low B : Nat) :
    ∀ (fuel q0 q : Nat), lower_high_pri_quota H low B fuel q0 = some q → H * q + low ≤ B := by
  intro fuel
  induction fuel with
  | zero => intro q0 q h; simp [lower_high_pri_quota] at h
  | succ f ih =>
    intro q0 q h
    by_cases hc : H * q0 + low > B
    · simp only [lower_high_pri_quota, hc, if_true] at h
      exact ih _ _ h
    · simp only [lower_high_pri_quota, hc, if_false] at h
      cases h
      omega

/-- Shape of the result of `l2c_link_adjust_allocation` when links are in use:
the pool is the one written by the second loop, run with the quota `qq` and the
remainder `rem` of the branch taken. -/
theorem adjust_allocation_some (shared fuel : Nat) (s s' : tL2C_CB)
    (hu : s.num_used_lcbs ≠ 0)
    (h : l2c_link_adjust_allocation shared fuel s = some s') :
    ∃ q qq rem rru,
      lower_high_pri_quota (count_hipri_links (adjust_is_share_buffer shared s) s.lcb_pool)
        (if count_lowpri_links (adjust_is_share_buffer shared s) s.lcb_pool ≠ 0 then 1 else 0)
        s.num_lm_acl_bufs fuel L2CAP_HIGH_PRI_MIN_XMIT_QUOTA_A = some q ∧
      s'.lcb_pool = (assign_quotas (adjust_is_share_buffer shared s) q qq s.lcb_pool rem rru).1 ∧
      s'.round_robin_unacked =
        (assign_quotas (adjust_is_share_buffer shared s) q qq s.lcb_pool rem rru).2 ∧
      s'.controller_xmit_window = s.controller_xmit_window ∧
      s'.num_lm_acl_bufs = s.num_lm_acl_bufs ∧
      (count_lowpri_links (adjust_is_share_buffer shared s) s.lcb_pool >
          adjust_low_quota
            (count_hipri_links (adjust_is_share_buffer shared s) s.lcb_pool * q % 65536)
            s.num_lm_acl_bufs →
        qq = 1 ∧ rem = 1 ∧ rru = s.round_robin_unacked ∧
        s'.round_robin_quota = adjust_low_quota
            (count_hipri_links (adjust_is_share_buffer shared s) s.lcb_pool * q % 65536)
            s.num_lm_acl_bufs) ∧
      (¬ count_lowpri_links (adjust_is_share_buffer shared s) s.lcb_pool >
          adjust_low_quota
            (count_hipri_links (adjust_is_share_buffer shared s) s.lcb_pool * q % 65536)
            s.num_lm_acl_bufs →
        rru = 0 ∧ s'.round_robin_quota = 0 ∧
        (count_lowpri_links (adjust_is_share_buffer shared s) s.lcb_pool > 0 →
          qq = adjust_low_quota
            (count_hipri_links (adjust_is_share_buffer shared s) s.lcb_pool * q % 65536)
            s.num_lm_acl_bufs /
              count_lowpri_links (adjust_is_share_buffer shared s) s.lcb_pool ∧
          rem = adjust_low_quota
            (count_hipri_links (adjust_is_share_buffer shared s) s.lcb_pool * q % 65536)
            s.num_lm_acl_bufs %
              count_lowpri_links (adjust_is_share_buffer shared s) s.lcb_pool) ∧
        (count_lowpri_links (adjust_is_share_buffer shared s) s.lcb_pool = 0 →
          qq = 1 ∧ rem = 1)) := by
  unfold l2c_link_adjust_allocation at h
  simp only [hu, if_false] at h
  split at h
  · cases h
  · rename_i q hq
    split at h
    · rename_i hrr
      cases h
      exact ⟨q, 1, 1, s.round_robin_unacked, hq, rfl, rfl, rfl, rfl,
        fun _ => ⟨rfl, rfl, rfl, rfl⟩, fun hn => absurd hrr hn⟩
    · rename_i hrr
      split at h
      · rename_i hlow
        cases h
        exact ⟨q, _, _, 0, hq, rfl, rfl, rfl, rfl, fun hp => absurd hp hrr,
          fun _ => ⟨rfl, rfl, fun _ => ⟨rfl, rfl⟩, fun h0 => by omega⟩⟩
      · rename_i hlow
        cases h
        exact ⟨q, 1, 1, 0, hq, rfl, rfl, rfl, rfl, fun hp => absurd hp hrr,
          fun _ => ⟨rfl, rfl, fun hp => absurd hp hlow, fun _ => ⟨rfl, rfl⟩⟩⟩

/-! ## Quota assignment: the claims -/

/-- C5 (amended): when no low priority link is eligible or the controller has
at least one buffer, `l2c_link_adjust_allocation` returns (with any fuel above
`L2CAP_HIGH_PRI_MIN_XMIT_QUOTA_A`) and the quota `q` it gives every eligible
high priority link satisfies `H * q + (1 if L > 0 else 0) ≤ B` and is the
largest value not exceeding `L2CAP_HIGH_PRI_MIN_XMIT_QUOTA_A` that does. -/
theorem adjust_allocation_high_pri_quota (shared fuel : Nat) (s : tL2C_CB)
    (hused : s.num_used_lcbs ≠ 0)
    (hbuf : count_lowpri_links (adjust_is_share_buffer shared s) s.lcb_pool = 0 ∨
      1 ≤ s.num_lm_acl_bufs)
    (hfuel : L2CAP_HIGH_PRI_MIN_XMIT_QUOTA_A < fuel) :
    ∃ q s', l2c_link_adjust_allocation shared fuel s = some s' ∧
      q ≤ L2CAP_HIGH_PRI_MIN_XMIT_QUOTA_A ∧
      count_hipri_links (adjust_is_share_buffer shared s) s.lcb_pool * q +
        (if count_lowpri_links (adjust_is_share_buffer shared s) s.lcb_pool > 0 then 1 else 0) ≤
          s.num_lm_acl_bufs ∧
      (∀ q', q' ≤ L2CAP_HIGH_PRI_MIN_XMIT_QUOTA_A →
        count_hipri_links (adjust_is_share_buffer shared s) s.lcb_pool * q' +
          (if count_lowpri_links (adjust_is_share_buffer shared s) s.lcb_pool > 0 then 1 else 0) ≤
            s.num_lm_acl_bufs → q' ≤ q) ∧
      ∀ (k : Nat) (lcb : tL2C_LCB), s.lcb_pool[k]? = some lcb →
        adjust_eligible (adjust_is_share_buffer shared s) lcb = true →
        lcb.acl_priority = tL2CAP_PRIORITY.L2CAP_PRIORITY_HIGH →
        ∃ lcb' : tL2C_LCB, s'.lcb_pool[k]? = some lcb' ∧ lcb'.link_xmit_quota = q := by
  have hlow : (if count_lowpri_links (adjust_is_share_buffer shared s) s.lcb_pool ≠ 0 then 1
      else 0) ≤ s.num_lm_acl_bufs := by
    split <;> omega
  obtain ⟨q, hq, hle, hprop, hmax⟩ := lower_high_pri_quota_spec
    (count_hipri_links (adjust_is_share_buffer shared s) s.lcb_pool) _ _ hlow
    L2CAP_HIGH_PRI_MIN_XMIT_QUOTA_A fuel hfuel (by decide)
  have hterm : ∃ s', l2c_link_adjust_allocation shared fuel s = some s' := by
    unfold l2c_link_adjust_allocation
    simp only [hused, if_false, hq]
    split
    · exact ⟨_, rfl⟩
    · split <;> exact ⟨_, rfl⟩
  obtain ⟨s', hs'⟩ := hterm
  obtain ⟨q1, qq, rem, rru, hq1, hpool, -⟩ := adjust_allocation_some shared fuel s s' hused hs'
  rw [hq] at hq1
  cases hq1
  have hite : (if count_lowpri_links (adjust_is_share_buffer shared s) s.lcb_pool > 0 then 1
      else 0) = (if count_lowpri_links (adjust_is_share_buffer shared s) s.lcb_pool ≠ 0 then 1
      else 0) := by
    split <;> split <;> omega
  refine ⟨q, s', hs', hle, by rw [hite]; exact hprop, ?_, ?_⟩
  · intro q' h1 h2
    rw [hite] at h2
    exact hmax q' h1 h2
  · intro k lcb hk he hp
    refine ⟨assigned_lcb (adjust_is_share_buffer shared s) q qq
      (count_lowpri_links (adjust_is_share_buffer shared s) (s.lcb_pool.take k)) rem lcb, ?_, ?_⟩
    · rw [hpool, assign_quotas_get, hk]; rfl
    · simp [assigned_lcb, he, hp]

/-- C5, witness: one high priority and three low priority links on ten
buffers. -/
theorem adjust_allocation_high_pri_quota_witness :
    l2cb_redistribution_3.num_used_lcbs ≠ 0 ∧
    (count_lowpri_links (adjust_is_share_buffer 0 l2cb_redistribution_3)
        l2cb_redistribution_3.lcb_pool = 0 ∨ 1 ≤ l2cb_redistribution_3.num_lm_acl_bufs) ∧
    L2CAP_HIGH_PRI_MIN_XMIT_QUOTA_A < 6 ∧
    ∃ q s', l2c_link_adjust_allocation 0 6 l2cb_redistribution_3 = some s' ∧
      q ≤ L2CAP_HIGH_PRI_MIN_XMIT_QUOTA_A ∧
      count_hipri_links (adjust_is_share_buffer 0 l2cb_redistribution_3)
          l2cb_redistribution_3.lcb_pool * q +
        (if count_lowpri_links (adjust_is_share_buffer 0 l2cb_redistribution_3)
          l2cb_redistribution_3.lcb_pool > 0 then 1 else 0) ≤
          l2cb_redistribution_3.num_lm_acl_bufs ∧
      (∀ q', q' ≤ L2CAP_HIGH_PRI_MIN_XMIT_QUOTA_A →
        count_hipri_links (adjust_is_share_buffer 0 l2cb_redistribution_3)
            l2cb_redistribution_3.lcb_pool * q' +
          (if count_lowpri_links (adjust_is_share_buffer 0 l2cb_redistribution_3)
            l2cb_redistribution_3.lcb_pool > 0 then 1 else 0) ≤
            l2cb_redistribution_3.num_lm_acl_bufs → q' ≤ q) ∧
      ∀ (k : Nat) (lcb : tL2C_LCB), l2cb_redistribution_3.lcb_pool[k]? = some lcb →
        adjust_eligible (adjust_is_share_buffer 0 l2cb_redistribution_3) lcb = true →
        lcb.acl_priority = tL2CAP_PRIORITY.L2CAP_PRIORITY_HIGH →
        ∃ lcb' : tL2C_LCB, s'.lcb_pool[k]? = some lcb' ∧ lcb'.link_xmit_quota = q :=
  ⟨by decide, Or.inr (by decide), by decide,
    adjust_allocation_high_pri_quota 0 6 l2cb_redistribution_3 (by decide) (Or.inr (by decide))
      (by decide)⟩

/-- C5, counterexample: with a low priority link in use and a controller
buffer count of 0 no value satisfies `H * q + 1 ≤ B`, and the quota loop of
`l2c_link_adjust_allocation` is never left: no amount of fuel yields a
result. -/
theorem adjust_allocation_high_pri_quota_no_buffer :
    ¬ ∃ fuel s', l2c_link_adjust_allocation 0 fuel l2cb_no_buffer = some s' := by
  rintro ⟨fuel, s', h⟩
  have hn := lower_high_pri_quota_no_buffer 0 fuel L2CAP_HIGH_PRI_MIN_XMIT_QUOTA_A
  obtain ⟨q, -, -, -, hq, -⟩ := adjust_allocation_some 0 fuel _ s' (by decide) h
  have e1 : count_hipri_links (adjust_is_share_buffer 0 l2cb_no_buffer)
      l2cb_no_buffer.lcb_pool = 0 := by decide
  have e2 : count_lowpri_links (adjust_is_share_buffer 0 l2cb_no_buffer)
      l2cb_no_buffer.lcb_pool = 1 := by decide
  have e3 : l2cb_no_buffer.num_lm_acl_bufs = 0 := rfl
  rw [e1, e2, e3] at hq
  simp only [ne_eq, one_ne_zero, not_false_eq_true, if_true] at hq
  rw [hn] at hq
  cases hq

/-- C6: when `0 < L ≤ low_total`, `l2c_link_adjust_allocation` leaves every
`sent_not_acked` as it was, gives every eligible high priority LCB the quota
`q`, and gives the eligible low priority LCB preceded by `i` eligible low
priority LCBs in the pool the quota `low_total / L`, plus one when
`i < low_total % L`. -/
theorem adjust_allocation_low_pri_quota (shared fuel q : Nat) (s s' : tL2C_CB)
    (hused : s.num_used_lcbs ≠ 0)
    (hB : s.num_lm_acl_bufs < 65536)
    (h : l2c_link_adjust_allocation shared fuel s = some s')
    (hq : lower_high_pri_quota (count_hipri_links (adjust_is_share_buffer shared s) s.lcb_pool) 1
      s.num_lm_acl_bufs fuel L2CAP_HIGH_PRI_MIN_XMIT_QUOTA_A = some q)
    (hL : 0 < count_lowpri_links (adjust_is_share_buffer shared s) s.lcb_pool)
    (hle : count_lowpri_links (adjust_is_share_buffer shared s) s.lcb_pool ≤
      adjust_low_quota (count_hipri_links (adjust_is_share_buffer shared s) s.lcb_pool * q)
        s.num_lm_acl_bufs) :
    ∀ (k : Nat) (lcb : tL2C_LCB), s.lcb_pool[k]? = some lcb →
      ∃ lcb' : tL2C_LCB, s'.lcb_pool[k]? = some lcb' ∧
        lcb'.sent_not_acked = lcb.sent_not_acked ∧
        (adjust_eligible (adjust_is_share_buffer shared s) lcb = true →
          (lcb.acl_priority = tL2CAP_PRIORITY.L2CAP_PRIORITY_HIGH → lcb'.link_xmit_quota = q) ∧
          (lcb.acl_priority ≠ tL2CAP_PRIORITY.L2CAP_PRIORITY_HIGH →
            lcb'.link_xmit_quota =
              adjust_low_quota
                  (count_hipri_links (adjust_is_share_buffer shared s) s.lcb_pool * q)
                  s.num_lm_acl_bufs /
                count_lowpri_links (adjust_is_share_buffer shared s) s.lcb_pool +
              (if count_lowpri_links (adjust_is_share_buffer shared s) (s.lcb_pool.take k) <
                  adjust_low_quota
                      (count_hipri_links (adjust_is_share_buffer shared s) s.lcb_pool * q)
                      s.num_lm_acl_bufs %
                    count_lowpri_links (adjust_is_share_buffer shared s) s.lcb_pool
                then 1 else 0))) := by
  intro k lcb hk
  have hne : count_lowpri_links (adjust_is_share_buffer shared s) s.lcb_pool ≠ 0 := by omega
  obtain ⟨q1, qq, rem, rru, hq1, hpool, -, -, -, -, hdiv⟩ :=
    adjust_allocation_some shared fuel s s' hused h
  simp only [hne, ne_eq, not_false_eq_true, if_true] at hq1
  rw [hq] at hq1
  cases hq1
  have hsum := lower_high_pri_quota_some _ _ _ _ _ _ hq
  have hmod : count_hipri_links (adjust_is_share_buffer shared s) s.lcb_pool * q % 65536 =
      count_hipri_links (adjust_is_share_buffer shared s) s.lcb_pool * q :=
    Nat.mod_eq_of_lt (by omega)
  rw [hmod] at hdiv
  obtain ⟨-, -, hqq, -⟩ := hdiv (by omega)
  obtain ⟨hqq, hrem⟩ := hqq hL
  refine ⟨assigned_lcb (adjust_is_share_buffer shared s) q qq
    (count_lowpri_links (adjust_is_share_buffer shared s) (s.lcb_pool.take k)) rem lcb, ?_, ?_, ?_⟩
  · rw [hpool, assign_quotas_get, hk]; rfl
  · unfold assigned_lcb
    split
    · split <;> simp
    · rfl
  · intro he
    refine ⟨fun hp => by simp [assigned_lcb, he, hp], fun hp => ?_⟩
    simp only [assigned_lcb, he, hp, if_true, if_false, adjust_arm_timer_quota]
    rw [← hqq, ← hrem]
    split
    · rename_i hlt
      have h2 : 2 ≤ count_lowpri_links (adjust_is_share_buffer shared s) s.lcb_pool := by
        by_contra hc
        have h1 : count_lowpri_links (adjust_is_share_buffer shared s) s.lcb_pool = 1 := by
          omega
        rw [h1, Nat.mod_one] at hrem
        omega
      have h3 := Nat.div_mul_le_self
        (adjust_low_quota (count_hipri_links (adjust_is_share_buffer shared s) s.lcb_pool * q)
          s.num_lm_acl_bufs)
        (count_lowpri_links (adjust_is_share_buffer shared s) s.lcb_pool)
      rw [← hqq] at h3
      have h4 : qq * 2 ≤ qq * count_lowpri_links (adjust_is_share_buffer shared s) s.lcb_pool :=
        Nat.mul_le_mul_left qq h2
      have h5 : adjust_low_quota
          (count_hipri_links (adjust_is_share_buffer shared s) s.lcb_pool * q)
          s.num_lm_acl_bufs < 65536 := by
        unfold adjust_low_quota
        split <;> omega
      have h6 : (qq + 1) % 65536 = qq + 1 := Nat.mod_eq_of_lt (by omega)
      rw [h6]
    · rfl

/-- C6, witness: the quota redistribution scenario.  Ten buffers, one high
priority and three low priority links give the quotas 5, 2, 2, 1; with a
fourth low priority link they give 5, 2, 1, 1, 1. -/
theorem adjust_allocation_low_pri_quota_witness :
    l2cb_redistribution_3.num_used_lcbs ≠ 0 ∧ l2cb_redistribution_3.num_lm_acl_bufs < 65536 ∧
    l2c_link_adjust_allocation 0 6 l2cb_redistribution_3 = some l2cb_redistribution_3_after ∧
    lower_high_pri_quota (count_hipri_links (adjust_is_share_buffer 0 l2cb_redistribution_3) l2cb_redistribution_3.lcb_pool) 1
      l2cb_redistribution_3.num_lm_acl_bufs 6 L2CAP_HIGH_PRI_MIN_XMIT_QUOTA_A = some 5 ∧
    0 < count_lowpri_links (adjust_is_share_buffer 0 l2cb_redistribution_3) l2cb_redistribution_3.lcb_pool ∧
    count_lowpri_links (adjust_is_share_buffer 0 l2cb_redistribution_3) l2cb_redistribution_3.lcb_pool ≤
      adjust_low_quota (count_hipri_links (adjust_is_share_buffer 0 l2cb_redistribution_3) l2cb_redistribution_3.lcb_pool * 5) l2cb_redistribution_3.num_lm_acl_bufs ∧
    (∀ (k : Nat) (lcb : tL2C_LCB), l2cb_redistribution_3.lcb_pool[k]? = some lcb →
      ∃ lcb' : tL2C_LCB, l2cb_redistribution_3_after.lcb_pool[k]? = some lcb' ∧
        lcb'.sent_not_acked = lcb.sent_not_acked ∧
        (adjust_eligible (adjust_is_share_buffer 0 l2cb_redistribution_3) lcb = true →
          (lcb.acl_priority = tL2CAP_PRIORITY.L2CAP_PRIORITY_HIGH → lcb'.link_xmit_quota = 5) ∧
          (lcb.acl_priority ≠ tL2CAP_PRIORITY.L2CAP_PRIORITY_HIGH →
            lcb'.link_xmit_quota =
              adjust_low_quota (count_hipri_links (adjust_is_share_buffer 0 l2cb_redistribution_3) l2cb_redistribution_3.lcb_pool * 5) l2cb_redistribution_3.num_lm_acl_bufs /
                count_lowpri_links (adjust_is_share_buffer 0 l2cb_redistribution_3) l2cb_redistribution_3.lcb_pool +
              (if count_lowpri_links (adjust_is_share_buffer 0 l2cb_redistribution_3) (l2cb_redistribution_3.lcb_pool.take k) <
                  adjust_low_quota (count_hipri_links (adjust_is_share_buffer 0 l2cb_redistribution_3) l2cb_redistribution_3.lcb_pool * 5)
                      l2cb_redistribution_3.num_lm_acl_bufs %
                    count_lowpri_links (adjust_is_share_buffer 0 l2cb_redistribution_3) l2cb_redistribution_3.lcb_pool
                then 1 else 0)))) ∧
    (l2c_link_adjust_allocation 0 6 l2cb_redistribution_3).map
        (fun s => s.lcb_pool.map (fun l => (l.link_xmit_quota, l.sent_not_acked))) =
      some [(5, 0), (2, 0), (2, 0), (1, 0)] ∧
    (l2c_link_adjust_allocation 0 6 l2cb_redistribution_4).map
        (fun s => s.lcb_pool.map (fun l => (l.link_xmit_quota, l.sent_not_acked))) =
      some [(5, 0), (2, 0), (1, 0), (1, 0), (1, 0)] :=
  ⟨by decide, by decide, by decide, by decide, by decide, by decide,
    adjust_allocation_low_pri_quota 0 6 5 l2cb_redistribution_3 l2cb_redistribution_3_after
      (by decide) (by decide) (by decide) (by decide) (by decide) (by decide),
    by decide, by decide⟩

/-- C7, the code at the spec's round-robin scenario: with two controller
buffers and five low priority links `l2c_link_adjust_allocation` sets
`round_robin_quota = 2`, and the five links get the quotas 2, 1, 1, 1, 1;
none of them gets `link_xmit_quota = 0`. -/
theorem adjust_allocation_round_robin_scenario :
    (l2c_link_adjust_allocation 0 6 l2cb_round_robin_5).map
        (fun s => (s.round_robin_quota, s.lcb_pool.map (fun l => l.link_xmit_quota))) =
      some (2, [2, 1, 1, 1, 1]) := by
  decide

/-- C8: `l2c_link_adjust_allocation` is idempotent: when a run returns the
state `s'`, a second run on `s'` returns `s'` again, so every quota, both
round-robin counters, the window and every `sent_not_acked` are as the first
run left them. -/
theorem adjust_allocation_idempotent (shared fuel : Nat) (s s' : tL2C_CB)
    (h : l2c_link_adjust_allocation shared fuel s = some s') :
    l2c_link_adjust_allocation shared fuel s' = some s' := by
  unfold l2c_link_adjust_allocation at h
  by_cases hu : s.num_used_lcbs = 0
  · simp only [hu, if_true] at h
    cases h
    simp [l2c_link_adjust_allocation, hu]
  · simp only [hu, if_false] at h
    split at h
    · cases h
    · rename_i q hq
      split at h
      · rename_i hrr
        cases h
        simp only [l2c_link_adjust_allocation, hu, if_false, adjust_is_share_buffer_mk,
          ← adjust_is_share_buffer_def, assign_quotas_count_hipri, assign_quotas_count_lowpri, hq,
          hrr, if_true, assign_quotas_idem _ _ 1 one_ne_zero,
          assign_quotas_unacked _ _ 1 one_ne_zero]
      · rename_i hrr
        split at h
        · rename_i hlow
          cases h
          have hqq : adjust_low_quota
              (count_hipri_links (adjust_is_share_buffer shared s) s.lcb_pool * q % 65536)
              s.num_lm_acl_bufs /
              count_lowpri_links (adjust_is_share_buffer shared s) s.lcb_pool ≠ 0 := by
            have := Nat.div_pos (Nat.le_of_not_gt hrr) hlow
            omega
          simp only [l2c_link_adjust_allocation, hu, if_false, adjust_is_share_buffer_mk,
            ← adjust_is_share_buffer_def, assign_quotas_count_hipri, assign_quotas_count_lowpri,
            hq, hrr, hlow, if_true, assign_quotas_idem _ _ _ hqq,
            assign_quotas_unacked _ _ _ hqq]
        · rename_i hlow
          cases h
          simp only [l2c_link_adjust_allocation, hu, if_false, adjust_is_share_buffer_mk,
            ← adjust_is_share_buffer_def, assign_quotas_count_hipri, assign_quotas_count_lowpri,
            hq, hrr, hlow, if_true, assign_quotas_idem _ _ 1 one_ne_zero,
            assign_quotas_unacked _ _ 1 one_ne_zero]

/-- C8, witness: the first redistribution scenario. -/
theorem adjust_allocation_idempotent_witness :
    l2c_link_adjust_allocation 0 6 l2cb_redistribution_3 = some l2cb_redistribution_3_after ∧
    l2c_link_adjust_allocation 0 6 l2cb_redistribution_3_after =
      some l2cb_redistribution_3_after :=
  ⟨by decide, adjust_allocation_idempotent 0 6 l2cb_redistribution_3
    l2cb_redistribution_3_after (by decide)⟩

/-! ## Frame of the channel selection -/

@[simp] theorem with_channels_self (l : tL2C_LCB) : with_channels l l = l := rfl

theorem with_channels_trans (a b c : tL2C_LCB) (h1 : b = with_channels a b)
    (h2 : c = with_channels b c) : c = with_channels a c := by
  rw [h2, h1]; rfl

theorem rr_scan_group_frame (x : tEXT) :
    ∀ (n : Nat) (l : tL2C_LCB), (rr_scan_group x n l).lcb = with_channels l (rr_scan_group x n l).lcb := by
  intro n
  induction n with
  | zero => intro l; rfl
  | succ n ih =>
    intro l
    unfold rr_scan_group
    simp only []
    split
    · rfl
    · split
      · rfl
      · refine with_channels_trans _ _ _ ?_ (ih _)
        rfl

theorem rr_scan_frame (x : tEXT) :
    ∀ (n : Nat) (l : tL2C_LCB), (rr_scan x n l).1 = with_channels l (rr_scan x n l).1 := by
  intro n
  induction n with
  | zero => intro l; rfl
  | succ n ih =>
    intro l
    unfold rr_scan
    simp only []
    have hg := rr_scan_group_frame x (l.rr_serv.getD l.rr_pri ⟨none, none, 0, 0⟩).num_ccb l
    split
    · exact hg
    · split
      · split
        · exact with_channels_trans _ _ _ hg rfl
        · exact hg
      · split
        · exact with_channels_trans _ _ _ (with_channels_trans _ _ _ hg rfl) (ih _)
        · exact with_channels_trans _ _ _ hg (ih _)

theorem next_buffer_of_channel_frame (x : tEXT) (l : tL2C_LCB) (c : tL2C_CCB) :
    (next_buffer_of_channel x l c).lcb = with_channels l (next_buffer_of_channel x l c).lcb := by
  unfold next_buffer_of_channel
  simp only []
  split
  · split
    · rfl
    · split <;> rfl
  · split
    · split <;> rfl
    · split <;> rfl

theorem get_next_buffer_frame (x : tEXT) (l : tL2C_LCB) :
    (l2cu_get_next_buffer_to_send x l).lcb =
      with_channels l (l2cu_get_next_buffer_to_send x l).lcb := by
  unfold l2cu_get_next_buffer_to_send
  simp only []
  split
  · rfl
  · have h1 := rr_scan_frame x x.L2CAP_NUM_CHNL_PRIORITY
      { l with p_fixed_ccbs := (scan_fixed_channels x 0 l.p_fixed_ccbs).p_fixed_ccbs }
    split
    · exact with_channels_trans _ _ _ rfl h1
    · exact with_channels_trans _ _ _ (with_channels_trans _ _ _ rfl h1)
        (next_buffer_of_channel_frame x _ _)

/-! ## The scheduler as a sequence of elementary steps -/

theorem lt_length_of_getElem? {α : Type} {l : List α} {k : Nat} {a : α} (h : l[k]? = some a) :
    k < l.length := by
  obtain ⟨h1, -⟩ := List.getElem?_eq_some_iff.mp h
  exact h1

theorem set_lcb_get (s : tL2C_CB) (k : Nat) (lcb a : tL2C_LCB)
    (hk : s.lcb_pool[k]? = some lcb) : (set_lcb s k a).lcb_pool[k]? = some a := by
  unfold set_lcb
  exact List.getElem?_set_self (lt_length_of_getElem? hk)

theorem get_next_buffer_same (x : tEXT) (l : tL2C_LCB) :
    (l2cu_get_next_buffer_to_send x l).lcb.transport = l.transport ∧
    (l2cu_get_next_buffer_to_send x l).lcb.link_xmit_quota = l.link_xmit_quota ∧
    (l2cu_get_next_buffer_to_send x l).lcb.sent_not_acked = l.sent_not_acked ∧
    (l2cu_get_next_buffer_to_send x l).lcb.link_xmit_data_q = l.link_xmit_data_q := by
  have hf := get_next_buffer_frame x l
  refine ⟨?_, ?_, ?_, ?_⟩ <;> rw [hf] <;> rfl

theorem window_open_of_rr (s : tL2C_CB) (lcb : tL2C_LCB) (h : rr_window_full s lcb = false) :
    window_open s lcb := by
  unfold rr_window_full at h
  unfold window_open
  cases ht : lcb.transport <;> simp_all

theorem quota_open_of_rr (x : tEXT) (lcb : tL2C_LCB) (h : rr_not_served x lcb = false) :
    quota_open lcb := by
  unfold rr_not_served at h
  unfold quota_open
  simp at h
  exact Or.inl h.1.2

theorem open_of_direct (s : tL2C_CB) (lcb : tL2C_LCB) (h : direct_window_open s lcb = true) :
    window_open s lcb ∧ quota_open lcb := by
  unfold direct_window_open at h
  unfold window_open quota_open
  cases ht : lcb.transport <;> simp_all

theorem rr_sweep_steps (x : tEXT) (P : tL2C_CB → Prop) (hP : SchedSteps x P) (sw : Bool) :
    ∀ (n : Nat) (s : tL2C_CB) (k : Nat), P s → P (rr_sweep x sw n s k).1 := by
  intro n
  induction n with
  | zero => intro s k h; exact h
  | succ n ih =>
    intro s k0 h
    unfold rr_sweep
    simp only []
    split
    · exact h
    · rename_i lcb hk
      split
      · exact ih _ _ h
      · rename_i hfull
        split
        · exact ih _ _ h
        · rename_i hserved
          have hw := window_open_of_rr s lcb (by simpa using hfull)
          have hq := quota_open_of_rr x lcb (by simpa using hserved)
          split
          · rename_i b rest hqueue
            exact ih _ _ (hP.send_q s _ lcb b rest h hk hw hq hqueue)
          · rename_i hqueue
            split
            · exact h
            · have hs1 := hP.fetch s _ lcb h hk hqueue
              obtain ⟨ht, hqu, hsn, hqe⟩ := get_next_buffer_same x lcb
              split
              · rename_i b hb
                refine ih _ _ (hP.send_c _ _ (l2cu_get_next_buffer_to_send x lcb).lcb b _ hs1
                  (set_lcb_get s _ lcb _ hk) ?_ ?_ (by rw [hqe]; exact hqueue))
                · exact ⟨fun e => hw.1 (ht ▸ e), fun e => hw.2 (ht ▸ e)⟩
                · unfold quota_open; rw [hqu, hsn]; exact hq
              · exact ih _ _ hs1

theorem direct_send_link_q_steps (x : tEXT) (P : tL2C_CB → Prop) (hP : SchedSteps x P) :
    ∀ (n : Nat) (s : tL2C_CB) (k : Nat), P s → P (direct_send_link_q n s k) := by
  intro n
  induction n with
  | zero => intro s k h; exact h
  | succ n ih =>
    intro s k h
    unfold direct_send_link_q
    split
    · exact h
    · rename_i lcb hk
      split
      · rename_i hopen
        obtain ⟨hw, hq⟩ := open_of_direct s lcb hopen
        split
        · exact h
        · rename_i b rest hqueue
          exact ih _ _ (hP.send_q s k lcb b rest h hk hw hq hqueue)
      · exact h

theorem send_to_lower_eq (s : tL2C_CB) (k : Nat) (lcb : tL2C_LCB) (b : BT_HDR)
    (cbi : Option tL2C_TX_COMPLETE_CB_INFO) (hk : s.lcb_pool[k]? = some lcb) :
    l2c_link_send_to_lower s k b cbi =
      { s with
        lcb_pool := s.lcb_pool.set k
          { lcb with sent_not_acked := (lcb.sent_not_acked + 1) % 65536 },
        controller_xmit_window :=
          if lcb.transport = tBT_TRANSPORT.BT_TRANSPORT_BR_EDR then
            (s.controller_xmit_window + 65535) % 65536
          else s.controller_xmit_window,
        controller_le_xmit_window :=
          if lcb.transport = tBT_TRANSPORT.BT_TRANSPORT_BR_EDR then s.controller_le_xmit_window
          else (s.controller_le_xmit_window + 65535) % 65536,
        round_robin_unacked :=
          if lcb.transport = tBT_TRANSPORT.BT_TRANSPORT_BR_EDR ∧ lcb.link_xmit_quota = 0 then
            (s.round_robin_unacked + 1) % 65536
          else s.round_robin_unacked,
        ble_round_robin_unacked :=
          if lcb.transport ≠ tBT_TRANSPORT.BT_TRANSPORT_BR_EDR ∧ lcb.link_xmit_quota = 0 then
            (s.ble_round_robin_unacked + 1) % 65536
          else s.ble_round_robin_unacked,
        hci_out := s.hci_out ++ [⟨lcb.transport, k, { b with layer_specific := 0 }⟩],
        calls := s.calls ++
          (match cbi with
           | none => []
           | some c => [tCALL.l2cu_tx_complete c.cb c.local_cid c.num_sdu]) } := by
  unfold l2c_link_send_to_lower l2c_link_send_to_lower_br_edr l2c_link_send_to_lower_ble
  simp only [hk]
  cases ht : lcb.transport <;> cases cbi <;> by_cases hq : lcb.link_xmit_quota = 0 <;>
    simp [ht, hq]

theorem direct_send_link_q_exit :
    ∀ (n : Nat) (s : tL2C_CB) (k : Nat),
      (∀ lcb, s.lcb_pool[k]? = some lcb → lcb.link_xmit_data_q.length ≤ n) →
      ∀ lcb', (direct_send_link_q n s k).lcb_pool[k]? = some lcb' →
        direct_window_open (direct_send_link_q n s k) lcb' = true →
        lcb'.link_xmit_data_q = [] := by
  intro n
  induction n with
  | zero =>
    intro s k hlen lcb' hk' _
    have := hlen lcb' hk'
    exact List.eq_nil_of_length_eq_zero (by omega)
  | succ n ih =>
    intro s k hlen
    unfold direct_send_link_q
    split
    · rename_i hnone
      intro lcb' hk'
      rw [hnone] at hk'; cases hk'
    · rename_i lcb hk
      split
      · rename_i hopen
        split
        · rename_i hqueue
          intro lcb' hk' _
          rw [hk] at hk'; cases hk'
          exact hqueue
        · rename_i b rest hqueue
          apply ih
          intro l hl
          have hk1 := set_lcb_get s k lcb { lcb with link_xmit_data_q := rest } hk
          rw [send_to_lower_eq _ k _ b none hk1] at hl
          simp only [set_lcb] at hl
          rw [List.getElem?_set_self (by simpa using lt_length_of_getElem? hk)] at hl
          cases hl
          have := hlen lcb hk
          rw [hqueue] at this
          simp at this
          simpa using this
      · rename_i hopen
        intro lcb' hk' hopen'
        rw [hk] at hk'; cases hk'
        exact absurd hopen' hopen

theorem direct_send_channels_steps (x : tEXT) (P : tL2C_CB → Prop) (hP : SchedSteps x P) :
    ∀ (n : Nat) (s : tL2C_CB) (k : Nat),
      (∀ lcb, s.lcb_pool[k]? = some lcb → direct_window_open s lcb = true →
        lcb.link_xmit_data_q = []) →
      P s → P (direct_send_channels x n s k) := by
  intro n
  induction n with
  | zero => intro s k _ h; exact h
  | succ n ih =>
    intro s k hempty h
    unfold direct_send_channels
    split
    · exact h
    · rename_i lcb hk
      split
      · rename_i hopen
        have hqueue := hempty lcb hk hopen
        obtain ⟨hw, hq⟩ := open_of_direct s lcb hopen
        have hs1 := hP.fetch s k lcb h hk hqueue
        obtain ⟨ht, hqu, hsn, hqe⟩ := get_next_buffer_same x lcb
        simp only []
        split
        · exact hs1
        · rename_i b hb
          have hk1 : ({ set_lcb s k (l2cu_get_next_buffer_to_send x lcb).lcb with
              calls := s.calls ++ (l2cu_get_next_buffer_to_send x lcb).calls } :
                tL2C_CB).lcb_pool[k]? = some (l2cu_get_next_buffer_to_send x lcb).lcb :=
            set_lcb_get s k lcb (l2cu_get_next_buffer_to_send x lcb).lcb hk
          refine ih _ _ ?_ (hP.send_c _ _ (l2cu_get_next_buffer_to_send x lcb).lcb b _ hs1
            hk1 ?_ ?_ (by rw [hqe]; exact hqueue))
          · intro l hl _
            rw [send_to_lower_eq _ k _ b _ hk1] at hl
            simp only [set_lcb] at hl
            rw [List.getElem?_set_self (by simpa using lt_length_of_getElem? hk)] at hl
            cases hl
            simp only [hqe, hqueue]
          · exact ⟨fun e => hw.1 (ht ▸ e), fun e => hw.2 (ht ▸ e)⟩
          · unfold quota_open; rw [hqu, hsn]; exact hq
      · exact h

theorem check_send_direct_steps (x : tEXT) (P : tL2C_CB → Prop) (hP : SchedSteps x P)
    (sw : Bool) (s : tL2C_CB) (k : Nat) (h : P s) : P (check_send_direct x sw s k) := by
  unfold check_send_direct
  split
  · exact h
  · rename_i lcb hk
    split
    · exact h
    · have h1 := direct_send_link_q_steps x P hP lcb.link_xmit_data_q.length s k h
      have hex := direct_send_link_q_exit lcb.link_xmit_data_q.length s k
        (fun l hl => by rw [hk] at hl; cases hl; exact le_refl _)
      have h2 : P (if sw = true then direct_send_link_q lcb.link_xmit_data_q.length s k
          else
            match (direct_send_link_q lcb.link_xmit_data_q.length s k).lcb_pool[k]? with
            | none => direct_send_link_q lcb.link_xmit_data_q.length s k
            | some lcb1 =>
              direct_send_channels x (lcb1.link_xmit_quota - lcb1.sent_not_acked)
                (direct_send_link_q lcb.link_xmit_data_q.length s k) k) := by
        split
        · exact h1
        · split
          · exact h1
          · exact direct_send_channels_steps x P hP _ _ _ hex h1
      simp only []
      split
      · exact h2
      · rename_i lcb2 hk2
        split
        · exact hP.timer _ _ lcb2 h2 hk2
        · exact h2

theorem rr_clear_flags_steps (x : tEXT) (P : tL2C_CB → Prop) (hP : SchedSteps x P)
    (s : tL2C_CB) (k : Nat) (h : P s) : P (rr_clear_flags s k) := by
  have h0 : P { s with check_round_robin := s.check_round_robin,
                       ble_check_round_robin := s.ble_check_round_robin } := h
  unfold rr_clear_flags
  simp only []
  split
  · split
    · exact hP.flags s false false h
    · exact hP.flags s false s.ble_check_round_robin h
  · split
    · exact hP.flags s s.check_round_robin false h
    · exact h

/-- The scheduler is a sequence of elementary steps: a predicate closed under
the steps and true after the buffer passed in was queued is true when
`l2c_link_check_send_pkts` returns. -/
theorem check_send_pkts_steps (x : tEXT) (P : tL2C_CB → Prop) (hP : SchedSteps x P)
    (s : tL2C_CB) (p_lcb : Option Nat) (local_cid : Nat) (p_buf : Option BT_HDR)
    (h : P (check_send_enqueue s p_lcb local_cid p_buf)) :
    P (l2c_link_check_send_pkts x s p_lcb local_cid p_buf) := by
  unfold l2c_link_check_send_pkts
  simp only []
  split
  · exact h
  · split
    · exact rr_clear_flags_steps x P hP _ _ (rr_sweep_steps x P hP _ _ _ _ h)
    · split
      · exact h
      · split
        · exact rr_clear_flags_steps x P hP _ _ (rr_sweep_steps x P hP _ _ _ _ h)
        · exact check_send_direct_steps x P hP _ _ _ h

/-! ## The scheduler: the claims -/

theorem check_send_enqueue_frame (s : tL2C_CB) (p_lcb : Option Nat) (local_cid : Nat)
    (p_buf : Option BT_HDR) :
    (check_send_enqueue s p_lcb local_cid p_buf).hci_out = s.hci_out ∧
    (check_send_enqueue s p_lcb local_cid p_buf).controller_xmit_window =
      s.controller_xmit_window ∧
    (check_send_enqueue s p_lcb local_cid p_buf).controller_le_xmit_window =
      s.controller_le_xmit_window := by
  unfold check_send_enqueue
  split
  · split
    · exact ⟨rfl, rfl, rfl⟩
    · split
      · split <;> exact ⟨rfl, rfl, rfl⟩
      · exact ⟨rfl, rfl, rfl⟩
  · exact ⟨rfl, rfl, rfl⟩

theorem count_sent_append (t : tBT_TRANSPORT) (l : List tHCI_PKT) (p : tHCI_PKT) :
    count_sent t (l ++ [p]) = count_sent t l + (if p.transport = t then 1 else 0) := by
  unfold count_sent
  by_cases h : p.transport = t <;> simp [List.filter_append, h]

/-- The window accounting as a predicate closed under the scheduler steps. -/
theorem window_steps (x : tEXT) (s0 : tL2C_CB) (hw : s0.controller_xmit_window < 65536)
    (hle : s0.controller_le_xmit_window < 65536) :
    SchedSteps x (fun s => ∃ sent, s.hci_out = s0.hci_out ++ sent ∧
      s.controller_xmit_window + count_sent tBT_TRANSPORT.BT_TRANSPORT_BR_EDR sent =
        s0.controller_xmit_window ∧
      s.controller_le_xmit_window + count_sent tBT_TRANSPORT.BT_TRANSPORT_LE sent =
        s0.controller_le_xmit_window) := by
  have key : ∀ (s : tL2C_CB) (k : Nat) (lcb : tL2C_LCB) (b : BT_HDR)
      (cbi : Option tL2C_TX_COMPLETE_CB_INFO),
      (∃ sent, s.hci_out = s0.hci_out ++ sent ∧
        s.controller_xmit_window + count_sent tBT_TRANSPORT.BT_TRANSPORT_BR_EDR sent =
          s0.controller_xmit_window ∧
        s.controller_le_xmit_window + count_sent tBT_TRANSPORT.BT_TRANSPORT_LE sent =
          s0.controller_le_xmit_window) →
      s.lcb_pool[k]? = some lcb → window_open s lcb →
      ∃ sent, (l2c_link_send_to_lower s k b cbi).hci_out = s0.hci_out ++ sent ∧
        (l2c_link_send_to_lower s k b cbi).controller_xmit_window +
            count_sent tBT_TRANSPORT.BT_TRANSPORT_BR_EDR sent = s0.controller_xmit_window ∧
        (l2c_link_send_to_lower s k b cbi).controller_le_xmit_window +
            count_sent tBT_TRANSPORT.BT_TRANSPORT_LE sent = s0.controller_le_xmit_window := by
    intro s k lcb b cbi ⟨sent, h1, h2, h3⟩ hk hopen
    rw [send_to_lower_eq s k lcb b cbi hk]
    refine ⟨sent ++ [⟨lcb.transport, k, { b with layer_specific := 0 }⟩], ?_, ?_, ?_⟩
    · simp only [h1, List.append_assoc]
    · rw [count_sent_append]
      cases ht : lcb.transport
      · have := hopen.1 ht
        simp only [if_true]
        omega
      · simp only [reduceCtorEq, if_false]
        omega
    · rw [count_sent_append]
      cases ht : lcb.transport
      · simp only [reduceCtorEq, if_false, if_true]
        omega
      · have := hopen.2 ht
        simp only [reduceCtorEq, if_false, if_true]
        omega
  constructor
  · intro s k lcb b rest h hk hopen _ _
    exact key _ k _ b none h (set_lcb_get s k lcb _ hk)
      ⟨fun e => hopen.1 e, fun e => hopen.2 e⟩
  · intro s k lcb h _ _
    exact h
  · intro s k lcb b cbi h hk hopen _ _
    exact key s k lcb b (some cbi) h hk hopen
  · intro s k lcb h _
    exact h
  · intro s b1 b2 h
    exact h

/-- C2: `l2c_link_check_send_pkts` lowers each controller window by exactly
the number of packets it hands to the data sink of that transport, on the
round-robin path and on the direct path: every send happens with the window
of the transport strictly positive, so the 16-bit decrement never wraps and
the window never goes below zero. -/
theorem check_send_pkts_window_never_wraps (x : tEXT) (s : tL2C_CB) (p_lcb : Option Nat)
    (local_cid : Nat) (p_buf : Option BT_HDR)
    (hw : s.controller_xmit_window < 65536) (hle : s.controller_le_xmit_window < 65536) :
    ∃ sent,
      (l2c_link_check_send_pkts x s p_lcb local_cid p_buf).hci_out = s.hci_out ++ sent ∧
      (l2c_link_check_send_pkts x s p_lcb local_cid p_buf).controller_xmit_window +
          count_sent tBT_TRANSPORT.BT_TRANSPORT_BR_EDR sent = s.controller_xmit_window ∧
      (l2c_link_check_send_pkts x s p_lcb local_cid p_buf).controller_le_xmit_window +
          count_sent tBT_TRANSPORT.BT_TRANSPORT_LE sent = s.controller_le_xmit_window := by
  apply check_send_pkts_steps x _ (window_steps x s hw hle)
  obtain ⟨h1, h2, h3⟩ := check_send_enqueue_frame s p_lcb local_cid p_buf
  exact ⟨[], by simp [h1], by simp [h2, count_sent], by simp [h3, count_sent]⟩

/-- C2, witness: a poke on a link with two queued buffers, a quota of two and
two free controller buffers sends both and leaves the window at 0. -/
theorem check_send_pkts_window_never_wraps_witness :
    l2cb_direct_2.controller_xmit_window < 65536 ∧
    l2cb_direct_2.controller_le_xmit_window < 65536 ∧
    (∃ sent,
      (l2c_link_check_send_pkts ext_idle l2cb_direct_2 (some 0) 0 none).hci_out =
        l2cb_direct_2.hci_out ++ sent ∧
      (l2c_link_check_send_pkts ext_idle l2cb_direct_2 (some 0) 0 none).controller_xmit_window +
          count_sent tBT_TRANSPORT.BT_TRANSPORT_BR_EDR sent =
        l2cb_direct_2.controller_xmit_window ∧
      (l2c_link_check_send_pkts ext_idle l2cb_direct_2 (some 0) 0
          none).controller_le_xmit_window +
          count_sent tBT_TRANSPORT.BT_TRANSPORT_LE sent =
        l2cb_direct_2.controller_le_xmit_window) ∧
    (l2c_link_check_send_pkts ext_idle l2cb_direct_2 (some 0) 0 none).controller_xmit_window = 0 ∧
    (l2c_link_check_send_pkts ext_idle l2cb_direct_2 (some 0) 0 none).hci_out.length = 2 :=
  ⟨by decide, by decide,
    check_send_pkts_window_never_wraps ext_idle l2cb_direct_2 (some 0) 0 none (by decide)
      (by decide),
    by decide, by decide⟩

theorem quota_respected_set (s : tL2C_CB) (k : Nat) (a : tL2C_LCB) (h : quota_respected s)
    (ha : 0 < a.link_xmit_quota → a.sent_not_acked ≤ a.link_xmit_quota) :
    ∀ lcb ∈ s.lcb_pool.set k a, 0 < lcb.link_xmit_quota →
      lcb.sent_not_acked ≤ lcb.link_xmit_quota := by
  intro lcb hm
  rcases List.mem_or_eq_of_mem_set hm with h1 | h1
  · exact h lcb h1
  · rw [h1]; exact ha

theorem quota_respected_get (s : tL2C_CB) (k : Nat) (lcb : tL2C_LCB) (h : quota_respected s)
    (hk : s.lcb_pool[k]? = some lcb) :
    0 < lcb.link_xmit_quota → lcb.sent_not_acked ≤ lcb.link_xmit_quota :=
  h lcb (List.getElem?_mem hk)

/-- The bound of the in-flight count by the quota as a predicate closed under
the scheduler steps. -/
theorem quota_steps (x : tEXT) : SchedSteps x quota_respected := by
  have key : ∀ (s : tL2C_CB) (k : Nat) (lcb : tL2C_LCB) (b : BT_HDR)
      (cbi : Option tL2C_TX_COMPLETE_CB_INFO), quota_respected s →
      s.lcb_pool[k]? = some lcb → quota_open lcb →
      quota_respected (l2c_link_send_to_lower s k b cbi) := by
    intro s k lcb b cbi h hk hq
    rw [send_to_lower_eq s k lcb b cbi hk]
    refine quota_respected_set s k _ h ?_
    intro hpos
    have hle : (lcb.sent_not_acked + 1) % 65536 ≤ lcb.sent_not_acked + 1 := Nat.mod_le _ _
    rcases hq with h0 | hlt
    · simp only [h0] at hpos
      exact absurd hpos (by omega)
    · show (lcb.sent_not_acked + 1) % 65536 ≤ lcb.link_xmit_quota
      omega
  constructor
  · intro s k lcb b rest h hk _ hq _
    refine key _ k { lcb with link_xmit_data_q := rest } b none ?_ (set_lcb_get s k lcb _ hk) hq
    exact quota_respected_set s k _ h (quota_respected_get s k lcb h hk)
  · intro s k lcb h hk _
    obtain ⟨_, hqu, hsn, _⟩ := get_next_buffer_same x lcb
    refine quota_respected_set s k _ h ?_
    rw [hqu, hsn]
    exact quota_respected_get s k lcb h hk
  · intro s k lcb b cbi h hk _ hq _
    exact key s k lcb b (some cbi) h hk hq
  · intro s k lcb h hk
    exact quota_respected_set s k _ h (quota_respected_get s k lcb h hk)
  · intro s b1 b2 h
    exact h

theorem quota_respected_of_pool (s s2 : tL2C_CB) (k : Nat) (a : tL2C_LCB)
    (h : quota_respected s) (e : s2.lcb_pool = s.lcb_pool.set k a)
    (ha : 0 < a.link_xmit_quota → a.sent_not_acked ≤ a.link_xmit_quota) :
    quota_respected s2 := by
  unfold quota_respected
  rw [e]
  exact quota_respected_set s k a h ha

theorem quota_respected_enqueue (s : tL2C_CB) (p_lcb : Option Nat) (local_cid : Nat)
    (p_buf : Option BT_HDR) (h : quota_respected s) :
    quota_respected (check_send_enqueue s p_lcb local_cid p_buf) := by
  unfold check_send_enqueue
  split
  · split
    · exact h
    · rename_i lcb hk
      split
      · split <;>
          exact quota_respected_of_pool s _ _ _ h rfl (quota_respected_get s _ lcb h hk)
      · exact quota_respected_of_pool s _ _ _ h rfl (quota_respected_get s _ lcb h hk)
  · exact h

theorem check_send_pkts_quota_respected (x : tEXT) (s : tL2C_CB) (p_lcb : Option Nat)
    (local_cid : Nat) (p_buf : Option BT_HDR) (h : quota_respected s) :
    quota_respected (l2c_link_check_send_pkts x s p_lcb local_cid p_buf) :=
  check_send_pkts_steps x _ (quota_steps x) s p_lcb local_cid p_buf
    (quota_respected_enqueue s p_lcb local_cid p_buf h)

/-- C4 (amended): for every LCB with `link_xmit_quota > 0` the bound
`sent_not_acked ≤ link_xmit_quota` is preserved by `l2c_link_check_send_pkts`
(round-robin and direct path) and by `l2c_packets_completed`. -/
theorem quota_respected_preserved (x : tEXT) (s : tL2C_CB) (h : quota_respected s) :
    (∀ (p_lcb : Option Nat) (local_cid : Nat) (p_buf : Option BT_HDR),
      quota_respected (l2c_link_check_send_pkts x s p_lcb local_cid p_buf)) ∧
    (∀ (handle num_sent : Nat), quota_respected (l2c_packets_completed x s handle num_sent)) := by
  refine ⟨fun p_lcb local_cid p_buf => check_send_pkts_quota_respected x s p_lcb local_cid p_buf h,
    ?_⟩
  intro handle num_sent
  unfold l2c_packets_completed
  split
  · exact h
  · rename_i k hfind
    split
    · exact h
    · rename_i lcb0 hk
      have h1 : quota_respected (credit_packets s k lcb0 num_sent) := by
        have h2 : (credit_packets s k lcb0 num_sent).lcb_pool =
            s.lcb_pool.set k (update_outstanding_packets lcb0 num_sent) := by
          unfold credit_packets
          simp only []
          split <;> rfl
        unfold quota_respected
        rw [h2]
        refine quota_respected_set s k _ h ?_
        have := quota_respected_get s k lcb0 h hk
        intro hpos
        have := this hpos
        show lcb0.sent_not_acked - num_sent ≤ lcb0.link_xmit_quota
        omega
      have h3 := check_send_pkts_quota_respected x _ (some k) 0 none h1
      simp only []
      split
      · split
        · split
          · exact check_send_pkts_quota_respected x _ _ _ _ h3
          · exact h3
        · split
          · exact check_send_pkts_quota_respected x _ _ _ _ h3
          · exact h3
      · exact h3

/-- C4, witness: the link of `l2cb_direct_2` is within its quota before and
after a poke that sends its two buffers. -/
theorem quota_respected_preserved_witness :
    quota_respected l2cb_direct_2 ∧
    ((∀ (p_lcb : Option Nat) (local_cid : Nat) (p_buf : Option BT_HDR),
      quota_respected (l2c_link_check_send_pkts ext_idle l2cb_direct_2 p_lcb local_cid p_buf)) ∧
    (∀ (handle num_sent : Nat),
      quota_respected (l2c_packets_completed ext_idle l2cb_direct_2 handle num_sent))) :=
  ⟨by decide, quota_respected_preserved ext_idle l2cb_direct_2 (by decide)⟩

/-- C4, counterexample: a link holds the quota 2 with two packets in flight;
after a second link is allocated `l2c_link_adjust_allocation` gives both links
the quota 1, below the two packets the first link has in flight. -/
theorem quota_respected_broken_by_adjust :
    quota_respected l2cb_quota_lowered ∧
    ∃ s', l2c_link_adjust_allocation 0 6 l2cb_quota_lowered = some s' ∧
      s'.lcb_pool.map (fun l => (l.link_xmit_quota, l.sent_not_acked)) = [(1, 2), (1, 0)] ∧
      ¬ quota_respected s' :=
  ⟨by decide, l2cb_with 2 0
      [lcb_link 1 1 .L2CAP_PRIORITY_NORMAL 1 2 [], lcb_link 2 2 .L2CAP_PRIORITY_NORMAL 1 0 []],
    by decide, by decide, by decide⟩

theorem link_queue_of_pool (s s2 : tL2C_CB) (j k : Nat) (lcb a : tL2C_LCB)
    (hk : s.lcb_pool[k]? = some lcb) (e : s2.lcb_pool = s.lcb_pool.set k a) :
    link_queue j s2 = if j = k then a.link_xmit_data_q else link_queue j s := by
  unfold link_queue
  rw [e]
  by_cases hj : j = k
  · subst hj
    rw [List.getElem?_set_self (lt_length_of_getElem? hk)]
    simp
  · rw [List.getElem?_set_ne (Ne.symm hj)]
    simp [hj]

theorem link_queue_get (s : tL2C_CB) (k : Nat) (lcb : tL2C_LCB)
    (hk : s.lcb_pool[k]? = some lcb) : link_queue k s = lcb.link_xmit_data_q := by
  unfold link_queue
  rw [hk]

theorem link_out_of_hci (s s2 : tL2C_CB) (j : Nat) (p : tHCI_PKT)
    (e : s2.hci_out = s.hci_out ++ [p]) :
    link_out j s2 = link_out j s ++ (if p.lcb = j then [p.buf] else []) := by
  unfold link_out
  rw [e]
  by_cases h : p.lcb = j <;> simp [List.filter_append, h]

theorem link_out_send (s : tL2C_CB) (j k : Nat) (lcb : tL2C_LCB) (b : BT_HDR)
    (cbi : Option tL2C_TX_COMPLETE_CB_INFO) (hk : s.lcb_pool[k]? = some lcb) :
    link_out j (l2c_link_send_to_lower s k b cbi) =
      link_out j s ++ (if k = j then [as_sent b] else []) := by
  rw [send_to_lower_eq s k lcb b cbi hk]
  exact link_out_of_hci s _ j ⟨lcb.transport, k, { b with layer_specific := 0 }⟩ rfl

theorem link_queue_send (s : tL2C_CB) (j k : Nat) (lcb : tL2C_LCB) (b : BT_HDR)
    (cbi : Option tL2C_TX_COMPLETE_CB_INFO) (hk : s.lcb_pool[k]? = some lcb) :
    link_queue j (l2c_link_send_to_lower s k b cbi) = link_queue j s := by
  rw [send_to_lower_eq s k lcb b cbi hk]
  rw [link_queue_of_pool s _ j k lcb
    { lcb with sent_not_acked := (lcb.sent_not_acked + 1) % 65536 } hk rfl]
  split
  · rename_i hj
    subst hj
    exact (link_queue_get s j lcb hk).symm
  · rfl

/-- The order of the link queue of slot `j` as a predicate closed under the
scheduler steps: what was sent from the queue is the head part `sent` of the
queue `q0` the pass started with, in order, and a buffer taken from a channel
is only sent once the queue is empty. -/
theorem fifo_steps (x : tEXT) (j : Nat) (out0 q0 : List BT_HDR) :
    SchedSteps x (fun s => ∃ sent chan,
      link_out j s = out0 ++ sent.map as_sent ++ chan ∧
      q0 = sent ++ link_queue j s ∧ (chan ≠ [] → link_queue j s = [])) := by
  constructor
  · intro s k lcb b rest ⟨sent, chan, h1, h2, h3⟩ hk _ _ hqueue
    have hk1 := set_lcb_get s k lcb { lcb with link_xmit_data_q := rest } hk
    have hq1 : link_queue j (set_lcb s k { lcb with link_xmit_data_q := rest }) =
        if j = k then rest else link_queue j s :=
      link_queue_of_pool s _ j k lcb _ hk rfl
    have ho1 : link_out j (set_lcb s k { lcb with link_xmit_data_q := rest }) = link_out j s :=
      rfl
    rw [link_out_send _ j k _ b none hk1, link_queue_send _ j k _ b none hk1, hq1, ho1]
    by_cases hj : k = j
    · subst hj
      have hqj := link_queue_get s k lcb hk
      rw [hqj, hqueue] at h2 h3
      have hchan : chan = [] := by
        by_contra hc
        exact absurd (h3 hc) (by simp)
      subst hchan
      refine ⟨sent ++ [b], [], ?_, ?_, fun hc => absurd rfl hc⟩
      · simp [h1]
      · simp [h2]
    · have hj' : ¬ j = k := fun e => hj e.symm
      refine ⟨sent, chan, ?_, ?_, ?_⟩
      · simp [hj, h1]
      · simp [hj', h2]
      · simpa [hj'] using h3
  · intro s k lcb ⟨sent, chan, h1, h2, h3⟩ hk hqueue
    obtain ⟨_, _, _, hqe⟩ := get_next_buffer_same x lcb
    have hq1 : link_queue j ({ set_lcb s k (l2cu_get_next_buffer_to_send x lcb).lcb with
        calls := s.calls ++ (l2cu_get_next_buffer_to_send x lcb).calls } : tL2C_CB) =
        if j = k then (l2cu_get_next_buffer_to_send x lcb).lcb.link_xmit_data_q
        else link_queue j s :=
      link_queue_of_pool s _ j k lcb _ hk rfl
    have hsame : link_queue j ({ set_lcb s k (l2cu_get_next_buffer_to_send x lcb).lcb with
        calls := s.calls ++ (l2cu_get_next_buffer_to_send x lcb).calls } : tL2C_CB) =
        link_queue j s := by
      rw [hq1]
      split
      · rename_i hj
        subst hj
        rw [hqe, link_queue_get s j lcb hk]
      · rfl
    refine ⟨sent, chan, h1, ?_, ?_⟩
    · rw [hsame]; exact h2
    · rw [hsame]; exact h3
  · intro s k lcb b cbi ⟨sent, chan, h1, h2, h3⟩ hk _ _ hqueue
    rw [link_out_send s j k lcb b (some cbi) hk, link_queue_send s j k lcb b (some cbi) hk]
    by_cases hj : k = j
    · subst hj
      have hqj := link_queue_get s k lcb hk
      refine ⟨sent, chan ++ [as_sent b], ?_, h2, fun _ => by rw [hqj, hqueue]⟩
      simp [h1]
    · refine ⟨sent, chan, ?_, h2, h3⟩
      simp [hj, h1]
  · intro s k lcb ⟨sent, chan, h1, h2, h3⟩ hk
    have hq1 : link_queue j (set_lcb s k
        { lcb with l2c_lcb_timer := some tL2C_TOUT.L2CAP_LINK_FLOW_CONTROL_TIMEOUT_MS }) =
        link_queue j s := by
      rw [link_queue_of_pool s _ j k lcb _ hk rfl]
      split
      · rename_i hj
        subst hj
        exact (link_queue_get s j lcb hk).symm
      · rfl
    refine ⟨sent, chan, h1, ?_, ?_⟩
    · rw [hq1]; exact h2
    · rw [hq1]; exact h3
  · intro s b1 b2 h
    exact h

theorem check_send_pkts_fifo (x : tEXT) (s : tL2C_CB) (p_lcb : Option Nat) (local_cid : Nat)
    (p_buf : Option BT_HDR) (j : Nat) :
    ∃ sent chan,
      link_out j (l2c_link_check_send_pkts x s p_lcb local_cid p_buf) =
        link_out j s ++ sent.map as_sent ++ chan ∧
      link_queue j (check_send_enqueue s p_lcb local_cid p_buf) =
        sent ++ link_queue j (l2c_link_check_send_pkts x s p_lcb local_cid p_buf) ∧
      (chan ≠ [] → link_queue j (l2c_link_check_send_pkts x s p_lcb local_cid p_buf) = []) := by
  apply check_send_pkts_steps x _
    (fifo_steps x j (link_out j s) (link_queue j (check_send_enqueue s p_lcb local_cid p_buf)))
  refine ⟨[], [], ?_, rfl, fun h => absurd rfl h⟩
  have h := (check_send_enqueue_frame s p_lcb local_cid p_buf).1
  unfold link_out
  rw [h]
  simp

theorem check_send_enqueue_queue (s : tL2C_CB) (k : Nat) (lcb : tL2C_LCB) (local_cid : Nat)
    (b : BT_HDR) (j : Nat) (hk : s.lcb_pool[k]? = some lcb) :
    link_queue j (check_send_enqueue s (some k) local_cid (some b)) =
      link_queue j s ++ (if j = k then [as_queued local_cid b] else []) := by
  have h1 : ∀ (s2 : tL2C_CB), s2.lcb_pool = s.lcb_pool.set k
      { lcb with link_xmit_data_q := lcb.link_xmit_data_q ++ [as_queued local_cid b] } →
      link_queue j s2 =
        link_queue j s ++ (if j = k then [as_queued local_cid b] else []) := by
    intro s2 e
    rw [link_queue_of_pool s s2 j k lcb _ hk e]
    split
    · rename_i hj
      subst hj
      rw [link_queue_get s j lcb hk]
    · simp
  unfold check_send_enqueue
  simp only [hk]
  split
  · split <;> exact h1 _ rfl
  · exact h1 _ rfl

/-- C9: per-link FIFO.  For every LCB slot `j`:

* a buffer passed to `l2c_link_check_send_pkts` for the LCB is appended at the
  tail of its link queue, and the buffers the call hands to HCI from the queue
  are a head part `sent` of the queue, in queue order; a buffer taken from a
  channel is handed to HCI only when the link queue is empty;
* the same holds for a call without a buffer;
* `l2c_link_segments_xmitted` of a segment `F` for a connected LCB puts `F` at
  the head of the queue: what the pass it starts sends is a head part of
  `F :: queue`, so `F` leaves before every buffer that was queued.

Hence two buffers appended in the order `a`, `b` are handed to HCI in that
order, also across a re-queued segment. -/
theorem link_queue_fifo (x : tEXT) (s : tL2C_CB) :
    (∀ (k : Nat) (lcb : tL2C_LCB) (local_cid : Nat) (b : BT_HDR) (j : Nat),
      s.lcb_pool[k]? = some lcb →
      ∃ sent chan,
        link_out j (l2c_link_check_send_pkts x s (some k) local_cid (some b)) =
          link_out j s ++ sent.map as_sent ++ chan ∧
        link_queue j s ++ (if j = k then [as_queued local_cid b] else []) =
          sent ++ link_queue j (l2c_link_check_send_pkts x s (some k) local_cid (some b)) ∧
        (chan ≠ [] →
          link_queue j (l2c_link_check_send_pkts x s (some k) local_cid (some b)) = [])) ∧
    (∀ (p_lcb : Option Nat) (local_cid : Nat) (j : Nat),
      ∃ sent chan,
        link_out j (l2c_link_check_send_pkts x s p_lcb local_cid none) =
          link_out j s ++ sent.map as_sent ++ chan ∧
        link_queue j s = sent ++ link_queue j (l2c_link_check_send_pkts x s p_lcb local_cid none) ∧
        (chan ≠ [] → link_queue j (l2c_link_check_send_pkts x s p_lcb local_cid none) = [])) ∧
    (∀ (p_msg : BT_HDR) (k : Nat) (lcb : tL2C_LCB),
      l2cu_find_lcb_by_handle s (segment_handle p_msg) = some k →
      s.lcb_pool[k]? = some lcb →
      lcb.link_state = tL2C_LINK_STATE.LST_CONNECTED →
      ∃ sent chan,
        link_out k (l2c_link_segments_xmitted x s p_msg) =
          link_out k s ++ sent.map as_sent ++ chan ∧
        p_msg :: lcb.link_xmit_data_q =
          sent ++ link_queue k (l2c_link_segments_xmitted x s p_msg) ∧
        (chan ≠ [] → link_queue k (l2c_link_segments_xmitted x s p_msg) = [])) := by
  refine ⟨?_, ?_, ?_⟩
  · intro k lcb local_cid b j hk
    obtain ⟨sent, chan, h1, h2, h3⟩ := check_send_pkts_fifo x s (some k) local_cid (some b) j
    rw [check_send_enqueue_queue s k lcb local_cid b j hk] at h2
    exact ⟨sent, chan, h1, h2, h3⟩
  · intro p_lcb local_cid j
    obtain ⟨sent, chan, h1, h2, h3⟩ := check_send_pkts_fifo x s p_lcb local_cid none j
    have he : check_send_enqueue s p_lcb local_cid none = s := by
      unfold check_send_enqueue
      split
      · rename_i hh; cases hh
      · rfl
    rw [he] at h2
    exact ⟨sent, chan, h1, h2, h3⟩
  · intro p_msg k lcb hfind hk hconn
    have hs : l2c_link_segments_xmitted x s p_msg =
        l2c_link_check_send_pkts x
          (set_lcb s k { lcb with link_xmit_data_q := p_msg :: lcb.link_xmit_data_q })
          (some k) 0 none := by
      unfold l2c_link_segments_xmitted
      simp only [hfind, hk, hconn, ne_eq, not_true_eq_false, if_false]
    rw [hs]
    obtain ⟨sent, chan, h1, h2, h3⟩ := check_send_pkts_fifo x
      (set_lcb s k { lcb with link_xmit_data_q := p_msg :: lcb.link_xmit_data_q })
      (some k) 0 none k
    have he : check_send_enqueue
        (set_lcb s k { lcb with link_xmit_data_q := p_msg :: lcb.link_xmit_data_q })
        (some k) 0 none =
        set_lcb s k { lcb with link_xmit_data_q := p_msg :: lcb.link_xmit_data_q } := rfl
    rw [he, link_queue_get _ k _ (set_lcb_get s k lcb _ hk)] at h2
    exact ⟨sent, chan, h1, h2, h3⟩

/-- C9, witness: a link with buffer `X` queued gets the residual segment `F`
back from HCI; the pass started by `l2c_link_segments_xmitted` hands `F` to
HCI before `X`. -/
theorem link_queue_fifo_witness :
    l2cu_find_lcb_by_handle l2cb_segment (segment_handle buf_segment) = some 0 ∧
    l2cb_segment.lcb_pool[0]? = some (lcb_link 1 1 .L2CAP_PRIORITY_NORMAL 2 0 [buf_of [9]]) ∧
    (lcb_link 1 1 .L2CAP_PRIORITY_NORMAL 2 0 [buf_of [9]]).link_state =
      tL2C_LINK_STATE.LST_CONNECTED ∧
    (∃ sent chan,
      link_out 0 (l2c_link_segments_xmitted ext_idle l2cb_segment buf_segment) =
        link_out 0 l2cb_segment ++ sent.map as_sent ++ chan ∧
      buf_segment :: (lcb_link 1 1 .L2CAP_PRIORITY_NORMAL 2 0 [buf_of [9]]).link_xmit_data_q =
        sent ++ link_queue 0 (l2c_link_segments_xmitted ext_idle l2cb_segment buf_segment) ∧
      (chan ≠ [] →
        link_queue 0 (l2c_link_segments_xmitted ext_idle l2cb_segment buf_segment) = [])) ∧
    link_out 0 (l2c_link_segments_xmitted ext_idle l2cb_segment buf_segment) =
      [as_sent buf_segment, buf_of [9]] :=
  ⟨by decide, by decide, by decide,
    (link_queue_fifo ext_idle l2cb_segment).2.2 buf_segment 0
      (lcb_link 1 1 .L2CAP_PRIORITY_NORMAL 2 0 [buf_of [9]]) (by decide) (by decide) (by decide),
    by decide⟩

/-- C1, the code at the failing input.  One controller buffer; the high
priority link of slot 0 holds the quota 1 (a fixed point of
`l2c_link_adjust_allocation`) and the window equation holds.  The link sends
one packet through `l2c_link_check_send_pkts`: window 0, one packet in flight,
the equation still holds, also once a second link has taken slot 1.  The
allocation of that link runs `l2c_link_adjust_allocation`: the high priority
quota drops to 0, the packet in flight is counted neither with the links that
have a quota nor in `round_robin_unacked`, and the equation fails (0 + 0 + 0
against 1). -/
theorem window_invariant_broken_by_adjust :
    l2c_link_adjust_allocation 0 6 l2cb_one_buffer = some l2cb_one_buffer ∧
    window_invariant l2cb_one_buffer ∧
    window_invariant
      (l2c_link_check_send_pkts ext_idle l2cb_one_buffer (some 0) 64 (some (buf_of [1]))) ∧
    window_invariant l2cb_one_buffer_added ∧
    l2cu_allocate_lcb 0 6
        (l2c_link_check_send_pkts ext_idle l2cb_one_buffer (some 0) 64 (some (buf_of [1])))
        2 false tBT_TRANSPORT.BT_TRANSPORT_BR_EDR =
      (l2c_link_adjust_allocation 0 6 l2cb_one_buffer_added).map (fun s => (s, some 1)) ∧
    ∃ s', l2c_link_adjust_allocation 0 6 l2cb_one_buffer_added = some s' ∧
      s'.lcb_pool.map (fun l => (l.link_xmit_quota, l.sent_not_acked)) = [(0, 1), (1, 0)] ∧
      s'.controller_xmit_window = 0 ∧ s'.round_robin_unacked = 0 ∧ s'.num_lm_acl_bufs = 1 ∧
      ¬ window_invariant s' := by
  refine ⟨by decide, by decide, by decide, by decide, by decide, ?_⟩
  refine ⟨(l2c_link_adjust_allocation 0 6 l2cb_one_buffer_added).getD l2cb_one_buffer,
    by decide, by decide, by decide, by decide, by decide, by decide⟩

/-- C3, the code at the failing input.  Two controller buffers and two high
priority links with the quota 1 each (a fixed point of
`l2c_link_adjust_allocation`); the round-robin counters match.  The link of
slot 0 sends one packet; the counters still match, also once a low priority
link has taken slot 2.  The allocation of that link runs
`l2c_link_adjust_allocation`: both high priority links are moved to
`link_xmit_quota = 0`, `round_robin_unacked` is set to 0, and the packet in
flight on slot 0 is missing from it. -/
theorem round_robin_invariant_broken_by_adjust :
    l2c_link_adjust_allocation 0 6 l2cb_two_buffers = some l2cb_two_buffers ∧
    round_robin_invariant l2cb_two_buffers ∧
    round_robin_invariant
      (l2c_link_check_send_pkts ext_idle l2cb_two_buffers (some 0) 64 (some (buf_of [1]))) ∧
    round_robin_invariant l2cb_two_buffers_added ∧
    l2cu_allocate_lcb 0 6
        (l2c_link_check_send_pkts ext_idle l2cb_two_buffers (some 0) 64 (some (buf_of [1])))
        3 false tBT_TRANSPORT.BT_TRANSPORT_BR_EDR =
      (l2c_link_adjust_allocation 0 6 l2cb_two_buffers_added).map (fun s => (s, some 2)) ∧
    ∃ s', l2c_link_adjust_allocation 0 6 l2cb_two_buffers_added = some s' ∧
      s'.lcb_pool.map (fun l => (l.link_xmit_quota, l.sent_not_acked)) =
        [(0, 1), (0, 0), (2, 0)] ∧
      s'.round_robin_unacked = 0 ∧
      ¬ round_robin_invariant s' := by
  refine ⟨by decide, by decide, by decide, by decide, by decide, ?_⟩
  refine ⟨(l2c_link_adjust_allocation 0 6 l2cb_two_buffers_added).getD l2cb_two_buffers,
    by decide, by decide, by decide, by decide⟩

/-- C10, the code at the failing input.  The LCB of peer 7 is connecting, with
one channel on it and no controller handle.  `l2c_link_hci_conn_comp` with
status `HCI_ERR_CONNECTION_EXISTS` and handle 0x0042 stores the handle, the
channel stays on the link, and the LCB is put back to `LST_CONNECTING` with the
handle 0x0042 still bound. -/
theorem conn_comp_collision_keeps_handle :
    handle_state_invariant l2cb_collision ∧
    ∃ s', l2c_link_hci_conn_comp ext_idle 6 l2cb_collision
        tHCI_STATUS.HCI_ERR_CONNECTION_EXISTS 0x0042 7 = some s' ∧
      s'.lcb_pool.map (fun l => (l.in_use, l.link_state, l.handle)) =
        [(true, tL2C_LINK_STATE.LST_CONNECTING, 0x0042)] ∧
      ¬ handle_state_invariant s' := by
  refine ⟨by decide, ?_⟩
  refine ⟨((l2c_link_hci_conn_comp ext_idle 6 l2cb_collision
        tHCI_STATUS.HCI_ERR_CONNECTION_EXISTS 0x0042 7).getD l2cb_collision),
    by decide, by decide, by decide⟩

/-! ## The loop bounds of the direct path are enough -/

/-- One more iteration than the length of the link queue changes nothing: the
first loop of the direct path is left through its condition or its `break`
within that many iterations. -/
theorem direct_send_link_q_fuel :
    ∀ (n : Nat) (s : tL2C_CB) (k : Nat),
      (∀ lcb, s.lcb_pool[k]? = some lcb → lcb.link_xmit_data_q.length ≤ n) →
      direct_send_link_q (n + 1) s k = direct_send_link_q n s k := by
  intro n
  induction n with
  | zero =>
    intro s k hlen
    unfold direct_send_link_q
    split
    · rfl
    · rename_i lcb hk
      have h0 := hlen lcb hk
      have hq : lcb.link_xmit_data_q = [] := List.eq_nil_of_length_eq_zero (by omega)
      simp [hq, direct_send_link_q]
  | succ n ih =>
    intro s k hlen
    rw [direct_send_link_q]
    conv => rhs; rw [direct_send_link_q]
    split
    · rfl
    · rename_i lcb hk
      split
      · split
        · rfl
        · rename_i b rest hqueue
          apply ih
          intro l hl
          have hk1 := set_lcb_get s k lcb { lcb with link_xmit_data_q := rest } hk
          rw [send_to_lower_eq _ k _ b none hk1] at hl
          simp only [set_lcb] at hl
          rw [List.getElem?_set_self (by simpa using lt_length_of_getElem? hk)] at hl
          cases hl
          have := hlen lcb hk
          rw [hqueue] at this
          simp at this
          simpa using this
      · rfl

/-- One more iteration than `link_xmit_quota - sent_not_acked` changes nothing:
the second loop of the direct path is left through its condition or its `break`
within that many iterations. -/
theorem direct_send_channels_fuel (x : tEXT) :
    ∀ (n : Nat) (s : tL2C_CB) (k : Nat),
      (∀ lcb, s.lcb_pool[k]? = some lcb →
        lcb.link_xmit_quota < 65536 ∧ lcb.link_xmit_quota - lcb.sent_not_acked ≤ n) →
      direct_send_channels x (n + 1) s k = direct_send_channels x n s k := by
  intro n
  induction n with
  | zero =>
    intro s k hlen
    unfold direct_send_channels
    split
    · rfl
    · rename_i lcb hk
      have h0 := (hlen lcb hk).2
      have hclosed : direct_window_open s lcb = false := by
        unfold direct_window_open
        have : ¬ lcb.sent_not_acked < lcb.link_xmit_quota := by omega
        simp [this]
      simp [hclosed]
  | succ n ih =>
    intro s k hlen
    rw [direct_send_channels]
    conv => rhs; rw [direct_send_channels]
    split
    · rfl
    · rename_i lcb hk
      split
      · rename_i hopen
        simp only []
        split
        · rfl
        · rename_i b hb
          apply ih
          intro l hl
          obtain ⟨_, hqu, hsn, _⟩ := get_next_buffer_same x lcb
          have hk1 : ({ set_lcb s k (l2cu_get_next_buffer_to_send x lcb).lcb with
              calls := s.calls ++ (l2cu_get_next_buffer_to_send x lcb).calls } :
                tL2C_CB).lcb_pool[k]? = some (l2cu_get_next_buffer_to_send x lcb).lcb :=
            set_lcb_get s k lcb (l2cu_get_next_buffer_to_send x lcb).lcb hk
          rw [send_to_lower_eq _ k _ b _ hk1] at hl
          simp only [set_lcb] at hl
          rw [List.getElem?_set_self (by simpa using lt_length_of_getElem? hk)] at hl
          cases hl
          obtain ⟨hlt, hle⟩ := hlen lcb hk
          have hq := (open_of_direct s lcb hopen).2
          have hsna : lcb.sent_not_acked < lcb.link_xmit_quota := by
            unfold direct_window_open at hopen
            simp at hopen
            exact hopen.2
          simp only [hqu, hsn]
          omega
      · rfl

/-! ## Lemmas on the link state machine -/

theorem adjust_arm_timer_quota_only (l : tL2C_LCB) :
    adjust_arm_timer l = { l with l2c_lcb_timer := (adjust_arm_timer l).l2c_lcb_timer } := by
  unfold adjust_arm_timer
  split <;> rfl

theorem assigned_lcb_quota_only (sh : Bool) (qh qq rank rem : Nat) (lcb : tL2C_LCB) :
    quota_only lcb (assigned_lcb sh qh qq rank rem lcb) ∧
      (lcb.in_use = false → assigned_lcb sh qh qq rank rem lcb = lcb) := by
  constructor
  · unfold assigned_lcb quota_only
    by_cases he : adjust_eligible sh lcb = true
    · rw [if_pos he]
      by_cases hp : lcb.acl_priority = tL2CAP_PRIORITY.L2CAP_PRIORITY_HIGH
      · rw [if_pos hp]
        rw [adjust_arm_timer_quota_only]
      · rw [if_neg hp]
        rw [adjust_arm_timer_quota_only]
    · rw [if_neg he]
  · intro h
    unfold assigned_lcb adjust_eligible
    simp [h]

theorem assign_quotas_frame (sh : Bool) (qh qq : Nat) (pool : List tL2C_LCB) (rem rru : Nat) :
    (assign_quotas sh qh qq pool rem rru).1.length = pool.length ∧
      ∀ (k : Nat) (lcb : tL2C_LCB), pool[k]? = some lcb →
        ∃ lcb' : tL2C_LCB, (assign_quotas sh qh qq pool rem rru).1[k]? = some lcb' ∧
          quota_only lcb lcb' ∧ (lcb.in_use = false → lcb' = lcb) := by
  refine ⟨assign_quotas_length _ _ _ _ _ _, ?_⟩
  intro k lcb hk
  refine ⟨assigned_lcb sh qh qq (count_lowpri_links sh (pool.take k)) rem lcb, ?_,
    (assigned_lcb_quota_only _ _ _ _ _ lcb).1, (assigned_lcb_quota_only _ _ _ _ _ lcb).2⟩
  simp only [assign_quotas_get, hk, Option.map_some']

theorem adjust_allocation_frame (shared fuel : Nat) (s s' : tL2C_CB)
    (h : l2c_link_adjust_allocation shared fuel s = some s') :
    s'.calls = s.calls ∧ s'.hci_out = s.hci_out ∧ s'.num_lm_acl_bufs = s.num_lm_acl_bufs ∧
      s'.num_used_lcbs = s.num_used_lcbs ∧ s'.lcb_pool.length = s.lcb_pool.length ∧
      ∀ (k : Nat) (lcb : tL2C_LCB), s.lcb_pool[k]? = some lcb →
        ∃ lcb' : tL2C_LCB, s'.lcb_pool[k]? = some lcb' ∧ quota_only lcb lcb' ∧
          (lcb.in_use = false → lcb' = lcb) := by
  unfold l2c_link_adjust_allocation at h
  simp only at h
  split at h
  · cases h
    refine ⟨rfl, rfl, rfl, rfl, rfl, ?_⟩
    intro k lcb hk
    exact ⟨lcb, hk, by cases lcb; rfl, fun _ => rfl⟩
  · split at h
    · cases h
    · split at h
      · cases h
        exact ⟨rfl, rfl, rfl, rfl, (assign_quotas_frame _ _ _ _ _ _).1,
          (assign_quotas_frame _ _ _ _ _ _).2⟩
      · split at h
        · cases h
          exact ⟨rfl, rfl, rfl, rfl, (assign_quotas_frame _ _ _ _ _ _).1,
            (assign_quotas_frame _ _ _ _ _ _).2⟩
        · cases h
          exact ⟨rfl, rfl, rfl, rfl, (assign_quotas_frame _ _ _ _ _ _).1,
            (assign_quotas_frame _ _ _ _ _ _).2⟩

theorem adjust_allocation_returns (shared fuel : Nat) (s : tL2C_CB)
    (hB : 1 ≤ s.num_lm_acl_bufs) (hfuel : L2CAP_HIGH_PRI_MIN_XMIT_QUOTA_A < fuel) :
    ∃ s' : tL2C_CB, l2c_link_adjust_allocation shared fuel s = some s' := by
  unfold l2c_link_adjust_allocation
  simp only
  split
  · exact ⟨_, rfl⟩
  · have hlow : (if count_lowpri_links (adjust_is_share_buffer shared s) s.lcb_pool ≠ 0
        then 1 else 0) ≤ s.num_lm_acl_bufs := by
      split <;> omega
    obtain ⟨q, hq, -⟩ := lower_high_pri_quota_spec
      (count_hipri_links (adjust_is_share_buffer shared s) s.lcb_pool) _ _ hlow
      L2CAP_HIGH_PRI_MIN_XMIT_QUOTA_A fuel hfuel (by decide)
    rw [hq]
    simp only
    split
    · exact ⟨_, rfl⟩
    · split <;> exact ⟨_, rfl⟩

theorem findIdx?_congr {α : Type} (p q : α → Bool) :
    ∀ (l1 l2 : List α), l1.length = l2.length →
      (∀ (i : Nat) (a b : α), l1[i]? = some a → l2[i]? = some b → p a = q b) →
      l1.findIdx? p = l2.findIdx? q := by
  intro l1
  induction l1 with
  | nil =>
    intro l2 hl _
    have : l2 = [] := List.eq_nil_of_length_eq_zero (by simpa using hl.symm)
    subst this
    rfl
  | cons a rest ih =>
    intro l2 hl hp
    cases l2 with
    | nil => simp at hl
    | cons b rest2 =>
      have h0 : p a = q b := hp 0 a b (by simp) (by simp)
      have hr : rest.findIdx? p = rest2.findIdx? q :=
        ih rest2 (by simpa using hl) (fun i a' b' h1 h2 => hp (i + 1) a' b' (by simpa using h1)
          (by simpa using h2))
      simp only [List.findIdx?_cons, h0, List.findIdx?_succ, hr, Nat.zero_add]

theorem csm_fanout_calls (x : tEXT) (evt : tL2C_EVT) (skip : Option Nat) :
    ∀ q : List tL2C_CCB, (csm_fanout x evt skip q).2 = csm_events evt skip q := by
  intro q
  induction q with
  | nil => rfl
  | cons c rest ih =>
    unfold csm_events at ih ⊢
    by_cases hs : some c.slot = skip
    · simp only [csm_fanout, hs, if_true, ih, List.filter_cons, ne_eq, not_true_eq_false,
        decide_False, Bool.false_eq_true, if_false]
    · simp only [csm_fanout, hs, if_false, List.filter_cons, ne_eq, not_false_eq_true,
        decide_True, if_true, List.map_cons]
      cases x.l2c_csm_execute evt c <;> simp only [ih]

theorem csm_events_filter (evt : tL2C_EVT) (skip : Option Nat) (q : List tL2C_CCB) :
    (csm_events evt skip q).filter is_csm_call = csm_events evt skip q := by
  unfold csm_events
  rw [List.filter_eq_self]
  intro a ha
  obtain ⟨c, -, rfl⟩ := List.mem_map.mp ha
  rfl

theorem fixed_disc_calls_not_csm (x : tEXT) (bda : Nat) (reason : tHCI_STATUS)
    (keep : Option Nat) :
    ∀ (l : List (Option tL2C_CCB)) (xx : Nat),
      (fixed_disc_calls x bda reason keep xx l).filter is_csm_call = [] ∧
      (fixed_disc_calls x bda reason keep xx l).filter is_create_conn_br_edr = [] := by
  intro l
  induction l with
  | nil => intro xx; exact ⟨rfl, rfl⟩
  | cons c rest ih =>
    intro xx
    cases c with
    | none => simpa only [fixed_disc_calls] using ih (xx + 1)
    | some ccb =>
      simp only [fixed_disc_calls]
      split
      · exact ih (xx + 1)
      · simp only [List.filter_cons, is_csm_call, is_create_conn_br_edr, Bool.false_eq_true,
          if_false]
        exact ih (xx + 1)

theorem iot_store_not_csm (bda : Nat) (reason : tHCI_STATUS) :
    (l2c_link_iot_store_disc_reason bda reason).filter is_csm_call = [] ∧
    (l2c_link_iot_store_disc_reason bda reason).filter is_create_conn_br_edr = [] := by
  unfold l2c_link_iot_store_disc_reason
  split
  · exact ⟨rfl, rfl⟩
  · split <;> exact ⟨rfl, rfl⟩

theorem quota_only_mk (a b : tL2C_LCB) (h : quota_only a b) :
    ∃ (q : Nat) (t : Option tL2C_TOUT), b = { a with link_xmit_quota := q, l2c_lcb_timer := t } :=
  ⟨_, _, h⟩

theorem findIdx?_lt {α : Type} {p : α → Bool} {l : List α} {k : Nat}
    (h : l.findIdx? p = some k) : ∃ a : α, l[k]? = some a ∧ p a = true := by
  obtain ⟨hlt, hp, -⟩ := List.findIdx?_eq_some_iff_getElem.mp h
  exact ⟨l[k], List.getElem?_eq_getElem hlt, hp⟩

theorem conn_comp_on_lcb_success (x : tEXT) (fuel : Nat) (s : tL2C_CB) (k handle : Nat)
    (p_lcb : tL2C_LCB) (hk : s.lcb_pool[k]? = some p_lcb)
    (hst : p_lcb.link_state = tL2C_LINK_STATE.LST_CONNECTING) :
    conn_comp_on_lcb x fuel s k tHCI_STATUS.HCI_SUCCESS handle =
      if p_lcb.is_bonding = true ∧ x.l2cu_start_post_bond_timer handle = true then
        some (set_lcb s k
          { p_lcb with handle := handle, link_state := tL2C_LINK_STATE.LST_CONNECTED,
                       l2c_lcb_timer := some tL2C_TOUT.L2CAP_BONDING_TIMEOUT })
      else
        some { set_lcb s k
          { p_lcb with
            handle := handle, link_state := tL2C_LINK_STATE.LST_CONNECTED,
            ccb_queue := (csm_fanout x tL2C_EVT.L2CEVT_LP_CONNECT_CFM none p_lcb.ccb_queue).1,
            l2c_lcb_timer :=
              if (csm_fanout x tL2C_EVT.L2CEVT_LP_CONNECT_CFM none p_lcb.ccb_queue).1 = [] then
                some tL2C_TOUT.L2CAP_LINK_STARTUP_TOUT
              else none } with
          calls := s.calls ++ csm_events tL2C_EVT.L2CEVT_LP_CONNECT_CFM none p_lcb.ccb_queue } := by
  unfold conn_comp_on_lcb
  rw [hk]
  simp only [hst, reduceCtorEq, false_and, if_false, ne_eq, not_true_eq_false, if_true,
    csm_fanout_calls]
  split
  · rfl
  · split <;> rfl

/-- C11: happy incoming connect.  For every peer with no BR/EDR LCB, when the pool
has a free slot (`k` is the first one) and the quota loop of the allocation
returns (at least one controller buffer, fuel above the first quota tried),
`l2c_link_hci_conn_comp` with status `HCI_SUCCESS` returns with an LCB in use
for the peer at slot `k`, bound to the handle, in state connected, with the
link timer armed with `L2CAP_LINK_STARTUP_TOUT`, and makes no call at all, so
none of the channel state machine. -/
theorem conn_comp_happy_incoming (x : tEXT) (fuel : Nat) (s : tL2C_CB) (handle p_bda k : Nat)
    (hnew : l2cu_find_lcb_by_bd_addr s p_bda tBT_TRANSPORT.BT_TRANSPORT_BR_EDR = none)
    (hfree : s.lcb_pool.findIdx? (fun lcb => !lcb.in_use) = some k)
    (hB : 1 ≤ s.num_lm_acl_bufs) (hfuel : L2CAP_HIGH_PRI_MIN_XMIT_QUOTA_A < fuel) :
    ∃ (s' : tL2C_CB) (lcb : tL2C_LCB),
      l2c_link_hci_conn_comp x fuel s tHCI_STATUS.HCI_SUCCESS handle p_bda = some s' ∧
      s'.lcb_pool[k]? = some lcb ∧ lcb.in_use = true ∧ lcb.remote_bd_addr = p_bda ∧
      lcb.transport = tBT_TRANSPORT.BT_TRANSPORT_BR_EDR ∧ lcb.handle = handle ∧
      lcb.link_state = tL2C_LINK_STATE.LST_CONNECTED ∧
      lcb.l2c_lcb_timer = some tL2C_TOUT.L2CAP_LINK_STARTUP_TOUT ∧
      lcb.ccb_queue = [] ∧ s'.num_used_lcbs = s.num_used_lcbs + 1 ∧ s'.calls = s.calls := by
  obtain ⟨a0, ha0, -⟩ := findIdx?_lt hfree
  unfold l2c_link_hci_conn_comp
  rw [hnew]
  simp only
  unfold l2cu_allocate_lcb
  rw [hfree]
  simp only
  obtain ⟨s1, h1⟩ := adjust_allocation_returns x.L2C_DEF_NUM_BLE_BUF_SHARED fuel
    { set_lcb s k
        { in_use := true, link_state := tL2C_LINK_STATE.LST_DISCONNECTED, remote_bd_addr := p_bda,
          transport := tBT_TRANSPORT.BT_TRANSPORT_BR_EDR, handle := HCI_INVALID_HANDLE,
          acl_priority := tL2CAP_PRIORITY.L2CAP_PRIORITY_NORMAL, is_bonding := false,
          disconnect_reason := tHCI_STATUS.HCI_SUCCESS, link_xmit_quota := 0, sent_not_acked := 0,
          link_xmit_data_q := [], ccb_queue := [], p_fixed_ccbs := [], p_pending_ccb := none,
          rr_pri := 0, rr_serv := [], w4_info_rsp := false, l2c_lcb_timer := none,
          info_resp_timer := none } with num_used_lcbs := s.num_used_lcbs + 1 } hB hfuel
  obtain ⟨hc, -, -, hu, -, hp⟩ := adjust_allocation_frame _ _ _ _ h1
  obtain ⟨lcb1, hk1, hq1, -⟩ := hp k _ (set_lcb_get s k a0 _ ha0)
  obtain ⟨q, t, rfl⟩ := quota_only_mk _ _ hq1
  rw [h1]
  simp only
  rw [hk1]
  simp only
  rw [conn_comp_on_lcb_success x fuel _ k handle _ (set_lcb_get s1 k _ _ hk1) rfl]
  simp only [Bool.false_eq_true, false_and, if_false, csm_fanout, if_true, csm_events,
    List.filter_nil, List.map_nil, List.append_nil]
  exact ⟨_, _, rfl, set_lcb_get _ k _ _ (set_lcb_get s1 k _ _ hk1), rfl, rfl, rfl, rfl, rfl, rfl,
    rfl, hu, hc⟩

/-- Witness of C11: status SUCCESS, handle 0x0042, a peer without LCB and a
free slot at index 1. -/
theorem conn_comp_happy_incoming_witness :
    ∃ (s' : tL2C_CB) (lcb : tL2C_LCB),
      l2c_link_hci_conn_comp ext_idle 6 l2cb_incoming tHCI_STATUS.HCI_SUCCESS 0x0042 9 = some s' ∧
      s'.lcb_pool[1]? = some lcb ∧ lcb.in_use = true ∧ lcb.remote_bd_addr = 9 ∧
      lcb.transport = tBT_TRANSPORT.BT_TRANSPORT_BR_EDR ∧ lcb.handle = 0x0042 ∧
      lcb.link_state = tL2C_LINK_STATE.LST_CONNECTED ∧
      lcb.l2c_lcb_timer = some tL2C_TOUT.L2CAP_LINK_STARTUP_TOUT ∧
      lcb.ccb_queue = [] ∧ s'.num_used_lcbs = l2cb_incoming.num_used_lcbs + 1 ∧
      s'.calls = l2cb_incoming.calls :=
  conn_comp_happy_incoming ext_idle 6 l2cb_incoming 0x0042 9 1 (by decide) (by decide)
    (by decide) (by decide)

theorem csm_events_none (evt : tL2C_EVT) (q : List tL2C_CCB) :
    csm_events evt none q = q.map (fun c => tCALL.csm_execute c.slot evt) := by
  unfold csm_events
  congr 1
  rw [List.filter_eq_self]
  intro a _
  simp

theorem find_by_bd_addr_in_use (s : tL2C_CB) (bda k : Nat) (t : tBT_TRANSPORT) (p_lcb : tL2C_LCB)
    (hfind : l2cu_find_lcb_by_bd_addr s bda t = some k) (hk : s.lcb_pool[k]? = some p_lcb) :
    p_lcb.in_use = true ∧ p_lcb.remote_bd_addr = bda ∧ p_lcb.transport = t := by
  obtain ⟨a, ha, hp⟩ := findIdx?_lt hfind
  rw [hk] at ha
  cases ha
  simpa [and_assoc] using hp

theorem any_set_congr {α : Type} (p : α → Bool) (b : α) :
    ∀ (l : List α) (k : Nat) (a : α), l[k]? = some a → p a = p b →
      (l.set k b).any p = l.any p := by
  intro l
  induction l with
  | nil => intro k a h; simp at h
  | cons c rest ih =>
    intro k a h hp
    cases k with
    | zero =>
      simp only [List.getElem?_cons_zero, Option.some.injEq] at h
      subst h
      simp only [List.set_cons_zero, List.any_cons, hp]
    | succ n =>
      simp only [List.getElem?_cons_succ] at h
      simp only [List.set_cons_succ, List.any_cons, ih n a h hp]

/-- C14: for every LCB in state connecting, `l2c_link_hci_conn_comp` with status
`HCI_ERR_MAX_NUM_OF_CONNECTIONS` while another LCB in use is disconnecting
moves the LCB to `LST_CONNECT_HOLDING` with the invalid handle and changes
nothing else: no call is made, so no CCB receives an event, the LCB stays in
use with its channel queue and its disconnect reason, and every other LCB is
as before. -/
theorem conn_comp_hold (x : tEXT) (fuel : Nat) (s : tL2C_CB) (handle p_bda k j : Nat)
    (p_lcb other : tL2C_LCB)
    (hfind : l2cu_find_lcb_by_bd_addr s p_bda tBT_TRANSPORT.BT_TRANSPORT_BR_EDR = some k)
    (hk : s.lcb_pool[k]? = some p_lcb)
    (hst : p_lcb.link_state = tL2C_LINK_STATE.LST_CONNECTING)
    (hj : s.lcb_pool[j]? = some other) (hin : other.in_use = true)
    (hdis : other.link_state = tL2C_LINK_STATE.LST_DISCONNECTING) :
    l2c_link_hci_conn_comp x fuel s tHCI_STATUS.HCI_ERR_MAX_NUM_OF_CONNECTIONS handle p_bda =
      some (set_lcb s k
        { p_lcb with link_state := tL2C_LINK_STATE.LST_CONNECT_HOLDING,
                     handle := HCI_INVALID_HANDLE }) ∧
    ∃ (s' : tL2C_CB) (lcb : tL2C_LCB),
      l2c_link_hci_conn_comp x fuel s tHCI_STATUS.HCI_ERR_MAX_NUM_OF_CONNECTIONS handle p_bda =
        some s' ∧
      s'.lcb_pool[k]? = some lcb ∧ lcb.link_state = tL2C_LINK_STATE.LST_CONNECT_HOLDING ∧
      lcb.handle = HCI_INVALID_HANDLE ∧ lcb.in_use = true ∧
      lcb.disconnect_reason = p_lcb.disconnect_reason ∧ lcb.ccb_queue = p_lcb.ccb_queue ∧
      s'.calls = s.calls ∧ ∀ i : Nat, i ≠ k → s'.lcb_pool[i]? = s.lcb_pool[i]? := by
  have hdisc : l2cu_lcb_disconnecting (set_lcb s k { p_lcb with handle := handle }) = true := by
    have h1 : l2cu_lcb_disconnecting (set_lcb s k { p_lcb with handle := handle }) =
        l2cu_lcb_disconnecting s := by
      unfold l2cu_lcb_disconnecting set_lcb
      exact any_set_congr _ _ _ k p_lcb hk rfl
    rw [h1]
    unfold l2cu_lcb_disconnecting
    rw [List.any_eq_true]
    exact ⟨other, List.getElem?_mem hj, by simp [hin, hdis]⟩
  have heq : l2c_link_hci_conn_comp x fuel s tHCI_STATUS.HCI_ERR_MAX_NUM_OF_CONNECTIONS handle
      p_bda = some (set_lcb s k
        { p_lcb with link_state := tL2C_LINK_STATE.LST_CONNECT_HOLDING,
                     handle := HCI_INVALID_HANDLE }) := by
    unfold l2c_link_hci_conn_comp
    rw [hfind]
    simp only
    unfold conn_comp_on_lcb
    rw [hk]
    simp only
    rw [if_neg (by simp [hst]), if_neg (by simp [hst]), if_neg (by decide),
      if_pos ⟨trivial, hdisc⟩]
  refine ⟨heq, _, _, heq, set_lcb_get s k _ _ hk, rfl, rfl,
    (find_by_bd_addr_in_use s p_bda k _ p_lcb hfind hk).1, rfl, rfl, rfl, ?_⟩
  intro i hi
  unfold set_lcb
  exact List.getElem?_set_ne (Ne.symm hi)

/-- Witness of C14: the LCB of peer 2 is connecting while the link with handle
1 is disconnecting. -/
theorem conn_comp_hold_witness :
    l2c_link_hci_conn_comp ext_idle 6
        (l2cb_with 4 4
          [{ lcb_link 1 1 .L2CAP_PRIORITY_NORMAL 2 0 [] with
              link_state := tL2C_LINK_STATE.LST_DISCONNECTING },
           { lcb_link 2 HCI_INVALID_HANDLE .L2CAP_PRIORITY_NORMAL 2 0 [] with
              link_state := tL2C_LINK_STATE.LST_CONNECTING, ccb_queue := [ccb_idle 1 65] }])
        tHCI_STATUS.HCI_ERR_MAX_NUM_OF_CONNECTIONS 0x0042 2 =
      some (l2cb_with 4 4
          [{ lcb_link 1 1 .L2CAP_PRIORITY_NORMAL 2 0 [] with
              link_state := tL2C_LINK_STATE.LST_DISCONNECTING },
           { lcb_link 2 HCI_INVALID_HANDLE .L2CAP_PRIORITY_NORMAL 2 0 [] with
              link_state := tL2C_LINK_STATE.LST_CONNECT_HOLDING,
              ccb_queue := [ccb_idle 1 65] }]) :=
  (conn_comp_hold ext_idle 6 _ 0x0042 2 1 0
    { lcb_link 2 HCI_INVALID_HANDLE .L2CAP_PRIORITY_NORMAL 2 0 [] with
      link_state := tL2C_LINK_STATE.LST_CONNECTING, ccb_queue := [ccb_idle 1 65] }
    { lcb_link 1 1 .L2CAP_PRIORITY_NORMAL 2 0 [] with
      link_state := tL2C_LINK_STATE.LST_DISCONNECTING }
    (by decide) (by decide) (by decide) (by decide) (by decide) (by decide)).1

theorem release_lcb_spec (x : tEXT) (fuel : Nat) (s : tL2C_CB) (k : Nat) (lcb : tL2C_LCB)
    (hk : s.lcb_pool[k]? = some lcb) (hB : 1 ≤ s.num_lm_acl_bufs)
    (hfuel : L2CAP_HIGH_PRI_MIN_XMIT_QUOTA_A < fuel) :
    ∃ s1 : tL2C_CB, l2cu_release_lcb x fuel s k = some s1 ∧
      s1.calls = s.calls ++
        fixed_disc_calls x lcb.remote_bd_addr lcb.disconnect_reason none 0 lcb.p_fixed_ccbs ∧
      s1.num_lm_acl_bufs = s.num_lm_acl_bufs ∧
      s1.lcb_pool.length = s.lcb_pool.length ∧
      s1.lcb_pool[k]? = some
        { lcb with in_use := false, l2c_lcb_timer := none, info_resp_timer := none,
                   link_xmit_data_q := [], p_fixed_ccbs := lcb.p_fixed_ccbs.map (fun _ => none),
                   handle := HCI_INVALID_HANDLE } ∧
      ∀ (j : Nat) (a : tL2C_LCB), j ≠ k → s.lcb_pool[j]? = some a →
        ∃ a' : tL2C_LCB, s1.lcb_pool[j]? = some a' ∧ quota_only a a' := by
  unfold l2cu_release_lcb
  rw [hk]
  simp only
  obtain ⟨s1, h1⟩ := adjust_allocation_returns x.L2C_DEF_NUM_BLE_BUF_SHARED fuel
    { set_lcb s k
        { lcb with in_use := false, l2c_lcb_timer := none, info_resp_timer := none,
                   link_xmit_data_q := [], p_fixed_ccbs := lcb.p_fixed_ccbs.map (fun _ => none),
                   handle := HCI_INVALID_HANDLE } with
      num_used_lcbs := s.num_used_lcbs - 1,
      calls := s.calls ++
        fixed_disc_calls x lcb.remote_bd_addr lcb.disconnect_reason none 0 lcb.p_fixed_ccbs }
    hB hfuel
  obtain ⟨hc, -, hb, -, hl, hp⟩ := adjust_allocation_frame _ _ _ _ h1
  refine ⟨s1, h1, hc, hb, ?_, ?_, ?_⟩
  · rw [hl]
    simp [set_lcb]
  · obtain ⟨lcb', h2, -, h3⟩ := hp k _ (set_lcb_get s k lcb _ hk)
    rw [h2, h3 rfl]
  · intro j a hj ha
    have h4 : (set_lcb s k
        { lcb with in_use := false, l2c_lcb_timer := none, info_resp_timer := none,
                   link_xmit_data_q := [], p_fixed_ccbs := lcb.p_fixed_ccbs.map (fun _ => none),
                   handle := HCI_INVALID_HANDLE }).lcb_pool[j]? = some a := by
      unfold set_lcb
      rw [List.getElem?_set_ne (Ne.symm hj)]
      exact ha
    obtain ⟨a', h5, h6, -⟩ := hp j a h4
    exact ⟨a', h5, h6⟩

theorem lcb_disconnecting_set (s : tL2C_CB) (k : Nat) (p_lcb lcb : tL2C_LCB)
    (hk : s.lcb_pool[k]? = some p_lcb)
    (h : (p_lcb.in_use && p_lcb.link_state == tL2C_LINK_STATE.LST_DISCONNECTING) =
      (lcb.in_use && lcb.link_state == tL2C_LINK_STATE.LST_DISCONNECTING)) :
    l2cu_lcb_disconnecting (set_lcb s k lcb) = l2cu_lcb_disconnecting s := by
  unfold l2cu_lcb_disconnecting set_lcb
  exact any_set_congr _ _ _ k p_lcb hk h

/-- C15: for every LCB in state connecting and every failure status that does
not take the hold branch, `l2c_link_hci_conn_comp` returns (the quota loop of a
release returns with at least one controller buffer), records the status as
disconnect reason and delivers `L2CEVT_LP_CONNECT_CFM_NEG` exactly once, in
queue order, to every CCB that was on the link.  When no CCB remains the LCB is
released (the only further calls are the fixed channel callbacks of the
release); when CCBs remain and the status is `HCI_ERR_CONNECTION_EXISTS` the
LCB is kept in state connecting and no further call is made; when CCBs remain
with another status exactly one call starts a BR/EDR connect on the LCB. -/
theorem conn_comp_failure (x : tEXT) (fuel : Nat) (s : tL2C_CB) (status : tHCI_STATUS)
    (handle p_bda k : Nat) (p_lcb : tL2C_LCB)
    (hfind : l2cu_find_lcb_by_bd_addr s p_bda tBT_TRANSPORT.BT_TRANSPORT_BR_EDR = some k)
    (hk : s.lcb_pool[k]? = some p_lcb)
    (hst : p_lcb.link_state = tL2C_LINK_STATE.LST_CONNECTING)
    (hfail : status ≠ tHCI_STATUS.HCI_SUCCESS)
    (hhold : ¬ (status = tHCI_STATUS.HCI_ERR_MAX_NUM_OF_CONNECTIONS ∧
      l2cu_lcb_disconnecting s = true))
    (hB : 1 ≤ s.num_lm_acl_bufs) (hfuel : L2CAP_HIGH_PRI_MIN_XMIT_QUOTA_A < fuel) :
    ∃ (s' : tL2C_CB) (lcb : tL2C_LCB),
      l2c_link_hci_conn_comp x fuel s status handle p_bda = some s' ∧
      s'.lcb_pool[k]? = some lcb ∧ lcb.disconnect_reason = status ∧
      lcb.ccb_queue = (csm_fanout x tL2C_EVT.L2CEVT_LP_CONNECT_CFM_NEG none p_lcb.ccb_queue).1 ∧
      ((csm_fanout x tL2C_EVT.L2CEVT_LP_CONNECT_CFM_NEG none p_lcb.ccb_queue).1 = [] →
        lcb.in_use = false ∧
        s'.calls = s.calls ++
          p_lcb.ccb_queue.map
            (fun c => tCALL.csm_execute c.slot tL2C_EVT.L2CEVT_LP_CONNECT_CFM_NEG) ++
          fixed_disc_calls x p_lcb.remote_bd_addr status none 0 p_lcb.p_fixed_ccbs) ∧
      ((csm_fanout x tL2C_EVT.L2CEVT_LP_CONNECT_CFM_NEG none p_lcb.ccb_queue).1 ≠ [] →
        status = tHCI_STATUS.HCI_ERR_CONNECTION_EXISTS →
        lcb.in_use = true ∧ lcb.link_state = tL2C_LINK_STATE.LST_CONNECTING ∧
        s'.calls = s.calls ++
          p_lcb.ccb_queue.map
            (fun c => tCALL.csm_execute c.slot tL2C_EVT.L2CEVT_LP_CONNECT_CFM_NEG)) ∧
      ((csm_fanout x tL2C_EVT.L2CEVT_LP_CONNECT_CFM_NEG none p_lcb.ccb_queue).1 ≠ [] →
        status ≠ tHCI_STATUS.HCI_ERR_CONNECTION_EXISTS →
        lcb.in_use = true ∧
        s'.calls = s.calls ++
          p_lcb.ccb_queue.map
            (fun c => tCALL.csm_execute c.slot tL2C_EVT.L2CEVT_LP_CONNECT_CFM_NEG) ++
          [tCALL.create_conn_br_edr k]) := by
  have hin := (find_by_bd_addr_in_use s p_bda k _ p_lcb hfind hk).1
  have hdisc : ¬ (status = tHCI_STATUS.HCI_ERR_MAX_NUM_OF_CONNECTIONS ∧
      l2cu_lcb_disconnecting (set_lcb s k { p_lcb with handle := handle }) = true) := by
    rw [lcb_disconnecting_set s k p_lcb { p_lcb with handle := handle } hk rfl]
    exact hhold
  unfold l2c_link_hci_conn_comp
  rw [hfind]
  simp only
  unfold conn_comp_on_lcb
  rw [hk]
  simp only
  rw [if_neg (by simp [hst]), if_neg (by simp [hst]), if_neg hfail, if_neg hdisc,
    csm_fanout_calls, csm_events_none]
  by_cases hq : (csm_fanout x tL2C_EVT.L2CEVT_LP_CONNECT_CFM_NEG none p_lcb.ccb_queue).1 = []
  · rw [if_pos hq]
    obtain ⟨s1, h1, hc, -, -, hp, -⟩ := release_lcb_spec x fuel
      { set_lcb s k
          { p_lcb with
            handle := handle, link_state := tL2C_LINK_STATE.LST_DISCONNECTING,
            ccb_queue :=
              (csm_fanout x tL2C_EVT.L2CEVT_LP_CONNECT_CFM_NEG none p_lcb.ccb_queue).1,
            disconnect_reason := status } with
        calls := s.calls ++ p_lcb.ccb_queue.map
          (fun c => tCALL.csm_execute c.slot tL2C_EVT.L2CEVT_LP_CONNECT_CFM_NEG) } k _
      (set_lcb_get s k p_lcb _ hk) hB hfuel
    exact ⟨s1, _, h1, hp, rfl, rfl, fun _ => ⟨rfl, hc⟩, fun h => absurd hq h,
      fun h => absurd hq h⟩
  · rw [if_neg hq]
    by_cases he : status = tHCI_STATUS.HCI_ERR_CONNECTION_EXISTS
    · rw [if_pos he]
      exact ⟨_, _, rfl, set_lcb_get _ k _ _ (set_lcb_get s k p_lcb _ hk), rfl, rfl,
        fun h => absurd h hq, fun _ _ => ⟨hin, rfl, rfl⟩, fun _ h => absurd he h⟩
    · rw [if_neg he]
      unfold l2cu_create_conn_br_edr
      rw [set_lcb_get s k p_lcb _ hk]
      exact ⟨_, _, rfl, set_lcb_get _ k _ _ (set_lcb_get s k p_lcb _ hk), rfl, rfl,
        fun h => absurd h hq, fun _ h => absurd h he, fun _ _ => ⟨hin, rfl⟩⟩

/-- Witness of C15: one CCB, status `HCI_ERR_CONNECTION_EXISTS`. -/
theorem conn_comp_failure_witness :
    ∃ (s' : tL2C_CB) (lcb : tL2C_LCB),
      l2c_link_hci_conn_comp ext_idle 6 l2cb_collision tHCI_STATUS.HCI_ERR_CONNECTION_EXISTS
        0x0042 7 = some s' ∧
      s'.lcb_pool[0]? = some lcb ∧
      lcb.disconnect_reason = tHCI_STATUS.HCI_ERR_CONNECTION_EXISTS ∧
      lcb.ccb_queue = [ccb_idle 0 64] ∧ lcb.in_use = true ∧
      lcb.link_state = tL2C_LINK_STATE.LST_CONNECTING ∧
      s'.calls = [tCALL.csm_execute 0 tL2C_EVT.L2CEVT_LP_CONNECT_CFM_NEG] := by
  obtain ⟨s', lcb, h1, h2, h3, h4, -, h5, -⟩ :=
    conn_comp_failure ext_idle 6 l2cb_collision tHCI_STATUS.HCI_ERR_CONNECTION_EXISTS 0x0042 7 0
      { lcb_link 7 HCI_INVALID_HANDLE .L2CAP_PRIORITY_NORMAL 4 0 [] with
        link_state := tL2C_LINK_STATE.LST_CONNECTING, ccb_queue := [ccb_idle 0 64],
        l2c_lcb_timer := some tL2C_TOUT.L2CAP_LINK_CONNECT_EXT_TIMEOUT_MS }
      (by decide) (by decide) (by decide) (by decide) (by decide) (by decide) (by decide)
  obtain ⟨h6, h7, h8⟩ := h5 (by decide) rfl
  exact ⟨s', lcb, h1, h2, h3, h4, h6, h7, h8⟩

/-- C13 (failing input): the LCB of peer 1 (slot 0) is connecting and the LCB of
peer 2 (slot 1) is held back, neither has a controller handle.  A connection
complete with a failure status for peer 2 finds its LCB outside the connecting
state and hands the handle of that LCB, the invalid handle, to
`l2c_link_hci_disc_comp`: the search by handle answers slot 0, so the
disconnect is applied to the LCB of peer 1 (its channel receives
`L2CEVT_LP_DISCONNECT_IND`, the status becomes its disconnect reason and its
connect is restarted) and the LCB of peer 2 is left untouched. -/
theorem conn_comp_unexpected_hits_other_lcb :
    l2cu_find_lcb_by_bd_addr l2cb_two_pending 2 tBT_TRANSPORT.BT_TRANSPORT_BR_EDR = some 1 ∧
    l2cu_find_lcb_by_handle l2cb_two_pending HCI_INVALID_HANDLE = some 0 ∧
    (l2c_link_hci_conn_comp ext_idle 6 l2cb_two_pending (tHCI_STATUS.HCI_ERR_OTHER 4) 0x0042
        2).map
      (fun s => (s.calls, s.lcb_pool[1]?,
        s.lcb_pool.map (fun l => (l.link_state, l.disconnect_reason)))) =
      some ([tCALL.iot_add_one_disc_count 1,
          tCALL.csm_execute 0 tL2C_EVT.L2CEVT_LP_DISCONNECT_IND,
          tCALL.btm_sco_acl_removed 1, tCALL.btm_acl_removed HCI_INVALID_HANDLE,
          tCALL.create_conn_br_edr 0],
        l2cb_two_pending.lcb_pool[1]?,
        [(tL2C_LINK_STATE.LST_CONNECTING, tHCI_STATUS.HCI_ERR_OTHER 4),
         (tL2C_LINK_STATE.LST_CONNECT_HOLDING, tHCI_STATUS.HCI_SUCCESS)]) := by
  decide

/-- C16 (failing input): no LCB owns handle 0x99 and the LCB of peer 2 (slot 1)
is held back.  `l2c_link_hci_disc_comp` returns false, yet it starts a BR/EDR
connect on the held LCB, which is connecting afterwards. -/
theorem disc_comp_unknown_handle_promotes :
    l2cu_find_lcb_by_handle l2cb_held 0x99 = none ∧
    l2cb_held.lcb_pool.map (fun l => l.link_state) =
      [tL2C_LINK_STATE.LST_CONNECTED, tL2C_LINK_STATE.LST_CONNECT_HOLDING] ∧
    (l2c_link_hci_disc_comp ext_idle 6 l2cb_held 0x99 tHCI_STATUS.HCI_ERR_PEER_USER).map
      (fun r => (r.2, r.1.calls, r.1.lcb_pool.map (fun l => l.link_state))) =
      some (false, [tCALL.create_conn_br_edr 1],
        [tL2C_LINK_STATE.LST_CONNECTED, tL2C_LINK_STATE.LST_CONNECTING]) := by
  decide

theorem set_lcb_set_lcb (s : tL2C_CB) (k : Nat) (a b : tL2C_LCB) :
    set_lcb (set_lcb s k a) k b = set_lcb s k b := by
  unfold set_lcb
  simp only [List.set_set]

theorem transport_cases (t : tBT_TRANSPORT) (h : ¬ t = tBT_TRANSPORT.BT_TRANSPORT_LE) :
    t = tBT_TRANSPORT.BT_TRANSPORT_BR_EDR := by
  cases t
  · rfl
  · exact absurd rfl h

theorem disc_comp_br_edr_retained (x : tEXT) (fuel : Nat) (s : tL2C_CB) (handle : Nat)
    (reason : tHCI_STATUS) (k : Nat) (p_lcb : tL2C_LCB)
    (hfind : l2cu_find_lcb_by_handle s handle = some k) (hk : s.lcb_pool[k]? = some p_lcb)
    (hrem : (disc_comp_lcb x p_lcb reason).ccb_queue ≠ [] ∨ p_lcb.p_pending_ccb ≠ none)
    (hbr : p_lcb.transport = tBT_TRANSPORT.BT_TRANSPORT_BR_EDR) :
    l2c_link_hci_disc_comp x fuel s handle reason =
      some ({ set_lcb s k
          { disc_comp_lcb x p_lcb reason with
            link_xmit_data_q := [],
            p_fixed_ccbs := fixed_release p_lcb.p_pending_ccb p_lcb.p_fixed_ccbs,
            handle := HCI_INVALID_HANDLE, link_state := tL2C_LINK_STATE.LST_CONNECTING,
            p_pending_ccb := none } with
        calls := s.calls ++ (disc_comp_calls k p_lcb reason ++
          fixed_disc_calls x p_lcb.remote_bd_addr reason p_lcb.p_pending_ccb 0
            p_lcb.p_fixed_ccbs ++
          [tCALL.btm_acl_removed p_lcb.handle, tCALL.create_conn_br_edr k]) }, true) := by
  unfold l2c_link_hci_disc_comp
  rw [hfind]
  simp only
  rw [hk]
  simp only
  unfold disc_comp_lcb at hrem
  rw [if_pos hrem, if_neg (by simp [hbr])]
  have hlt : k < s.lcb_pool.length := lt_length_of_getElem? hk
  simp only [l2cu_create_conn_br_edr, set_lcb, List.getElem?_set_self, List.length_set, hlt,
    List.set_set, disc_comp_promote, Bool.false_eq_true, if_false, disc_comp_calls,
    disc_comp_lcb, csm_fanout_calls, List.append_assoc, hbr, reduceCtorEq,
    if_true, List.nil_append, List.singleton_append, List.cons_append]

theorem disc_comp_le_retained (x : tEXT) (fuel : Nat) (s : tL2C_CB) (handle : Nat)
    (reason : tHCI_STATUS) (k : Nat) (p_lcb : tL2C_LCB)
    (hfind : l2cu_find_lcb_by_handle s handle = some k) (hk : s.lcb_pool[k]? = some p_lcb)
    (hrem : (disc_comp_lcb x p_lcb reason).ccb_queue ≠ [] ∨ p_lcb.p_pending_ccb ≠ none)
    (hle : p_lcb.transport = tBT_TRANSPORT.BT_TRANSPORT_LE)
    (hc : x.l2cu_create_conn_le
      { disc_comp_lcb x p_lcb reason with link_xmit_data_q := [] } = true) :
    l2c_link_hci_disc_comp x fuel s handle reason =
      some ({ set_lcb s k
          { disc_comp_lcb x p_lcb reason with
            link_xmit_data_q := [], p_pending_ccb := none } with
        calls := s.calls ++ (disc_comp_calls k p_lcb reason ++
          [tCALL.btm_acl_removed handle, tCALL.create_conn_le k]) }, true) := by
  unfold l2c_link_hci_disc_comp
  rw [hfind]
  simp only
  rw [hk]
  simp only
  unfold disc_comp_lcb at hrem hc
  rw [if_pos hrem, if_pos hle, if_pos hc]
  simp only [set_lcb, disc_comp_promote, Bool.false_eq_true, if_false, disc_comp_calls,
    disc_comp_lcb, csm_fanout_calls, List.append_assoc, hle, reduceCtorEq,
    if_true, List.nil_append, List.singleton_append, List.cons_append, List.append_nil]

theorem disc_comp_released (x : tEXT) (fuel : Nat) (s : tL2C_CB) (handle : Nat)
    (reason : tHCI_STATUS) (k : Nat) (p_lcb : tL2C_LCB)
    (hfind : l2cu_find_lcb_by_handle s handle = some k) (hk : s.lcb_pool[k]? = some p_lcb)
    (hrel : ¬ ((disc_comp_lcb x p_lcb reason).ccb_queue ≠ [] ∨ p_lcb.p_pending_ccb ≠ none) ∨
      (p_lcb.transport = tBT_TRANSPORT.BT_TRANSPORT_LE ∧
        ¬ x.l2cu_create_conn_le
          { disc_comp_lcb x p_lcb reason with link_xmit_data_q := [] } = true)) :
    ∃ (q : List BT_HDR) (C : List tCALL),
      l2c_link_hci_disc_comp x fuel s handle reason =
        (l2cu_release_lcb x fuel
          { set_lcb s k
              { disc_comp_lcb x p_lcb reason with
                link_xmit_data_q := q, p_pending_ccb := none } with
            calls := s.calls ++ (disc_comp_calls k p_lcb reason ++ C) } k).map
          (fun s1 => (disc_comp_promote s1 true, true)) ∧
      C.filter is_csm_call = [] ∧ C.filter is_create_conn_br_edr = [] := by
  unfold l2c_link_hci_disc_comp
  rw [hfind]
  simp only
  rw [hk]
  simp only
  by_cases hrem : (disc_comp_lcb x p_lcb reason).ccb_queue ≠ [] ∨ p_lcb.p_pending_ccb ≠ none
  · obtain ⟨hle, hc⟩ : p_lcb.transport = tBT_TRANSPORT.BT_TRANSPORT_LE ∧
        ¬ x.l2cu_create_conn_le
          { disc_comp_lcb x p_lcb reason with link_xmit_data_q := [] } = true := by
      cases hrel with
      | inl h => exact absurd hrem h
      | inr h => exact h
    unfold disc_comp_lcb at hrem hc
    rw [if_pos hrem, if_pos hle, if_neg hc]
    refine ⟨[], [tCALL.btm_acl_removed handle, tCALL.create_conn_le k], ?_, rfl, rfl⟩
    simp only [set_lcb, disc_comp_calls, disc_comp_lcb, csm_fanout_calls, List.append_assoc,
      hle, reduceCtorEq, if_false, if_true, List.nil_append, List.singleton_append,
      List.cons_append, List.append_nil]
  · have hrem2 := hrem
    unfold disc_comp_lcb at hrem2
    rw [if_neg hrem2]
    refine ⟨p_lcb.link_xmit_data_q, [], ?_, rfl, rfl⟩
    simp only [set_lcb, disc_comp_calls, disc_comp_lcb, csm_fanout_calls, List.append_assoc,
      List.append_nil]

theorem disc_comp_calls_filter (k : Nat) (p_lcb : tL2C_LCB) (reason : tHCI_STATUS) :
    (disc_comp_calls k p_lcb reason).filter is_csm_call =
        csm_events tL2C_EVT.L2CEVT_LP_DISCONNECT_IND p_lcb.p_pending_ccb p_lcb.ccb_queue ∧
      (disc_comp_calls k p_lcb reason).filter is_create_conn_br_edr = [] := by
  have hev : (csm_events tL2C_EVT.L2CEVT_LP_DISCONNECT_IND p_lcb.p_pending_ccb
      p_lcb.ccb_queue).filter is_create_conn_br_edr = [] := by
    unfold csm_events
    rw [List.filter_eq_nil_iff]
    intro a ha
    obtain ⟨c, -, rfl⟩ := List.mem_map.mp ha
    simp [is_create_conn_br_edr]
  unfold disc_comp_calls
  simp only [List.filter_append, (iot_store_not_csm _ _).1, (iot_store_not_csm _ _).2,
    csm_events_filter, hev, List.nil_append, List.append_nil]
  constructor
  · split <;> split <;> simp [is_csm_call]
  · split <;> split <;> simp [is_create_conn_br_edr]

theorem disc_comp_promote_spec (s1 : tL2C_CB) :
    ∃ P : List tCALL, (disc_comp_promote s1 true).calls = s1.calls ++ P ∧
      P.filter is_csm_call = [] ∧
      (∀ h : Nat, l2cu_find_lcb_by_state s1 tL2C_LINK_STATE.LST_CONNECT_HOLDING = some h →
        P = [tCALL.create_conn_br_edr h] ∧
        ∃ a : tL2C_LCB, (disc_comp_promote s1 true).lcb_pool[h]? = some a ∧
          a.link_state = tL2C_LINK_STATE.LST_CONNECTING) ∧
      (l2cu_find_lcb_by_state s1 tL2C_LINK_STATE.LST_CONNECT_HOLDING = none →
        P = [] ∧ disc_comp_promote s1 true = s1) ∧
      ∀ (j : Nat) (a : tL2C_LCB), s1.lcb_pool[j]? = some a → a.in_use = false →
        (disc_comp_promote s1 true).lcb_pool[j]? = some a := by
  unfold disc_comp_promote
  simp only [if_true]
  cases hf : l2cu_find_lcb_by_state s1 tL2C_LINK_STATE.LST_CONNECT_HOLDING with
  | none =>
    refine ⟨[], by simp, rfl, ?_, fun _ => ⟨rfl, rfl⟩, fun j a ha _ => ha⟩
    intro h hh
    cases hh
  | some h =>
    obtain ⟨b, hb, hpb⟩ := findIdx?_lt hf
    simp only [Bool.and_eq_true] at hpb
    simp only [l2cu_create_conn_br_edr, hb]
    refine ⟨[tCALL.create_conn_br_edr h], rfl, rfl, ?_, ?_, ?_⟩
    · intro h' hh
      cases hh
      exact ⟨rfl, _, set_lcb_get s1 h b _ hb, rfl⟩
    · intro hh
      cases hh
    · intro j a ha hin
      have hne : h ≠ j := by
        intro he
        subst he
        rw [hb] at ha
        cases ha
        rw [hin] at hpb
        exact absurd hpb.1 (by decide)
      simp only [set_lcb]
      rw [List.getElem?_set_ne hne]
      exact ha

theorem find_by_handle_in_use (s : tL2C_CB) (handle k : Nat) (p_lcb : tL2C_LCB)
    (hfind : l2cu_find_lcb_by_handle s handle = some k) (hk : s.lcb_pool[k]? = some p_lcb) :
    p_lcb.in_use = true ∧ p_lcb.handle = handle := by
  obtain ⟨a, ha, hp⟩ := findIdx?_lt hfind
  rw [hk] at ha
  cases ha
  simpa using hp

/-- C17: for every handle owned by an LCB (slot `k` is the answer of the search by
handle), `l2c_link_hci_disc_comp` returns true (the quota loop of a release
returns with at least one controller buffer), records the reason as disconnect
reason and leaves `p_pending_ccb` cleared; among the calls it adds, the calls
of the channel state machine are `L2CEVT_LP_DISCONNECT_IND` exactly once, in
queue order, for every CCB of the channel queue other than the pending CCB,
which receives nothing. -/
theorem disc_comp_known_handle (x : tEXT) (fuel : Nat) (s : tL2C_CB) (handle : Nat)
    (reason : tHCI_STATUS) (k : Nat) (p_lcb : tL2C_LCB)
    (hfind : l2cu_find_lcb_by_handle s handle = some k) (hk : s.lcb_pool[k]? = some p_lcb)
    (hB : 1 ≤ s.num_lm_acl_bufs) (hfuel : L2CAP_HIGH_PRI_MIN_XMIT_QUOTA_A < fuel) :
    ∃ (s' : tL2C_CB) (lcb : tL2C_LCB) (added : List tCALL),
      l2c_link_hci_disc_comp x fuel s handle reason = some (s', true) ∧
      s'.lcb_pool[k]? = some lcb ∧ lcb.disconnect_reason = reason ∧
      lcb.p_pending_ccb = none ∧ s'.calls = s.calls ++ added ∧
      added.filter is_csm_call =
        (p_lcb.ccb_queue.filter (fun c => decide (some c.slot ≠ p_lcb.p_pending_ccb))).map
          (fun c => tCALL.csm_execute c.slot tL2C_EVT.L2CEVT_LP_DISCONNECT_IND) := by
  have hrelease : (¬ ((disc_comp_lcb x p_lcb reason).ccb_queue ≠ [] ∨
        p_lcb.p_pending_ccb ≠ none) ∨
      (p_lcb.transport = tBT_TRANSPORT.BT_TRANSPORT_LE ∧
        ¬ x.l2cu_create_conn_le
          { disc_comp_lcb x p_lcb reason with link_xmit_data_q := [] } = true)) →
      ∃ (s' : tL2C_CB) (lcb : tL2C_LCB) (added : List tCALL),
        l2c_link_hci_disc_comp x fuel s handle reason = some (s', true) ∧
        s'.lcb_pool[k]? = some lcb ∧ lcb.disconnect_reason = reason ∧
        lcb.p_pending_ccb = none ∧ s'.calls = s.calls ++ added ∧
        added.filter is_csm_call =
          csm_events tL2C_EVT.L2CEVT_LP_DISCONNECT_IND p_lcb.p_pending_ccb p_lcb.ccb_queue := by
    intro hrel
    obtain ⟨q, C, heq, hC1, -⟩ := disc_comp_released x fuel s handle reason k p_lcb hfind hk hrel
    obtain ⟨s1, h1, hc1, -, -, hp1, -⟩ := release_lcb_spec x fuel
      { set_lcb s k
          { disc_comp_lcb x p_lcb reason with link_xmit_data_q := q, p_pending_ccb := none } with
        calls := s.calls ++ (disc_comp_calls k p_lcb reason ++ C) } k
      { disc_comp_lcb x p_lcb reason with link_xmit_data_q := q, p_pending_ccb := none }
      (set_lcb_get s k p_lcb _ hk) hB hfuel
    obtain ⟨P, hP1, hP2, -, -, hP5⟩ := disc_comp_promote_spec s1
    rw [heq, h1]
    simp only [Option.map_some']
    refine ⟨_, _, disc_comp_calls k p_lcb reason ++ C ++
      fixed_disc_calls x p_lcb.remote_bd_addr reason none 0 p_lcb.p_fixed_ccbs ++ P, rfl,
      hP5 k _ hp1 rfl, rfl, rfl, ?_, ?_⟩
    · rw [hP1, hc1]
      simp only [List.append_assoc]
      rfl
    · simp only [List.filter_append, (disc_comp_calls_filter k p_lcb reason).1, hC1, hP2,
        (fixed_disc_calls_not_csm x _ _ _ _ _).1, List.append_nil]
  show ∃ (s' : tL2C_CB) (lcb : tL2C_LCB) (added : List tCALL),
      l2c_link_hci_disc_comp x fuel s handle reason = some (s', true) ∧
      s'.lcb_pool[k]? = some lcb ∧ lcb.disconnect_reason = reason ∧
      lcb.p_pending_ccb = none ∧ s'.calls = s.calls ++ added ∧
      added.filter is_csm_call =
        csm_events tL2C_EVT.L2CEVT_LP_DISCONNECT_IND p_lcb.p_pending_ccb p_lcb.ccb_queue
  by_cases hrem : (disc_comp_lcb x p_lcb reason).ccb_queue ≠ [] ∨ p_lcb.p_pending_ccb ≠ none
  · by_cases hle : p_lcb.transport = tBT_TRANSPORT.BT_TRANSPORT_LE
    · by_cases hc : x.l2cu_create_conn_le
          { disc_comp_lcb x p_lcb reason with link_xmit_data_q := [] } = true
      · rw [disc_comp_le_retained x fuel s handle reason k p_lcb hfind hk hrem hle hc]
        refine ⟨_, _, _, rfl, set_lcb_get s k p_lcb _ hk, rfl, rfl, rfl, ?_⟩
        simp only [List.filter_append, (disc_comp_calls_filter k p_lcb reason).1]
        simp [is_csm_call]
      · exact hrelease (Or.inr ⟨hle, hc⟩)
    · rw [disc_comp_br_edr_retained x fuel s handle reason k p_lcb hfind hk hrem
        (transport_cases _ hle)]
      refine ⟨_, _, _, rfl, set_lcb_get s k p_lcb _ hk, rfl, rfl, rfl, ?_⟩
      simp only [List.filter_append, (disc_comp_calls_filter k p_lcb reason).1,
        (fixed_disc_calls_not_csm x _ _ _ _ _).1]
      simp [is_csm_call]
  · exact hrelease (Or.inl hrem)

/-- Witness of C17: the link with handle 64 has one channel and no pending
CCB. -/
theorem disc_comp_known_handle_witness :
    ∃ (s' : tL2C_CB) (lcb : tL2C_LCB) (added : List tCALL),
      l2c_link_hci_disc_comp ext_idle 6 l2cb_br_edr_link 64 tHCI_STATUS.HCI_ERR_PEER_USER =
        some (s', true) ∧
      s'.lcb_pool[0]? = some lcb ∧ lcb.disconnect_reason = tHCI_STATUS.HCI_ERR_PEER_USER ∧
      lcb.p_pending_ccb = none ∧ s'.calls = l2cb_br_edr_link.calls ++ added ∧
      added.filter is_csm_call =
        ([ccb_idle 0 64].filter (fun c => decide (some c.slot ≠ none))).map
          (fun c => tCALL.csm_execute c.slot tL2C_EVT.L2CEVT_LP_DISCONNECT_IND) :=
  disc_comp_known_handle ext_idle 6 l2cb_br_edr_link 64 tHCI_STATUS.HCI_ERR_PEER_USER 0
    { lcb_link 5 64 .L2CAP_PRIORITY_NORMAL 4 0 [buf_of [1]] with
      ccb_queue := [ccb_idle 0 64], p_fixed_ccbs := [some (ccb_idle 9 4)] }
    (by decide) (by decide) (by decide) (by decide)

/-- C18 (amended): for a known handle whose LCB still has a CCB on its channel
queue or a pending CCB after the disconnect fan-out, `l2c_link_hci_disc_comp`
returns true with the LCB still in use and its link queue empty.  On a BR/EDR
link every fixed CCB other than the pending one is released (slot cleared,
callback called with `connected = false` and the reason), the handle is
invalidated and a BR/EDR connect is started on the LCB.  On an LE link whose
reconnect is started the controller is told that the ACL is gone and an LE
connect is attempted, but the fixed CCBs and the handle are left as they
were. -/
theorem disc_comp_reconnect (x : tEXT) (fuel : Nat) (s : tL2C_CB) (handle : Nat)
    (reason : tHCI_STATUS) (k : Nat) (p_lcb : tL2C_LCB)
    (hfind : l2cu_find_lcb_by_handle s handle = some k) (hk : s.lcb_pool[k]? = some p_lcb)
    (hrem : (csm_fanout x tL2C_EVT.L2CEVT_LP_DISCONNECT_IND p_lcb.p_pending_ccb
      p_lcb.ccb_queue).1 ≠ [] ∨ p_lcb.p_pending_ccb ≠ none) :
    (p_lcb.transport = tBT_TRANSPORT.BT_TRANSPORT_BR_EDR →
      ∃ (s' : tL2C_CB) (lcb : tL2C_LCB),
        l2c_link_hci_disc_comp x fuel s handle reason = some (s', true) ∧
        s'.lcb_pool[k]? = some lcb ∧ lcb.in_use = true ∧ lcb.link_xmit_data_q = [] ∧
        lcb.p_fixed_ccbs = fixed_release p_lcb.p_pending_ccb p_lcb.p_fixed_ccbs ∧
        lcb.handle = HCI_INVALID_HANDLE ∧
        s'.calls = s.calls ++ (disc_comp_calls k p_lcb reason ++
          fixed_disc_calls x p_lcb.remote_bd_addr reason p_lcb.p_pending_ccb 0
            p_lcb.p_fixed_ccbs ++
          [tCALL.btm_acl_removed handle, tCALL.create_conn_br_edr k])) ∧
    (p_lcb.transport = tBT_TRANSPORT.BT_TRANSPORT_LE →
      x.l2cu_create_conn_le
        { disc_comp_lcb x p_lcb reason with link_xmit_data_q := [] } = true →
      ∃ (s' : tL2C_CB) (lcb : tL2C_LCB),
        l2c_link_hci_disc_comp x fuel s handle reason = some (s', true) ∧
        s'.lcb_pool[k]? = some lcb ∧ lcb.in_use = true ∧ lcb.link_xmit_data_q = [] ∧
        lcb.p_fixed_ccbs = p_lcb.p_fixed_ccbs ∧ lcb.handle = handle ∧
        s'.calls = s.calls ++ (disc_comp_calls k p_lcb reason ++
          [tCALL.btm_acl_removed handle, tCALL.create_conn_le k])) := by
  obtain ⟨hin, hh⟩ := find_by_handle_in_use s handle k p_lcb hfind hk
  constructor
  · intro hbr
    rw [disc_comp_br_edr_retained x fuel s handle reason k p_lcb hfind hk hrem hbr, hh]
    exact ⟨_, _, rfl, set_lcb_get s k p_lcb _ hk, hin, rfl, rfl, rfl, rfl⟩
  · intro hle hc
    rw [disc_comp_le_retained x fuel s handle reason k p_lcb hfind hk hrem hle hc]
    exact ⟨_, _, rfl, set_lcb_get s k p_lcb _ hk, hin, rfl, rfl, hh, rfl⟩

/-- Witness of C18 (amended): the BR/EDR link with handle 64, one channel, one
bound fixed channel and one queued buffer. -/
theorem disc_comp_reconnect_witness :
    ∃ (s' : tL2C_CB) (lcb : tL2C_LCB),
      l2c_link_hci_disc_comp ext_idle 6 l2cb_br_edr_link 64 tHCI_STATUS.HCI_ERR_PEER_USER =
        some (s', true) ∧
      s'.lcb_pool[0]? = some lcb ∧ lcb.in_use = true ∧ lcb.link_xmit_data_q = [] ∧
      lcb.p_fixed_ccbs = fixed_release none [some (ccb_idle 9 4)] ∧
      lcb.handle = HCI_INVALID_HANDLE ∧
      s'.calls = l2cb_br_edr_link.calls ++
        (disc_comp_calls 0
            { lcb_link 5 64 .L2CAP_PRIORITY_NORMAL 4 0 [buf_of [1]] with
              ccb_queue := [ccb_idle 0 64], p_fixed_ccbs := [some (ccb_idle 9 4)] }
            tHCI_STATUS.HCI_ERR_PEER_USER ++
          fixed_disc_calls ext_idle 5 tHCI_STATUS.HCI_ERR_PEER_USER none 0
            [some (ccb_idle 9 4)] ++
          [tCALL.btm_acl_removed 64, tCALL.create_conn_br_edr 0]) :=
  (disc_comp_reconnect ext_idle 6 l2cb_br_edr_link 64 tHCI_STATUS.HCI_ERR_PEER_USER 0
    { lcb_link 5 64 .L2CAP_PRIORITY_NORMAL 4 0 [buf_of [1]] with
      ccb_queue := [ccb_idle 0 64], p_fixed_ccbs := [some (ccb_idle 9 4)] }
    (by decide) (by decide) (by decide)).1 (by decide)

/-- C18 (counterexample): the LE link with handle 64 has one channel, one bound
fixed channel and one queued buffer, and its LE reconnect is started.  After
`l2c_link_hci_disc_comp` the LCB is retained with its link queue emptied, but
the fixed channel is still bound, no fixed channel callback was called and the
handle is still 64. -/
theorem disc_comp_le_keeps_fixed_and_handle :
    l2cu_find_lcb_by_handle l2cb_le_link 64 = some 0 ∧
    l2cb_le_link.lcb_pool =
      [{ lcb_link 5 64 .L2CAP_PRIORITY_NORMAL 0 0 [buf_of [1]] with
          transport := tBT_TRANSPORT.BT_TRANSPORT_LE, ccb_queue := [ccb_idle 0 64],
          p_fixed_ccbs := [some (ccb_idle 9 4)] }] ∧
    (l2c_link_hci_disc_comp ext_idle 6 l2cb_le_link 64 tHCI_STATUS.HCI_ERR_PEER_USER).map
      (fun r => (r.2, r.1.calls)) =
      some (true,
        [tCALL.iot_add_one_disc_count 5, tCALL.btm_ble_decrement_link_topology_mask 0,
          tCALL.csm_execute 0 tL2C_EVT.L2CEVT_LP_DISCONNECT_IND, tCALL.btm_acl_removed 64,
          tCALL.create_conn_le 0]) ∧
    (l2c_link_hci_disc_comp ext_idle 6 l2cb_le_link 64 tHCI_STATUS.HCI_ERR_PEER_USER).map
      (fun r => r.1.lcb_pool) =
      some [{ lcb_link 5 64 .L2CAP_PRIORITY_NORMAL 0 0 [] with
          transport := tBT_TRANSPORT.BT_TRANSPORT_LE,
          link_state := tL2C_LINK_STATE.LST_DISCONNECTING,
          disconnect_reason := tHCI_STATUS.HCI_ERR_PEER_USER, ccb_queue := [ccb_idle 0 64],
          p_fixed_ccbs := [some (ccb_idle 9 4)] }] := by
  decide

/-- C19: hold and promote.  For a known handle `l2c_link_hci_disc_comp` returns
(the quota loop of a release returns with at least one controller buffer).
When the disconnected LCB, at slot `k`, is released and the search by state
among the remaining LCBs finds a held LCB at slot `h`, exactly one BR/EDR
connect is started by the call, on that LCB, which is connecting afterwards;
when the search finds none, no BR/EDR connect is started.  When the
disconnected LCB is retained, every other LCB is left as it was and the only
BR/EDR connect started is the reconnect of the LCB itself. -/
theorem disc_comp_hold_and_promote (x : tEXT) (fuel : Nat) (s : tL2C_CB) (handle : Nat)
    (reason : tHCI_STATUS) (k : Nat) (p_lcb : tL2C_LCB)
    (hfind : l2cu_find_lcb_by_handle s handle = some k) (hk : s.lcb_pool[k]? = some p_lcb)
    (hB : 1 ≤ s.num_lm_acl_bufs) (hfuel : L2CAP_HIGH_PRI_MIN_XMIT_QUOTA_A < fuel) :
    ∃ (s' : tL2C_CB) (lcb : tL2C_LCB) (added : List tCALL),
      l2c_link_hci_disc_comp x fuel s handle reason = some (s', true) ∧
      s'.lcb_pool[k]? = some lcb ∧ s'.calls = s.calls ++ added ∧
      (lcb.in_use = false →
        (∀ h : Nat,
          l2cu_find_lcb_by_state (set_lcb s k { p_lcb with in_use := false })
            tL2C_LINK_STATE.LST_CONNECT_HOLDING = some h →
          added.filter is_create_conn_br_edr = [tCALL.create_conn_br_edr h] ∧
          ∃ a : tL2C_LCB, s'.lcb_pool[h]? = some a ∧
            a.link_state = tL2C_LINK_STATE.LST_CONNECTING) ∧
        (l2cu_find_lcb_by_state (set_lcb s k { p_lcb with in_use := false })
            tL2C_LINK_STATE.LST_CONNECT_HOLDING = none →
          added.filter is_create_conn_br_edr = [])) ∧
      (lcb.in_use = true →
        added.filter is_create_conn_br_edr =
          (if p_lcb.transport = tBT_TRANSPORT.BT_TRANSPORT_BR_EDR then
            [tCALL.create_conn_br_edr k] else []) ∧
        ∀ j : Nat, j ≠ k → s'.lcb_pool[j]? = s.lcb_pool[j]?) := by
  obtain ⟨hin, -⟩ := find_by_handle_in_use s handle k p_lcb hfind hk
  have hrelease : (¬ ((disc_comp_lcb x p_lcb reason).ccb_queue ≠ [] ∨
        p_lcb.p_pending_ccb ≠ none) ∨
      (p_lcb.transport = tBT_TRANSPORT.BT_TRANSPORT_LE ∧
        ¬ x.l2cu_create_conn_le
          { disc_comp_lcb x p_lcb reason with link_xmit_data_q := [] } = true)) →
      ∃ (s' : tL2C_CB) (lcb : tL2C_LCB) (added : List tCALL),
        l2c_link_hci_disc_comp x fuel s handle reason = some (s', true) ∧
        s'.lcb_pool[k]? = some lcb ∧ s'.calls = s.calls ++ added ∧
        (lcb.in_use = false →
          (∀ h : Nat,
            l2cu_find_lcb_by_state (set_lcb s k { p_lcb with in_use := false })
              tL2C_LINK_STATE.LST_CONNECT_HOLDING = some h →
            added.filter is_create_conn_br_edr = [tCALL.create_conn_br_edr h] ∧
            ∃ a : tL2C_LCB, s'.lcb_pool[h]? = some a ∧
              a.link_state = tL2C_LINK_STATE.LST_CONNECTING) ∧
          (l2cu_find_lcb_by_state (set_lcb s k { p_lcb with in_use := false })
              tL2C_LINK_STATE.LST_CONNECT_HOLDING = none →
            added.filter is_create_conn_br_edr = [])) ∧
        (lcb.in_use = true →
          added.filter is_create_conn_br_edr =
            (if p_lcb.transport = tBT_TRANSPORT.BT_TRANSPORT_BR_EDR then
              [tCALL.create_conn_br_edr k] else []) ∧
          ∀ j : Nat, j ≠ k → s'.lcb_pool[j]? = s.lcb_pool[j]?) := by
    intro hrel
    obtain ⟨q, C, heq, -, hC2⟩ := disc_comp_released x fuel s handle reason k p_lcb hfind hk hrel
    obtain ⟨s1, h1, hc1, -, hl1, hp1, ho1⟩ := release_lcb_spec x fuel
      { set_lcb s k
          { disc_comp_lcb x p_lcb reason with link_xmit_data_q := q, p_pending_ccb := none } with
        calls := s.calls ++ (disc_comp_calls k p_lcb reason ++ C) } k
      { disc_comp_lcb x p_lcb reason with link_xmit_data_q := q, p_pending_ccb := none }
      (set_lcb_get s k p_lcb _ hk) hB hfuel
    obtain ⟨P, hP1, -, hP3, hP4, hP5⟩ := disc_comp_promote_spec s1
    have hsearch : l2cu_find_lcb_by_state s1 tL2C_LINK_STATE.LST_CONNECT_HOLDING =
        l2cu_find_lcb_by_state (set_lcb s k { p_lcb with in_use := false })
          tL2C_LINK_STATE.LST_CONNECT_HOLDING := by
      unfold l2cu_find_lcb_by_state
      apply findIdx?_congr
      · rw [hl1]
        simp [set_lcb]
      · intro i a b ha hb
        by_cases hik : i = k
        · subst hik
          rw [hp1] at ha
          cases ha
          rw [set_lcb_get s i p_lcb _ hk] at hb
          cases hb
          rfl
        · have hb2 : s.lcb_pool[i]? = some b := by
            simp only [set_lcb] at hb
            rw [List.getElem?_set_ne (Ne.symm hik)] at hb
            exact hb
          have hb3 : (set_lcb s k
              { disc_comp_lcb x p_lcb reason with
                link_xmit_data_q := q, p_pending_ccb := none }).lcb_pool[i]? = some b := by
            simp only [set_lcb]
            rw [List.getElem?_set_ne (Ne.symm hik)]
            exact hb2
          obtain ⟨a', ha1, ha2⟩ := ho1 i b hik hb3
          rw [ha1] at ha
          cases ha
          obtain ⟨qq, t, rfl⟩ := quota_only_mk _ _ ha2
          rfl
    have hfilter : (disc_comp_calls k p_lcb reason ++ C ++
        fixed_disc_calls x p_lcb.remote_bd_addr reason none 0 p_lcb.p_fixed_ccbs ++ P).filter
          is_create_conn_br_edr = P.filter is_create_conn_br_edr := by
      simp only [List.filter_append, (disc_comp_calls_filter k p_lcb reason).2, hC2,
        (fixed_disc_calls_not_csm x _ _ _ _ _).2, List.nil_append]
    rw [heq, h1]
    simp only [Option.map_some']
    refine ⟨_, _, disc_comp_calls k p_lcb reason ++ C ++
      fixed_disc_calls x p_lcb.remote_bd_addr reason none 0 p_lcb.p_fixed_ccbs ++ P, rfl,
      hP5 k _ hp1 rfl, ?_, ?_, ?_⟩
    · rw [hP1, hc1]
      simp only [List.append_assoc]
      rfl
    · intro _
      rw [hfilter, ← hsearch]
      constructor
      · intro h hh
        obtain ⟨hP, ha⟩ := hP3 h hh
        rw [hP]
        exact ⟨rfl, ha⟩
      · intro hh
        rw [(hP4 hh).1]
        rfl
    · intro hcontra
      exact absurd hcontra (by simp)
  by_cases hrem : (disc_comp_lcb x p_lcb reason).ccb_queue ≠ [] ∨ p_lcb.p_pending_ccb ≠ none
  · by_cases hle : p_lcb.transport = tBT_TRANSPORT.BT_TRANSPORT_LE
    · by_cases hc : x.l2cu_create_conn_le
          { disc_comp_lcb x p_lcb reason with link_xmit_data_q := [] } = true
      · rw [disc_comp_le_retained x fuel s handle reason k p_lcb hfind hk hrem hle hc]
        refine ⟨_, _, _, rfl, set_lcb_get s k p_lcb _ hk, rfl, ?_, ?_⟩
        · intro hcontra
          exact absurd (hin.symm.trans hcontra) (by decide)
        · intro _
          constructor
          · simp only [List.filter_append, (disc_comp_calls_filter k p_lcb reason).2, hle]
            simp [is_create_conn_br_edr]
          · intro j hj
            simp only [set_lcb]
            exact List.getElem?_set_ne (Ne.symm hj)
      · exact hrelease (Or.inr ⟨hle, hc⟩)
    · rw [disc_comp_br_edr_retained x fuel s handle reason k p_lcb hfind hk hrem
        (transport_cases _ hle)]
      refine ⟨_, _, _, rfl, set_lcb_get s k p_lcb _ hk, rfl, ?_, ?_⟩
      · intro hcontra
        exact absurd (hin.symm.trans hcontra) (by decide)
      · intro _
        constructor
        · simp only [List.filter_append, (disc_comp_calls_filter k p_lcb reason).2,
            (fixed_disc_calls_not_csm x _ _ _ _ _).2, transport_cases _ hle]
          simp [is_create_conn_br_edr]
        · intro j hj
          simp only [set_lcb]
          exact List.getElem?_set_ne (Ne.symm hj)
  · exact hrelease (Or.inl hrem)

/-- Witness of C19: the link with handle 1 has no channel and the LCB of peer 2
is held back; the disconnect complete of handle 1 releases slot 0 and starts
the connect of the held LCB at slot 1. -/
theorem disc_comp_hold_and_promote_witness :
    ∃ (s' : tL2C_CB) (added : List tCALL),
      l2c_link_hci_disc_comp ext_idle 6 l2cb_held 1 tHCI_STATUS.HCI_ERR_PEER_USER =
        some (s', true) ∧
      s'.calls = l2cb_held.calls ++ added ∧
      added.filter is_create_conn_br_edr = [tCALL.create_conn_br_edr 1] ∧
      ∃ a : tL2C_LCB, s'.lcb_pool[1]? = some a ∧
        a.link_state = tL2C_LINK_STATE.LST_CONNECTING := by
  obtain ⟨s', lcb, added, h1, h2, h3, h4, -⟩ :=
    disc_comp_hold_and_promote ext_idle 6 l2cb_held 1 tHCI_STATUS.HCI_ERR_PEER_USER 0
      (lcb_link 1 1 .L2CAP_PRIORITY_NORMAL 2 0 []) (by decide) (by decide) (by decide)
      (by decide)
  have hv : (l2c_link_hci_disc_comp ext_idle 6 l2cb_held 1 tHCI_STATUS.HCI_ERR_PEER_USER).map
      (fun r => r.1.lcb_pool[0]?.map (fun l => l.in_use)) = some (some false) := by decide
  rw [h1] at hv
  simp only [Option.map_some', h2, Option.some.injEq] at hv
  obtain ⟨h5, h6⟩ := (h4 hv).1 1 (by decide)
  exact ⟨s', added, h1, h3, h5, h6⟩

theorem process_fixed_disc_cback_eq (x : tEXT) (s : tL2C_CB) (k : Nat) (lcb : tL2C_LCB)
    (hk : s.lcb_pool[k]? = some lcb) :
    l2cu_process_fixed_disc_cback x s k =
      { s with calls := s.calls ++
          fixed_disc_calls x lcb.remote_bd_addr lcb.disconnect_reason none 0 lcb.p_fixed_ccbs } := by
  unfold l2cu_process_fixed_disc_cback
  rw [hk]

/-- C20: for an LCB in state connected with no CCB, `l2c_link_timeout` returns
and its effect is decided by the result `rc` of the security manager and the
bonding flag.  `BTM_CMD_STARTED`: disconnecting, timer armed with
`L2CAP_LINK_DISCONNECT_TIMEOUT_MS`.  `BTM_CMD_STORED` or `BTM_BUSY`: the LCB is
unchanged (still connected, no timer armed).  `BTM_SUCCESS`: the fixed channel
disconnect callbacks run, disconnecting, the timer is not touched.  Any other
result on a bonding link: an HCI disconnect is forced, the fixed channel
callbacks run, disconnecting, timer armed with the disconnect timeout.  Any
other result on a link that is not bonding: still connected, timer armed with
`BT_1SEC_TIMEOUT_MS`. -/
theorem link_timeout_idle_link (x : tEXT) (fuel : Nat) (s : tL2C_CB) (k : Nat)
    (p_lcb : tL2C_LCB) (hk : s.lcb_pool[k]? = some p_lcb)
    (hst : p_lcb.link_state = tL2C_LINK_STATE.LST_CONNECTED) (hq : p_lcb.ccb_queue = []) :
    ∃ (s' : tL2C_CB) (lcb : tL2C_LCB),
      l2c_link_timeout x fuel s k = some s' ∧ s'.lcb_pool[k]? = some lcb ∧
      (x.btm_sec_disconnect p_lcb.handle = tBTM_STATUS.BTM_CMD_STARTED →
        lcb = { p_lcb with link_state := tL2C_LINK_STATE.LST_DISCONNECTING,
                           l2c_lcb_timer := some tL2C_TOUT.L2CAP_LINK_DISCONNECT_TIMEOUT_MS } ∧
        s'.calls = s.calls ++ [tCALL.btm_sec_disconnect p_lcb.handle]) ∧
      (x.btm_sec_disconnect p_lcb.handle = tBTM_STATUS.BTM_CMD_STORED ∨
          x.btm_sec_disconnect p_lcb.handle = tBTM_STATUS.BTM_BUSY →
        lcb = p_lcb ∧ s'.calls = s.calls ++ [tCALL.btm_sec_disconnect p_lcb.handle]) ∧
      (x.btm_sec_disconnect p_lcb.handle = tBTM_STATUS.BTM_SUCCESS →
        lcb.link_state = tL2C_LINK_STATE.LST_DISCONNECTING ∧
        lcb.l2c_lcb_timer = p_lcb.l2c_lcb_timer ∧
        s'.calls = s.calls ++ [tCALL.btm_sec_disconnect p_lcb.handle] ++
          fixed_disc_calls x p_lcb.remote_bd_addr p_lcb.disconnect_reason none 0
            p_lcb.p_fixed_ccbs) ∧
      (x.btm_sec_disconnect p_lcb.handle ≠ tBTM_STATUS.BTM_CMD_STARTED →
        x.btm_sec_disconnect p_lcb.handle ≠ tBTM_STATUS.BTM_CMD_STORED →
        x.btm_sec_disconnect p_lcb.handle ≠ tBTM_STATUS.BTM_BUSY →
        x.btm_sec_disconnect p_lcb.handle ≠ tBTM_STATUS.BTM_SUCCESS →
        (p_lcb.is_bonding = true →
          lcb.link_state = tL2C_LINK_STATE.LST_DISCONNECTING ∧
          lcb.l2c_lcb_timer = some tL2C_TOUT.L2CAP_LINK_DISCONNECT_TIMEOUT_MS ∧
          s'.calls = s.calls ++ [tCALL.btm_sec_disconnect p_lcb.handle,
              tCALL.acl_disconnect_from_handle p_lcb.handle] ++
            fixed_disc_calls x p_lcb.remote_bd_addr p_lcb.disconnect_reason none 0
              p_lcb.p_fixed_ccbs) ∧
        (p_lcb.is_bonding = false →
          lcb = { p_lcb with l2c_lcb_timer := some tL2C_TOUT.BT_1SEC_TIMEOUT_MS } ∧
          s'.calls = s.calls ++ [tCALL.btm_sec_disconnect p_lcb.handle])) := by
  have heq : l2c_link_timeout x fuel s k = some (link_timeout_idle x s k p_lcb) := by
    unfold l2c_link_timeout
    rw [hk]
    simp only [hst, reduceCtorEq, or_self, if_false, hk, if_true, hq]
  rw [heq]
  unfold link_timeout_idle
  simp only
  by_cases h1 : x.btm_sec_disconnect p_lcb.handle = tBTM_STATUS.BTM_CMD_STORED
  · rw [if_pos h1]
    refine ⟨_, p_lcb, rfl, hk, ?_, fun _ => ⟨rfl, rfl⟩, ?_, ?_⟩
    · intro h; rw [h1] at h; cases h
    · intro h; rw [h1] at h; cases h
    · intro _ h; exact absurd h1 h
  · rw [if_neg h1]
    by_cases h2 : x.btm_sec_disconnect p_lcb.handle = tBTM_STATUS.BTM_CMD_STARTED
    · rw [if_pos h2]
      refine ⟨_, _, rfl, set_lcb_get _ k p_lcb _ hk, fun _ => ⟨rfl, rfl⟩, ?_, ?_, ?_⟩
      · intro h
        cases h with
        | inl h => exact absurd h h1
        | inr h => rw [h2] at h; cases h
      · intro h; rw [h2] at h; cases h
      · intro h; exact absurd h2 h
    · rw [if_neg h2]
      by_cases h3 : x.btm_sec_disconnect p_lcb.handle = tBTM_STATUS.BTM_SUCCESS
      · rw [if_pos h3,
          process_fixed_disc_cback_eq x
            { s with calls := s.calls ++ [tCALL.btm_sec_disconnect p_lcb.handle] } k p_lcb hk]
        refine ⟨_, _, rfl, set_lcb_get _ k p_lcb _ hk, fun h => absurd h h2, ?_,
          fun _ => ⟨rfl, rfl, rfl⟩, ?_⟩
        · intro h
          cases h with
          | inl h => exact absurd h h1
          | inr h => rw [h3] at h; cases h
        · intro _ _ _ h; exact absurd h3 h
      · rw [if_neg h3]
        by_cases h4 : x.btm_sec_disconnect p_lcb.handle = tBTM_STATUS.BTM_BUSY
        · rw [if_pos h4]
          refine ⟨_, p_lcb, rfl, hk, fun h => absurd h h2, fun _ => ⟨rfl, rfl⟩,
            fun h => absurd h h3, ?_⟩
          intro _ _ h; exact absurd h4 h
        · rw [if_neg h4]
          have hor : ¬ (x.btm_sec_disconnect p_lcb.handle = tBTM_STATUS.BTM_CMD_STORED ∨
              x.btm_sec_disconnect p_lcb.handle = tBTM_STATUS.BTM_BUSY) := by
            intro h
            cases h with
            | inl h => exact h1 h
            | inr h => exact h4 h
          by_cases hb : p_lcb.is_bonding = true
          · rw [if_pos hb,
              process_fixed_disc_cback_eq x
                { s with calls := s.calls ++ [tCALL.btm_sec_disconnect p_lcb.handle] ++
                    [tCALL.acl_disconnect_from_handle p_lcb.handle] } k p_lcb hk]
            refine ⟨_, _, rfl, set_lcb_get _ k p_lcb _ hk, fun h => absurd h h2,
              fun h => absurd h hor, fun h => absurd h h3, ?_⟩
            intro _ _ _ _
            refine ⟨fun _ => ⟨rfl, rfl, ?_⟩, ?_⟩
            · simp [set_lcb]
            · intro h
              rw [hb] at h
              cases h
          · rw [if_neg hb]
            refine ⟨_, _, rfl, set_lcb_get _ k p_lcb _ hk, fun h => absurd h h2,
              fun h => absurd h hor, fun h => absurd h h3, ?_⟩
            intro _ _ _ _
            exact ⟨fun h => absurd h hb, fun _ => ⟨rfl, rfl⟩⟩

/-- Witness of C20: the connected link with handle 1 has no channel and the
security manager answers `BTM_CMD_STARTED`. -/
theorem link_timeout_idle_link_witness :
    ∃ (s' : tL2C_CB) (lcb : tL2C_LCB),
      l2c_link_timeout ext_idle 6 l2cb_idle_link 0 = some s' ∧ s'.lcb_pool[0]? = some lcb ∧
      lcb = { lcb_link 1 1 .L2CAP_PRIORITY_NORMAL 4 0 [] with
              link_state := tL2C_LINK_STATE.LST_DISCONNECTING,
              l2c_lcb_timer := some tL2C_TOUT.L2CAP_LINK_DISCONNECT_TIMEOUT_MS } ∧
      s'.calls = l2cb_idle_link.calls ++ [tCALL.btm_sec_disconnect 1] := by
  obtain ⟨s', lcb, h1, h2, h3, -⟩ :=
    link_timeout_idle_link ext_idle 6 l2cb_idle_link 0 (lcb_link 1 1 .L2CAP_PRIORITY_NORMAL 4 0 [])
      (by decide) (by decide) (by decide)
  exact ⟨s', lcb, h1, h2, (h3 rfl).1, (h3 rfl).2⟩

/-- On a handle that no LCB owns, `l2c_link_hci_disc_comp` returns false and the
state is what the last statement of the function (the search for a held LCB)
makes of it. -/
theorem disc_comp_unknown_handle_eq (x : tEXT) (fuel : Nat) (s : tL2C_CB) (handle : Nat)
    (reason : tHCI_STATUS) (hfind : l2cu_find_lcb_by_handle s handle = none) :
    l2c_link_hci_disc_comp x fuel s handle reason = some (disc_comp_promote s true, false) ∧
    (l2cu_find_lcb_by_state s tL2C_LINK_STATE.LST_CONNECT_HOLDING = none →
      l2c_link_hci_disc_comp x fuel s handle reason = some (s, false)) := by
  unfold l2c_link_hci_disc_comp
  rw [hfind]
  refine ⟨rfl, ?_⟩
  intro h
  simp only [disc_comp_promote, h, if_true]

/-- For an existing LCB outside the connecting state, `l2c_link_hci_conn_comp`
leaves the state unchanged on a duplicate (connected and
`HCI_ERR_CONNECTION_EXISTS`) and on `HCI_SUCCESS`, and otherwise is
`l2c_link_hci_disc_comp` on the handle the LCB carries, with the status as
reason. -/
theorem conn_comp_unexpected_eq (x : tEXT) (fuel : Nat) (s : tL2C_CB) (status : tHCI_STATUS)
    (handle p_bda k : Nat) (p_lcb : tL2C_LCB)
    (hfind : l2cu_find_lcb_by_bd_addr s p_bda tBT_TRANSPORT.BT_TRANSPORT_BR_EDR = some k)
    (hk : s.lcb_pool[k]? = some p_lcb)
    (hst : p_lcb.link_state ≠ tL2C_LINK_STATE.LST_CONNECTING) :
    ((p_lcb.link_state = tL2C_LINK_STATE.LST_CONNECTED ∧
        status = tHCI_STATUS.HCI_ERR_CONNECTION_EXISTS) ∨ status = tHCI_STATUS.HCI_SUCCESS →
      l2c_link_hci_conn_comp x fuel s status handle p_bda = some s) ∧
    (¬ (p_lcb.link_state = tL2C_LINK_STATE.LST_CONNECTED ∧
        status = tHCI_STATUS.HCI_ERR_CONNECTION_EXISTS) → status ≠ tHCI_STATUS.HCI_SUCCESS →
      l2c_link_hci_conn_comp x fuel s status handle p_bda =
        (l2c_link_hci_disc_comp x fuel s p_lcb.handle status).map (fun r => r.1)) := by
  unfold l2c_link_hci_conn_comp
  rw [hfind]
  simp only
  unfold conn_comp_on_lcb
  rw [hk]
  simp only
  constructor
  · intro h
    by_cases hd : p_lcb.link_state = tL2C_LINK_STATE.LST_CONNECTED ∧
        status = tHCI_STATUS.HCI_ERR_CONNECTION_EXISTS
    · rw [if_pos hd]
    · rw [if_neg hd, if_pos hst]
      cases h with
      | inl h => exact absurd h hd
      | inr h => rw [if_neg (by simp [h])]
  · intro hd hs
    rw [if_neg hd, if_pos hst, if_pos hs]

/-! ## Security completion, info response timer and completed packets -/

theorem sec_comp_scan_calls (x : tEXT) (status : tBTM_STATUS) (p_ref_data : Nat)
    (hs : status ≠ tBTM_STATUS.BTM_DELAY_CHECK) :
    ∀ q : List tL2C_CCB, (sec_comp_scan x status p_ref_data q).2 =
      (q.filter (fun c => c.slot == p_ref_data)).map
        (fun c => tCALL.csm_execute c.slot
          (if status = tBTM_STATUS.BTM_SUCCESS then tL2C_EVT.L2CEVT_SEC_COMP
           else tL2C_EVT.L2CEVT_SEC_COMP_NEG)) := by
  intro q
  induction q with
  | nil => rfl
  | cons c rest ih =>
    unfold sec_comp_scan
    by_cases hc : c.slot = p_ref_data
    · rw [if_pos hc]
      have hf : (c.slot == p_ref_data) = true := by simpa using hc
      simp only [List.filter_cons, hf, if_true, List.map_cons]
      by_cases h1 : status = tBTM_STATUS.BTM_SUCCESS
      · simp only [h1, if_true] at ih ⊢
        cases x.l2c_csm_execute tL2C_EVT.L2CEVT_SEC_COMP c <;> simp only [ih]
      · simp only [h1, hs, if_false] at ih ⊢
        cases x.l2c_csm_execute tL2C_EVT.L2CEVT_SEC_COMP_NEG c <;> simp only [ih]
    · rw [if_neg hc]
      have hf : (c.slot == p_ref_data) = false := by simpa using hc
      simp only [List.filter_cons, hf, Bool.false_eq_true, if_false]
      exact ih

theorem sec_comp_scan_delay (x : tEXT) (p_ref_data : Nat) :
    ∀ q : List tL2C_CCB,
      (sec_comp_scan x tBTM_STATUS.BTM_DELAY_CHECK p_ref_data q).2 = [] ∧
      ((∀ a : tL2C_CCB, a ∈ q → a.slot ≠ p_ref_data) →
        (sec_comp_scan x tBTM_STATUS.BTM_DELAY_CHECK p_ref_data q).1 = q) ∧
      ∀ (pre post : List tL2C_CCB) (c : tL2C_CCB), q = pre ++ c :: post →
        c.slot = p_ref_data → (∀ a : tL2C_CCB, a ∈ pre → a.slot ≠ p_ref_data) →
        (sec_comp_scan x tBTM_STATUS.BTM_DELAY_CHECK p_ref_data q).1 =
          pre ++ { c with l2c_ccb_timer := some tL2C_TOUT.L2CAP_DELAY_CHECK_SM4_TIMEOUT_MS } ::
            post := by
  intro q
  induction q with
  | nil =>
    refine ⟨rfl, fun _ => rfl, ?_⟩
    intro pre post c h
    simp at h
  | cons d rest ih =>
    obtain ⟨ih1, ih2, ih3⟩ := ih
    unfold sec_comp_scan
    by_cases hd : d.slot = p_ref_data
    · rw [if_pos hd]
      rw [if_neg (by decide), if_pos rfl]
      refine ⟨rfl, ?_, ?_⟩
      · intro hall
        exact absurd hd (hall d (List.mem_cons_self _ _))
      · intro pre post c h hc hpre
        cases pre with
        | nil =>
          simp only [List.nil_append, List.cons.injEq] at h
          obtain ⟨rfl, rfl⟩ := h
          rfl
        | cons e pre2 =>
          simp only [List.cons_append, List.cons.injEq] at h
          obtain ⟨rfl, -⟩ := h
          exact absurd hd (hpre d (List.mem_cons_self _ _))
    · rw [if_neg hd]
      simp only
      refine ⟨ih1, ?_, ?_⟩
      · intro hall
        rw [ih2 (fun a ha => hall a (List.mem_cons_of_mem _ ha))]
      · intro pre post c h hc hpre
        cases pre with
        | nil =>
          simp only [List.nil_append, List.cons.injEq] at h
          obtain ⟨rfl, -⟩ := h
          exact absurd hc hd
        | cons e pre2 =>
          simp only [List.cons_append, List.cons.injEq] at h
          obtain ⟨rfl, rfl⟩ := h
          rw [ih3 pre2 post c rfl hc (fun a ha => hpre a (List.mem_cons_of_mem _ ha))]
          rfl

/-- C22: `l2c_link_sec_comp`.  For a peer with no LCB the state is unchanged.
Otherwise the calls made are calls of the channel state machine for CCBs of the
link whose address is `p_ref_data` only, and the status alone decides the
event: `L2CEVT_SEC_COMP` on `BTM_SUCCESS` and `BTM_SUCCESS_NO_SECURITY`,
`L2CEVT_SEC_COMP_NEG` on every status other than these and `BTM_DELAY_CHECK`;
on `BTM_DELAY_CHECK` no call is made, the CCB at `p_ref_data` has its timer
armed with `L2CAP_DELAY_CHECK_SM4_TIMEOUT_MS` and the other CCBs are as
before. -/
theorem sec_comp_spec (x : tEXT) (s : tL2C_CB) (p_bda : Nat) (transport : tBT_TRANSPORT)
    (p_ref_data : Nat) (status : tBTM_STATUS) :
    (l2cu_find_lcb_by_bd_addr s p_bda transport = none →
      l2c_link_sec_comp x s p_bda transport p_ref_data status = s) ∧
    ∀ (k : Nat) (p_lcb : tL2C_LCB), l2cu_find_lcb_by_bd_addr s p_bda transport = some k →
      s.lcb_pool[k]? = some p_lcb →
      ∃ lcb : tL2C_LCB,
        (l2c_link_sec_comp x s p_bda transport p_ref_data status).lcb_pool[k]? = some lcb ∧
        (status = tBTM_STATUS.BTM_SUCCESS ∨ status = tBTM_STATUS.BTM_SUCCESS_NO_SECURITY →
          (l2c_link_sec_comp x s p_bda transport p_ref_data status).calls = s.calls ++
            (p_lcb.ccb_queue.filter (fun c => c.slot == p_ref_data)).map
              (fun _ => tCALL.csm_execute p_ref_data tL2C_EVT.L2CEVT_SEC_COMP)) ∧
        (status = tBTM_STATUS.BTM_DELAY_CHECK →
          (l2c_link_sec_comp x s p_bda transport p_ref_data status).calls = s.calls ∧
          ((∀ a : tL2C_CCB, a ∈ p_lcb.ccb_queue → a.slot ≠ p_ref_data) →
            lcb.ccb_queue = p_lcb.ccb_queue) ∧
          ∀ (pre post : List tL2C_CCB) (c : tL2C_CCB), p_lcb.ccb_queue = pre ++ c :: post →
            c.slot = p_ref_data → (∀ a : tL2C_CCB, a ∈ pre → a.slot ≠ p_ref_data) →
            lcb.ccb_queue = pre ++
              { c with l2c_ccb_timer := some tL2C_TOUT.L2CAP_DELAY_CHECK_SM4_TIMEOUT_MS } ::
                post) ∧
        (status ≠ tBTM_STATUS.BTM_SUCCESS → status ≠ tBTM_STATUS.BTM_SUCCESS_NO_SECURITY →
          status ≠ tBTM_STATUS.BTM_DELAY_CHECK →
          (l2c_link_sec_comp x s p_bda transport p_ref_data status).calls = s.calls ++
            (p_lcb.ccb_queue.filter (fun c => c.slot == p_ref_data)).map
              (fun _ => tCALL.csm_execute p_ref_data tL2C_EVT.L2CEVT_SEC_COMP_NEG)) := by
  have hmap : ∀ (evt : tL2C_EVT) (q : List tL2C_CCB),
      (q.filter (fun c => c.slot == p_ref_data)).map (fun c => tCALL.csm_execute c.slot evt) =
        (q.filter (fun c => c.slot == p_ref_data)).map
          (fun _ => tCALL.csm_execute p_ref_data evt) := by
    intro evt q
    apply List.map_congr_left
    intro a ha
    have := (List.mem_filter.mp ha).2
    simp only [beq_iff_eq] at this
    rw [this]
  constructor
  · intro hnone
    unfold l2c_link_sec_comp
    simp only [hnone]
  · intro k p_lcb hfind hk
    unfold l2c_link_sec_comp
    simp only [hfind, hk]
    refine ⟨_, set_lcb_get s k p_lcb _ hk, ?_, ?_, ?_⟩
    · intro h
      have h1 : (if status = tBTM_STATUS.BTM_SUCCESS_NO_SECURITY then tBTM_STATUS.BTM_SUCCESS
          else status) = tBTM_STATUS.BTM_SUCCESS := by
        cases h with
        | inl h => simp [h]
        | inr h => simp [h]
      rw [h1, sec_comp_scan_calls x _ p_ref_data (by decide), hmap]
      simp
    · intro h
      subst h
      simp only [reduceCtorEq, if_false]
      obtain ⟨h1, h2, h3⟩ := sec_comp_scan_delay x p_ref_data p_lcb.ccb_queue
      refine ⟨?_, h2, h3⟩
      rw [h1]
      simp
    · intro h1 h2 h3
      rw [if_neg h2, sec_comp_scan_calls x _ p_ref_data h3, hmap]
      simp [h1]

/-- Witness of C22: the security manager reports `BTM_SUCCESS` for the channel
at address 0 of the LCB of peer 7. -/
theorem sec_comp_spec_witness :
    ∃ lcb : tL2C_LCB,
      (l2c_link_sec_comp ext_idle l2cb_collision 7 tBT_TRANSPORT.BT_TRANSPORT_BR_EDR 0
        tBTM_STATUS.BTM_SUCCESS).lcb_pool[0]? = some lcb ∧
      (l2c_link_sec_comp ext_idle l2cb_collision 7 tBT_TRANSPORT.BT_TRANSPORT_BR_EDR 0
        tBTM_STATUS.BTM_SUCCESS).calls =
        [tCALL.csm_execute 0 tL2C_EVT.L2CEVT_SEC_COMP] := by
  obtain ⟨lcb, h1, h2, -⟩ :=
    (sec_comp_spec ext_idle l2cb_collision 7 tBT_TRANSPORT.BT_TRANSPORT_BR_EDR 0
      tBTM_STATUS.BTM_SUCCESS).2 0
      { lcb_link 7 HCI_INVALID_HANDLE .L2CAP_PRIORITY_NORMAL 4 0 [] with
        link_state := tL2C_LINK_STATE.LST_CONNECTING, ccb_queue := [ccb_idle 0 64],
        l2c_lcb_timer := some tL2C_TOUT.L2CAP_LINK_CONNECT_EXT_TIMEOUT_MS }
      (by decide) (by decide)
  exact ⟨lcb, h1, h2 (Or.inl rfl)⟩

/-- C23 (amended): `l2c_packets_completed(handle, n)`.  If no LCB owns the handle
the state is unchanged.  Otherwise, before the scheduler is invoked for the LCB
(and the result of the function is the result of that invocation, followed for
a high priority link by at most one sweep without LCB), `sent_not_acked` of the
LCB is reduced by `n`, the window of the transport of the LCB is raised by `n`
modulo 2^16 (by exactly `n` when the sum stays below 2^16), the window of the
other transport is untouched, and the round-robin counter of the transport is
reduced by `n` if the LCB is a round-robin member and untouched if not. -/
theorem packets_completed_spec (x : tEXT) (s : tL2C_CB) (handle num_sent : Nat) :
    (l2cu_find_lcb_by_handle s handle = none →
      l2c_packets_completed x s handle num_sent = s) ∧
    ∀ (k : Nat) (lcb0 : tL2C_LCB), l2cu_find_lcb_by_handle s handle = some k →
      s.lcb_pool[k]? = some lcb0 →
      (credit_packets s k lcb0 num_sent).lcb_pool[k]? =
          some { lcb0 with sent_not_acked := lcb0.sent_not_acked - num_sent } ∧
      (credit_packets s k lcb0 num_sent).hci_out = s.hci_out ∧
      (lcb0.transport = tBT_TRANSPORT.BT_TRANSPORT_BR_EDR →
        (credit_packets s k lcb0 num_sent).controller_xmit_window =
          (s.controller_xmit_window + num_sent) % 65536 ∧
        (s.controller_xmit_window + num_sent < 65536 →
          (credit_packets s k lcb0 num_sent).controller_xmit_window =
            s.controller_xmit_window + num_sent) ∧
        (credit_packets s k lcb0 num_sent).controller_le_xmit_window =
          s.controller_le_xmit_window ∧
        (credit_packets s k lcb0 num_sent).round_robin_unacked =
          (if lcb0.link_xmit_quota = 0 then s.round_robin_unacked - num_sent
           else s.round_robin_unacked) ∧
        (credit_packets s k lcb0 num_sent).ble_round_robin_unacked =
          s.ble_round_robin_unacked) ∧
      (lcb0.transport = tBT_TRANSPORT.BT_TRANSPORT_LE →
        (credit_packets s k lcb0 num_sent).controller_le_xmit_window =
          (s.controller_le_xmit_window + num_sent) % 65536 ∧
        (s.controller_le_xmit_window + num_sent < 65536 →
          (credit_packets s k lcb0 num_sent).controller_le_xmit_window =
            s.controller_le_xmit_window + num_sent) ∧
        (credit_packets s k lcb0 num_sent).controller_xmit_window =
          s.controller_xmit_window ∧
        (credit_packets s k lcb0 num_sent).ble_round_robin_unacked =
          (if lcb0.link_xmit_quota = 0 then s.ble_round_robin_unacked - num_sent
           else s.ble_round_robin_unacked) ∧
        (credit_packets s k lcb0 num_sent).round_robin_unacked = s.round_robin_unacked) ∧
      (l2c_packets_completed x s handle num_sent =
          l2c_link_check_send_pkts x (credit_packets s k lcb0 num_sent) (some k) 0 none ∨
        l2c_packets_completed x s handle num_sent =
          l2c_link_check_send_pkts x
            (l2c_link_check_send_pkts x (credit_packets s k lcb0 num_sent) (some k) 0 none)
            none 0 none) := by
  constructor
  · intro hnone
    unfold l2c_packets_completed
    simp only [hnone]
  · intro k lcb0 hfind hk
    have hlt : k < s.lcb_pool.length := lt_length_of_getElem? hk
    refine ⟨?_, ?_, ?_, ?_, ?_⟩
    · unfold credit_packets update_outstanding_packets
      cases ht : lcb0.transport <;>
        simp only [set_lcb, List.getElem?_set_self, hlt]
    · unfold credit_packets update_outstanding_packets
      cases ht : lcb0.transport <;> rfl
    · intro ht
      unfold credit_packets update_outstanding_packets is_round_robin_scheduling
      simp only [ht, set_lcb, beq_iff_eq]
      refine ⟨?_, ?_, ?_, ?_, ?_⟩
      all_goals first
        | trivial
        | rfl
        | (intro hlt2; exact Nat.mod_eq_of_lt hlt2)
    · intro ht
      unfold credit_packets update_outstanding_packets is_round_robin_scheduling
      simp only [ht, set_lcb, beq_iff_eq]
      refine ⟨?_, ?_, ?_, ?_, ?_⟩
      all_goals first
        | trivial
        | rfl
        | (intro hlt2; exact Nat.mod_eq_of_lt hlt2)
    · unfold l2c_packets_completed
      simp only [hfind, hk]
      split
      · split <;> split <;> simp
      · exact Or.inl rfl

/-- Witness of C23 (amended): two of the three packets in flight on handle 1 are
completed; the window goes from 1 to 3 and `sent_not_acked` from 3 to 1. -/
theorem packets_completed_spec_witness :
    (credit_packets l2cb_in_flight 0 (lcb_link 1 1 .L2CAP_PRIORITY_NORMAL 4 3 []) 2).lcb_pool[0]? =
        some (lcb_link 1 1 .L2CAP_PRIORITY_NORMAL 4 1 []) ∧
    (credit_packets l2cb_in_flight 0 (lcb_link 1 1 .L2CAP_PRIORITY_NORMAL 4 3 [])
        2).controller_xmit_window = 3 := by
  obtain ⟨h1, -, h2, -⟩ :=
    (packets_completed_spec ext_idle l2cb_in_flight 1 2).2 0
      (lcb_link 1 1 .L2CAP_PRIORITY_NORMAL 4 3 []) (by decide) (by decide)
  exact ⟨h1, ((h2 rfl).2.1 (by decide))⟩

/-- C23 (counterexample): the classic window is 65535 and one packet is reported
completed on handle 1: the 16-bit sum wraps and the window is 0 afterwards, so
it did not grow by one. -/
theorem packets_completed_window_wraps :
    l2cu_find_lcb_by_handle l2cb_window_top 1 = some 0 ∧
    l2cb_window_top.controller_xmit_window = 65535 ∧
    (l2c_packets_completed ext_idle l2cb_window_top 1 1).controller_xmit_window = 0 := by
  decide

/-- C24: re-entry guard.  When `is_cong_cback_context` is set,
`l2c_link_check_send_pkts` returns after its enqueue step, for every LCB
argument, channel id and buffer: nothing is handed to HCI, no call is made, both
controller windows, both round-robin counters and the `sent_not_acked` of every
LCB are unchanged, and every LCB other than the one named is untouched.  A
buffer supplied for the LCB at slot `k` is tagged (`event = local_cid`,
`layer_specific = 0`) and appended at the tail of the link queue of that LCB;
without a buffer the state is unchanged. -/
theorem check_send_pkts_reentry_guard (x : tEXT) (s : tL2C_CB) (p_lcb : Option Nat)
    (local_cid : Nat) (p_buf : Option BT_HDR) (h : s.is_cong_cback_context = true) :
    (l2c_link_check_send_pkts x s p_lcb local_cid p_buf).hci_out = s.hci_out ∧
    (l2c_link_check_send_pkts x s p_lcb local_cid p_buf).calls = s.calls ∧
    (l2c_link_check_send_pkts x s p_lcb local_cid p_buf).controller_xmit_window =
      s.controller_xmit_window ∧
    (l2c_link_check_send_pkts x s p_lcb local_cid p_buf).controller_le_xmit_window =
      s.controller_le_xmit_window ∧
    (l2c_link_check_send_pkts x s p_lcb local_cid p_buf).round_robin_unacked =
      s.round_robin_unacked ∧
    (l2c_link_check_send_pkts x s p_lcb local_cid p_buf).ble_round_robin_unacked =
      s.ble_round_robin_unacked ∧
    (l2c_link_check_send_pkts x s p_lcb local_cid p_buf).lcb_pool.map
        (fun l => l.sent_not_acked) = s.lcb_pool.map (fun l => l.sent_not_acked) ∧
    (∀ j : Nat, p_lcb ≠ some j →
      (l2c_link_check_send_pkts x s p_lcb local_cid p_buf).lcb_pool[j]? = s.lcb_pool[j]?) ∧
    (p_buf = none → l2c_link_check_send_pkts x s p_lcb local_cid p_buf = s) ∧
    (∀ (k : Nat) (lcb : tL2C_LCB) (b : BT_HDR), p_lcb = some k → p_buf = some b →
      s.lcb_pool[k]? = some lcb →
      (l2c_link_check_send_pkts x s p_lcb local_cid p_buf).lcb_pool[k]? =
        some { lcb with link_xmit_data_q :=
          lcb.link_xmit_data_q ++ [{ b with event := local_cid, layer_specific := 0 }] }) := by
  have hflag : (check_send_enqueue s p_lcb local_cid p_buf).is_cong_cback_context = true := by
    unfold check_send_enqueue
    split
    · split
      · exact h
      · split
        · split <;> exact h
        · exact h
    · exact h
  have heq : l2c_link_check_send_pkts x s p_lcb local_cid p_buf =
      check_send_enqueue s p_lcb local_cid p_buf := by
    unfold l2c_link_check_send_pkts
    simp only [hflag, if_true]
  rw [heq]
  cases p_buf with
  | none =>
    have hs : check_send_enqueue s p_lcb local_cid none = s := by
      unfold check_send_enqueue
      rfl
    rw [hs]
    refine ⟨rfl, rfl, rfl, rfl, rfl, rfl, rfl, fun _ _ => rfl, fun _ => rfl, ?_⟩
    intro k lcb b _ hb
    cases hb
  | some buf =>
    cases p_lcb with
    | none =>
      have hs : check_send_enqueue s none local_cid (some buf) = s := by
        unfold check_send_enqueue
        rfl
      rw [hs]
      refine ⟨rfl, rfl, rfl, rfl, rfl, rfl, rfl, fun _ _ => rfl, fun hb => ?_, ?_⟩
      · cases hb
      · intro k lcb b hk
        cases hk
    | some k0 =>
      cases hk0 : s.lcb_pool[k0]? with
      | none =>
        have hs : check_send_enqueue s (some k0) local_cid (some buf) = s := by
          unfold check_send_enqueue
          simp only [hk0]
        rw [hs]
        refine ⟨rfl, rfl, rfl, rfl, rfl, rfl, rfl, fun _ _ => rfl, fun hb => ?_, ?_⟩
        · cases hb
        · intro k lcb b hk _ hl
          cases hk
          rw [hk0] at hl
          cases hl
      | some lcb0 =>
        have hlt : k0 < s.lcb_pool.length := lt_length_of_getElem? hk0
        have hmap : (s.lcb_pool.set k0
            { lcb0 with link_xmit_data_q := lcb0.link_xmit_data_q ++
              [{ buf with event := local_cid, layer_specific := 0 }] }).map
              (fun l => l.sent_not_acked) = s.lcb_pool.map (fun l => l.sent_not_acked) := by
          apply List.ext_getElem?
          intro i
          by_cases hi : i = k0
          · subst hi
            rw [List.getElem?_map, List.getElem?_map, List.getElem?_set_self hlt, hk0]
            rfl
          · simp [List.getElem?_map, List.getElem?_set_ne (Ne.symm hi)]
        have hoth : ∀ j : Nat, some k0 ≠ some j →
            (s.lcb_pool.set k0
              { lcb0 with link_xmit_data_q := lcb0.link_xmit_data_q ++
                [{ buf with event := local_cid, layer_specific := 0 }] })[j]? =
              s.lcb_pool[j]? := by
          intro j hj
          apply List.getElem?_set_ne
          intro he
          exact hj (by rw [he])
        have hget : ∀ (k : Nat) (lcb : tL2C_LCB) (b : BT_HDR), some k0 = some k →
            some buf = some b → s.lcb_pool[k]? = some lcb →
            (s.lcb_pool.set k0
              { lcb0 with link_xmit_data_q := lcb0.link_xmit_data_q ++
                [{ buf with event := local_cid, layer_specific := 0 }] })[k]? =
              some { lcb with link_xmit_data_q := lcb.link_xmit_data_q ++
                [{ b with event := local_cid, layer_specific := 0 }] } := by
          intro k lcb b hk hb hl
          cases hk
          cases hb
          rw [hk0] at hl
          cases hl
          exact List.getElem?_set_self hlt
        by_cases hq : lcb0.link_xmit_quota = 0
        · by_cases ht : lcb0.transport = tBT_TRANSPORT.BT_TRANSPORT_LE
          · have hs : check_send_enqueue s (some k0) local_cid (some buf) =
                { set_lcb s k0
                    { lcb0 with link_xmit_data_q := lcb0.link_xmit_data_q ++
                      [{ buf with event := local_cid, layer_specific := 0 }] } with
                  ble_check_round_robin := true } := by
              unfold check_send_enqueue
              simp only [hk0, hq, ht, if_true]
            rw [hs]
            exact ⟨rfl, rfl, rfl, rfl, rfl, rfl, hmap, hoth, fun hb => absurd hb (by simp), hget⟩
          · have hs : check_send_enqueue s (some k0) local_cid (some buf) =
                { set_lcb s k0
                    { lcb0 with link_xmit_data_q := lcb0.link_xmit_data_q ++
                      [{ buf with event := local_cid, layer_specific := 0 }] } with
                  check_round_robin := true } := by
              unfold check_send_enqueue
              simp only [hk0, hq, ht, if_true, if_false]
            rw [hs]
            exact ⟨rfl, rfl, rfl, rfl, rfl, rfl, hmap, hoth, fun hb => absurd hb (by simp), hget⟩
        · have hs : check_send_enqueue s (some k0) local_cid (some buf) =
              set_lcb s k0
                { lcb0 with link_xmit_data_q := lcb0.link_xmit_data_q ++
                  [{ buf with event := local_cid, layer_specific := 0 }] } := by
            unfold check_send_enqueue
            simp only [hk0, hq, if_false]
          rw [hs]
          exact ⟨rfl, rfl, rfl, rfl, rfl, rfl, hmap, hoth, fun hb => absurd hb (by simp), hget⟩

/-- Witness of C24: a link with two queued buffers and two free controller
buffers, called with a third buffer while the flag is set. -/
theorem check_send_pkts_reentry_guard_witness :
    (l2c_link_check_send_pkts ext_idle { l2cb_direct_2 with is_cong_cback_context := true }
        (some 0) 64 (some (buf_of [3]))).hci_out = [] ∧
    (l2c_link_check_send_pkts ext_idle { l2cb_direct_2 with is_cong_cback_context := true }
        (some 0) 64 (some (buf_of [3]))).lcb_pool[0]? =
      some (lcb_link 1 1 .L2CAP_PRIORITY_NORMAL 2 0
        [buf_of [1], buf_of [2], { buf_of [3] with event := 64 }]) := by
  have h := check_send_pkts_reentry_guard ext_idle
    { l2cb_direct_2 with is_cong_cback_context := true } (some 0) 64 (some (buf_of [3])) rfl
  exact ⟨h.1, h.2.2.2.2.2.2.2.2.2 0 (lcb_link 1 1 .L2CAP_PRIORITY_NORMAL 2 0
    [buf_of [1], buf_of [2]]) (buf_of [3]) rfl rfl (by decide)⟩

/-! ## The round-robin sweep -/

theorem count_sent_cons (t : tBT_TRANSPORT) (p : tHCI_PKT) (l : List tHCI_PKT) :
    count_sent t (p :: l) = (if p.transport = t then 1 else 0) + count_sent t l := by
  unfold count_sent
  by_cases h : p.transport = t
  · simp [List.filter_cons, h]
    omega
  · simp [List.filter_cons, h]

theorem rr_window_full_false (s : tL2C_CB) (lcb : tL2C_LCB) (h : rr_window_full s lcb = false) :
    (lcb.transport = tBT_TRANSPORT.BT_TRANSPORT_BR_EDR →
      s.controller_xmit_window ≠ 0 ∧ s.round_robin_unacked < s.round_robin_quota) ∧
    (lcb.transport = tBT_TRANSPORT.BT_TRANSPORT_LE →
      s.controller_le_xmit_window ≠ 0 ∧
        s.ble_round_robin_unacked < s.ble_round_robin_quota) := by
  unfold rr_window_full at h
  cases ht : lcb.transport <;> simp_all

theorem rr_not_served_false (x : tEXT) (lcb : tL2C_LCB) (h : rr_not_served x lcb = false) :
    rr_participant x lcb := by
  unfold rr_not_served at h
  unfold rr_participant
  simp only [Bool.or_eq_false_iff, Bool.not_eq_false', bne_eq_false_iff_eq] at h
  exact ⟨h.1.1.1, h.1.1.2, h.1.2, h.2⟩

theorem sweep_sent_refl (x : tEXT) (sw : Bool) (s : tL2C_CB) (k0 n : Nat) :
    SweepSent x sw s s k0 n [] where
  out := by simp
  served := by intro p hp; cases hp
  once := by simp
  window := rfl
  le_window := rfl
  unacked := rfl
  le_unacked := rfl
  bound := Or.inl rfl
  le_bound := Or.inl rfl
  quota := rfl
  le_quota := rfl
  flag := rfl
  len := rfl
  quiet := fun _ => rfl

theorem sweep_visits_next (k0 k n len j : Nat) (hk0 : k0 ≤ len)
    (hk : k = if k0 = len then 0 else k0) (hn : n < len)
    (h : sweep_visits (k + 1) n len j) : sweep_visits k0 (n + 1) len j ∧ j ≠ k := by
  unfold sweep_visits at h ⊢
  split at hk <;> omega

theorem sweep_visits_first (k0 k n len : Nat)
    (hk : k = if k0 = len then 0 else k0) (hkl : k < len) :
    sweep_visits k0 (n + 1) len k := by
  unfold sweep_visits
  split at hk <;> omega

theorem sweep_sent_skip (x : tEXT) (sw : Bool) (s s1 r : tL2C_CB) (k0 k n : Nat)
    (rest : List tHCI_PKT)
    (hk0 : k0 ≤ s.lcb_pool.length) (hk : k = if k0 = s.lcb_pool.length then 0 else k0)
    (hn : n < s.lcb_pool.length)
    (hlen : s1.lcb_pool.length = s.lcb_pool.length)
    (hpool : ∀ j : Nat, j ≠ k → s1.lcb_pool[j]? = s.lcb_pool[j]?)
    (hout : s1.hci_out = s.hci_out)
    (hw : s1.controller_xmit_window = s.controller_xmit_window)
    (hlw : s1.controller_le_xmit_window = s.controller_le_xmit_window)
    (hu : s1.round_robin_unacked = s.round_robin_unacked)
    (hlu : s1.ble_round_robin_unacked = s.ble_round_robin_unacked)
    (hq : s1.round_robin_quota = s.round_robin_quota)
    (hlq : s1.ble_round_robin_quota = s.ble_round_robin_quota)
    (hf : s1.is_cong_cback_context = s.is_cong_cback_context)
    (hc : sw = true → s1.calls = s.calls)
    (h : SweepSent x sw s1 r (k + 1) n rest) : SweepSent x sw s r k0 (n + 1) rest where
  out := by rw [h.out, hout]
  served := by
    intro p hp
    obtain ⟨hv, lcb, hl, hpart, ht⟩ := h.served p hp
    rw [hlen] at hv
    obtain ⟨hv2, hne⟩ := sweep_visits_next k0 k n _ p.lcb hk0 hk hn hv
    exact ⟨hv2, lcb, by rw [← hpool _ hne]; exact hl, hpart, ht⟩
  once := h.once
  window := by rw [h.window, hw]
  le_window := by rw [h.le_window, hlw]
  unacked := by rw [h.unacked, hu]
  le_unacked := by rw [h.le_unacked, hlu]
  bound := by rw [← hu, ← hq]; exact h.bound
  le_bound := by rw [← hlu, ← hlq]; exact h.le_bound
  quota := by rw [h.quota, hq]
  le_quota := by rw [h.le_quota, hlq]
  flag := by rw [h.flag, hf]
  len := by rw [h.len, hlen]
  quiet := fun hsw => by rw [h.quiet hsw, hc hsw]

theorem sweep_sent_send (x : tEXT) (sw : Bool) (s s1 r : tL2C_CB) (k0 k n : Nat)
    (lcb : tL2C_LCB) (b : BT_HDR) (rest : List tHCI_PKT)
    (hk0 : k0 ≤ s.lcb_pool.length) (hk : k = if k0 = s.lcb_pool.length then 0 else k0)
    (hn : n < s.lcb_pool.length)
    (hlcb : s.lcb_pool[k]? = some lcb) (hpart : rr_participant x lcb)
    (hfull : rr_window_full s lcb = false)
    (htw : s.controller_xmit_window < 65536) (htlw : s.controller_le_xmit_window < 65536)
    (htq : s.round_robin_quota < 65536) (htlq : s.ble_round_robin_quota < 65536)
    (hlen : s1.lcb_pool.length = s.lcb_pool.length)
    (hpool : ∀ j : Nat, j ≠ k → s1.lcb_pool[j]? = s.lcb_pool[j]?)
    (hout : s1.hci_out = s.hci_out ++ [⟨lcb.transport, k, b⟩])
    (hw : s1.controller_xmit_window =
      if lcb.transport = tBT_TRANSPORT.BT_TRANSPORT_BR_EDR then
        (s.controller_xmit_window + 65535) % 65536 else s.controller_xmit_window)
    (hlw : s1.controller_le_xmit_window =
      if lcb.transport = tBT_TRANSPORT.BT_TRANSPORT_BR_EDR then s.controller_le_xmit_window
      else (s.controller_le_xmit_window + 65535) % 65536)
    (hu : s1.round_robin_unacked =
      if lcb.transport = tBT_TRANSPORT.BT_TRANSPORT_BR_EDR then
        (s.round_robin_unacked + 1) % 65536 else s.round_robin_unacked)
    (hlu : s1.ble_round_robin_unacked =
      if lcb.transport = tBT_TRANSPORT.BT_TRANSPORT_BR_EDR then s.ble_round_robin_unacked
      else (s.ble_round_robin_unacked + 1) % 65536)
    (hq : s1.round_robin_quota = s.round_robin_quota)
    (hlq : s1.ble_round_robin_quota = s.ble_round_robin_quota)
    (hf : s1.is_cong_cback_context = s.is_cong_cback_context)
    (hc : sw = true → s1.calls = s.calls)
    (hsrc : (∃ (hd : BT_HDR) (rest : List BT_HDR), lcb.link_xmit_data_q = hd :: rest ∧
        b = { hd with layer_specific := 0 }) ∨ (lcb.link_xmit_data_q = [] ∧ sw = false))
    (h : SweepSent x sw s1 r (k + 1) n rest) :
    SweepSent x sw s r k0 (n + 1) (⟨lcb.transport, k, b⟩ :: rest) := by
  have hkl : k < s.lcb_pool.length := lt_length_of_getElem? hlcb
  obtain ⟨hbr, hle⟩ := rr_window_full_false s lcb hfull
  have hw1 := h.window
  have hlw1 := h.le_window
  have hu1 := h.unacked
  have hlu1 := h.le_unacked
  have hb1 := h.bound
  have hlb1 := h.le_bound
  have hrest : ∀ p : tHCI_PKT, p ∈ rest →
      sweep_visits k0 (n + 1) s.lcb_pool.length p.lcb ∧ p.lcb ≠ k ∧
        ∃ l : tL2C_LCB, s.lcb_pool[p.lcb]? = some l ∧ rr_participant x l ∧
          p.transport = l.transport ∧
          ((∃ (hd : BT_HDR) (rest : List BT_HDR), l.link_xmit_data_q = hd :: rest ∧
              p.buf = { hd with layer_specific := 0 }) ∨
            (l.link_xmit_data_q = [] ∧ sw = false)) := by
    intro p hp
    obtain ⟨hv, l, hl, hpl, ht⟩ := h.served p hp
    rw [hlen] at hv
    obtain ⟨hv2, hne⟩ := sweep_visits_next k0 k n _ p.lcb hk0 hk hn hv
    exact ⟨hv2, hne, l, by rw [← hpool _ hne]; exact hl, hpl, ht⟩
  refine
    { out := ?_, served := ?_, once := ?_, window := ?_, le_window := ?_, unacked := ?_,
      le_unacked := ?_, bound := ?_, le_bound := ?_, quota := ?_, le_quota := ?_,
      flag := ?_, len := ?_, quiet := ?_ }
  · rw [h.out, hout]
    simp
  · intro p hp
    cases hp with
    | head => exact ⟨sweep_visits_first k0 k n _ hk hkl, lcb, hlcb, hpart, rfl, hsrc⟩
    | tail _ hp2 =>
      obtain ⟨hv, -, hl⟩ := hrest p hp2
      exact ⟨hv, hl⟩
  · rw [List.map_cons, List.nodup_cons]
    refine ⟨?_, h.once⟩
    intro hmem
    obtain ⟨p, hp, hpk⟩ := List.mem_map.mp hmem
    exact (hrest p hp).2.1 hpk
  · rw [count_sent_cons]
    cases ht : lcb.transport
    · have := hbr ht
      simp only [ht, if_true] at hw ⊢
      omega
    · simp only [ht, reduceCtorEq, if_false] at hw ⊢
      omega
  · rw [count_sent_cons]
    cases ht : lcb.transport
    · simp only [ht, reduceCtorEq, if_false, if_true] at hlw ⊢
      omega
    · have := hle ht
      simp only [ht, reduceCtorEq, if_false, if_true] at hlw ⊢
      omega
  · rw [count_sent_cons]
    cases ht : lcb.transport
    · have := hbr ht
      simp only [ht, if_true] at hu ⊢
      omega
    · simp only [ht, reduceCtorEq, if_false] at hu ⊢
      omega
  · rw [count_sent_cons]
    cases ht : lcb.transport
    · simp only [ht, reduceCtorEq, if_false, if_true] at hlu ⊢
      omega
    · have := hle ht
      simp only [ht, reduceCtorEq, if_false, if_true] at hlu ⊢
      omega
  · rw [count_sent_cons]
    cases ht : lcb.transport
    · have := hbr ht
      simp only [ht, if_true] at hu ⊢
      right
      omega
    · simp only [ht, reduceCtorEq, if_false] at hu ⊢
      omega
  · rw [count_sent_cons]
    cases ht : lcb.transport
    · simp only [ht, reduceCtorEq, if_false, if_true] at hlu ⊢
      omega
    · have := hle ht
      simp only [ht, reduceCtorEq, if_false, if_true] at hlu ⊢
      right
      omega
  · rw [h.quota, hq]
  · rw [h.le_quota, hlq]
  · rw [h.flag, hf]
  · rw [h.len, hlen]
  · intro hsw
    rw [h.quiet hsw, hc hsw]

theorem send_to_lower_typed (s0 : tL2C_CB) (k : Nat) (lcb0 : tL2C_LCB) (b : BT_HDR)
    (cbi : Option tL2C_TX_COMPLETE_CB_INFO) (h0 : s0.lcb_pool[k]? = some lcb0) :
    (l2c_link_send_to_lower s0 k b cbi).lcb_pool.length = s0.lcb_pool.length ∧
    (s0.controller_xmit_window < 65536 →
      (l2c_link_send_to_lower s0 k b cbi).controller_xmit_window < 65536) ∧
    (s0.controller_le_xmit_window < 65536 →
      (l2c_link_send_to_lower s0 k b cbi).controller_le_xmit_window < 65536) ∧
    (l2c_link_send_to_lower s0 k b cbi).round_robin_quota = s0.round_robin_quota ∧
    (l2c_link_send_to_lower s0 k b cbi).ble_round_robin_quota = s0.ble_round_robin_quota := by
  rw [send_to_lower_eq s0 k lcb0 b cbi h0]
  refine ⟨by simp, ?_, ?_, rfl, rfl⟩
  · intro h
    simp only []
    split <;> omega
  · intro h
    simp only []
    split <;> omega

theorem sweep_sent_send_lower (x : tEXT) (sw : Bool) (s s0 r : tL2C_CB) (k0 k n : Nat)
    (lcb lcb0 : tL2C_LCB) (b : BT_HDR) (cbi : Option tL2C_TX_COMPLETE_CB_INFO)
    (rest : List tHCI_PKT)
    (hk0 : k0 ≤ s.lcb_pool.length) (hk : k = if k0 = s.lcb_pool.length then 0 else k0)
    (hn : n < s.lcb_pool.length)
    (hlcb : s.lcb_pool[k]? = some lcb) (hpart : rr_participant x lcb)
    (hfull : rr_window_full s lcb = false)
    (htw : s.controller_xmit_window < 65536) (htlw : s.controller_le_xmit_window < 65536)
    (htq : s.round_robin_quota < 65536) (htlq : s.ble_round_robin_quota < 65536)
    (h0 : s0.lcb_pool[k]? = some lcb0) (h0t : lcb0.transport = lcb.transport)
    (h0q : lcb0.link_xmit_quota = lcb.link_xmit_quota)
    (hlen : s0.lcb_pool.length = s.lcb_pool.length)
    (hpool : ∀ j : Nat, j ≠ k → s0.lcb_pool[j]? = s.lcb_pool[j]?)
    (hout : s0.hci_out = s.hci_out)
    (hw : s0.controller_xmit_window = s.controller_xmit_window)
    (hlw : s0.controller_le_xmit_window = s.controller_le_xmit_window)
    (hu : s0.round_robin_unacked = s.round_robin_unacked)
    (hlu : s0.ble_round_robin_unacked = s.ble_round_robin_unacked)
    (hq : s0.round_robin_quota = s.round_robin_quota)
    (hlq : s0.ble_round_robin_quota = s.ble_round_robin_quota)
    (hf : s0.is_cong_cback_context = s.is_cong_cback_context)
    (hc : sw = true → cbi = none ∧ s0.calls = s.calls)
    (hsrc : (∃ rest : List BT_HDR, lcb.link_xmit_data_q = b :: rest) ∨
      (lcb.link_xmit_data_q = [] ∧ sw = false))
    (h : SweepSent x sw (l2c_link_send_to_lower s0 k b cbi) r (k + 1) n rest) :
    SweepSent x sw s r k0 (n + 1)
      (⟨lcb.transport, k, { b with layer_specific := 0 }⟩ :: rest) := by
  rw [send_to_lower_eq s0 k lcb0 b cbi h0] at h
  have hq0 : lcb.link_xmit_quota = 0 := hpart.2.2.1
  refine sweep_sent_send x sw s _ r k0 k n lcb { b with layer_specific := 0 } rest hk0 hk hn
    hlcb hpart hfull htw htlw htq htlq ?_ ?_ ?_ ?_ ?_ ?_ ?_ ?_ ?_ ?_ ?_ ?_ h
  · simp only [List.length_set]
    exact hlen
  · intro j hj
    simp only []
    rw [List.getElem?_set_ne (Ne.symm hj)]
    exact hpool j hj
  · simp only [hout, h0t]
  · simp only [hw, h0t]
  · simp only [hlw, h0t]
  · simp only [hu, h0t, h0q, hq0, and_true]
  · simp only [hlu, h0t, h0q, hq0, and_true]
    by_cases ht : lcb.transport = tBT_TRANSPORT.BT_TRANSPORT_BR_EDR <;> simp [ht]
  · exact hq
  · exact hlq
  · exact hf
  · intro hsw
    obtain ⟨h1, h2⟩ := hc hsw
    subst h1
    simp only [List.append_nil]
    exact h2
  · cases hsrc with
    | inl h1 =>
      obtain ⟨rest1, h2⟩ := h1
      exact Or.inl ⟨b, rest1, h2, rfl⟩
    | inr h1 => exact Or.inr h1

theorem rr_sweep_sent (x : tEXT) (sw : Bool) :
    ∀ (n : Nat) (s : tL2C_CB) (k0 : Nat), n ≤ s.lcb_pool.length → k0 ≤ s.lcb_pool.length →
      s.controller_xmit_window < 65536 → s.controller_le_xmit_window < 65536 →
      s.round_robin_quota < 65536 → s.ble_round_robin_quota < 65536 →
      ∃ added : List tHCI_PKT, SweepSent x sw s (rr_sweep x sw n s k0).1 k0 n added := by
  intro n
  induction n with
  | zero =>
    intro s k0 _ _ _ _ _ _
    exact ⟨[], sweep_sent_refl x sw s k0 0⟩
  | succ n ih =>
    intro s k0 hn hk0 htw htlw htq htlq
    rw [rr_sweep]
    simp only []
    generalize hk : (if k0 = s.lcb_pool.length then 0 else k0) = k
    have hk' := hk.symm
    split
    · exact ⟨[], sweep_sent_refl x sw s k0 (n + 1)⟩
    · rename_i p_lcb hlcb
      have hkl : k < s.lcb_pool.length := lt_length_of_getElem? hlcb
      split
      · obtain ⟨added, h⟩ := ih s (k + 1) (by omega) (by omega) htw htlw htq htlq
        exact ⟨added, sweep_sent_skip x sw s s _ k0 k n added hk0 hk' (by omega) rfl
          (fun _ _ => rfl) rfl rfl rfl rfl rfl rfl rfl rfl (fun _ => rfl) h⟩
      · rename_i hfull
        split
        · obtain ⟨added, h⟩ := ih s (k + 1) (by omega) (by omega) htw htlw htq htlq
          exact ⟨added, sweep_sent_skip x sw s s _ k0 k n added hk0 hk' (by omega) rfl
            (fun _ _ => rfl) rfl rfl rfl rfl rfl rfl rfl rfl (fun _ => rfl) h⟩
        · rename_i hserved
          have hfull2 : rr_window_full s p_lcb = false := by simpa using hfull
          have hpart : rr_participant x p_lcb :=
            rr_not_served_false x p_lcb (by simpa using hserved)
          split
          · rename_i p_buf rest hqueue
            have hk1 := set_lcb_get s k p_lcb { p_lcb with link_xmit_data_q := rest } hlcb
            obtain ⟨ht1, ht2, ht3, ht4, ht5⟩ := send_to_lower_typed
              (set_lcb s k { p_lcb with link_xmit_data_q := rest }) k _ p_buf none hk1
            have hl0 : (set_lcb s k { p_lcb with link_xmit_data_q := rest }).lcb_pool.length =
                s.lcb_pool.length := by simp [set_lcb]
            obtain ⟨added, h⟩ := ih
              (l2c_link_send_to_lower (set_lcb s k { p_lcb with link_xmit_data_q := rest })
                k p_buf none)
              (k + 1) (by rw [ht1, hl0]; omega) (by rw [ht1, hl0]; omega) (ht2 htw) (ht3 htlw)
              (by rw [ht4]; exact htq) (by rw [ht5]; exact htlq)
            refine ⟨_, sweep_sent_send_lower x sw s
              (set_lcb s k { p_lcb with link_xmit_data_q := rest }) _ k0 k n p_lcb
              { p_lcb with link_xmit_data_q := rest } p_buf none added hk0 hk' (by omega) hlcb
              hpart hfull2 htw htlw htq htlq hk1 rfl rfl hl0 ?_ rfl rfl rfl rfl rfl rfl rfl rfl
              (fun _ => ⟨rfl, rfl⟩) (Or.inl ⟨rest, hqueue⟩) h⟩
            intro j hj
            simp only [set_lcb]
            rw [List.getElem?_set_ne (Ne.symm hj)]
          · rename_i hqueue
            split
            · exact ⟨[], sweep_sent_refl x sw s k0 (n + 1)⟩
            · rename_i hsw
              have hsw2 : sw = false := by simpa using hsw
              obtain ⟨hs1, hs2, hs3, hs4⟩ := get_next_buffer_same x p_lcb
              have hl0 : ({ set_lcb s k (l2cu_get_next_buffer_to_send x p_lcb).lcb with
                  calls := s.calls ++ (l2cu_get_next_buffer_to_send x p_lcb).calls } :
                  tL2C_CB).lcb_pool.length = s.lcb_pool.length := by simp [set_lcb]
              have hp0 : ∀ j : Nat, j ≠ k →
                  ({ set_lcb s k (l2cu_get_next_buffer_to_send x p_lcb).lcb with
                    calls := s.calls ++ (l2cu_get_next_buffer_to_send x p_lcb).calls } :
                    tL2C_CB).lcb_pool[j]? = s.lcb_pool[j]? := by
                intro j hj
                simp only [set_lcb]
                rw [List.getElem?_set_ne (Ne.symm hj)]
              split
              · rename_i p_buf hbuf
                have hk1 : ({ set_lcb s k (l2cu_get_next_buffer_to_send x p_lcb).lcb with
                    calls := s.calls ++ (l2cu_get_next_buffer_to_send x p_lcb).calls } :
                    tL2C_CB).lcb_pool[k]? = some (l2cu_get_next_buffer_to_send x p_lcb).lcb :=
                  set_lcb_get s k p_lcb _ hlcb
                obtain ⟨ht1, ht2, ht3, ht4, ht5⟩ := send_to_lower_typed
                  { set_lcb s k (l2cu_get_next_buffer_to_send x p_lcb).lcb with
                    calls := s.calls ++ (l2cu_get_next_buffer_to_send x p_lcb).calls } k _ p_buf
                  (some (l2cu_get_next_buffer_to_send x p_lcb).cbi) hk1
                obtain ⟨added, h⟩ := ih
                  (l2c_link_send_to_lower
                    { set_lcb s k (l2cu_get_next_buffer_to_send x p_lcb).lcb with
                      calls := s.calls ++ (l2cu_get_next_buffer_to_send x p_lcb).calls } k p_buf
                    (some (l2cu_get_next_buffer_to_send x p_lcb).cbi))
                  (k + 1) (by rw [ht1, hl0]; omega) (by rw [ht1, hl0]; omega) (ht2 htw)
                  (ht3 htlw) (by rw [ht4]; exact htq) (by rw [ht5]; exact htlq)
                exact ⟨_, sweep_sent_send_lower x sw s
                  { set_lcb s k (l2cu_get_next_buffer_to_send x p_lcb).lcb with
                    calls := s.calls ++ (l2cu_get_next_buffer_to_send x p_lcb).calls } _ k0 k n
                  p_lcb (l2cu_get_next_buffer_to_send x p_lcb).lcb p_buf
                  (some (l2cu_get_next_buffer_to_send x p_lcb).cbi) added hk0 hk' (by omega)
                  hlcb hpart hfull2 htw htlw htq htlq hk1 hs1 hs2 hl0 hp0 rfl rfl rfl rfl rfl
                  rfl rfl rfl (fun h1 => absurd (h1.symm.trans hsw2) (by decide))
                  (Or.inr ⟨hqueue, hsw2⟩) h⟩
              · obtain ⟨added, h⟩ := ih
                  { set_lcb s k (l2cu_get_next_buffer_to_send x p_lcb).lcb with
                    calls := s.calls ++ (l2cu_get_next_buffer_to_send x p_lcb).calls }
                  (k + 1) (by rw [hl0]; omega) (by rw [hl0]; omega) htw htlw htq htlq
                exact ⟨added, sweep_sent_skip x sw s
                  { set_lcb s k (l2cu_get_next_buffer_to_send x p_lcb).lcb with
                    calls := s.calls ++ (l2cu_get_next_buffer_to_send x p_lcb).calls } _ k0 k n
                  added hk0 hk' (by omega) hl0 hp0 rfl rfl rfl rfl rfl rfl rfl rfl
                  (fun h1 => absurd (h1.symm.trans hsw2) (by decide)) h⟩

theorem check_send_enqueue_counters (s : tL2C_CB) (p_lcb : Option Nat) (local_cid : Nat)
    (p_buf : Option BT_HDR) :
    (check_send_enqueue s p_lcb local_cid p_buf).round_robin_unacked = s.round_robin_unacked ∧
    (check_send_enqueue s p_lcb local_cid p_buf).ble_round_robin_unacked =
      s.ble_round_robin_unacked ∧
    (check_send_enqueue s p_lcb local_cid p_buf).round_robin_quota = s.round_robin_quota ∧
    (check_send_enqueue s p_lcb local_cid p_buf).ble_round_robin_quota =
      s.ble_round_robin_quota ∧
    (check_send_enqueue s p_lcb local_cid p_buf).is_cong_cback_context =
      s.is_cong_cback_context ∧
    (check_send_enqueue s p_lcb local_cid p_buf).calls = s.calls ∧
    (check_send_enqueue s p_lcb local_cid p_buf).lcb_pool.length = s.lcb_pool.length ∧
    ∀ (k : Nat) (lcb : tL2C_LCB), s.lcb_pool[k]? = some lcb →
      ∃ lcb1 : tL2C_LCB,
        (check_send_enqueue s p_lcb local_cid p_buf).lcb_pool[k]? = some lcb1 ∧
        lcb1.link_xmit_quota = lcb.link_xmit_quota := by
  have hset : ∀ (k0 : Nat) (l0 l1 : tL2C_LCB), s.lcb_pool[k0]? = some l0 →
      l1.link_xmit_quota = l0.link_xmit_quota →
      ∀ (k : Nat) (lcb : tL2C_LCB), s.lcb_pool[k]? = some lcb →
        ∃ lcb1 : tL2C_LCB, (s.lcb_pool.set k0 l1)[k]? = some lcb1 ∧
          lcb1.link_xmit_quota = lcb.link_xmit_quota := by
    intro k0 l0 l1 h0 hq k lcb hk
    by_cases hkk : k = k0
    · subst hkk
      rw [hk] at h0
      cases h0
      exact ⟨l1, List.getElem?_set_self (lt_length_of_getElem? hk), hq⟩
    · exact ⟨lcb, by rw [List.getElem?_set_ne (Ne.symm hkk)]; exact hk, rfl⟩
  unfold check_send_enqueue
  split
  · split
    · exact ⟨rfl, rfl, rfl, rfl, rfl, rfl, rfl, fun k lcb hk => ⟨lcb, hk, rfl⟩⟩
    · rename_i lcb0 hk0
      split
      · split
        · exact ⟨rfl, rfl, rfl, rfl, rfl, rfl, by simp [set_lcb], hset _ lcb0 _ hk0 rfl⟩
        · exact ⟨rfl, rfl, rfl, rfl, rfl, rfl, by simp [set_lcb], hset _ lcb0 _ hk0 rfl⟩
      · exact ⟨rfl, rfl, rfl, rfl, rfl, rfl, by simp [set_lcb], hset _ lcb0 _ hk0 rfl⟩
  · exact ⟨rfl, rfl, rfl, rfl, rfl, rfl, rfl, fun k lcb hk => ⟨lcb, hk, rfl⟩⟩

theorem rr_clear_flags_frame (s : tL2C_CB) (k : Nat) :
    (rr_clear_flags s k).hci_out = s.hci_out ∧ (rr_clear_flags s k).calls = s.calls ∧
    (rr_clear_flags s k).lcb_pool = s.lcb_pool ∧
    (rr_clear_flags s k).controller_xmit_window = s.controller_xmit_window ∧
    (rr_clear_flags s k).controller_le_xmit_window = s.controller_le_xmit_window ∧
    (rr_clear_flags s k).round_robin_unacked = s.round_robin_unacked ∧
    (rr_clear_flags s k).ble_round_robin_unacked = s.ble_round_robin_unacked ∧
    (rr_clear_flags s k).round_robin_quota = s.round_robin_quota ∧
    (rr_clear_flags s k).ble_round_robin_quota = s.ble_round_robin_quota := by
  unfold rr_clear_flags
  simp only []
  split <;> split <;> exact ⟨rfl, rfl, rfl, rfl, rfl, rfl, rfl, rfl, rfl⟩

theorem check_send_pkts_rr_path (x : tEXT) (s : tL2C_CB) (p_lcb : Option Nat) (local_cid : Nat)
    (p_buf : Option BT_HDR) (hcong : s.is_cong_cback_context = false)
    (hrr : p_lcb = none ∨ ∃ (k : Nat) (lcb : tL2C_LCB), p_lcb = some k ∧
      s.lcb_pool[k]? = some lcb ∧ lcb.link_xmit_quota = 0)
    (htw : s.controller_xmit_window < 65536) (htlw : s.controller_le_xmit_window < 65536)
    (htq : s.round_robin_quota < 65536) (htlq : s.ble_round_robin_quota < 65536) :
    ∃ (added : List tHCI_PKT) (k0 : Nat) (r : tL2C_CB × Nat),
      SweepSent x (p_buf.isSome && local_cid != 0)
        (check_send_enqueue s p_lcb local_cid p_buf) r.1 k0 s.lcb_pool.length added ∧
      l2c_link_check_send_pkts x s p_lcb local_cid p_buf = rr_clear_flags r.1 r.2 := by
  obtain ⟨-, -, hq, hlq, hf, -, hl, hp⟩ := check_send_enqueue_counters s p_lcb local_cid p_buf
  obtain ⟨-, hw, hlw⟩ := check_send_enqueue_frame s p_lcb local_cid p_buf
  have hsweep : ∀ k0 : Nat, k0 ≤ s.lcb_pool.length →
      ∃ added : List tHCI_PKT,
        SweepSent x (p_buf.isSome && local_cid != 0)
          (check_send_enqueue s p_lcb local_cid p_buf)
          (rr_sweep x (p_buf.isSome && local_cid != 0)
            (check_send_enqueue s p_lcb local_cid p_buf).lcb_pool.length
            (check_send_enqueue s p_lcb local_cid p_buf) k0).1 k0 s.lcb_pool.length added := by
    intro k0 hk0
    obtain ⟨added, h⟩ := rr_sweep_sent x (p_buf.isSome && local_cid != 0)
      (check_send_enqueue s p_lcb local_cid p_buf).lcb_pool.length
      (check_send_enqueue s p_lcb local_cid p_buf) k0 (le_refl _) (by rw [hl]; exact hk0)
      (by rw [hw]; exact htw) (by rw [hlw]; exact htlw) (by rw [hq]; exact htq)
      (by rw [hlq]; exact htlq)
    rw [hl] at h
    exact ⟨added, by rw [hl]; exact h⟩
  unfold l2c_link_check_send_pkts
  simp only []
  rw [if_neg (by rw [hf, hcong]; decide)]
  cases hrr with
  | inl hnone =>
    subst hnone
    simp only []
    obtain ⟨added, h⟩ := hsweep 0 (Nat.zero_le _)
    exact ⟨added, 0, _, h, rfl⟩
  | inr hsome =>
    obtain ⟨k, lcb, hk, hlcb, hquota⟩ := hsome
    subst hk
    obtain ⟨lcb1, h1, h2⟩ := hp k lcb hlcb
    simp only [h1]
    rw [if_pos (by rw [h2, hquota])]
    have hkl : k < s.lcb_pool.length := lt_length_of_getElem? hlcb
    obtain ⟨added, h⟩ := hsweep (if (p_buf.isSome && local_cid != 0) = true then k else k + 1)
      (by split <;> omega)
    exact ⟨added, _, _, h, rfl⟩

/-- C25: the round-robin path of `l2c_link_check_send_pkts` (no LCB, or an LCB
without a quota of its own; re-entry flag clear; 16-bit windows and quotas).
The packets `added` it hands to HCI are such that: each was sent on an LCB that,
in the state the sweep started from, is in use, connected, has
`link_xmit_quota = 0` and no pending power mode transition; no LCB sent more
than one packet; each packet took one buffer of the controller window of its
transport, which therefore was non-zero, and raised the round-robin counter of
its transport by one from a value strictly below the round-robin quota.  Hence
the sweep preserves `round_robin_unacked ≤ round_robin_quota` on both
transports. -/
theorem rr_path_guarded (x : tEXT) (s : tL2C_CB) (p_lcb : Option Nat) (local_cid : Nat)
    (p_buf : Option BT_HDR) (hcong : s.is_cong_cback_context = false)
    (hrr : p_lcb = none ∨ ∃ (k : Nat) (lcb : tL2C_LCB), p_lcb = some k ∧
      s.lcb_pool[k]? = some lcb ∧ lcb.link_xmit_quota = 0)
    (htw : s.controller_xmit_window < 65536) (htlw : s.controller_le_xmit_window < 65536)
    (htq : s.round_robin_quota < 65536) (htlq : s.ble_round_robin_quota < 65536) :
    ∃ added : List tHCI_PKT,
      (l2c_link_check_send_pkts x s p_lcb local_cid p_buf).hci_out = s.hci_out ++ added ∧
      (∀ p : tHCI_PKT, p ∈ added →
        ∃ lcb : tL2C_LCB,
          (check_send_enqueue s p_lcb local_cid p_buf).lcb_pool[p.lcb]? = some lcb ∧
          lcb.in_use = true ∧ lcb.link_state = tL2C_LINK_STATE.LST_CONNECTED ∧
          lcb.link_xmit_quota = 0 ∧ l2c_link_check_power_mode x lcb = false ∧
          p.transport = lcb.transport) ∧
      (added.map (fun p => p.lcb)).Nodup ∧
      (l2c_link_check_send_pkts x s p_lcb local_cid p_buf).controller_xmit_window +
        count_sent tBT_TRANSPORT.BT_TRANSPORT_BR_EDR added = s.controller_xmit_window ∧
      (l2c_link_check_send_pkts x s p_lcb local_cid p_buf).controller_le_xmit_window +
        count_sent tBT_TRANSPORT.BT_TRANSPORT_LE added = s.controller_le_xmit_window ∧
      (l2c_link_check_send_pkts x s p_lcb local_cid p_buf).round_robin_unacked =
        s.round_robin_unacked + count_sent tBT_TRANSPORT.BT_TRANSPORT_BR_EDR added ∧
      (l2c_link_check_send_pkts x s p_lcb local_cid p_buf).ble_round_robin_unacked =
        s.ble_round_robin_unacked + count_sent tBT_TRANSPORT.BT_TRANSPORT_LE added ∧
      (count_sent tBT_TRANSPORT.BT_TRANSPORT_BR_EDR added = 0 ∨
        s.round_robin_unacked + count_sent tBT_TRANSPORT.BT_TRANSPORT_BR_EDR added ≤
          s.round_robin_quota) ∧
      (count_sent tBT_TRANSPORT.BT_TRANSPORT_LE added = 0 ∨
        s.ble_round_robin_unacked + count_sent tBT_TRANSPORT.BT_TRANSPORT_LE added ≤
          s.ble_round_robin_quota) ∧
      (s.round_robin_unacked ≤ s.round_robin_quota →
        (l2c_link_check_send_pkts x s p_lcb local_cid p_buf).round_robin_unacked ≤
          (l2c_link_check_send_pkts x s p_lcb local_cid p_buf).round_robin_quota) ∧
      (s.ble_round_robin_unacked ≤ s.ble_round_robin_quota →
        (l2c_link_check_send_pkts x s p_lcb local_cid p_buf).ble_round_robin_unacked ≤
          (l2c_link_check_send_pkts x s p_lcb local_cid p_buf).ble_round_robin_quota) := by
  obtain ⟨added, k0, r, h, heq⟩ := check_send_pkts_rr_path x s p_lcb local_cid p_buf hcong hrr
    htw htlw htq htlq
  obtain ⟨hu, hlu, hq, hlq, -, -, -, -⟩ := check_send_enqueue_counters s p_lcb local_cid p_buf
  obtain ⟨ho, hw, hlw⟩ := check_send_enqueue_frame s p_lcb local_cid p_buf
  obtain ⟨f1, -, -, f4, f5, f6, f7, f8, f9⟩ := rr_clear_flags_frame r.1 r.2
  have h1 := h.out
  have h2 := h.window
  have h3 := h.le_window
  have h4 := h.unacked
  have h5 := h.le_unacked
  have h6 := h.bound
  have h7 := h.le_bound
  have h8 := h.quota
  have h9 := h.le_quota
  rw [heq]
  refine ⟨added, ?_, ?_, h.once, ?_, ?_, ?_, ?_, ?_, ?_, ?_, ?_⟩
  · rw [f1, h1, ho]
  · intro p hp
    obtain ⟨-, lcb, hl, hpart, ht, -⟩ := h.served p hp
    exact ⟨lcb, hl, hpart.1, hpart.2.1, hpart.2.2.1, hpart.2.2.2, ht⟩
  · omega
  · omega
  · omega
  · omega
  · omega
  · omega
  · intro _
    omega
  · intro _
    omega

/-- Witness of C25: a poke of the first of two round-robin links; the second
has a buffer queued, which is the one packet sent. -/
theorem rr_path_guarded_witness :
    ∃ added : List tHCI_PKT,
      (l2c_link_check_send_pkts ext_idle l2cb_rr_two (some 0) 0 none).hci_out =
        l2cb_rr_two.hci_out ++ added ∧
      (added.map (fun p => p.lcb)).Nodup ∧
      (l2c_link_check_send_pkts ext_idle l2cb_rr_two (some 0) 0 none).round_robin_unacked ≤
        (l2c_link_check_send_pkts ext_idle l2cb_rr_two (some 0) 0 none).round_robin_quota := by
  obtain ⟨added, h1, -, h2, -, -, -, -, -, -, h3, -⟩ :=
    rr_path_guarded ext_idle l2cb_rr_two (some 0) 0 none (by decide)
      (Or.inr ⟨0, lcb_link 1 1 .L2CAP_PRIORITY_NORMAL 0 0 [], rfl, by decide, by decide⟩)
      (by decide) (by decide) (by decide) (by decide)
  exact ⟨added, h1, h2, h3 (by decide)⟩

/-! ## The single-write sweep -/

theorem rr_sweep_single_stop (x : tEXT) (s : tL2C_CB) (k0 : Nat)
    (h : rr_stop_here x s k0 = true) (n : Nat) :
    rr_sweep x true (n + 1) s k0 = (s, if k0 = s.lcb_pool.length then 0 else k0) := by
  unfold rr_stop_here at h
  rw [rr_sweep]
  simp only []
  cases hk : s.lcb_pool[if k0 = s.lcb_pool.length then 0 else k0]? with
  | none => rfl
  | some lcb =>
    rw [hk] at h
    simp only [Bool.and_eq_true, Bool.not_eq_true', List.isEmpty_iff] at h
    obtain ⟨⟨h1, h2⟩, h3⟩ := h
    simp only [h1, h2, h3, Bool.false_eq_true, if_false, if_true]

theorem send_link_head_pool (s : tL2C_CB) (k : Nat) (lcb : tL2C_LCB) (b : BT_HDR)
    (rest : List BT_HDR) (hk : s.lcb_pool[k]? = some lcb) :
    (l2c_link_send_to_lower (set_lcb s k { lcb with link_xmit_data_q := rest }) k b none).lcb_pool =
      s.lcb_pool.set k
        { lcb with link_xmit_data_q := rest,
                   sent_not_acked := (lcb.sent_not_acked + 1) % 65536 } := by
  have hk1 := set_lcb_get s k lcb { lcb with link_xmit_data_q := rest } hk
  rw [send_to_lower_eq _ k _ b none hk1]
  simp only [set_lcb, List.set_set]

theorem rr_sweep_single_go (x : tEXT) (s : tL2C_CB) (k0 : Nat)
    (hk0 : k0 ≤ s.lcb_pool.length) (hlen : 0 < s.lcb_pool.length)
    (h : rr_stop_here x s k0 = false) :
    ∃ (s1 : tL2C_CB) (p1 : Nat), s1.lcb_pool.length = s.lcb_pool.length ∧
      p1 ≤ s1.lcb_pool.length ∧
      (∀ (j : Nat) (l : tL2C_LCB), s.lcb_pool[j]? = some l →
        ∃ l1 : tL2C_LCB, s1.lcb_pool[j]? = some l1 ∧ same_channels l1 l) ∧
      ∀ n : Nat, rr_sweep x true (n + 1) s k0 = rr_sweep x true n s1 p1 := by
  have hklt : (if k0 = s.lcb_pool.length then 0 else k0) < s.lcb_pool.length := by
    split <;> omega
  obtain ⟨lcb, hk⟩ : ∃ lcb, s.lcb_pool[if k0 = s.lcb_pool.length then 0 else k0]? = some lcb :=
    ⟨_, List.getElem?_eq_getElem hklt⟩
  have hsame : ∀ (j : Nat) (l : tL2C_LCB), s.lcb_pool[j]? = some l →
      ∃ l1 : tL2C_LCB, s.lcb_pool[j]? = some l1 ∧ same_channels l1 l :=
    fun j l hj => ⟨l, hj, rfl, rfl, rfl, rfl, rfl⟩
  unfold rr_stop_here at h
  rw [hk] at h
  simp only [] at h
  by_cases hfull : rr_window_full s lcb = true
  · refine ⟨s, (if k0 = s.lcb_pool.length then 0 else k0) + 1, rfl, by omega, hsame, ?_⟩
    intro n
    rw [rr_sweep]
    simp only [hk, hfull, if_true]
  · by_cases hns : rr_not_served x lcb = true
    · refine ⟨s, (if k0 = s.lcb_pool.length then 0 else k0) + 1, rfl, by omega, hsame, ?_⟩
      intro n
      rw [rr_sweep]
      simp only [hk, hfull, hns, if_true, Bool.false_eq_true, if_false]
    · cases hq : lcb.link_xmit_data_q with
      | nil =>
        simp [hfull, hns, hq] at h
      | cons b rest =>
        have hpool := send_link_head_pool s (if k0 = s.lcb_pool.length then 0 else k0) lcb b rest hk
        refine ⟨l2c_link_send_to_lower
            (set_lcb s (if k0 = s.lcb_pool.length then 0 else k0)
              { lcb with link_xmit_data_q := rest })
            (if k0 = s.lcb_pool.length then 0 else k0) b none,
          (if k0 = s.lcb_pool.length then 0 else k0) + 1, ?_, ?_, ?_, ?_⟩
        · rw [hpool, List.length_set]
        · rw [hpool, List.length_set]
          omega
        · intro j l hj
          rw [hpool]
          by_cases hjk : (if k0 = s.lcb_pool.length then 0 else k0) = j
          · rw [← hjk] at hj ⊢
            rw [hk] at hj
            cases hj
            exact ⟨_, List.getElem?_set_self hklt, rfl, rfl, rfl, rfl, rfl⟩
          · rw [List.getElem?_set_ne hjk]
            exact ⟨l, hj, rfl, rfl, rfl, rfl, rfl⟩
        · intro n
          rw [rr_sweep]
          simp only [hk, hfull, hns, Bool.false_eq_true, if_false, hq]

theorem same_channels_trans (a b c : tL2C_LCB) (h1 : same_channels a b)
    (h2 : same_channels b c) : same_channels a c :=
  ⟨h1.1.trans h2.1, h1.2.1.trans h2.2.1, h1.2.2.1.trans h2.2.2.1, h1.2.2.2.1.trans h2.2.2.2.1,
    h1.2.2.2.2.trans h2.2.2.2.2⟩

/-- A single-write sweep of `n` iterations runs `m ≤ n` of them: none of the first
`m` meets the stop condition, the one after them does when `m < n`, and the
state it leaves is the state after those `m` iterations; the channels and
round-robin records of every LCB are as before. -/
theorem rr_sweep_stops (x : tEXT) :
    ∀ (n : Nat) (s : tL2C_CB) (k0 : Nat), k0 ≤ s.lcb_pool.length → 0 < s.lcb_pool.length →
      ∃ m : Nat, m ≤ n ∧
        (rr_sweep x true n s k0).1 = (rr_sweep x true m s k0).1 ∧
        (∀ i : Nat, i < m →
          rr_stop_here x (rr_sweep x true i s k0).1 (rr_sweep x true i s k0).2 = false) ∧
        (m < n →
          rr_stop_here x (rr_sweep x true m s k0).1 (rr_sweep x true m s k0).2 = true) ∧
        (∀ (j : Nat) (l : tL2C_LCB), s.lcb_pool[j]? = some l →
          ∃ l1 : tL2C_LCB, (rr_sweep x true n s k0).1.lcb_pool[j]? = some l1 ∧
            same_channels l1 l) := by
  intro n
  induction n with
  | zero =>
    intro s k0 _ _
    exact ⟨0, le_refl _, rfl, fun i hi => absurd hi (Nat.not_lt_zero i),
      fun h => absurd h (Nat.lt_irrefl 0), fun j l hj => ⟨l, hj, rfl, rfl, rfl, rfl, rfl⟩⟩
  | succ n ih =>
    intro s k0 hk0 hlen
    cases hstop : rr_stop_here x s k0 with
    | true =>
      refine ⟨0, Nat.zero_le _, ?_, fun i hi => absurd hi (Nat.not_lt_zero i), fun _ => hstop,
        ?_⟩
      · rw [rr_sweep_single_stop x s k0 hstop n]
        rfl
      · intro j l hj
        rw [rr_sweep_single_stop x s k0 hstop n]
        exact ⟨l, hj, rfl, rfl, rfl, rfl, rfl⟩
    | false =>
      obtain ⟨s1, p1, hl1, hp1, hch, hstep⟩ := rr_sweep_single_go x s k0 hk0 hlen hstop
      obtain ⟨m, hm, e1, e2, e3, e4⟩ := ih s1 p1 hp1 (by rw [hl1]; exact hlen)
      refine ⟨m + 1, by omega, ?_, ?_, ?_, ?_⟩
      · rw [hstep n, hstep m]
        exact e1
      · intro i hi
        cases i with
        | zero => exact hstop
        | succ i =>
          rw [hstep i]
          exact e2 i (by omega)
      · intro hlt
        rw [hstep m]
        exact e3 (by omega)
      · intro j l hj
        obtain ⟨l1, hj1, hs1⟩ := hch j l hj
        obtain ⟨l2, hj2, hs2⟩ := e4 j l1 hj1
        rw [hstep n]
        exact ⟨l2, hj2, same_channels_trans _ _ _ hs2 hs1⟩

theorem check_send_pkts_single_write_eq (x : tEXT) (s : tL2C_CB) (k : Nat) (lcb : tL2C_LCB)
    (local_cid : Nat) (b : BT_HDR) (hcong : s.is_cong_cback_context = false)
    (hk : s.lcb_pool[k]? = some lcb) (hquota : lcb.link_xmit_quota = 0)
    (hcid : local_cid ≠ 0) :
    l2c_link_check_send_pkts x s (some k) local_cid (some b) =
      rr_clear_flags
        (rr_sweep x true s.lcb_pool.length (check_send_enqueue s (some k) local_cid (some b)) k).1
        (rr_sweep x true s.lcb_pool.length
          (check_send_enqueue s (some k) local_cid (some b)) k).2 := by
  obtain ⟨-, -, -, -, hf, -, hl, hp⟩ := check_send_enqueue_counters s (some k) local_cid (some b)
  obtain ⟨lcb1, h1, h2⟩ := hp k lcb hk
  have hsw : ((some b).isSome && local_cid != 0) = true := by simp [hcid]
  unfold l2c_link_check_send_pkts
  simp only []
  rw [if_neg (by rw [hf, hcong]; decide)]
  simp only [h1]
  rw [if_pos (by rw [h2, hquota]), hsw, hl]
  simp only [if_true]

/-- C26 (amended): single write on the round-robin path.  When
`l2c_link_check_send_pkts` is called with a buffer and a non-zero channel id on
the LCB at slot `k`, which has no quota of its own, the sweep examines the LCBs
in pool order from slot `k` and runs `m` iterations, where:
the stop condition (the LCB under the pointer is served and its link queue is
empty) fails before each of the first `m` iterations and, when `m` is less than
the pool size, holds after them, so the sweep stops at the first served LCB
whose link queue is empty, and the pool it leaves is the pool after those `m`
iterations; every packet handed to HCI comes from one of the first `m` slots in
sweep order and is the head of the link queue of its LCB (as the queue was
after the buffer was appended); no LCB sends more than one packet; no channel
is asked for data: no call is made other than handing packets to HCI, and the
transport, channels, fixed channels and round-robin records of every LCB are as
before. -/
theorem rr_path_single_write (x : tEXT) (s : tL2C_CB) (k : Nat) (lcb : tL2C_LCB)
    (local_cid : Nat) (b : BT_HDR) (hcong : s.is_cong_cback_context = false)
    (hk : s.lcb_pool[k]? = some lcb) (hquota : lcb.link_xmit_quota = 0)
    (hcid : local_cid ≠ 0)
    (htw : s.controller_xmit_window < 65536) (htlw : s.controller_le_xmit_window < 65536)
    (htq : s.round_robin_quota < 65536) (htlq : s.ble_round_robin_quota < 65536) :
    ∃ (added : List tHCI_PKT) (m : Nat),
      (l2c_link_check_send_pkts x s (some k) local_cid (some b)).hci_out =
        s.hci_out ++ added ∧
      (l2c_link_check_send_pkts x s (some k) local_cid (some b)).calls = s.calls ∧
      (added.map (fun p => p.lcb)).Nodup ∧
      (∀ p : tHCI_PKT, p ∈ added →
        ∃ (l : tL2C_LCB) (hd : BT_HDR) (rest : List BT_HDR),
          (check_send_enqueue s (some k) local_cid (some b)).lcb_pool[p.lcb]? = some l ∧
          l.link_xmit_data_q = hd :: rest ∧ p.buf = { hd with layer_specific := 0 }) ∧
      m ≤ s.lcb_pool.length ∧
      (∀ i : Nat, i < m →
        rr_stop_here x
          (rr_sweep x true i (check_send_enqueue s (some k) local_cid (some b)) k).1
          (rr_sweep x true i (check_send_enqueue s (some k) local_cid (some b)) k).2 = false) ∧
      (m < s.lcb_pool.length →
        rr_stop_here x
          (rr_sweep x true m (check_send_enqueue s (some k) local_cid (some b)) k).1
          (rr_sweep x true m (check_send_enqueue s (some k) local_cid (some b)) k).2 = true) ∧
      (l2c_link_check_send_pkts x s (some k) local_cid (some b)).lcb_pool =
        (rr_sweep x true m (check_send_enqueue s (some k) local_cid (some b)) k).1.lcb_pool ∧
      (∀ p : tHCI_PKT, p ∈ added → sweep_visits k m s.lcb_pool.length p.lcb) ∧
      (∀ (j : Nat) (l : tL2C_LCB),
        (check_send_enqueue s (some k) local_cid (some b)).lcb_pool[j]? = some l →
        ∃ l1 : tL2C_LCB,
          (l2c_link_check_send_pkts x s (some k) local_cid (some b)).lcb_pool[j]? = some l1 ∧
          same_channels l1 l) := by
  obtain ⟨-, -, hq, hlq, -, hc, hl, -⟩ :=
    check_send_enqueue_counters s (some k) local_cid (some b)
  obtain ⟨ho, hw, hlw⟩ := check_send_enqueue_frame s (some k) local_cid (some b)
  have hkl : k < s.lcb_pool.length := lt_length_of_getElem? hk
  obtain ⟨m, hm, e1, e2, e3, e4⟩ := rr_sweep_stops x s.lcb_pool.length
    (check_send_enqueue s (some k) local_cid (some b)) k (by rw [hl]; omega) (by rw [hl]; omega)
  obtain ⟨added, h⟩ := rr_sweep_sent x true m
    (check_send_enqueue s (some k) local_cid (some b)) k (by rw [hl]; exact hm)
    (by rw [hl]; omega) (by rw [hw]; exact htw) (by rw [hlw]; exact htlw)
    (by rw [hq]; exact htq) (by rw [hlq]; exact htlq)
  obtain ⟨f1, f2, f3, -⟩ := rr_clear_flags_frame
    (rr_sweep x true s.lcb_pool.length (check_send_enqueue s (some k) local_cid (some b)) k).1
    (rr_sweep x true s.lcb_pool.length (check_send_enqueue s (some k) local_cid (some b)) k).2
  rw [check_send_pkts_single_write_eq x s k lcb local_cid b hcong hk hquota hcid]
  refine ⟨added, m, ?_, ?_, h.once, ?_, hm, e2, e3, ?_, ?_, ?_⟩
  · rw [f1, e1, h.out, ho]
  · rw [f2, e1, h.quiet rfl, hc]
  · intro p hp
    obtain ⟨-, l, hl1, -, -, hsrc⟩ := h.served p hp
    cases hsrc with
    | inl h1 =>
      obtain ⟨hd, rest, h2, h3⟩ := h1
      exact ⟨l, hd, rest, hl1, h2, h3⟩
    | inr h1 => exact absurd h1.2 (by decide)
  · rw [f3, e1]
  · intro p hp
    have hv := (h.served p hp).1
    rw [hl] at hv
    exact hv
  · intro j l hj
    rw [f3]
    exact e4 j l hj

/-- Witness of C26 (amended): three round-robin links, the second with an empty
link queue and the third with a buffer queued; a buffer of channel 64 for the
first link is the only packet sent, since the sweep stops at the second
link. -/
theorem rr_path_single_write_witness :
    (l2c_link_check_send_pkts ext_idle l2cb_rr_three (some 0) 64 (some (buf_of [9]))).hci_out =
      [⟨tBT_TRANSPORT.BT_TRANSPORT_BR_EDR, 0, { buf_of [9] with event := 64 }⟩] ∧
    rr_stop_here ext_idle
      (rr_sweep ext_idle true 1 (check_send_enqueue l2cb_rr_three (some 0) 64 (some (buf_of [9])))
        0).1
      (rr_sweep ext_idle true 1 (check_send_enqueue l2cb_rr_three (some 0) 64 (some (buf_of [9])))
        0).2 = true ∧
    ∃ (added : List tHCI_PKT) (m : Nat),
      (l2c_link_check_send_pkts ext_idle l2cb_rr_three (some 0) 64
        (some (buf_of [9]))).hci_out = l2cb_rr_three.hci_out ++ added ∧
      (l2c_link_check_send_pkts ext_idle l2cb_rr_three (some 0) 64
        (some (buf_of [9]))).calls = l2cb_rr_three.calls ∧
      (added.map (fun p => p.lcb)).Nodup ∧
      m ≤ l2cb_rr_three.lcb_pool.length ∧
      (∀ p : tHCI_PKT, p ∈ added → sweep_visits 0 m l2cb_rr_three.lcb_pool.length p.lcb) := by
  obtain ⟨added, m, h1, h2, h3, -, h5, -, -, -, h9, -⟩ :=
    rr_path_single_write ext_idle l2cb_rr_three 0 (lcb_link 1 1 .L2CAP_PRIORITY_NORMAL 0 0 []) 64
      (buf_of [9]) (by decide) (by decide) (by decide) (by decide) (by decide) (by decide)
      (by decide) (by decide)
  exact ⟨by decide, by decide, added, m, h1, h2, h3, h5, h9⟩

/-- C26 (counterexample): two round-robin links share a round-robin quota of two
and two free controller buffers, and the second has one buffer queued.  A call
with a buffer of channel 64 for the first link hands two buffers to HCI: the
sweep sends the new buffer on the first link and goes on to send the queued
buffer of the second. -/
theorem rr_path_single_write_sends_two :
    l2cb_rr_two.lcb_pool.map (fun l => (l.link_xmit_quota, l.link_xmit_data_q)) =
      [(0, []), (0, [buf_of [2]])] ∧
    (l2c_link_check_send_pkts ext_idle l2cb_rr_two (some 0) 64 (some (buf_of [9]))).hci_out =
      [⟨tBT_TRANSPORT.BT_TRANSPORT_BR_EDR, 0, { buf_of [9] with event := 64 }⟩,
       ⟨tBT_TRANSPORT.BT_TRANSPORT_BR_EDR, 1, buf_of [2]⟩] := by
  decide

/-- C27 (failing input): a round-robin BR/EDR link at slot 0 is followed by an LE
link at slot 1; the classic round-robin flag is set, two classic buffers are
free and the classic round-robin quota is two.  A poke of the link at slot 0
sweeps from slot 1; nothing is sent, and the sweep leaves its pointer on the LE
link, so the classic flag is not cleared although the classic window is
non-zero and the classic round-robin counter is below its quota. -/
theorem rr_flag_not_cleared :
    (rr_sweep ext_idle false 2 l2cb_rr_mixed 1).2 = 1 ∧
    (l2c_link_check_send_pkts ext_idle l2cb_rr_mixed (some 0) 0 none).hci_out = [] ∧
    (l2c_link_check_send_pkts ext_idle l2cb_rr_mixed (some 0) 0 none).controller_xmit_window =
      2 ∧
    (l2c_link_check_send_pkts ext_idle l2cb_rr_mixed (some 0) 0 none).round_robin_unacked = 0 ∧
    (l2c_link_check_send_pkts ext_idle l2cb_rr_mixed (some 0) 0 none).round_robin_quota = 2 ∧
    (l2c_link_check_send_pkts ext_idle l2cb_rr_mixed (some 0) 0 none).check_round_robin =
      true := by
  decide

/-! ## Channel selection -/

theorem find_ccb_spec (q : List tL2C_CCB) (p i : Nat) (c : tL2C_CCB)
    (h : find_ccb q p = some (i, c)) : c ∈ q ∧ c.slot = p ∧ q[i]? = some c := by
  unfold find_ccb at h
  split at h
  · cases h
  · rename_i j hj
    split at h
    · cases h
    · rename_i c0 hc0
      cases h
      obtain ⟨hlt, hget⟩ := List.getElem?_eq_some_iff.mp hc0
      refine ⟨List.mem_iff_getElem?.mpr ⟨_, hc0⟩, ?_, hc0⟩
      have h1 := List.findIdx?_eq_some_iff_getElem.mp hj
      obtain ⟨hlt1, hp, -⟩ := h1
      rw [hget] at hp
      simpa using hp

theorem rr_scan_group_queue (x : tEXT) :
    ∀ (n : Nat) (l : tL2C_LCB),
      (rr_scan_group x n l).lcb.ccb_queue = l.ccb_queue ∧
      (rr_scan_group x n l).lcb.transport = l.transport := by
  intro n
  induction n with
  | zero => intro l; exact ⟨rfl, rfl⟩
  | succ n ih =>
    intro l
    unfold rr_scan_group
    simp only []
    split
    · exact ⟨rfl, rfl⟩
    · split
      · exact ⟨rfl, rfl⟩
      · exact ih _

theorem rr_scan_group_ready (x : tEXT) :
    ∀ (n : Nat) (l : tL2C_LCB) (p : Nat), (rr_scan_group x n l).p_serve_ccb = some p →
      ∃ c : tL2C_CCB, c ∈ l.ccb_queue ∧ c.slot = p ∧ rr_channel_ready x l.transport c = true := by
  intro n
  induction n with
  | zero => intro l p h; cases h
  | succ n ih =>
    intro l p h
    unfold rr_scan_group at h
    simp only [] at h
    split at h
    · cases h
    · rename_i i c hfind
      split at h
      · rename_i hready
        simp only [Option.some.injEq] at h
        cases hs : (l.rr_serv.getD l.rr_pri ⟨none, none, 0, 0⟩).p_serve_ccb with
        | none => rw [hs] at hfind; cases hfind
        | some p0 =>
          rw [hs] at hfind
          obtain ⟨h1, -, -⟩ := find_ccb_spec _ _ _ _ hfind
          exact ⟨c, h1, h, hready⟩
      · have h4 := ih _ p h
        exact h4

theorem rr_scan_ready (x : tEXT) :
    ∀ (n : Nat) (l : tL2C_LCB) (p : Nat), (rr_scan x n l).2 = some p →
      ∃ c : tL2C_CCB, c ∈ l.ccb_queue ∧ c.slot = p ∧ rr_channel_ready x l.transport c = true := by
  intro n
  induction n with
  | zero => intro l p h; cases h
  | succ n ih =>
    intro l p h
    unfold rr_scan at h
    simp only [] at h
    have hg := rr_scan_group_ready x (l.rr_serv.getD l.rr_pri ⟨none, none, 0, 0⟩).num_ccb l
    obtain ⟨hq, ht⟩ := rr_scan_group_queue x (l.rr_serv.getD l.rr_pri ⟨none, none, 0, 0⟩).num_ccb l
    split at h
    · cases h
    · split at h
      · rename_i p1 hp1
        simp only [Option.some.injEq] at h
        subst h
        exact hg p1 hp1
      · obtain ⟨c, h1, h2, h3⟩ := ih _ p h
        split at h1
        · exact ⟨c, by rw [← hq]; exact h1, h2, by rw [← ht]; split at h3 <;> exact h3⟩
        · exact ⟨c, by rw [← hq]; exact h1, h2, by rw [← ht]; split at h3 <;> exact h3⟩

/-- C28 (amended): the channel returned by `l2cu_get_next_channel_in_rr` is a
channel of the link in state Open; on LE its transmit hold queue is not empty
(its credits are not looked at); on BR/EDR in basic mode its transmit hold
queue is not empty; on BR/EDR in a non-basic FCR mode it is neither waiting for
an ack nor remote-busy and, when its retransmit queue is empty, its transmit
hold queue is not empty and it is not flow-controlled in eRTM. -/
theorem next_channel_in_rr_ready (x : tEXT) (l : tL2C_LCB) (p : Nat)
    (h : (l2cu_get_next_channel_in_rr x l).2 = some p) :
    ∃ c : tL2C_CCB, c ∈ l.ccb_queue ∧ c.slot = p ∧
      c.chnl_state = tL2C_CHNL_STATE.CST_OPEN ∧
      (l.transport = tBT_TRANSPORT.BT_TRANSPORT_LE → c.xmit_hold_q ≠ []) ∧
      (l.transport = tBT_TRANSPORT.BT_TRANSPORT_BR_EDR →
        c.fcr_mode = tL2CAP_FCR_MODE.L2CAP_FCR_BASIC_MODE → c.xmit_hold_q ≠ []) ∧
      (l.transport = tBT_TRANSPORT.BT_TRANSPORT_BR_EDR →
        c.fcr_mode ≠ tL2CAP_FCR_MODE.L2CAP_FCR_BASIC_MODE →
          c.wait_ack = false ∧ c.remote_busy = false ∧
          (c.retrans_q = [] → c.xmit_hold_q ≠ [] ∧
            ¬ (c.fcr_mode = tL2CAP_FCR_MODE.L2CAP_FCR_ERTM_MODE ∧
              x.l2c_fcr_is_flow_controlled c = true))) := by
  obtain ⟨c, h1, h2, h3⟩ := rr_scan_ready x _ l p h
  refine ⟨c, h1, h2, ?_⟩
  unfold rr_channel_ready at h3
  cases ht : l.transport <;> cases hm : c.fcr_mode <;> cases hs : c.chnl_state <;>
    simp_all <;> intro hr <;> rcases h3.2 with h4 | h4 <;> first | exact absurd hr h4 | exact h4

/-- Witness of C28 (amended): the LE link whose only channel has data queued. -/
theorem next_channel_in_rr_ready_witness :
    ∃ c : tL2C_CCB, c ∈ lcb_le_no_credit.ccb_queue ∧ c.slot = 0 ∧
      c.chnl_state = tL2C_CHNL_STATE.CST_OPEN ∧
      (lcb_le_no_credit.transport = tBT_TRANSPORT.BT_TRANSPORT_LE → c.xmit_hold_q ≠ []) := by
  obtain ⟨c, h1, h2, h3, h4, -⟩ :=
    next_channel_in_rr_ready ext_idle lcb_le_no_credit 0 (by decide)
  exact ⟨c, h1, h2, h3, h4⟩

/-- C28 (counterexample): on an LE link whose only channel is open, has data in
its transmit hold queue and has no credits, `l2cu_get_next_channel_in_rr`
returns that channel; it is `l2cu_get_next_buffer_to_send` that then finds the
credits exhausted and returns no buffer. -/
theorem next_channel_in_rr_without_credits :
    lcb_le_no_credit.transport = tBT_TRANSPORT.BT_TRANSPORT_LE ∧
    lcb_le_no_credit.ccb_queue.map (fun c => (c.slot, c.credits)) = [(0, 0)] ∧
    (l2cu_get_next_channel_in_rr ext_idle lcb_le_no_credit).2 = some 0 ∧
    (l2cu_get_next_buffer_to_send ext_idle lcb_le_no_credit).p_buf = none := by
  decide

theorem rr_scan_group_hit (x : tEXT) (l : tL2C_LCB) (p i : Nat) (c : tL2C_CCB) (m : Nat)
    (hlen : l.rr_pri < l.rr_serv.length)
    (hcur : (l.rr_serv.getD l.rr_pri ⟨none, none, 0, 0⟩).p_serve_ccb = some p)
    (hfind : find_ccb l.ccb_queue p = some (i, c))
    (hready : rr_channel_ready x l.transport c = true) :
    (rr_scan_group x (m + 1) l).p_serve_ccb = some c.slot ∧
    (rr_scan_group x (m + 1) l).returned = false ∧
    (rr_scan_group x (m + 1) l).lcb.rr_pri = l.rr_pri ∧
    ((rr_scan_group x (m + 1) l).lcb.rr_serv.getD l.rr_pri ⟨none, none, 0, 0⟩).quota =
      ((l.rr_serv.getD l.rr_pri ⟨none, none, 0, 0⟩).quota + 65535) % 65536 := by
  unfold rr_scan_group
  simp only []
  rw [hcur]
  simp only [Option.some_bind, hfind, hready, if_true]
  simp [hlen]

/-- C29 (amended): the scan of `l2cu_get_next_channel_in_rr` starts at the
priority group being served, `rr_pri`, not at the highest one.  When the channel
the cursor of that group points at is eligible, it is the channel returned,
whatever the other groups hold; the group keeps being served until its quota is
used up, and then the next group is served with a fresh quota. -/
theorem next_channel_in_rr_current_group (x : tEXT) (l : tL2C_LCB) (p i : Nat) (c : tL2C_CCB)
    (hpri : 0 < x.L2CAP_NUM_CHNL_PRIORITY) (hlen : l.rr_pri < l.rr_serv.length)
    (hnum : 0 < (l.rr_serv.getD l.rr_pri ⟨none, none, 0, 0⟩).num_ccb)
    (hcur : (l.rr_serv.getD l.rr_pri ⟨none, none, 0, 0⟩).p_serve_ccb = some p)
    (hfind : find_ccb l.ccb_queue p = some (i, c))
    (hready : rr_channel_ready x l.transport c = true) :
    (l2cu_get_next_channel_in_rr x l).2 = some c.slot ∧
    (l2cu_get_next_channel_in_rr x l).1.rr_pri =
      (if ((l.rr_serv.getD l.rr_pri ⟨none, none, 0, 0⟩).quota + 65535) % 65536 = 0 then
        (l.rr_pri + 1) % x.L2CAP_NUM_CHNL_PRIORITY
      else l.rr_pri) := by
  obtain ⟨N, hN⟩ : ∃ N, x.L2CAP_NUM_CHNL_PRIORITY = N + 1 :=
    ⟨x.L2CAP_NUM_CHNL_PRIORITY - 1, by omega⟩
  obtain ⟨m, hm⟩ : ∃ m, (l.rr_serv.getD l.rr_pri ⟨none, none, 0, 0⟩).num_ccb = m + 1 :=
    ⟨(l.rr_serv.getD l.rr_pri ⟨none, none, 0, 0⟩).num_ccb - 1, by omega⟩
  obtain ⟨h1, h2, h3, h4⟩ := rr_scan_group_hit x l p i c m hlen hcur hfind hready
  unfold l2cu_get_next_channel_in_rr
  rw [hN]
  unfold rr_scan
  simp only []
  rw [hm, ← hN]
  generalize rr_scan_group x (m + 1) l = r at h1 h2 h3 h4
  rw [if_neg (by rw [h2]; decide), h1]
  simp only [h4, h3, reduceCtorEq, or_false]
  by_cases hq : ((l.rr_serv.getD l.rr_pri ⟨none, none, 0, 0⟩).quota + 65535) % 65536 = 0
  · rw [if_pos hq, if_pos hq]
    exact ⟨trivial, rfl⟩
  · rw [if_neg hq, if_neg hq]
    exact ⟨trivial, h3⟩

/-- Witness of C29 (amended): the link with a channel in each of the groups 0
and 1 while it serves group 0. -/
theorem next_channel_in_rr_current_group_witness :
    (l2cu_get_next_channel_in_rr ext_idle lcb_two_groups).2 = some (ccb_ready 0 0).slot ∧
    (l2cu_get_next_channel_in_rr ext_idle lcb_two_groups).1.rr_pri =
      (if ((lcb_two_groups.rr_serv.getD lcb_two_groups.rr_pri ⟨none, none, 0, 0⟩).quota + 65535) %
          65536 = 0 then
        (lcb_two_groups.rr_pri + 1) % ext_idle.L2CAP_NUM_CHNL_PRIORITY
      else lcb_two_groups.rr_pri) :=
  next_channel_in_rr_current_group ext_idle lcb_two_groups 0 0 (ccb_ready 0 0) (by decide)
    (by decide) (by decide) (by decide) (by decide) (by decide)

/-- C29 (counterexample): a link has one eligible channel in group 0 (slot 0) and
one in group 1 (slot 1), and group 0 has one unit of its quota left.  The first
call returns the channel of group 0 and moves on to group 1; the second call
returns the channel of group 1 although the channel of group 0 is still in the
queue and still eligible. -/
theorem next_channel_in_rr_serves_lower_group :
    (l2cu_get_next_channel_in_rr ext_idle lcb_two_groups).2 = some 0 ∧
    (l2cu_get_next_channel_in_rr ext_idle lcb_two_groups).1.ccb_queue =
      [ccb_ready 0 0, ccb_ready 1 1] ∧
    rr_channel_ready ext_idle (l2cu_get_next_channel_in_rr ext_idle lcb_two_groups).1.transport
      (ccb_ready 0 0) = true ∧
    ((ccb_ready 0 0).ccb_priority, (ccb_ready 1 1).ccb_priority) = (0, 1) ∧
    (l2cu_get_next_channel_in_rr ext_idle
      (l2cu_get_next_channel_in_rr ext_idle lcb_two_groups).1).2 = some 1 := by
  decide

/-! ## The direct path -/

theorem rr_scan_group_congr (x : tEXT) :
    ∀ (n : Nat) (a b : tL2C_LCB), same_channels a b →
      (rr_scan_group x n a).p_serve_ccb = (rr_scan_group x n b).p_serve_ccb ∧
      (rr_scan_group x n a).returned = (rr_scan_group x n b).returned ∧
      same_channels (rr_scan_group x n a).lcb (rr_scan_group x n b).lcb := by
  intro n
  induction n with
  | zero => intro a b h; exact ⟨rfl, rfl, h⟩
  | succ n ih =>
    intro a b h
    obtain ⟨h1, h2, h3, h4, h5⟩ := h
    unfold rr_scan_group
    simp only [h1, h2, h4, h5]
    generalize ((b.rr_serv.getD b.rr_pri ⟨none, none, 0, 0⟩).p_serve_ccb.bind
      (find_ccb b.ccb_queue)) = sc
    cases sc with
    | none => exact ⟨rfl, rfl, (by refine ⟨?_, ?_, ?_, ?_, ?_⟩ <;> first | rfl | assumption)⟩
    | some ic =>
      obtain ⟨i, c⟩ := ic
      simp only []
      by_cases hr : rr_channel_ready x b.transport c = true
      · rw [if_pos hr, if_pos hr]
        exact ⟨rfl, rfl, (by refine ⟨?_, ?_, ?_, ?_, ?_⟩ <;> first | rfl | assumption)⟩
      · rw [if_neg hr, if_neg hr]
        refine ih _ _ ⟨?_, ?_, ?_, ?_, ?_⟩ <;> first | rfl | assumption

theorem rr_scan_congr (x : tEXT) :
    ∀ (n : Nat) (a b : tL2C_LCB), same_channels a b →
      (rr_scan x n a).2 = (rr_scan x n b).2 ∧
      same_channels (rr_scan x n a).1 (rr_scan x n b).1 := by
  intro n
  induction n with
  | zero => intro a b h; exact ⟨rfl, h⟩
  | succ n ih =>
    intro a b h
    have hg := rr_scan_group_congr x (b.rr_serv.getD b.rr_pri ⟨none, none, 0, 0⟩).num_ccb a b h
    obtain ⟨h1, h2, h3, h4, h5⟩ := h
    unfold rr_scan
    simp only [h4, h5]
    generalize rr_scan_group x (b.rr_serv.getD b.rr_pri ⟨none, none, 0, 0⟩).num_ccb a = ra at hg
    generalize rr_scan_group x (b.rr_serv.getD b.rr_pri ⟨none, none, 0, 0⟩).num_ccb b = rb at hg
    obtain ⟨e1, e2, g1, g2, g3, g4, g5⟩ := hg
    simp only [e1, e2, g4, g5]
    cases hret : rb.returned with
    | true => exact ⟨rfl, (by refine ⟨?_, ?_, ?_, ?_, ?_⟩ <;> first | rfl | assumption)⟩
    | false =>
      simp only [Bool.false_eq_true, if_false]
      cases hp : rb.p_serve_ccb with
      | some p =>
        simp only [reduceCtorEq, or_false]
        refine ⟨trivial, ?_⟩
        split
        · exact (by refine ⟨?_, ?_, ?_, ?_, ?_⟩ <;> first | rfl | assumption)
        · exact (by refine ⟨?_, ?_, ?_, ?_, ?_⟩ <;> first | rfl | assumption)
      | none =>
        simp only [or_true, if_true]
        refine ih _ _ ⟨?_, ?_, ?_, ?_, ?_⟩ <;> first | rfl | assumption

theorem next_buffer_of_channel_congr (x : tEXT) (a b : tL2C_LCB) (c : tL2C_CCB)
    (h : same_channels a b) :
    (next_buffer_of_channel x a c).p_buf = (next_buffer_of_channel x b c).p_buf := by
  obtain ⟨h1, -⟩ := h
  unfold next_buffer_of_channel
  simp only [h1]
  split
  · split
    · rfl
    · split <;> rfl
  · split
    · split <;> rfl
    · split <;> rfl

/-- What `l2cu_get_next_buffer_to_send` offers depends only on the transport,
the channels and the round-robin records of the link. -/
theorem get_next_buffer_congr (x : tEXT) (a b : tL2C_LCB) (h : same_channels a b) :
    (l2cu_get_next_buffer_to_send x a).p_buf = (l2cu_get_next_buffer_to_send x b).p_buf := by
  obtain ⟨h1, h2, h3, h4, h5⟩ := h
  have hs := rr_scan_congr x x.L2CAP_NUM_CHNL_PRIORITY
    { a with p_fixed_ccbs := (scan_fixed_channels x 0 b.p_fixed_ccbs).p_fixed_ccbs }
    { b with p_fixed_ccbs := (scan_fixed_channels x 0 b.p_fixed_ccbs).p_fixed_ccbs }
    ⟨h1, h2, rfl, h4, h5⟩
  unfold l2cu_get_next_buffer_to_send l2cu_get_next_channel_in_rr
  simp only [h3]
  split
  · rfl
  · generalize rr_scan x x.L2CAP_NUM_CHNL_PRIORITY
      { a with p_fixed_ccbs := (scan_fixed_channels x 0 b.p_fixed_ccbs).p_fixed_ccbs } = ra at hs
    generalize rr_scan x x.L2CAP_NUM_CHNL_PRIORITY
      { b with p_fixed_ccbs := (scan_fixed_channels x 0 b.p_fixed_ccbs).p_fixed_ccbs } = rb at hs
    obtain ⟨e1, g⟩ := hs
    have g2 := g.2.1
    simp only [e1, g2]
    generalize (rb.2.bind fun p => find_ccb rb.1.ccb_queue p) = sc
    cases sc with
    | none => rfl
    | some ic => exact next_buffer_of_channel_congr x _ _ _ g

theorem direct_window_open_iff (s : tL2C_CB) (lcb : tL2C_LCB) :
    direct_window_open s lcb = true ↔
      transport_window s lcb.transport ≠ 0 ∧ lcb.sent_not_acked < lcb.link_xmit_quota := by
  unfold direct_window_open transport_window
  cases ht : lcb.transport <;> simp

theorem send_link_head_facts (s : tL2C_CB) (k : Nat) (lcb : tL2C_LCB) (b : BT_HDR)
    (rest : List BT_HDR) (hk : s.lcb_pool[k]? = some lcb) :
    (l2c_link_send_to_lower (set_lcb s k { lcb with link_xmit_data_q := rest }) k b none).hci_out =
      s.hci_out ++ [⟨lcb.transport, k, { b with layer_specific := 0 }⟩] ∧
    (l2c_link_send_to_lower (set_lcb s k { lcb with link_xmit_data_q := rest }) k b
        none).lcb_pool[k]? =
      some { lcb with link_xmit_data_q := rest,
                      sent_not_acked := (lcb.sent_not_acked + 1) % 65536 } ∧
    transport_window
        (l2c_link_send_to_lower (set_lcb s k { lcb with link_xmit_data_q := rest }) k b none)
        lcb.transport = (transport_window s lcb.transport + 65535) % 65536 ∧
    (∀ t : tBT_TRANSPORT, t ≠ lcb.transport →
      transport_window
        (l2c_link_send_to_lower (set_lcb s k { lcb with link_xmit_data_q := rest }) k b none) t =
        transport_window s t) ∧
    (l2c_link_send_to_lower (set_lcb s k { lcb with link_xmit_data_q := rest }) k b none).calls =
      s.calls := by
  have hk1 := set_lcb_get s k lcb { lcb with link_xmit_data_q := rest } hk
  have hlt := lt_length_of_getElem? hk
  rw [send_to_lower_eq _ k _ b none hk1]
  simp only [set_lcb, transport_window]
  refine ⟨trivial, ?_, ?_, ?_, ?_⟩
  · rw [List.getElem?_set_self (by simpa using hlt)]
  · cases ht : lcb.transport <;> simp
  · intro t hne
    cases ht : lcb.transport <;> cases t <;> simp_all
  · simp

theorem direct_send_link_q_spec :
    ∀ (n : Nat) (s : tL2C_CB) (k : Nat) (lcb : tL2C_LCB),
      s.lcb_pool[k]? = some lcb → lcb.link_xmit_data_q.length ≤ n →
      lcb.link_xmit_quota < 65536 → transport_window s lcb.transport < 65536 →
      (direct_send_link_q n s k).hci_out =
        s.hci_out ++ (lcb.link_xmit_data_q.take (direct_count s lcb)).map
          (fun b => ⟨lcb.transport, k, { b with layer_specific := 0 }⟩) ∧
      (direct_send_link_q n s k).lcb_pool[k]? =
        some { lcb with sent_not_acked := lcb.sent_not_acked + direct_count s lcb,
                        link_xmit_data_q := lcb.link_xmit_data_q.drop (direct_count s lcb) } ∧
      transport_window (direct_send_link_q n s k) lcb.transport + direct_count s lcb =
        transport_window s lcb.transport ∧
      (∀ t : tBT_TRANSPORT, t ≠ lcb.transport →
        transport_window (direct_send_link_q n s k) t = transport_window s t) ∧
      (direct_send_link_q n s k).calls = s.calls := by
  have hzero : ∀ (s : tL2C_CB) (k : Nat) (lcb : tL2C_LCB), s.lcb_pool[k]? = some lcb →
      direct_count s lcb = 0 →
      s.hci_out = s.hci_out ++ (lcb.link_xmit_data_q.take (direct_count s lcb)).map
          (fun b => (⟨lcb.transport, k, { b with layer_specific := 0 }⟩ : tHCI_PKT)) ∧
      s.lcb_pool[k]? =
        some { lcb with sent_not_acked := lcb.sent_not_acked + direct_count s lcb,
                        link_xmit_data_q := lcb.link_xmit_data_q.drop (direct_count s lcb) } ∧
      transport_window s lcb.transport + direct_count s lcb = transport_window s lcb.transport ∧
      (∀ t : tBT_TRANSPORT, t ≠ lcb.transport → transport_window s t = transport_window s t) ∧
      s.calls = s.calls := by
    intro s k lcb hk h0
    rw [h0]
    exact ⟨by simp, by simpa using hk, rfl, fun _ _ => rfl, rfl⟩
  intro n
  induction n with
  | zero =>
    intro s k lcb hk hlen _ _
    have hq : lcb.link_xmit_data_q.length = 0 := by omega
    unfold direct_send_link_q
    exact hzero s k lcb hk (by unfold direct_count; rw [hq]; simp)
  | succ n ih =>
    intro s k lcb hk hlen hquota hw
    unfold direct_send_link_q
    simp only [hk]
    by_cases hopen : direct_window_open s lcb = true
    · rw [if_pos hopen]
      obtain ⟨hw0, hsna⟩ := (direct_window_open_iff s lcb).mp hopen
      cases hqueue : lcb.link_xmit_data_q with
      | nil =>
        have h0 := hzero s k lcb hk (by unfold direct_count; rw [hqueue]; simp)
        rw [hqueue] at h0
        exact h0
      | cons b rest =>
        simp only []
        obtain ⟨f1, f2, f3, f4, f5⟩ := send_link_head_facts s k lcb b rest hk
        have hlen1 : rest.length ≤ n := by
          rw [hqueue] at hlen
          simpa using hlen
        have hw1 : (transport_window s lcb.transport + 65535) % 65536 =
            transport_window s lcb.transport - 1 := by omega
        have hs1 : (lcb.sent_not_acked + 1) % 65536 = lcb.sent_not_acked + 1 := by omega
        obtain ⟨g1, g2, g3, g4, g5⟩ := ih _ k _ f2 hlen1 hquota (by rw [f3]; omega)
        have hm : direct_count s lcb =
            direct_count
              (l2c_link_send_to_lower (set_lcb s k { lcb with link_xmit_data_q := rest }) k b none)
              { lcb with link_xmit_data_q := rest,
                         sent_not_acked := (lcb.sent_not_acked + 1) % 65536 } + 1 := by
          unfold direct_count
          simp only []
          rw [f3, hw1, hs1, hqueue, List.length_cons]
          omega
        generalize direct_count
              (l2c_link_send_to_lower (set_lcb s k { lcb with link_xmit_data_q := rest }) k b none)
              { lcb with link_xmit_data_q := rest,
                         sent_not_acked := (lcb.sent_not_acked + 1) % 65536 } = m1 at g1 g2 g3 hm
        rw [hm]
        refine ⟨?_, ?_, ?_, fun t ht => (g4 t ht).trans (f4 t ht), ?_⟩
        · rw [g1, f1]
          simp
        · rw [g2, hs1]
          simp [Nat.add_assoc, Nat.add_comm 1 m1]
        · rw [f3] at g3
          simp only [] at g3
          omega
        · rw [g5, f5]
    · rw [if_neg hopen]
      have h0 : direct_count s lcb = 0 := by
        have h1 := (direct_window_open_iff s lcb).not.mp hopen
        unfold direct_count
        by_cases hz : transport_window s lcb.transport = 0
        · rw [hz]; simp
        · have : ¬ lcb.sent_not_acked < lcb.link_xmit_quota := fun h => h1 ⟨hz, h⟩
          have h2 : lcb.link_xmit_quota - lcb.sent_not_acked = 0 := by omega
          rw [h2]; simp
      exact hzero s k lcb hk h0

theorem direct_send_channels_idle (x : tEXT) (n : Nat) (s : tL2C_CB) (k : Nat) (lcb : tL2C_LCB)
    (hk : s.lcb_pool[k]? = some lcb)
    (hno : (l2cu_get_next_buffer_to_send x lcb).p_buf = none) :
    (direct_send_channels x n s k).hci_out = s.hci_out ∧
    (∀ t : tBT_TRANSPORT,
      transport_window (direct_send_channels x n s k) t = transport_window s t) ∧
    ∃ lcb2 : tL2C_LCB, (direct_send_channels x n s k).lcb_pool[k]? = some lcb2 ∧
      lcb2.link_xmit_data_q = lcb.link_xmit_data_q ∧ lcb2.sent_not_acked = lcb.sent_not_acked ∧
      lcb2.link_xmit_quota = lcb.link_xmit_quota ∧ lcb2.l2c_lcb_timer = lcb.l2c_lcb_timer := by
  cases n with
  | zero =>
    unfold direct_send_channels
    exact ⟨rfl, fun _ => rfl, lcb, hk, rfl, rfl, rfl, rfl⟩
  | succ n =>
    unfold direct_send_channels
    simp only [hk, hno]
    split
    · obtain ⟨-, h2, h3, h4⟩ := get_next_buffer_same x lcb
      have h5 := get_next_buffer_frame x lcb
      refine ⟨rfl, fun _ => rfl, (l2cu_get_next_buffer_to_send x lcb).lcb, ?_, h4, h3, h2, ?_⟩
      · exact set_lcb_get s k lcb _ hk
      · rw [h5]
        rfl
    · exact ⟨rfl, fun _ => rfl, lcb, hk, rfl, rfl, rfl, rfl⟩

/-- C30: direct path count.  The LCB at slot `k` is connected, has a quota of
its own (a 16-bit value), no pending power mode transition, the re-entry flag is
clear, the controller window of its transport is a 16-bit value and
`l2cu_get_next_buffer_to_send` has no channel data to offer.  A pure poke
`l2c_link_check_send_pkts(lcb, 0, NULL)` then hands to HCI the first
`direct_count` buffers of the link queue, in order, where `direct_count` is the
least of the window, `link_xmit_quota - sent_not_acked` (0 when the quota is
reached) and the queue length; the window of the transport is lower by that
number and the other window is unchanged, `sent_not_acked` is higher by that
number, the link queue lost those buffers, and the flow control timer is started
exactly when the queue is still non-empty and `sent_not_acked` is still below
the quota (otherwise the link timer is left as it was). -/
theorem direct_path_count (x : tEXT) (s : tL2C_CB) (k : Nat) (lcb : tL2C_LCB)
    (hk : s.lcb_pool[k]? = some lcb)
    (hst : lcb.link_state = tL2C_LINK_STATE.LST_CONNECTED)
    (hq0 : 0 < lcb.link_xmit_quota) (hq : lcb.link_xmit_quota < 65536)
    (hpm : l2c_link_check_power_mode x lcb = false)
    (hcong : s.is_cong_cback_context = false)
    (hw : transport_window s lcb.transport < 65536)
    (hno : (l2cu_get_next_buffer_to_send x lcb).p_buf = none) :
    (l2c_link_check_send_pkts x s (some k) 0 none).hci_out =
      s.hci_out ++ (lcb.link_xmit_data_q.take (direct_count s lcb)).map
        (fun b => ⟨lcb.transport, k, { b with layer_specific := 0 }⟩) ∧
    (lcb.link_xmit_quota ≤ lcb.sent_not_acked → direct_count s lcb = 0) ∧
    transport_window (l2c_link_check_send_pkts x s (some k) 0 none) lcb.transport +
      direct_count s lcb = transport_window s lcb.transport ∧
    (∀ t : tBT_TRANSPORT, t ≠ lcb.transport →
      transport_window (l2c_link_check_send_pkts x s (some k) 0 none) t =
        transport_window s t) ∧
    ∃ lcb2 : tL2C_LCB,
      (l2c_link_check_send_pkts x s (some k) 0 none).lcb_pool[k]? = some lcb2 ∧
      lcb2.sent_not_acked = lcb.sent_not_acked + direct_count s lcb ∧
      lcb2.link_xmit_data_q = lcb.link_xmit_data_q.drop (direct_count s lcb) ∧
      lcb2.link_xmit_quota = lcb.link_xmit_quota ∧
      lcb2.l2c_lcb_timer =
        (if lcb.link_xmit_data_q.drop (direct_count s lcb) ≠ [] ∧
            lcb.sent_not_acked + direct_count s lcb < lcb.link_xmit_quota then
          some tL2C_TOUT.L2CAP_LINK_FLOW_CONTROL_TIMEOUT_MS
        else lcb.l2c_lcb_timer) := by
  obtain ⟨g1, g2, g3, g4, -⟩ :=
    direct_send_link_q_spec lcb.link_xmit_data_q.length s k lcb hk (le_refl _) hq hw
  have hno1 : (l2cu_get_next_buffer_to_send x
      { lcb with sent_not_acked := lcb.sent_not_acked + direct_count s lcb,
                 link_xmit_data_q := lcb.link_xmit_data_q.drop (direct_count s lcb) }).p_buf =
      none :=
    (get_next_buffer_congr x
      { lcb with sent_not_acked := lcb.sent_not_acked + direct_count s lcb,
                 link_xmit_data_q := lcb.link_xmit_data_q.drop (direct_count s lcb) }
      lcb ⟨rfl, rfl, rfl, rfl, rfl⟩).trans hno
  obtain ⟨c1, c2, lcb2, c3, c4, c5, c6, c7⟩ :=
    direct_send_channels_idle x
      (lcb.link_xmit_quota - (lcb.sent_not_acked + direct_count s lcb))
      (direct_send_link_q lcb.link_xmit_data_q.length s k) k _ g2 hno1
  have d4 : lcb2.link_xmit_data_q = lcb.link_xmit_data_q.drop (direct_count s lcb) := c4
  have d5 : lcb2.sent_not_acked = lcb.sent_not_acked + direct_count s lcb := c5
  have d6 : lcb2.link_xmit_quota = lcb.link_xmit_quota := c6
  have d7 : lcb2.l2c_lcb_timer = lcb.l2c_lcb_timer := c7
  have hsw : ∀ (s0 : tL2C_CB) (k0 : Nat) (l0 : tL2C_LCB) (t : tBT_TRANSPORT),
      transport_window (set_lcb s0 k0 l0) t = transport_window s0 t := fun _ _ _ _ => rfl
  have he : check_send_enqueue s (some k) 0 none = s := rfl
  have hres : l2c_link_check_send_pkts x s (some k) 0 none =
      (if lcb.link_xmit_data_q.drop (direct_count s lcb) ≠ [] ∧
          lcb.sent_not_acked + direct_count s lcb < lcb.link_xmit_quota then
        set_lcb
          (direct_send_channels x
            (lcb.link_xmit_quota - (lcb.sent_not_acked + direct_count s lcb))
            (direct_send_link_q lcb.link_xmit_data_q.length s k) k) k
          { lcb2 with l2c_lcb_timer := some tL2C_TOUT.L2CAP_LINK_FLOW_CONTROL_TIMEOUT_MS }
      else
        direct_send_channels x
          (lcb.link_xmit_quota - (lcb.sent_not_acked + direct_count s lcb))
          (direct_send_link_q lcb.link_xmit_data_q.length s k) k) := by
    unfold l2c_link_check_send_pkts
    simp only [he, hcong, hk, Option.isSome_none, Bool.false_and, Bool.false_eq_true, if_false]
    rw [if_neg (by omega)]
    unfold check_send_direct
    simp only [hk, hst, hpm, ne_eq, not_true_eq_false, Bool.false_eq_true, or_self, if_false, g2,
      c3]
    rw [d4, d5, d6]
  rw [hres]
  refine ⟨?_, ?_, ?_, ?_, ?_⟩
  · split
    · simp only [set_lcb]
      rw [c1, g1]
    · rw [c1, g1]
  · intro hle
    unfold direct_count
    have h2 : lcb.link_xmit_quota - lcb.sent_not_acked = 0 := by omega
    rw [h2]
    simp
  · split
    · rw [hsw, c2, g3]
    · rw [c2, g3]
  · intro t ht
    split
    · rw [hsw, c2, g4 t ht]
    · rw [c2, g4 t ht]
  · split
    · exact ⟨_, set_lcb_get _ k lcb2 _ c3, d5, d4, d6, rfl⟩
    · exact ⟨lcb2, c3, d5, d4, d6, d7⟩

/-- Witness of C30: three buffers queued, a quota of two and one free controller
buffer; one buffer is sent, two stay queued below the quota, and the flow
control timer is started. -/
theorem direct_path_count_witness :
    direct_count l2cb_direct_short lcb_three_queued = 1 ∧
    (l2c_link_check_send_pkts ext_idle l2cb_direct_short (some 0) 0 none).hci_out =
      l2cb_direct_short.hci_out ++
        (lcb_three_queued.link_xmit_data_q.take
          (direct_count l2cb_direct_short lcb_three_queued)).map
          (fun b => ⟨lcb_three_queued.transport, 0, { b with layer_specific := 0 }⟩) ∧
    transport_window (l2c_link_check_send_pkts ext_idle l2cb_direct_short (some 0) 0 none)
        lcb_three_queued.transport + direct_count l2cb_direct_short lcb_three_queued =
      transport_window l2cb_direct_short lcb_three_queued.transport ∧
    ∃ lcb2 : tL2C_LCB,
      (l2c_link_check_send_pkts ext_idle l2cb_direct_short (some 0) 0 none).lcb_pool[0]? =
        some lcb2 ∧
      lcb2.sent_not_acked =
        lcb_three_queued.sent_not_acked + direct_count l2cb_direct_short lcb_three_queued ∧
      lcb2.l2c_lcb_timer = some tL2C_TOUT.L2CAP_LINK_FLOW_CONTROL_TIMEOUT_MS := by
  obtain ⟨h1, -, h3, -, lcb2, h5, h6, -, -, h9⟩ :=
    direct_path_count ext_idle l2cb_direct_short 0 lcb_three_queued (by decide) (by decide)
      (by decide) (by decide) (by decide) (by decide) (by decide) (by decide)
  refine ⟨by decide, h1, h3, lcb2, h5, h6, ?_⟩
  rw [h9]
  decide

/-! ## Termination of the quota search and the sum of the quotas -/

theorem lower_high_pri_quota_exact (H low B q : Nat) (hq : H * q + low ≤ B) :
    ∀ (d fuel : Nat), q + d < 65536 →
      (∀ v : Nat, q < v → v ≤ q + d → H * v + low > B) →
      lower_high_pri_quota H low B fuel (q + d) = if d < fuel then some q else none := by
  intro d
  induction d with
  | zero =>
    intro fuel _ _
    cases fuel with
    | zero => rfl
    | succ f =>
      have hc : ¬ H * q + low > B := by omega
      simp [lower_high_pri_quota, hc]
  | succ d ih =>
    intro fuel hlt hv
    cases fuel with
    | zero => rfl
    | succ f =>
      have hc : H * (q + (d + 1)) + low > B := hv _ (by omega) (le_refl _)
      have hdec : (q + (d + 1) + 65535) % 65536 = q + d := by omega
      rw [lower_high_pri_quota, if_pos hc, hdec, ih f (by omega) (fun v h1 h2 => hv v h1 (by omega))]
      by_cases hdf : d < f
      · rw [if_pos hdf, if_pos (by omega)]
      · rw [if_neg hdf, if_neg (by omega)]

/-- C32: termination of the quota search.  When the controller has at least one
buffer, or no low priority link is eligible, the loop of
`l2c_link_adjust_allocation` that lowers the high priority quota is left at a
value `q ≤ L2CAP_HIGH_PRI_MIN_XMIT_QUOTA_A` after exactly
`L2CAP_HIGH_PRI_MIN_XMIT_QUOTA_A - q` decrements: the loop condition holds at
every value above `q` up to the initial one and fails at `q`, `fuel` tests of
the condition give the result exactly when `fuel` exceeds that number of
decrements, and `L2CAP_HIGH_PRI_MIN_XMIT_QUOTA_A + 1` tests are always enough
for `l2c_link_adjust_allocation` to return.  The quota is decremented only at
values of at least 1, so it does not wrap. -/
theorem quota_search_terminates (shared : Nat) (s : tL2C_CB)
    (hbuf : 1 ≤ s.num_lm_acl_bufs ∨
      count_lowpri_links (adjust_is_share_buffer shared s) s.lcb_pool = 0) :
    ∃ q : Nat, q ≤ L2CAP_HIGH_PRI_MIN_XMIT_QUOTA_A ∧
      (∀ fuel : Nat,
        lower_high_pri_quota (count_hipri_links (adjust_is_share_buffer shared s) s.lcb_pool)
          (if count_lowpri_links (adjust_is_share_buffer shared s) s.lcb_pool ≠ 0 then 1 else 0)
          s.num_lm_acl_bufs fuel L2CAP_HIGH_PRI_MIN_XMIT_QUOTA_A =
          if L2CAP_HIGH_PRI_MIN_XMIT_QUOTA_A - q < fuel then some q else none) ∧
      (∀ v : Nat, q < v → v ≤ L2CAP_HIGH_PRI_MIN_XMIT_QUOTA_A →
        1 ≤ v ∧
        count_hipri_links (adjust_is_share_buffer shared s) s.lcb_pool * v +
          (if count_lowpri_links (adjust_is_share_buffer shared s) s.lcb_pool ≠ 0 then 1 else 0) >
            s.num_lm_acl_bufs) ∧
      count_hipri_links (adjust_is_share_buffer shared s) s.lcb_pool * q +
        (if count_lowpri_links (adjust_is_share_buffer shared s) s.lcb_pool ≠ 0 then 1 else 0) ≤
          s.num_lm_acl_bufs ∧
      ∃ s' : tL2C_CB,
        l2c_link_adjust_allocation shared (L2CAP_HIGH_PRI_MIN_XMIT_QUOTA_A + 1) s = some s' := by
  have hlow : (if count_lowpri_links (adjust_is_share_buffer shared s) s.lcb_pool ≠ 0 then 1
      else 0) ≤ s.num_lm_acl_bufs := by
    split <;> omega
  obtain ⟨q, hq, hle, hprop, hmax⟩ := lower_high_pri_quota_spec
    (count_hipri_links (adjust_is_share_buffer shared s) s.lcb_pool) _ _ hlow
    L2CAP_HIGH_PRI_MIN_XMIT_QUOTA_A (L2CAP_HIGH_PRI_MIN_XMIT_QUOTA_A + 1) (by omega) (by decide)
  have habove : ∀ v : Nat, q < v → v ≤ L2CAP_HIGH_PRI_MIN_XMIT_QUOTA_A →
      count_hipri_links (adjust_is_share_buffer shared s) s.lcb_pool * v +
        (if count_lowpri_links (adjust_is_share_buffer shared s) s.lcb_pool ≠ 0 then 1 else 0) >
          s.num_lm_acl_bufs := by
    intro v h1 h2
    by_contra hc
    have := hmax v h2 (by omega)
    omega
  refine ⟨q, hle, ?_, fun v h1 h2 => ⟨by omega, habove v h1 h2⟩, hprop, ?_⟩
  · intro fuel
    have hA : L2CAP_HIGH_PRI_MIN_XMIT_QUOTA_A = q + (L2CAP_HIGH_PRI_MIN_XMIT_QUOTA_A - q) := by
      omega
    have h65 : L2CAP_HIGH_PRI_MIN_XMIT_QUOTA_A < 65536 := by decide
    have h := lower_high_pri_quota_exact
      (count_hipri_links (adjust_is_share_buffer shared s) s.lcb_pool) _ _ q hprop
      (L2CAP_HIGH_PRI_MIN_XMIT_QUOTA_A - q) fuel (by omega)
      (fun v h1 h2 => habove v h1 (by omega))
    rw [← hA] at h
    exact h
  · unfold l2c_link_adjust_allocation
    simp only
    split
    · exact ⟨_, rfl⟩
    · rw [hq]
      simp only
      split
      · exact ⟨_, rfl⟩
      · split <;> exact ⟨_, rfl⟩

/-- Witness of C32: one controller buffer and one high priority link: the loop
is left at the value 1, after four decrements. -/
theorem quota_search_terminates_witness :
    ∃ q : Nat, q ≤ L2CAP_HIGH_PRI_MIN_XMIT_QUOTA_A ∧
      lower_high_pri_quota
        (count_hipri_links (adjust_is_share_buffer 0 l2cb_one_buffer) l2cb_one_buffer.lcb_pool)
        (if count_lowpri_links (adjust_is_share_buffer 0 l2cb_one_buffer)
          l2cb_one_buffer.lcb_pool ≠ 0 then 1 else 0)
        l2cb_one_buffer.num_lm_acl_bufs 5 L2CAP_HIGH_PRI_MIN_XMIT_QUOTA_A = some 1 ∧
      (∀ fuel : Nat,
        lower_high_pri_quota
          (count_hipri_links (adjust_is_share_buffer 0 l2cb_one_buffer)
            l2cb_one_buffer.lcb_pool)
          (if count_lowpri_links (adjust_is_share_buffer 0 l2cb_one_buffer)
            l2cb_one_buffer.lcb_pool ≠ 0 then 1 else 0)
          l2cb_one_buffer.num_lm_acl_bufs fuel L2CAP_HIGH_PRI_MIN_XMIT_QUOTA_A =
          if L2CAP_HIGH_PRI_MIN_XMIT_QUOTA_A - q < fuel then some q else none) ∧
      ∃ s' : tL2C_CB,
        l2c_link_adjust_allocation 0 (L2CAP_HIGH_PRI_MIN_XMIT_QUOTA_A + 1)
          l2cb_one_buffer = some s' := by
  obtain ⟨q, h1, h2, -, -, h3⟩ :=
    quota_search_terminates 0 l2cb_one_buffer (Or.inl (by decide))
  exact ⟨q, h1, by decide, h2, h3⟩

theorem assign_quotas_sum (sh : Bool) (qh qq : Nat) :
    ∀ (pool : List tL2C_LCB) (rem rru : Nat), (0 < rem → qq + 1 < 65536) →
      sum_eligible_quota sh (assign_quotas sh qh qq pool rem rru).1 =
        count_hipri_links sh pool * qh + count_lowpri_links sh pool * qq +
          min rem (count_lowpri_links sh pool) := by
  intro pool
  induction pool with
  | nil => intro rem rru _; simp [assign_quotas, sum_eligible_quota, count_hipri_links,
      count_lowpri_links]
  | cons l rest ih =>
    intro rem rru hrem
    by_cases he : adjust_eligible sh l = true
    · by_cases hp : l.acl_priority = tL2CAP_PRIORITY.L2CAP_PRIORITY_HIGH
      · have h1 := ih rem rru hrem
        unfold sum_eligible_quota at h1 ⊢
        simp only [assign_quotas, count_hipri_links, count_lowpri_links, he, hp, if_true]
        rw [List.filter_cons_of_pos (by simpa [← adjust_eligible_def] using he)]
        simp only [List.map_cons, List.sum_cons, adjust_arm_timer_quota, h1]
        rw [Nat.add_mul]
        omega
      · by_cases hr : 0 < rem
        · have h65 := hrem hr
          have h1 := ih (rem - 1) (if l.link_xmit_quota > 0 ∧ qq = 0 then
            (rru + l.sent_not_acked) % 65536 else rru) (fun h => h65)
          unfold sum_eligible_quota at h1 ⊢
          simp only [assign_quotas, count_hipri_links, count_lowpri_links, he, hp, if_true,
            if_false, hr]
          rw [List.filter_cons_of_pos (by simpa [← adjust_eligible_def] using he)]
          simp only [List.map_cons, List.sum_cons, adjust_arm_timer_quota, h1]
          rw [Nat.mod_eq_of_lt h65, Nat.add_mul]
          omega
        · have hr0 : rem = 0 := by omega
          have h1 := ih rem (if l.link_xmit_quota > 0 ∧ qq = 0 then
            (rru + l.sent_not_acked) % 65536 else rru) hrem
          unfold sum_eligible_quota at h1 ⊢
          simp only [assign_quotas, count_hipri_links, count_lowpri_links, he, hp, if_true,
            if_false, hr]
          rw [List.filter_cons_of_pos (by simpa [← adjust_eligible_def] using he)]
          simp only [List.map_cons, List.sum_cons, adjust_arm_timer_quota, h1]
          rw [Nat.add_mul]
          subst hr0
          simp
          omega
    · have h1 := ih rem rru hrem
      unfold sum_eligible_quota at h1 ⊢
      simp only [assign_quotas, count_hipri_links, count_lowpri_links, he]
      simp only [Bool.false_eq_true, if_false]
      rw [List.filter_cons_of_neg (by simpa using he)]
      exact h1

/-- C35: no over-commit outside round-robin.  With links in use, at least one
controller buffer (a 16-bit count `B`) and enough fuel for the quota loop,
`l2c_link_adjust_allocation` returns, and with `q` the high priority quota it
settled on (`H * q + (1 if L > 0 else 0) ≤ B`): when `1 ≤ L ≤ low_total`, the sum
of `link_xmit_quota` over the eligible LCBs is exactly `B`; when `L = 0` it is
`H * q`, which is at most `B`; so with `L ≤ low_total` the sum never exceeds
`B`; and an LCB that is not eligible (not in use, or LE when the buffer pool is
not shared) is left as it was. -/
theorem adjust_allocation_no_overcommit (shared fuel : Nat) (s : tL2C_CB)
    (hused : s.num_used_lcbs ≠ 0)
    (hB1 : 1 ≤ s.num_lm_acl_bufs) (hB : s.num_lm_acl_bufs < 65536)
    (hfuel : L2CAP_HIGH_PRI_MIN_XMIT_QUOTA_A < fuel) :
    ∃ (q : Nat) (s' : tL2C_CB), l2c_link_adjust_allocation shared fuel s = some s' ∧
      lower_high_pri_quota (count_hipri_links (adjust_is_share_buffer shared s) s.lcb_pool)
        (if count_lowpri_links (adjust_is_share_buffer shared s) s.lcb_pool ≠ 0 then 1 else 0)
        s.num_lm_acl_bufs fuel L2CAP_HIGH_PRI_MIN_XMIT_QUOTA_A = some q ∧
      count_hipri_links (adjust_is_share_buffer shared s) s.lcb_pool * q +
        (if count_lowpri_links (adjust_is_share_buffer shared s) s.lcb_pool ≠ 0 then 1 else 0) ≤
          s.num_lm_acl_bufs ∧
      (1 ≤ count_lowpri_links (adjust_is_share_buffer shared s) s.lcb_pool →
        count_lowpri_links (adjust_is_share_buffer shared s) s.lcb_pool ≤
          adjust_low_quota
            (count_hipri_links (adjust_is_share_buffer shared s) s.lcb_pool * q)
            s.num_lm_acl_bufs →
        sum_eligible_quota (adjust_is_share_buffer shared s) s'.lcb_pool =
          s.num_lm_acl_bufs) ∧
      (count_lowpri_links (adjust_is_share_buffer shared s) s.lcb_pool = 0 →
        sum_eligible_quota (adjust_is_share_buffer shared s) s'.lcb_pool =
          count_hipri_links (adjust_is_share_buffer shared s) s.lcb_pool * q ∧
        count_hipri_links (adjust_is_share_buffer shared s) s.lcb_pool * q ≤
          s.num_lm_acl_bufs) ∧
      (count_lowpri_links (adjust_is_share_buffer shared s) s.lcb_pool ≤
          adjust_low_quota
            (count_hipri_links (adjust_is_share_buffer shared s) s.lcb_pool * q)
            s.num_lm_acl_bufs →
        sum_eligible_quota (adjust_is_share_buffer shared s) s'.lcb_pool ≤
          s.num_lm_acl_bufs) ∧
      ∀ (k : Nat) (lcb : tL2C_LCB), s.lcb_pool[k]? = some lcb →
        adjust_eligible (adjust_is_share_buffer shared s) lcb = false →
        s'.lcb_pool[k]? = some lcb := by
  obtain ⟨s', hs'⟩ := adjust_allocation_returns shared fuel s hB1 hfuel
  obtain ⟨q, qq, rem, rru, hq, hpool, -, -, -, hrr, hnorm⟩ :=
    adjust_allocation_some shared fuel s s' hused hs'
  have hqB := lower_high_pri_quota_some _ _ _ _ _ _ hq
  have hget : ∀ (k : Nat) (lcb : tL2C_LCB), s.lcb_pool[k]? = some lcb →
      adjust_eligible (adjust_is_share_buffer shared s) lcb = false →
      s'.lcb_pool[k]? = some lcb := by
    intro k lcb hk hne
    rw [hpool, assign_quotas_get, hk]
    simp [assigned_lcb, hne]
  refine ⟨q, s', hs', hq, hqB, ?_⟩
  generalize hH : count_hipri_links (adjust_is_share_buffer shared s) s.lcb_pool = H at *
  generalize hL : count_lowpri_links (adjust_is_share_buffer shared s) s.lcb_pool = L at *
  generalize s.num_lm_acl_bufs = B at *
  have hmod : H * q % 65536 = H * q := Nat.mod_eq_of_lt (by omega)
  rw [hmod] at hrr hnorm
  have hexact : 1 ≤ L → L ≤ adjust_low_quota (H * q) B →
      sum_eligible_quota (adjust_is_share_buffer shared s) s'.lcb_pool = B := by
    intro h1 h2
    obtain ⟨-, -, h3, -⟩ := hnorm (by omega)
    obtain ⟨e1, e2⟩ := h3 (by omega)
    rw [if_pos (by omega)] at hqB
    have hlow : adjust_low_quota (H * q) B = B - H * q := by
      unfold adjust_low_quota
      rw [if_pos (by omega)]
    have hdm := Nat.div_add_mod (adjust_low_quota (H * q) B) L
    have hml := Nat.mod_lt (adjust_low_quota (H * q) B) (show L > 0 by omega)
    have hdl : adjust_low_quota (H * q) B / L ≤ adjust_low_quota (H * q) B :=
      Nat.div_le_self _ _
    have hrem : 0 < rem → qq + 1 < 65536 := by
      intro hr
      rw [e1]
      rw [e2] at hr
      have h5 : adjust_low_quota (H * q) B / L * 1 ≤ adjust_low_quota (H * q) B / L * L :=
        Nat.mul_le_mul_left _ h1
      rw [Nat.mul_comm _ L] at h5
      omega
    rw [hpool, assign_quotas_sum _ _ _ _ _ _ hrem, hH, hL, e1, e2]
    omega
  have hzero : L = 0 →
      sum_eligible_quota (adjust_is_share_buffer shared s) s'.lcb_pool = H * q ∧ H * q ≤ B := by
    intro h0
    obtain ⟨-, -, -, h3⟩ := hnorm (by omega)
    obtain ⟨e1, e2⟩ := h3 h0
    rw [hpool, assign_quotas_sum _ _ _ _ _ _ (by intro _; rw [e1]; decide), hH, hL, h0]
    constructor
    · simp
    · omega
  refine ⟨hexact, hzero, ?_, hget⟩
  intro hle
  by_cases h0 : L = 0
  · rw [(hzero h0).1]
    exact (hzero h0).2
  · rw [hexact (by omega) hle]

/-- Witness of C35: ten controller buffers, one high priority and three low
priority links: the quotas 5, 2, 2, 1 add up to 10. -/
theorem adjust_allocation_no_overcommit_witness :
    ∃ (q : Nat) (s' : tL2C_CB), l2c_link_adjust_allocation 0 6 l2cb_redistribution_3 = some s' ∧
      count_hipri_links (adjust_is_share_buffer 0 l2cb_redistribution_3)
          l2cb_redistribution_3.lcb_pool * q +
        (if count_lowpri_links (adjust_is_share_buffer 0 l2cb_redistribution_3)
          l2cb_redistribution_3.lcb_pool ≠ 0 then 1 else 0) ≤
          l2cb_redistribution_3.num_lm_acl_bufs ∧
      sum_eligible_quota (adjust_is_share_buffer 0 l2cb_redistribution_3) s'.lcb_pool =
        l2cb_redistribution_3.num_lm_acl_bufs := by
  obtain ⟨q, s', h1, h2, h3, h4, -, -, -⟩ :=
    adjust_allocation_no_overcommit 0 6 l2cb_redistribution_3 (by decide) (by decide) (by decide)
      (by decide)
  have h5 : lower_high_pri_quota
      (count_hipri_links (adjust_is_share_buffer 0 l2cb_redistribution_3)
        l2cb_redistribution_3.lcb_pool)
      (if count_lowpri_links (adjust_is_share_buffer 0 l2cb_redistribution_3)
        l2cb_redistribution_3.lcb_pool ≠ 0 then 1 else 0)
      l2cb_redistribution_3.num_lm_acl_bufs 6 L2CAP_HIGH_PRI_MIN_XMIT_QUOTA_A = some 5 := by
    decide
  rw [h5] at h2
  cases h2
  exact ⟨5, s', h1, h3, h4 (by decide) (by decide)⟩

/-! ## Where the round-robin sweep leaves its pointer -/

theorem send_to_lower_length (s : tL2C_CB) (k : Nat) (b : BT_HDR)
    (cbi : Option tL2C_TX_COMPLETE_CB_INFO) :
    (l2c_link_send_to_lower s k b cbi).lcb_pool.length = s.lcb_pool.length := by
  cases hk : s.lcb_pool[k]? with
  | none =>
    unfold l2c_link_send_to_lower
    simp only [hk]
  | some lcb =>
    rw [send_to_lower_eq s k lcb b cbi hk]
    simp

/-- A sweep that is not a single write runs all its iterations: started at slot
`k0` with `n` iterations left and no wrap-around ahead, it leaves the pointer at
`k0 + n`. -/
theorem rr_sweep_pointer (x : tEXT) :
    ∀ (n : Nat) (s : tL2C_CB) (k0 : Nat), k0 + n ≤ s.lcb_pool.length →
      (rr_sweep x false n s k0).2 = k0 + n := by
  intro n
  induction n with
  | zero => intro s k0 _; rfl
  | succ n ih =>
    intro s k0 h
    have hlt : k0 < s.lcb_pool.length := by omega
    have hne : k0 ≠ s.lcb_pool.length := by omega
    obtain ⟨lcb, hk⟩ : ∃ lcb, s.lcb_pool[k0]? = some lcb :=
      ⟨s.lcb_pool[k0], List.getElem?_eq_getElem hlt⟩
    have key : ∀ S : tL2C_CB, S.lcb_pool.length = s.lcb_pool.length →
        (rr_sweep x false n S (k0 + 1)).2 = k0 + (n + 1) := by
      intro S hS
      rw [ih S (k0 + 1) (by omega)]
      omega
    unfold rr_sweep
    simp only [hne, if_false, hk]
    split
    · exact key s rfl
    · split
      · exact key s rfl
      · split
        · exact key _ (by simp [send_to_lower_length, set_lcb])
        · simp only [Bool.false_eq_true, if_false]
          split
          · exact key _ (by simp [send_to_lower_length, set_lcb])
          · exact key _ (by simp [set_lcb])

/-- C33 (failing input): two round-robin links fill a pool of two slots.  A poke
without LCB sweeps slots 0 and 1 and leaves the pointer at index 2, one past the
pool, where no LCB is; a poke of the link at the last slot starts one past the
pool, wraps, sweeps slots 0 and 1 and ends at index 2 as well.  The transport
read after the sweep is taken through that pointer. -/
theorem rr_sweep_ends_past_pool :
    l2cb_rr_two.lcb_pool.length = 2 ∧
    (rr_sweep ext_idle false l2cb_rr_two.lcb_pool.length l2cb_rr_two 0).2 = 2 ∧
    (rr_sweep ext_idle false l2cb_rr_two.lcb_pool.length l2cb_rr_two 0).1.lcb_pool[2]? = none ∧
    l2c_link_check_send_pkts ext_idle l2cb_rr_two none 0 none =
      rr_clear_flags (rr_sweep ext_idle false l2cb_rr_two.lcb_pool.length l2cb_rr_two 0).1 2 ∧
    (rr_sweep ext_idle false l2cb_rr_two.lcb_pool.length l2cb_rr_two (1 + 1)).2 = 2 ∧
    l2c_link_check_send_pkts ext_idle l2cb_rr_two (some 1) 0 none =
      rr_clear_flags
        (rr_sweep ext_idle false l2cb_rr_two.lcb_pool.length l2cb_rr_two (1 + 1)).1 2 := by
  decide

/-! ## Group bookkeeping of the channel selection -/

theorem rr_scan_succ (x : tEXT) (n : Nat) (l : tL2C_LCB) :
    rr_scan x (n + 1) l =
      if (rr_scan_group x (rr_group_serv l l.rr_pri).num_ccb l).returned = true then
        ((rr_scan_group x (rr_group_serv l l.rr_pri).num_ccb l).lcb, none)
      else
        match (rr_scan_group x (rr_group_serv l l.rr_pri).num_ccb l).p_serve_ccb with
        | some p =>
          (if (rr_group_serv (rr_scan_group x (rr_group_serv l l.rr_pri).num_ccb l).lcb
                (rr_scan_group x (rr_group_serv l l.rr_pri).num_ccb l).lcb.rr_pri).quota = 0 then
              rr_next_group x (rr_scan_group x (rr_group_serv l l.rr_pri).num_ccb l).lcb
            else (rr_scan_group x (rr_group_serv l l.rr_pri).num_ccb l).lcb, some p)
        | none =>
          rr_scan x n (rr_next_group x (rr_scan_group x (rr_group_serv l l.rr_pri).num_ccb l).lcb) := by
  rw [rr_scan]
  simp only [rr_group_serv, rr_next_group]
  generalize rr_scan_group x (l.rr_serv.getD l.rr_pri ⟨none, none, 0, 0⟩).num_ccb l = r
  cases hret : r.returned with
  | true => simp
  | false =>
    cases hp : r.p_serve_ccb with
    | none => simp
    | some p => simp

theorem rr_scan_group_pri (x : tEXT) :
    ∀ (n : Nat) (l : tL2C_LCB),
      (rr_scan_group x n l).lcb.rr_pri = l.rr_pri ∧
      (rr_scan_group x n l).lcb.rr_serv.length = l.rr_serv.length := by
  intro n
  induction n with
  | zero => intro l; exact ⟨rfl, rfl⟩
  | succ n ih =>
    intro l
    unfold rr_scan_group
    simp only []
    split
    · exact ⟨rfl, rfl⟩
    · split
      · exact ⟨rfl, by simp⟩
      · rename_i i c hfind hready
        generalize hnext : (match l.ccb_queue[i + 1]? with
          | none => (l.rr_serv.getD l.rr_pri ⟨none, none, 0, 0⟩).p_first_ccb
          | some nx => if nx.ccb_priority ≠ c.ccb_priority then
              (l.rr_serv.getD l.rr_pri ⟨none, none, 0, 0⟩).p_first_ccb else some nx.slot) = next
        have h2 := ih
          { l with
            rr_serv := l.rr_serv.set l.rr_pri { rr_group_serv l l.rr_pri with p_serve_ccb := next } }
        simp only [List.length_set, rr_group_serv] at h2
        exact h2

theorem rr_scan_group_quota (x : tEXT) :
    ∀ (n : Nat) (l : tL2C_LCB) (p : Nat), l.rr_pri < l.rr_serv.length →
      (rr_scan_group x n l).p_serve_ccb = some p →
      (rr_group_serv (rr_scan_group x n l).lcb l.rr_pri).quota =
        ((rr_group_serv l l.rr_pri).quota + 65535) % 65536 := by
  intro n
  induction n with
  | zero => intro l p _ h; cases h
  | succ n ih =>
    intro l p hlen h
    unfold rr_scan_group at h ⊢
    simp only [] at h ⊢
    split at h
    · cases h
    · rename_i i c hfind
      generalize hnext : (match l.ccb_queue[i + 1]? with
        | none => (l.rr_serv.getD l.rr_pri ⟨none, none, 0, 0⟩).p_first_ccb
        | some nx => if nx.ccb_priority ≠ c.ccb_priority then
            (l.rr_serv.getD l.rr_pri ⟨none, none, 0, 0⟩).p_first_ccb else some nx.slot) = next
          at h ⊢
      by_cases hr : rr_channel_ready x l.transport c = true
      · rw [if_pos hr]
        simp [rr_group_serv, hlen]
      · rw [if_neg hr] at h ⊢
        have h2 := ih
          { l with
            rr_serv := l.rr_serv.set l.rr_pri { rr_group_serv l l.rr_pri with p_serve_ccb := next } }
          p (by simpa using hlen) h
        refine Eq.trans h2 ?_
        simp [rr_group_serv, hlen]

theorem rr_next_group_quota (x : tEXT) (l : tL2C_LCB)
    (h : (l.rr_pri + 1) % x.L2CAP_NUM_CHNL_PRIORITY < l.rr_serv.length) :
    (rr_group_serv (rr_next_group x l) ((l.rr_pri + 1) % x.L2CAP_NUM_CHNL_PRIORITY)).quota =
      x.L2CAP_GET_PRIORITY_QUOTA ((l.rr_pri + 1) % x.L2CAP_NUM_CHNL_PRIORITY) := by
  simp [rr_group_serv, rr_next_group, h]

theorem rr_scan_select_step (x : tEXT) (n : Nat) (l : tL2C_LCB) (p : Nat)
    (hpri : l.rr_pri < x.L2CAP_NUM_CHNL_PRIORITY) (hlen : x.L2CAP_NUM_CHNL_PRIORITY ≤ l.rr_serv.length)
    (hret : (rr_scan_group x (rr_group_serv l l.rr_pri).num_ccb l).returned = false)
    (hsel : (rr_scan_group x (rr_group_serv l l.rr_pri).num_ccb l).p_serve_ccb = some p) :
    (rr_scan x (n + 1) l).2 = some p ∧ (rr_scan x (n + 1) l).1.rr_pri < x.L2CAP_NUM_CHNL_PRIORITY ∧
      rr_quota_booked x l (rr_scan x (n + 1) l).1 := by
  obtain ⟨g1, g2⟩ := rr_scan_group_pri x (rr_group_serv l l.rr_pri).num_ccb l
  have g3 := rr_scan_group_quota x (rr_group_serv l l.rr_pri).num_ccb l p (by omega) hsel
  have hN : 0 < x.L2CAP_NUM_CHNL_PRIORITY := by omega
  have hmod : (l.rr_pri + 1) % x.L2CAP_NUM_CHNL_PRIORITY < x.L2CAP_NUM_CHNL_PRIORITY :=
    Nat.mod_lt _ hN
  rw [rr_scan_succ, if_neg (by rw [hret]; decide), hsel]
  simp only []
  generalize rr_scan_group x (rr_group_serv l l.rr_pri).num_ccb l = r at g1 g2 g3
  rw [g1]
  by_cases hq : (rr_group_serv r.lcb l.rr_pri).quota = 0
  · rw [if_pos hq]
    have hnq := rr_next_group_quota x r.lcb (by rw [g1, g2]; omega)
    rw [g1] at hnq
    refine ⟨trivial, by simp only [rr_next_group, g1]; exact hmod, ?_, ?_⟩
    · intro h1 h2
      rw [hq] at g3
      omega
    · intro _
      exact ⟨by simp only [rr_next_group, g1], hnq⟩
  · rw [if_neg hq]
    refine ⟨trivial, by rw [g1]; exact hpri, ?_, ?_⟩
    · intro h1 h2
      refine ⟨g1, ?_⟩
      rw [g3]
      omega
    · intro h1
      rw [h1] at g3
      exact absurd g3 hq

theorem rr_scan_bookkeeping (x : tEXT) :
    ∀ (n : Nat) (l : tL2C_LCB), l.rr_pri < x.L2CAP_NUM_CHNL_PRIORITY →
      x.L2CAP_NUM_CHNL_PRIORITY ≤ l.rr_serv.length →
      (rr_scan x n l).1.rr_pri < x.L2CAP_NUM_CHNL_PRIORITY ∧
      (∀ l0 : tL2C_LCB, rr_passed_over x n l = some l0 →
        rr_scan x n l = (l0, none) ∧
        l0.rr_pri = (l.rr_pri + n) % x.L2CAP_NUM_CHNL_PRIORITY) ∧
      (∀ p : Nat, (rr_scan x n l).2 = some p →
        ∃ (j : Nat) (l0 : tL2C_LCB), j < n ∧ rr_passed_over x j l = some l0 ∧
          l0.rr_pri = (l.rr_pri + j) % x.L2CAP_NUM_CHNL_PRIORITY ∧
          (0 < j → (rr_group_serv l0 l0.rr_pri).quota = x.L2CAP_GET_PRIORITY_QUOTA l0.rr_pri) ∧
          (rr_scan_group x (rr_group_serv l0 l0.rr_pri).num_ccb l0).p_serve_ccb = some p ∧
          rr_quota_booked x l0 (rr_scan x n l).1) := by
  intro n
  induction n with
  | zero =>
    intro l hpri hlen
    refine ⟨hpri, ?_, ?_⟩
    · intro l0 h
      simp only [rr_passed_over, Option.some.injEq] at h
      subst h
      exact ⟨rfl, (Nat.mod_eq_of_lt hpri).symm⟩
    · intro p h
      cases h
  | succ n ih =>
    intro l hpri hlen
    obtain ⟨g1, g2⟩ := rr_scan_group_pri x (rr_group_serv l l.rr_pri).num_ccb l
    have hN : 0 < x.L2CAP_NUM_CHNL_PRIORITY := by omega
    have hmod : (l.rr_pri + 1) % x.L2CAP_NUM_CHNL_PRIORITY < x.L2CAP_NUM_CHNL_PRIORITY :=
      Nat.mod_lt _ hN
    cases hret : (rr_scan_group x (rr_group_serv l l.rr_pri).num_ccb l).returned with
    | true =>
      have hres : rr_scan x (n + 1) l =
          ((rr_scan_group x (rr_group_serv l l.rr_pri).num_ccb l).lcb, none) := by
        rw [rr_scan_succ, if_pos hret]
      rw [hres]
      refine ⟨by rw [g1]; exact hpri, ?_, ?_⟩
      · intro l0 h
        simp [rr_passed_over, hret] at h
      · intro p h
        cases h
    | false =>
      cases hsel : (rr_scan_group x (rr_group_serv l l.rr_pri).num_ccb l).p_serve_ccb with
      | some p0 =>
        obtain ⟨s1, s2, s3⟩ := rr_scan_select_step x n l p0 hpri hlen hret hsel
        refine ⟨s2, ?_, ?_⟩
        · intro l0 h
          simp [rr_passed_over, hret, hsel] at h
        · intro p h
          rw [s1] at h
          cases h
          exact ⟨0, l, Nat.succ_pos n, rfl, (Nat.mod_eq_of_lt hpri).symm,
            fun h0 => absurd h0 (Nat.lt_irrefl 0), hsel, s3⟩
      | none =>
        have hres : rr_scan x (n + 1) l = rr_scan x n
            (rr_next_group x (rr_scan_group x (rr_group_serv l l.rr_pri).num_ccb l).lcb) := by
          rw [rr_scan_succ, if_neg (by rw [hret]; decide), hsel]
        have hpass : ∀ j : Nat, rr_passed_over x (j + 1) l = rr_passed_over x j
            (rr_next_group x (rr_scan_group x (rr_group_serv l l.rr_pri).num_ccb l).lcb) := by
          intro j
          rw [rr_passed_over, hret, hsel]
          rfl
        have hpri1 : (rr_next_group x
            (rr_scan_group x (rr_group_serv l l.rr_pri).num_ccb l).lcb).rr_pri =
            (l.rr_pri + 1) % x.L2CAP_NUM_CHNL_PRIORITY := by
          simp only [rr_next_group, g1]
        have hlen1 : (rr_next_group x
            (rr_scan_group x (rr_group_serv l l.rr_pri).num_ccb l).lcb).rr_serv.length =
            l.rr_serv.length := by
          simp only [rr_next_group, List.length_set, g2]
        have hq1 := rr_next_group_quota x
          (rr_scan_group x (rr_group_serv l l.rr_pri).num_ccb l).lcb (by rw [g1, g2]; omega)
        rw [g1] at hq1
        obtain ⟨i1, i2, i3⟩ := ih
          (rr_next_group x (rr_scan_group x (rr_group_serv l l.rr_pri).num_ccb l).lcb)
          (by rw [hpri1]; exact hmod) (by rw [hlen1]; exact hlen)
        rw [hres]
        refine ⟨i1, ?_, ?_⟩
        · intro l0 h
          rw [hpass] at h
          obtain ⟨e1, e2⟩ := i2 l0 h
          refine ⟨e1, ?_⟩
          rw [e2, hpri1, Nat.mod_add_mod]
          congr 1
          omega
        · intro p h
          obtain ⟨j, l0, e1, e2, e3, e4, e5, e6⟩ := i3 p h
          refine ⟨j + 1, l0, by omega, by rw [hpass]; exact e2, ?_, ?_, e5, e6⟩
          · rw [e3, hpri1, Nat.mod_add_mod]
            congr 1
            omega
          · intro _
            by_cases hj : 0 < j
            · exact e4 hj
            · have hj0 : j = 0 := by omega
              subst hj0
              simp only [rr_passed_over, Option.some.injEq] at e2
              subst e2
              rw [hpri1]
              exact hq1

/-- C31: group quota bookkeeping of `l2cu_get_next_channel_in_rr`, for a link
whose `rr_pri` is below `L2CAP_NUM_CHNL_PRIORITY` and whose `rr_serv` has a
record for every priority.  Afterwards `rr_pri` is still below
`L2CAP_NUM_CHNL_PRIORITY`.  When all groups are scanned to their end without a
channel to serve, the call returns no channel and `rr_pri` is back at its entry
value.  When a channel is returned, `j` groups (fewer than
`L2CAP_NUM_CHNL_PRIORITY`) were passed over first, each pass moving `rr_pri` to
the next group modulo `L2CAP_NUM_CHNL_PRIORITY` and setting the quota of that
group to its static table value; the channel was then selected from the group
`g = (rr_pri + j) mod L2CAP_NUM_CHNL_PRIORITY`, and with `k` the quota of that
group at that moment: if `1 < k`, `rr_pri = g` and the quota of `g` is `k - 1`
afterwards; if `k = 1`, `rr_pri = (g + 1) mod L2CAP_NUM_CHNL_PRIORITY` and the
quota of the new group is its static table value. -/
theorem next_channel_in_rr_bookkeeping (x : tEXT) (l : tL2C_LCB)
    (hpri : l.rr_pri < x.L2CAP_NUM_CHNL_PRIORITY)
    (hlen : x.L2CAP_NUM_CHNL_PRIORITY ≤ l.rr_serv.length) :
    (l2cu_get_next_channel_in_rr x l).1.rr_pri < x.L2CAP_NUM_CHNL_PRIORITY ∧
    (∀ l0 : tL2C_LCB, rr_passed_over x x.L2CAP_NUM_CHNL_PRIORITY l = some l0 →
      l2cu_get_next_channel_in_rr x l = (l0, none) ∧ l0.rr_pri = l.rr_pri) ∧
    (∀ p : Nat, (l2cu_get_next_channel_in_rr x l).2 = some p →
      ∃ (j : Nat) (l0 : tL2C_LCB), j < x.L2CAP_NUM_CHNL_PRIORITY ∧
        rr_passed_over x j l = some l0 ∧
        l0.rr_pri = (l.rr_pri + j) % x.L2CAP_NUM_CHNL_PRIORITY ∧
        (0 < j → (rr_group_serv l0 l0.rr_pri).quota = x.L2CAP_GET_PRIORITY_QUOTA l0.rr_pri) ∧
        (rr_scan_group x (rr_group_serv l0 l0.rr_pri).num_ccb l0).p_serve_ccb = some p ∧
        rr_quota_booked x l0 (l2cu_get_next_channel_in_rr x l).1) := by
  obtain ⟨h1, h2, h3⟩ := rr_scan_bookkeeping x x.L2CAP_NUM_CHNL_PRIORITY l hpri hlen
  refine ⟨h1, ?_, h3⟩
  intro l0 h
  obtain ⟨e1, e2⟩ := h2 l0 h
  refine ⟨e1, ?_⟩
  rw [e2, Nat.add_mod_right]
  exact Nat.mod_eq_of_lt hpri

/-- Witness of C31: the link with a channel in each of the groups 0 and 1, group
0 being served with one unit of quota left: the channel of group 0 is returned
and group 1 is the one served afterwards, with the quota 10 of the table. -/
theorem next_channel_in_rr_bookkeeping_witness :
    (l2cu_get_next_channel_in_rr ext_idle lcb_two_groups).1.rr_pri <
      ext_idle.L2CAP_NUM_CHNL_PRIORITY ∧
    ∃ (j : Nat) (l0 : tL2C_LCB), j < ext_idle.L2CAP_NUM_CHNL_PRIORITY ∧
      rr_passed_over ext_idle j lcb_two_groups = some l0 ∧
      rr_quota_booked ext_idle l0 (l2cu_get_next_channel_in_rr ext_idle lcb_two_groups).1 := by
  obtain ⟨h1, -, h3⟩ := next_channel_in_rr_bookkeeping ext_idle lcb_two_groups (by decide)
    (by decide)
  obtain ⟨j, l0, e1, e2, -, -, -, e6⟩ := h3 0 (by decide)
  exact ⟨h1, j, l0, e1, e2, e6⟩

/-! ## Completeness of the channel selection -/

theorem rr_group_of_split (pre grp post : List tL2C_CCB) (g : Nat)
    (hgrp : ∀ c, c ∈ grp → c.ccb_priority = g) (hpre : ∀ c, c ∈ pre → c.ccb_priority ≠ g)
    (hpost : ∀ c, c ∈ post → c.ccb_priority ≠ g) :
    rr_group (pre ++ grp ++ post) g = grp := by
  unfold rr_group
  rw [List.filter_append, List.filter_append]
  have h1 : pre.filter (fun c => c.ccb_priority == g) = [] := by
    rw [List.filter_eq_nil_iff]
    intro c hc
    simpa using hpre c hc
  have h2 : post.filter (fun c => c.ccb_priority == g) = [] := by
    rw [List.filter_eq_nil_iff]
    intro c hc
    simpa using hpost c hc
  have h3 : grp.filter (fun c => c.ccb_priority == g) = grp := by
    rw [List.filter_eq_self]
    intro c hc
    simpa using hgrp c hc
  rw [h1, h2, h3]
  simp

theorem findIdx?_of_nodup :
    ∀ (q : List tL2C_CCB) (i : Nat) (c : tL2C_CCB), (q.map (fun c => c.slot)).Nodup →
      q[i]? = some c → q.findIdx? (fun d => d.slot == c.slot) = some i := by
  intro q
  induction q with
  | nil => intro i c _ h; simp at h
  | cons a rest ih =>
    intro i c hnd h
    rw [List.map_cons, List.nodup_cons] at hnd
    cases i with
    | zero =>
      simp only [List.getElem?_cons_zero, Option.some.injEq] at h
      subst h
      simp [List.findIdx?_cons]
    | succ i =>
      simp only [List.getElem?_cons_succ] at h
      have hmem : c ∈ rest := List.mem_iff_getElem?.mpr ⟨i, h⟩
      have hne : a.slot ≠ c.slot := by
        intro he
        apply hnd.1
        rw [he]
        exact List.mem_map_of_mem (fun c => c.slot) hmem
      rw [List.findIdx?_cons, if_neg (by simpa using hne), List.findIdx?_succ, ih i c hnd.2 h]
      rfl

theorem find_ccb_of_nodup (q : List tL2C_CCB) (i : Nat) (c : tL2C_CCB)
    (hnd : (q.map (fun c => c.slot)).Nodup) (h : q[i]? = some c) :
    find_ccb q c.slot = some (i, c) := by
  unfold find_ccb
  rw [findIdx?_of_nodup q i c hnd h]
  simp only [h]

theorem findIdx_of_nodup :
    ∀ (q : List tL2C_CCB) (i : Nat) (c : tL2C_CCB), (q.map (fun c => c.slot)).Nodup →
      q[i]? = some c → q.findIdx (fun d => some d.slot == some c.slot) = i := by
  intro q
  induction q with
  | nil => intro i c _ h; simp at h
  | cons a rest ih =>
    intro i c hnd h
    rw [List.map_cons, List.nodup_cons] at hnd
    cases i with
    | zero =>
      simp only [List.getElem?_cons_zero, Option.some.injEq] at h
      subst h
      simp [List.findIdx_cons]
    | succ i =>
      simp only [List.getElem?_cons_succ] at h
      have hmem : c ∈ rest := List.mem_iff_getElem?.mpr ⟨i, h⟩
      have hne : a.slot ≠ c.slot := by
        intro he
        apply hnd.1
        rw [he]
        exact List.mem_map_of_mem (fun c => c.slot) hmem
      have hb : (a.slot == c.slot) = false := by simpa using hne
      rw [List.findIdx_cons, ih i c hnd.2 h]
      simp [hb]

theorem rot_head (grp : List tL2C_CCB) (ci : Nat) (c0 : tL2C_CCB) (h : grp[ci]? = some c0) :
    grp.drop ci ++ grp.take ci = c0 :: (grp.drop (ci + 1) ++ grp.take ci) := by
  obtain ⟨hlt, hget⟩ := List.getElem?_eq_some_iff.mp h
  rw [List.drop_eq_getElem_cons hlt, hget]
  rfl

theorem rot_next (grp : List tL2C_CCB) (ci : Nat) (c0 : tL2C_CCB) (h : grp[ci]? = some c0) :
    grp.drop ((ci + 1) % grp.length) ++ grp.take ((ci + 1) % grp.length) =
      (grp.drop (ci + 1) ++ grp.take ci) ++ [c0] := by
  obtain ⟨hlt, hget⟩ := List.getElem?_eq_some_iff.mp h
  have htake : grp.take (ci + 1) = grp.take ci ++ [c0] := by
    rw [List.take_succ, h]
    rfl
  by_cases hlast : ci + 1 = grp.length
  · rw [hlast, Nat.mod_self, List.drop_zero, List.take_zero, List.append_nil,
      List.drop_length, List.nil_append, ← htake, hlast, List.take_length]
  · rw [Nat.mod_eq_of_lt (by omega), htake, List.append_assoc]

theorem rr_next_cursor (pre grp post : List tL2C_CCB) (g ci : Nat) (c0 : tL2C_CCB)
    (first : Option Nat)
    (hgrp : ∀ c, c ∈ grp → c.ccb_priority = g) (hpost : ∀ c, c ∈ post → c.ccb_priority ≠ g)
    (hfirst : first = grp.head?.map (fun c => c.slot)) (h : grp[ci]? = some c0) :
    (match (pre ++ grp ++ post)[pre.length + ci + 1]? with
      | none => first
      | some nx => if nx.ccb_priority ≠ c0.ccb_priority then first else some nx.slot) =
      (grp[(ci + 1) % grp.length]?).map (fun c => c.slot) := by
  obtain ⟨hlt, hget⟩ := List.getElem?_eq_some_iff.mp h
  have hc0 : c0.ccb_priority = g := hgrp c0 (List.mem_iff_getElem?.mpr ⟨ci, h⟩)
  have hidx : (pre ++ grp ++ post)[pre.length + ci + 1]? = (grp ++ post)[ci + 1]? := by
    rw [List.append_assoc, List.getElem?_append_right (by omega)]
    congr 1
    omega
  rw [hidx]
  by_cases hlast : ci + 1 = grp.length
  · rw [hlast, Nat.mod_self, List.getElem?_append_right (le_refl _), Nat.sub_self]
    have hhead : (grp[0]?).map (fun c => c.slot) = first := by
      rw [hfirst]
      cases grp with
      | nil => rfl
      | cons a rest => simp
    rw [hhead]
    cases hp : post[0]? with
    | none => rfl
    | some nx =>
      have hnx : nx.ccb_priority ≠ g := hpost nx (List.mem_iff_getElem?.mpr ⟨0, hp⟩)
      simp only []
      rw [if_pos (by rw [hc0]; exact hnx)]
  · have hlt2 : ci + 1 < grp.length := by omega
    rw [Nat.mod_eq_of_lt hlt2, List.getElem?_append_left hlt2]
    have hsome : grp[ci + 1]? = some grp[ci + 1] := List.getElem?_eq_getElem hlt2
    rw [hsome]
    simp only [Option.map_some']
    have hnx : grp[ci + 1].ccb_priority = g :=
      hgrp _ (List.mem_iff_getElem?.mpr ⟨ci + 1, hsome⟩)
    rw [if_neg (by rw [hc0, hnx]; simp)]

theorem list_set_get_self {α : Type} (l : List α) (i : Nat) (h : i < l.length) :
    l.set i l[i] = l := by
  apply List.ext_getElem?
  intro j
  by_cases hj : i = j
  · subst hj
    simp [h]
  · simp [List.getElem?_set_ne hj]

theorem rr_scan_group_circular (x : tEXT) (pre grp post : List tL2C_CCB)
    (hnd : ((pre ++ grp ++ post).map (fun c => c.slot)).Nodup) :
    ∀ (m : Nat) (l : tL2C_LCB) (ci : Nat) (c0 : tL2C_CCB), m ≤ grp.length →
      l.ccb_queue = pre ++ grp ++ post →
      (∀ c, c ∈ grp → c.ccb_priority = l.rr_pri) → (∀ c, c ∈ post → c.ccb_priority ≠ l.rr_pri) →
      l.rr_pri < l.rr_serv.length →
      (rr_group_serv l l.rr_pri).p_first_ccb = grp.head?.map (fun c => c.slot) →
      grp[ci]? = some c0 → (rr_group_serv l l.rr_pri).p_serve_ccb = some c0.slot →
      (rr_scan_group x m l).returned = false ∧
      (rr_scan_group x m l).p_serve_ccb =
        (((grp.drop ci ++ grp.take ci).take m).find? (rr_channel_ready x l.transport)).map
          (fun c => c.slot) ∧
      ((rr_scan_group x m l).p_serve_ccb = none →
        (rr_scan_group x m l).lcb =
          { l with
            rr_serv := l.rr_serv.set l.rr_pri
              { rr_group_serv l l.rr_pri with
                p_serve_ccb := (grp[(ci + m) % grp.length]?).map (fun c => c.slot) } }) := by
  intro m
  induction m with
  | zero =>
    intro l ci c0 _ hq hgrp hpost hlen hfirst hci hcur
    obtain ⟨hlt, -⟩ := List.getElem?_eq_some_iff.mp hci
    refine ⟨rfl, by simp [rr_scan_group], fun _ => ?_⟩
    have hs : l.rr_serv.set l.rr_pri
        { rr_group_serv l l.rr_pri with
          p_serve_ccb := (grp[(ci + 0) % grp.length]?).map (fun c => c.slot) } = l.rr_serv := by
      rw [Nat.add_zero, Nat.mod_eq_of_lt hlt, hci, Option.map_some', ← hcur]
      simp only [rr_group_serv, List.getD_eq_getElem?_getD, List.getElem?_eq_getElem hlen,
        Option.getD_some]
      exact list_set_get_self _ _ hlen
    rw [hs]
    rfl
  | succ m ih =>
    intro l ci c0 hm hq hgrp hpost hlen hfirst hci hcur
    obtain ⟨hlt, -⟩ := List.getElem?_eq_some_iff.mp hci
    have hqi : (pre ++ grp ++ post)[pre.length + ci]? = some c0 := by
      rw [List.append_assoc, List.getElem?_append_right (by omega),
        List.getElem?_append_left (by omega)]
      rw [← hci]
      congr 1
      omega
    have hfind := find_ccb_of_nodup (pre ++ grp ++ post) (pre.length + ci) c0 hnd hqi
    have hnext := rr_next_cursor pre grp post l.rr_pri ci c0 (rr_group_serv l l.rr_pri).p_first_ccb
      hgrp hpost hfirst hci
    have hlt1 : (ci + 1) % grp.length < grp.length := Nat.mod_lt _ (by omega)
    have hci1 : grp[(ci + 1) % grp.length]? = some grp[(ci + 1) % grp.length] :=
      List.getElem?_eq_getElem hlt1
    have hih := ih
      { l with
        rr_serv := l.rr_serv.set l.rr_pri
          { rr_group_serv l l.rr_pri with
            p_serve_ccb := (grp[(ci + 1) % grp.length]?).map (fun c => c.slot) } }
      ((ci + 1) % grp.length) grp[(ci + 1) % grp.length] (by omega) hq hgrp hpost
      (by simpa using hlen) (by simpa [rr_group_serv, hlen] using hfirst) hci1
      (by simp [rr_group_serv, hlen, hci1])
    obtain ⟨i1, i2, i3⟩ := hih
    have hstep : rr_scan_group x (m + 1) l =
        if rr_channel_ready x l.transport c0 = true then
          { lcb :=
              { l with
                rr_serv := (l.rr_serv.set l.rr_pri
                  { rr_group_serv l l.rr_pri with
                    p_serve_ccb := (grp[(ci + 1) % grp.length]?).map (fun c => c.slot) }).set
                  l.rr_pri
                  { rr_group_serv l l.rr_pri with
                    p_serve_ccb := (grp[(ci + 1) % grp.length]?).map (fun c => c.slot),
                    quota := ((rr_group_serv l l.rr_pri).quota + 65535) % 65536 } },
            p_serve_ccb := some c0.slot, returned := false }
        else
          rr_scan_group x m
            { l with
              rr_serv := l.rr_serv.set l.rr_pri
                { rr_group_serv l l.rr_pri with
                  p_serve_ccb := (grp[(ci + 1) % grp.length]?).map (fun c => c.slot) } } := by
      rw [rr_scan_group]
      simp only [rr_group_serv] at hcur hnext ⊢
      rw [hcur]
      simp only [Option.some_bind, hq, hfind, hnext]
    rw [hstep]
    by_cases hr : rr_channel_ready x l.transport c0 = true
    · rw [if_pos hr]
      refine ⟨rfl, ?_, fun h => absurd h (by simp)⟩
      rw [rot_head grp ci c0 hci, List.take_succ_cons, List.find?_cons_of_pos _ hr]
      rfl
    · rw [if_neg hr]
      have hlenT : m ≤ (grp.drop (ci + 1) ++ grp.take ci).length := by
        simp only [List.length_append, List.length_drop, List.length_take]
        omega
      refine ⟨i1, ?_, ?_⟩
      · rw [i2, rot_next grp ci c0 hci, List.take_append_of_le_length hlenT,
          rot_head grp ci c0 hci, List.take_succ_cons, List.find?_cons_of_neg _ hr]
      · intro hnone
        rw [i3 hnone]
        have hidx : ((ci + 1) % grp.length + m) % grp.length = (ci + (m + 1)) % grp.length := by
          rw [Nat.mod_add_mod]
          congr 1
          omega
        simp [rr_group_serv, hlen, hidx]

theorem rr_serv_set_self (l : tL2C_LCB) (cur : Option Nat) (hlen : l.rr_pri < l.rr_serv.length)
    (hcur : (rr_group_serv l l.rr_pri).p_serve_ccb = cur) :
    { l with
      rr_serv := l.rr_serv.set l.rr_pri { rr_group_serv l l.rr_pri with p_serve_ccb := cur } } =
      l := by
  have hs : l.rr_serv.set l.rr_pri { rr_group_serv l l.rr_pri with p_serve_ccb := cur } =
      l.rr_serv := by
    rw [← hcur]
    simp only [rr_group_serv, List.getD_eq_getElem?_getD, List.getElem?_eq_getElem hlen,
      Option.getD_some]
    exact list_set_get_self _ _ hlen
  rw [hs]

theorem rr_circular_nil (p : Option Nat) : rr_circular [] p = [] := by
  simp [rr_circular]

/-- Under well-formedness of the group being served, the inner loop of
`l2cu_get_next_channel_in_rr` never returns from inside, finds the first member
passing the checks in circular order from the cursor, and leaves the link as it
was when no member passes. -/
theorem rr_scan_group_first_ready (x : tEXT) (l : tL2C_LCB)
    (hnd : (l.ccb_queue.map (fun c => c.slot)).Nodup) (hlen : l.rr_pri < l.rr_serv.length)
    (hok : rr_group_ok l l.rr_pri) :
    (rr_scan_group x (rr_group_serv l l.rr_pri).num_ccb l).returned = false ∧
    (rr_scan_group x (rr_group_serv l l.rr_pri).num_ccb l).p_serve_ccb =
      rr_first_ready x l l.rr_pri ∧
    ((rr_scan_group x (rr_group_serv l l.rr_pri).num_ccb l).p_serve_ccb = none →
      (rr_scan_group x (rr_group_serv l l.rr_pri).num_ccb l).lcb = l) := by
  obtain ⟨pre, grp, post, hq, hgrp, hpre, hpost, hnum, hfirst, hcur⟩ := hok
  have hG : rr_group l.ccb_queue l.rr_pri = grp := by
    rw [hq]
    exact rr_group_of_split pre grp post l.rr_pri hgrp hpre hpost
  rw [hnum]
  unfold rr_first_ready
  rw [hG]
  by_cases hne : grp = []
  · subst hne
    rw [rr_circular_nil]
    exact ⟨rfl, rfl, fun _ => rfl⟩
  · obtain ⟨c0, hmem, hc⟩ := hcur hne
    obtain ⟨ci, hci⟩ := List.mem_iff_getElem?.mp hmem
    obtain ⟨hlt, -⟩ := List.getElem?_eq_some_iff.mp hci
    have hnd2 : ((pre ++ grp ++ post).map (fun c => c.slot)).Nodup := by
      rw [← hq]
      exact hnd
    have hndg : (grp.map (fun c => c.slot)).Nodup := by
      rw [List.map_append, List.map_append] at hnd2
      exact (List.Nodup.of_append_left hnd2).of_append_right
    obtain ⟨b1, b2, b3⟩ := rr_scan_group_circular x pre grp post hnd2 grp.length l ci c0
      (le_refl _) hq hgrp hpost hlen hfirst hci hc
    have hrot : rr_circular grp (rr_group_serv l l.rr_pri).p_serve_ccb =
        grp.drop ci ++ grp.take ci := by
      unfold rr_circular
      rw [hc, findIdx_of_nodup grp ci c0 hndg hci]
    have htake : (grp.drop ci ++ grp.take ci).take grp.length = grp.drop ci ++ grp.take ci := by
      apply List.take_of_length_le
      simp only [List.length_append, List.length_drop, List.length_take]
      omega
    rw [hrot]
    rw [htake] at b2
    refine ⟨b1, b2, ?_⟩
    intro hnone
    rw [b3 hnone]
    have hidx : (ci + grp.length) % grp.length = ci := by
      rw [Nat.add_mod_right]
      exact Nat.mod_eq_of_lt hlt
    rw [hidx, hci]
    exact rr_serv_set_self l _ hlen hc

theorem rr_next_group_serv (x : tEXT) (l : tL2C_LCB) (g : Nat) :
    (rr_group_serv (rr_next_group x l) g).p_serve_ccb = (rr_group_serv l g).p_serve_ccb ∧
    (rr_group_serv (rr_next_group x l) g).num_ccb = (rr_group_serv l g).num_ccb ∧
    (rr_group_serv (rr_next_group x l) g).p_first_ccb = (rr_group_serv l g).p_first_ccb := by
  unfold rr_next_group rr_group_serv
  simp only [List.getD_eq_getElem?_getD]
  by_cases hg : (l.rr_pri + 1) % x.L2CAP_NUM_CHNL_PRIORITY = g
  · subst hg
    by_cases hlt : (l.rr_pri + 1) % x.L2CAP_NUM_CHNL_PRIORITY < l.rr_serv.length
    · rw [List.getElem?_set_self hlt]
      exact ⟨rfl, rfl, rfl⟩
    · rw [List.set_eq_of_length_le (by omega)]
      exact ⟨rfl, rfl, rfl⟩
  · rw [List.getElem?_set_ne hg]
    exact ⟨rfl, rfl, rfl⟩

theorem rr_first_ready_next (x : tEXT) (l : tL2C_LCB) (g : Nat) :
    rr_first_ready x (rr_next_group x l) g = rr_first_ready x l g := by
  unfold rr_first_ready
  rw [(rr_next_group_serv x l g).1]
  rfl

theorem rr_select_next (x : tEXT) (l : tL2C_LCB) :
    ∀ (n g : Nat), rr_select x (rr_next_group x l) n g = rr_select x l n g := by
  intro n
  induction n with
  | zero => intro g; rfl
  | succ n ih =>
    intro g
    rw [rr_select, rr_select, rr_first_ready_next, ih]

theorem rr_well_formed_next (x : tEXT) (l : tL2C_LCB) (h : rr_well_formed x l) :
    rr_well_formed x (rr_next_group x l) := by
  have hN : 0 < x.L2CAP_NUM_CHNL_PRIORITY := by
    have := h.pri
    omega
  refine ⟨h.slots, h.prio, ?_, ?_, ?_⟩
  · simp only [rr_next_group, List.length_set]
    exact h.len
  · exact Nat.mod_lt _ hN
  · intro g hg
    obtain ⟨pre, grp, post, hq, hgrp, hpre, hpost, hnum, hfirst, hcur⟩ := h.groups g hg
    obtain ⟨e1, e2, e3⟩ := rr_next_group_serv x l g
    exact ⟨pre, grp, post, hq, hgrp, hpre, hpost, by rw [e2]; exact hnum,
      by rw [e3]; exact hfirst, by rw [e1]; exact hcur⟩

theorem rr_scan_select (x : tEXT) :
    ∀ (n : Nat) (l : tL2C_LCB), rr_well_formed x l →
      (rr_scan x n l).2 = rr_select x l n l.rr_pri := by
  intro n
  induction n with
  | zero => intro l _; rfl
  | succ n ih =>
    intro l h
    have hlen : l.rr_pri < l.rr_serv.length := Nat.lt_of_lt_of_le h.pri h.len
    obtain ⟨g1, g2, g3⟩ := rr_scan_group_first_ready x l h.slots hlen (h.groups _ h.pri)
    rw [rr_scan_succ, if_neg (by rw [g1]; decide), rr_select, ← g2]
    cases hsel : (rr_scan_group x (rr_group_serv l l.rr_pri).num_ccb l).p_serve_ccb with
    | some p => rfl
    | none =>
      simp only []
      rw [g3 hsel, ih _ (rr_well_formed_next x l h), rr_select_next]
      rfl

theorem rr_select_none (x : tEXT) (l : tL2C_LCB) :
    ∀ (n g : Nat), g < x.L2CAP_NUM_CHNL_PRIORITY → rr_select x l n g = none →
      ∀ j : Nat, j < n → rr_first_ready x l ((g + j) % x.L2CAP_NUM_CHNL_PRIORITY) = none := by
  intro n
  induction n with
  | zero => intro g _ _ j hj; omega
  | succ n ih =>
    intro g hg h j hj
    rw [rr_select] at h
    cases hf : rr_first_ready x l g with
    | some p => rw [hf] at h; cases h
    | none =>
      rw [hf] at h
      simp only [] at h
      cases j with
      | zero =>
        rw [Nat.add_zero, Nat.mod_eq_of_lt hg]
        exact hf
      | succ j =>
        have h2 := ih ((g + 1) % x.L2CAP_NUM_CHNL_PRIORITY) (Nat.mod_lt _ (by omega)) h j
          (by omega)
        rw [Nat.mod_add_mod] at h2
        rw [← h2]
        congr 2
        omega

theorem rr_first_ready_some (x : tEXT) (l : tL2C_LCB) (c : tL2C_CCB) (hc : c ∈ l.ccb_queue)
    (hr : rr_channel_ready x l.transport c = true) :
    rr_first_ready x l c.ccb_priority ≠ none := by
  intro hnone
  unfold rr_first_ready at hnone
  rw [Option.map_eq_none', List.find?_eq_none] at hnone
  have hg : c ∈ rr_group l.ccb_queue c.ccb_priority := by
    unfold rr_group
    rw [List.mem_filter]
    exact ⟨hc, by simp⟩
  have hcirc : c ∈ rr_circular (rr_group l.ccb_queue c.ccb_priority)
      (rr_group_serv l c.ccb_priority).p_serve_ccb := by
    unfold rr_circular
    rw [List.mem_append]
    rw [← List.take_append_drop
      ((rr_group l.ccb_queue c.ccb_priority).findIdx
        (fun d => some d.slot == (rr_group_serv l c.ccb_priority).p_serve_ccb))
      (rr_group l.ccb_queue c.ccb_priority), List.mem_append] at hg
    exact hg.symm
  exact hnone c hcirc hr

/-- C34: completeness of the channel selection.  For a link whose priority
groups are well formed, `l2cu_get_next_channel_in_rr` returns the choice the
claim describes: among the groups in cyclic order from `rr_pri`, the first one
that has a member passing the checks, and within it the first such member in
circular order from the cursor of the group.  When some channel of the link
passes the checks, a channel is returned. -/
theorem next_channel_in_rr_complete (x : tEXT) (l : tL2C_LCB) (hwf : rr_well_formed x l) :
    (l2cu_get_next_channel_in_rr x l).2 = rr_select x l x.L2CAP_NUM_CHNL_PRIORITY l.rr_pri ∧
    ((∃ c, c ∈ l.ccb_queue ∧ rr_channel_ready x l.transport c = true) →
      ∃ p : Nat, (l2cu_get_next_channel_in_rr x l).2 = some p) := by
  have hsel : (l2cu_get_next_channel_in_rr x l).2 =
      rr_select x l x.L2CAP_NUM_CHNL_PRIORITY l.rr_pri :=
    rr_scan_select x x.L2CAP_NUM_CHNL_PRIORITY l hwf
  refine ⟨hsel, ?_⟩
  rintro ⟨c, hc, hr⟩
  rw [hsel]
  cases hres : rr_select x l x.L2CAP_NUM_CHNL_PRIORITY l.rr_pri with
  | some p => exact ⟨p, rfl⟩
  | none =>
    exfalso
    have hall := rr_select_none x l x.L2CAP_NUM_CHNL_PRIORITY l.rr_pri hwf.pri hres
    have hg := hwf.prio c hc
    have hpri := hwf.pri
    apply rr_first_ready_some x l c hc hr
    by_cases hle : l.rr_pri ≤ c.ccb_priority
    · have h1 := hall (c.ccb_priority - l.rr_pri) (by omega)
      have h2 : l.rr_pri + (c.ccb_priority - l.rr_pri) = c.ccb_priority := by omega
      rw [h2, Nat.mod_eq_of_lt hg] at h1
      exact h1
    · have h1 := hall (c.ccb_priority + x.L2CAP_NUM_CHNL_PRIORITY - l.rr_pri) (by omega)
      have h2 : l.rr_pri + (c.ccb_priority + x.L2CAP_NUM_CHNL_PRIORITY - l.rr_pri) =
          c.ccb_priority + x.L2CAP_NUM_CHNL_PRIORITY := by omega
      rw [h2, Nat.add_mod_right, Nat.mod_eq_of_lt hg] at h1
      exact h1

theorem lcb_two_groups_well_formed : rr_well_formed ext_idle lcb_two_groups := by
  refine ⟨by decide, by decide, by decide, by decide, ?_⟩
  intro g hg
  have h3 : g < 3 := hg
  match g, h3 with
  | 0, _ =>
    exact ⟨[], [ccb_ready 0 0], [ccb_ready 1 1], rfl, by decide, by decide, by decide, rfl, rfl,
      fun _ => ⟨ccb_ready 0 0, by decide, rfl⟩⟩
  | 1, _ =>
    exact ⟨[ccb_ready 0 0], [ccb_ready 1 1], [], rfl, by decide, by decide, by decide, rfl, rfl,
      fun _ => ⟨ccb_ready 1 1, by decide, rfl⟩⟩
  | 2, _ =>
    exact ⟨[ccb_ready 0 0, ccb_ready 1 1], [], [], rfl, by decide, by decide, by decide, rfl,
      rfl, fun h => absurd rfl h⟩
  | n + 3, h => exact absurd h (by omega)

/-- Witness of C34: the link with a channel in each of the groups 0 and 1, group
0 being served: the channel of group 0 is the choice and is returned. -/
theorem next_channel_in_rr_complete_witness :
    rr_well_formed ext_idle lcb_two_groups ∧
    rr_select ext_idle lcb_two_groups ext_idle.L2CAP_NUM_CHNL_PRIORITY lcb_two_groups.rr_pri =
      some 0 ∧
    (l2cu_get_next_channel_in_rr ext_idle lcb_two_groups).2 =
      rr_select ext_idle lcb_two_groups ext_idle.L2CAP_NUM_CHNL_PRIORITY lcb_two_groups.rr_pri ∧
    ∃ p : Nat, (l2cu_get_next_channel_in_rr ext_idle lcb_two_groups).2 = some p :=
  ⟨lcb_two_groups_well_formed, by decide,
    (next_channel_in_rr_complete ext_idle lcb_two_groups lcb_two_groups_well_formed).1,
    (next_channel_in_rr_complete ext_idle lcb_two_groups lcb_two_groups_well_formed).2
      ⟨ccb_ready 0 0, by decide, by decide⟩⟩

end L2cLink
